import Mathlib

/-! The BCM chassis manager: chassis-map resolver, push, verify, sync, port groups, transceiver
and linkscan events, shutdown and the text of the SDK config file.

Shallow embedding of `stratum/hal/lib/bcm/bcm_chassis_manager.cc`, and of the reference
counting of the class `Status` of `stratum/glue/status/status.h`.

* protobuf messages are structures; `int32` fields are `Int`, `uint64` fields are `Nat`
  (the resolver does no arithmetic on them except `idx + 1` and `speed_bps % kBitsPerGigabit`);
* `std::set<T>` is a list kept strictly increasing by `setInsert`, `std::map<K, V>` a list of
  pairs kept strictly increasing in the key by `mapSet`; iteration is list order;
* a function returning `::util::Status` and writing to out-parameters is a function into
  `Except ErrorCode _` whose value holds the out-parameters; error messages are dropped;
* the data members of `BcmChassisManager` are the fields of a structure, and a member
  function that changes them or calls a collaborator is an `Op`: a function from the
  manager before the call to the status, the manager after it and the list of the calls
  made, in order; what a collaborator answers is read from an `Env`;
* the text of the SDK config file is the list of its lines, each of which `std::endl` ends;
  where C++ gives no meaning to a statement (an index outside a vector, a shift that is
  negative or not below 64), the definition says what the model does;
* the locks are not modelled: every member function runs from start to end on its own.
-/

namespace Stratum

/-! ## Error codes -/

/-- Error codes of the stratum error space used by the chassis manager. -/
inductive ErrorCode
  | ERR_UNKNOWN
  | ERR_CANCELLED
  | ERR_INTERNAL
  | ERR_INVALID_PARAM
  | ERR_ENTRY_NOT_FOUND
  | ERR_NOT_INITIALIZED
  | ERR_REBOOT_REQUIRED
  deriving DecidableEq, Repr

/-- The macro `CHECK_RETURN_IF_FALSE(cond)`: return `ERR_INTERNAL` unless `cond` holds. -/
def CHECK_RETURN_IF_FALSE (cond : Bool) : Except ErrorCode Unit :=
  if cond then Except.ok () else Except.error ErrorCode.ERR_INTERNAL

/-! ## Ordered containers -/

/-- The comparison `operator<` of a key type of `std::set` / `std::map`. -/
class KeyOrd (α : Type) where
  lt : α → α → Bool

instance instKeyOrdNat : KeyOrd Nat where
  lt a b := decide (a < b)

instance instKeyOrdInt : KeyOrd Int where
  lt a b := decide (a < b)

instance instKeyOrdBool : KeyOrd Bool where
  lt a b := !a && b

/-- The `operator<` of `std::pair` (and, nested, of `std::tuple`): lexicographic. -/
instance instKeyOrdProd {α β : Type} [KeyOrd α] [KeyOrd β] : KeyOrd (α × β) where
  lt p q := KeyOrd.lt p.1 q.1 || (!KeyOrd.lt q.1 p.1 && KeyOrd.lt p.2 q.2)

/-- The laws of a strict total order, which `operator<` has on all key types used here. -/
structure KeyOrd.Lawful (α : Type) [KeyOrd α] : Prop where
  irrefl : ∀ a : α, KeyOrd.lt a a = false
  trans : ∀ a b c : α, KeyOrd.lt a b = true → KeyOrd.lt b c = true → KeyOrd.lt a c = true
  tri : ∀ a b : α, KeyOrd.lt a b = false → KeyOrd.lt b a = false → a = b

/-- A list is strictly increasing for the key order: the invariant of a `std::set`. -/
def SetSorted {α : Type} [KeyOrd α] (l : List α) : Prop :=
  l.Pairwise (fun a b => KeyOrd.lt a b = true)

/-- The call `std::set::insert`. -/
def setInsert {α : Type} [KeyOrd α] (x : α) : List α → List α
  | [] => [x]
  | y :: ys =>
    if KeyOrd.lt x y then x :: y :: ys
    else if KeyOrd.lt y x then y :: setInsert x ys
    else y :: ys

/-- The call `std::set::count` (as a truth value). -/
def setCount {α : Type} [KeyOrd α] (x : α) : List α → Bool
  | [] => false
  | y :: ys =>
    if KeyOrd.lt x y then false
    else if KeyOrd.lt y x then setCount x ys
    else true

/-- The distance from `begin()` to `std::set::find(x)`, `none` when `find` gives `end()`. -/
def setIndex {α : Type} [KeyOrd α] (x : α) : List α → Option Nat
  | [] => none
  | y :: ys =>
    if KeyOrd.lt x y then none
    else if KeyOrd.lt y x then (setIndex x ys).map (· + 1)
    else some 0

/-- Lookup in a `std::map` (`FindOrNull`). -/
def mapFind {κ V : Type} [KeyOrd κ] (k : κ) : List (κ × V) → Option V
  | [] => none
  | (k', v) :: m =>
    if KeyOrd.lt k k' then none
    else if KeyOrd.lt k' k then mapFind k m
    else some v

/-- The assignment `m[k] = v` on a `std::map`. -/
def mapSet {κ V : Type} [KeyOrd κ] (k : κ) (v : V) : List (κ × V) → List (κ × V)
  | [] => [(k, v)]
  | (k', v') :: m =>
    if KeyOrd.lt k k' then (k, v) :: (k', v') :: m
    else if KeyOrd.lt k' k then (k', v') :: mapSet k v m
    else (k', v) :: m

/-- The value of `m[k]` on a `std::map`, which is the default value when `k` is absent. -/
def mapAt {κ V : Type} [KeyOrd κ] (dflt : V) (k : κ) (m : List (κ × V)) : V :=
  (mapFind k m).getD dflt

/-- The statement `m[k].insert(x)` on a `std::map` whose values are `std::set`s. -/
def mapSetInsert {κ α : Type} [KeyOrd κ] [KeyOrd α] (k : κ) (x : α)
    (m : List (κ × List α)) : List (κ × List α) :=
  mapSet k (setInsert x (mapAt [] k m)) m

/-! ## Messages -/

/-- The enum `BcmChip::BcmChipType`; `OTHER` stands for the chip types the manager never names. -/
inductive BcmChipType
  | UNKNOWN
  | TRIDENT_PLUS
  | TRIDENT2
  | TOMAHAWK
  | OTHER
  deriving DecidableEq, Repr

/-- The enum `BcmPort::BcmPortType`. -/
inductive BcmPortType
  | UNKNOWN
  | XE
  | CE
  | MGMT
  deriving DecidableEq, Repr

/-- The enum `Platform`; `PLT_OTHER` stands for the platforms the resolver does not support. -/
inductive Platform
  | PLT_UNKNOWN
  | PLT_GENERIC_TRIDENT_PLUS
  | PLT_GENERIC_TRIDENT2
  | PLT_GENERIC_TOMAHAWK
  | PLT_OTHER
  deriving DecidableEq, Repr

/-- The message `BcmChip`. -/
structure BcmChip where
  type : BcmChipType := BcmChipType.UNKNOWN
  slot : Int := 0
  unit : Int := 0
  module : Int := 0
  pci_bus : Int := 0
  pci_slot : Int := 0
  is_oversubscribed : Bool := false
  sdk_properties : List String := []
  deriving DecidableEq, Repr

/-- The message `BcmPort`. -/
structure BcmPort where
  type : BcmPortType := BcmPortType.UNKNOWN
  slot : Int := 0
  port : Int := 0
  channel : Int := 0
  unit : Int := 0
  speed_bps : Nat := 0
  logical_port : Int := 0
  physical_port : Int := 0
  diag_port : Int := 0
  module : Int := 0
  serdes_core : Int := 0
  serdes_lane : Int := 0
  num_serdes_lanes : Int := 0
  flex_port : Bool := false
  tx_lane_map : Int := 0
  rx_lane_map : Int := 0
  tx_polarity_flip : Int := 0
  rx_polarity_flip : Int := 0
  internal : Bool := false
  sdk_properties : List String := []
  deriving DecidableEq, Repr

/-- The message `BcmChassis`: chassis-level SDK properties. -/
structure BcmChassis where
  sdk_properties : List String := []
  deriving DecidableEq, Repr

/-- The message `BcmChassisMap`. -/
structure BcmChassisMap where
  id : String := ""
  auto_add_logical_ports : Bool := false
  auto_add_slot : Bool := false
  bcm_chassis : Option BcmChassis := none
  bcm_chips : List BcmChip := []
  bcm_ports : List BcmPort := []
  deriving DecidableEq, Repr

/-- The message `Node` of a chassis config. -/
structure Node where
  id : Nat := 0
  slot : Int := 0
  deriving DecidableEq, Repr

/-- The message `SingletonPort` of a chassis config. -/
structure SingletonPort where
  id : Nat := 0
  slot : Int := 0
  port : Int := 0
  channel : Int := 0
  speed_bps : Nat := 0
  node : Nat := 0
  deriving DecidableEq, Repr

/-- The message `Chassis` of a chassis config. -/
structure Chassis where
  platform : Platform := Platform.PLT_UNKNOWN
  deriving DecidableEq, Repr

/-- The message `ChassisConfig`; `bcm_chassis_map_id` is `none` when the config has no
`vendor_config.google_config`. -/
structure ChassisConfig where
  chassis : Option Chassis := none
  nodes : List Node := []
  singleton_ports : List SingletonPort := []
  bcm_chassis_map_id : Option String := none
  deriving DecidableEq, Repr

/-! ## Constants -/

/-- Constants declared in headers that are not part of the sources at hand: the reserved CPU
port id (`uint64`) and the two per-chip port caps (`constexpr int`, compared as `size_t`
and taken to be non-negative). -/
structure Constants where
  kCpuPortId : Nat
  kTomahawkMaxBcmPortsPerChip : Nat
  kTrident2MaxBcmPortsPerChip : Nat
  deriving DecidableEq, Repr

/-- Modelled from the spec: `kBitsPerGigabit` of `lib/constants.h`, 10^9 ("multiple of 1e9"). -/
def kBitsPerGigabit : Nat := 1000000000

/-- Modelled from the spec: `kTenGigBps` of `lib/constants.h`, 10 Gb/s. -/
def kTenGigBps : Nat := 10000000000

/-- Modelled from the spec: `kTwentyGigBps` of `lib/constants.h`, 20 Gb/s. -/
def kTwentyGigBps : Nat := 20000000000

/-- Modelled from the spec: `kTwentyFiveGigBps` of `lib/constants.h`, 25 Gb/s. -/
def kTwentyFiveGigBps : Nat := 25000000000

/-- Modelled from the spec: `kFortyGigBps` of `lib/constants.h`, 40 Gb/s. -/
def kFortyGigBps : Nat := 40000000000

/-- Modelled from the spec: `kFiftyGigBps` of `lib/constants.h`, 50 Gb/s. -/
def kFiftyGigBps : Nat := 50000000000

/-- Modelled from the spec: `kHundredGigBps` of `lib/constants.h`, 100 Gb/s. -/
def kHundredGigBps : Nat := 100000000000

/-! ## Base map loader -/

/-- The sets `slots`, `units`, `modules` of `ReadBaseBcmChassisMapFromFile`. -/
structure BaseSets where
  slots : List Int := []
  units : List Int := []
  modules : List Int := []
  deriving DecidableEq, Repr

/-- One iteration of the loop over `bcm_chips` in `ReadBaseBcmChassisMapFromFile`. -/
def verifyBaseChip (auto_add_slot : Bool) (st : BaseSets) (bcm_chip : BcmChip) :
    Except ErrorCode BaseSets := do
  CHECK_RETURN_IF_FALSE (bcm_chip.type != BcmChipType.UNKNOWN)
  let slots ←
    (if auto_add_slot then do
      CHECK_RETURN_IF_FALSE (bcm_chip.slot == 0)
      pure st.slots
    else do
      CHECK_RETURN_IF_FALSE (decide (bcm_chip.slot > 0))
      pure (setInsert bcm_chip.slot st.slots))
  CHECK_RETURN_IF_FALSE (decide (bcm_chip.unit ≥ 0) && !setCount bcm_chip.unit st.units)
  CHECK_RETURN_IF_FALSE (decide (bcm_chip.module ≥ 0) && !setCount bcm_chip.module st.modules)
  CHECK_RETURN_IF_FALSE (decide (bcm_chip.pci_bus ≥ 0))
  CHECK_RETURN_IF_FALSE (decide (bcm_chip.pci_slot ≥ 0))
  pure { slots := slots
         units := setInsert bcm_chip.unit st.units
         modules := setInsert bcm_chip.module st.modules }

/-- The loop over `bcm_chips` in `ReadBaseBcmChassisMapFromFile`. -/
def verifyBaseChips (auto_add_slot : Bool) : BaseSets → List BcmChip → Except ErrorCode BaseSets
  | st, [] => pure st
  | st, c :: cs => do
    let st' ← verifyBaseChip auto_add_slot st c
    verifyBaseChips auto_add_slot st' cs

/-- One iteration of the loop over `bcm_ports` in `ReadBaseBcmChassisMapFromFile`. -/
def verifyBasePort (auto_add_slot auto_add_logical_ports : Bool) (st : BaseSets)
    (bcm_port : BcmPort) : Except ErrorCode Unit := do
  CHECK_RETURN_IF_FALSE (bcm_port.type != BcmPortType.UNKNOWN)
  (if auto_add_slot then
    CHECK_RETURN_IF_FALSE (bcm_port.slot == 0)
  else
    CHECK_RETURN_IF_FALSE (decide (bcm_port.slot > 0) && setCount bcm_port.slot st.slots))
  CHECK_RETURN_IF_FALSE (decide (bcm_port.port > 0))
  CHECK_RETURN_IF_FALSE (decide (bcm_port.channel ≥ 0) && decide (bcm_port.channel ≤ 4))
  CHECK_RETURN_IF_FALSE (decide (bcm_port.unit ≥ 0) && setCount bcm_port.unit st.units)
  CHECK_RETURN_IF_FALSE
    (decide (bcm_port.speed_bps > 0) && bcm_port.speed_bps % kBitsPerGigabit == 0)
  CHECK_RETURN_IF_FALSE (decide (bcm_port.physical_port ≥ 0))
  CHECK_RETURN_IF_FALSE (decide (bcm_port.diag_port ≥ 0))
  CHECK_RETURN_IF_FALSE (decide (bcm_port.module ≥ 0) && setCount bcm_port.module st.modules)
  CHECK_RETURN_IF_FALSE (decide (bcm_port.serdes_core ≥ 0))
  CHECK_RETURN_IF_FALSE (decide (bcm_port.serdes_lane ≥ 0) && decide (bcm_port.serdes_lane ≤ 3))
  (if bcm_port.type != BcmPortType.MGMT then
    CHECK_RETURN_IF_FALSE
      (decide (bcm_port.num_serdes_lanes ≥ 1) && decide (bcm_port.num_serdes_lanes ≤ 4))
  else pure ())
  CHECK_RETURN_IF_FALSE (decide (bcm_port.tx_lane_map ≥ 0))
  CHECK_RETURN_IF_FALSE (decide (bcm_port.rx_lane_map ≥ 0))
  CHECK_RETURN_IF_FALSE (decide (bcm_port.tx_polarity_flip ≥ 0))
  CHECK_RETURN_IF_FALSE (decide (bcm_port.rx_polarity_flip ≥ 0))
  (if auto_add_logical_ports then
    CHECK_RETURN_IF_FALSE (bcm_port.logical_port == 0)
  else
    CHECK_RETURN_IF_FALSE (decide (bcm_port.logical_port > 0)))

/-- The loop over `bcm_ports` in `ReadBaseBcmChassisMapFromFile`. -/
def verifyBasePorts (auto_add_slot auto_add_logical_ports : Bool) (st : BaseSets) :
    List BcmPort → Except ErrorCode Unit
  | [] => pure ()
  | p :: ps => do
    verifyBasePort auto_add_slot auto_add_logical_ports st p
    verifyBasePorts auto_add_slot auto_add_logical_ports st ps

/-- `BcmChassisManager::ReadBaseBcmChassisMapFromFile`.  `file` is what `ReadProtoFromTextFile`
gives for the file named by the flag `base_bcm_chassis_map_file`: an error, or the list
`bcm_chassis_maps` of the parsed `BcmChassisMapList`. -/
def ReadBaseBcmChassisMapFromFile (file : Except ErrorCode (List BcmChassisMap))
    (bcm_chassis_map_id : String) : Except ErrorCode BcmChassisMap := do
  let bcm_chassis_map_list ← file
  match bcm_chassis_map_list.find?
      (fun m => bcm_chassis_map_id.isEmpty || bcm_chassis_map_id == m.id) with
  | none => Except.error ErrorCode.ERR_INTERNAL
  | some base_bcm_chassis_map =>
    let st ← verifyBaseChips base_bcm_chassis_map.auto_add_slot {} base_bcm_chassis_map.bcm_chips
    verifyBasePorts base_bcm_chassis_map.auto_add_slot
      base_bcm_chassis_map.auto_add_logical_ports st base_bcm_chassis_map.bcm_ports
    pure base_bcm_chassis_map

/-! ## The map resolver -/

/-- `BcmChassisManager::PopulateSlotFromPushedChassisConfig`; the value is the base map with
the slot written to every chip and port. -/
def PopulateSlotFromPushedChassisConfig (config : ChassisConfig)
    (base_bcm_chassis_map : BcmChassisMap) : Except ErrorCode BcmChassisMap :=
  let slots := config.singleton_ports.foldl (fun acc p => setInsert p.slot acc)
    (config.nodes.foldl (fun acc n => setInsert n.slot acc) [])
  match slots with
  | [slot] =>
    pure { base_bcm_chassis_map with
           bcm_chips := base_bcm_chassis_map.bcm_chips.map (fun c => { c with slot := slot })
           bcm_ports := base_bcm_chassis_map.bcm_ports.map (fun p => { p with slot := slot }) }
  | _ => Except.error ErrorCode.ERR_INTERNAL

/-- `BcmChassisManager::IsSingletonPortMatchesBcmPort`. -/
def IsSingletonPortMatchesBcmPort (singleton_port : SingletonPort) (bcm_port : BcmPort) : Bool :=
  if bcm_port.type != BcmPortType.XE && bcm_port.type != BcmPortType.CE then false
  else
    singleton_port.slot == bcm_port.slot && singleton_port.port == bcm_port.port &&
    singleton_port.channel == bcm_port.channel && singleton_port.speed_bps == bcm_port.speed_bps

/-- The `switch` on `config.chassis().platform()` that fills `supported_chip_types`. -/
def supportedChipTypes : Platform → Except ErrorCode (List BcmChipType)
  | Platform.PLT_GENERIC_TRIDENT_PLUS => pure [BcmChipType.TRIDENT_PLUS]
  | Platform.PLT_GENERIC_TRIDENT2 => pure [BcmChipType.TRIDENT2]
  | Platform.PLT_GENERIC_TOMAHAWK => pure [BcmChipType.TOMAHAWK]
  | _ => Except.error ErrorCode.ERR_INTERNAL

/-- The loop over `config.nodes()`, building `node_id_to_unit` with every unit `-1`. -/
def validateNodes : List (Nat × Int) → List Node → Except ErrorCode (List (Nat × Int))
  | node_id_to_unit, [] => pure node_id_to_unit
  | node_id_to_unit, node :: rest => do
    CHECK_RETURN_IF_FALSE (decide (node.slot > 0))
    CHECK_RETURN_IF_FALSE (decide (node.id > 0))
    CHECK_RETURN_IF_FALSE (mapFind node.id node_id_to_unit).isNone
    validateNodes (mapSet node.id (-1) node_id_to_unit) rest

/-- The local containers of the loop over `config.singleton_ports()`, with the `bcm_ports`
added to `target_bcm_chassis_map` so far. -/
structure PortLoopState where
  port_ids : List Nat := []
  slot_port_channel_tuples : List (Int × Int × Int) := []
  flex_slot_port_pairs : List (Int × Int) := []
  slot_port_to_channels : List ((Int × Int) × List Int) := []
  slot_port_to_speed_bps : List ((Int × Int) × List Nat) := []
  slot_port_to_internal : List ((Int × Int) × List Bool) := []
  node_id_to_unit : List (Nat × Int) := []
  bcm_ports : List BcmPort := []
  deriving DecidableEq, Repr

/-- One iteration of the loop over `config.singleton_ports()`.  The inner loop over the base
ports stops at the first match, so it is a `find?`; `flex` is the pair of
`flex_slot_port_pairs` and the target `bcm_ports` after the flex / non-flex branch. -/
def singletonPortStep (k : Constants) (base_bcm_ports : List BcmPort) (st : PortLoopState)
    (singleton_port : SingletonPort) : Except ErrorCode PortLoopState := do
  CHECK_RETURN_IF_FALSE (decide (singleton_port.id > 0))
  CHECK_RETURN_IF_FALSE (singleton_port.id != k.kCpuPortId)
  CHECK_RETURN_IF_FALSE (!setCount singleton_port.id st.port_ids)
  let port_ids := setInsert singleton_port.id st.port_ids
  CHECK_RETURN_IF_FALSE (decide (singleton_port.slot > 0))
  CHECK_RETURN_IF_FALSE (decide (singleton_port.port > 0))
  CHECK_RETURN_IF_FALSE (decide (singleton_port.speed_bps > 0))
  let slot_port_channel_tuple := (singleton_port.slot, singleton_port.port, singleton_port.channel)
  CHECK_RETURN_IF_FALSE (!setCount slot_port_channel_tuple st.slot_port_channel_tuples)
  CHECK_RETURN_IF_FALSE (decide (singleton_port.node > 0))
  CHECK_RETURN_IF_FALSE (mapFind singleton_port.node st.node_id_to_unit).isSome
  let slot_port_pair := (singleton_port.slot, singleton_port.port)
  match base_bcm_ports.find? (IsSingletonPortMatchesBcmPort singleton_port) with
  | none => Except.error ErrorCode.ERR_INTERNAL
  | some bcm_port =>
    let flex ←
      (if bcm_port.flex_port then
        pure (setInsert slot_port_pair st.flex_slot_port_pairs, st.bcm_ports)
      else do
        CHECK_RETURN_IF_FALSE (!setCount slot_port_pair st.flex_slot_port_pairs)
        pure (st.flex_slot_port_pairs, st.bcm_ports ++ [bcm_port]))
    let node_id_to_unit ←
      (if mapAt 0 singleton_port.node st.node_id_to_unit == -1 then
        pure (mapSet singleton_port.node bcm_port.unit st.node_id_to_unit)
      else do
        CHECK_RETURN_IF_FALSE (mapAt 0 singleton_port.node st.node_id_to_unit == bcm_port.unit)
        pure st.node_id_to_unit)
    pure { port_ids := port_ids
           slot_port_channel_tuples :=
             setInsert slot_port_channel_tuple st.slot_port_channel_tuples
           flex_slot_port_pairs := flex.1
           slot_port_to_channels :=
             mapSetInsert slot_port_pair singleton_port.channel st.slot_port_to_channels
           slot_port_to_speed_bps :=
             mapSetInsert slot_port_pair singleton_port.speed_bps st.slot_port_to_speed_bps
           slot_port_to_internal :=
             mapSetInsert slot_port_pair bcm_port.internal st.slot_port_to_internal
           node_id_to_unit := node_id_to_unit
           bcm_ports := flex.2 }

/-- The loop over `config.singleton_ports()`. -/
def singletonPortLoop (k : Constants) (base_bcm_ports : List BcmPort) :
    PortLoopState → List SingletonPort → Except ErrorCode PortLoopState
  | st, [] => pure st
  | st, s :: rest => do
    let st' ← singletonPortStep k base_bcm_ports st s
    singletonPortLoop k base_bcm_ports st' rest

/-- The loop over `node_id_to_unit` that adds the `BcmChip`s to the target map; `acc` holds
the chips added so far. -/
def addBcmChips (supported_chip_types : List BcmChipType) (base_bcm_chips : List BcmChip) :
    List BcmChip → List (Nat × Int) → Except ErrorCode (List BcmChip)
  | acc, [] => pure acc
  | acc, (_, unit) :: rest =>
    if unit < 0 then addBcmChips supported_chip_types base_bcm_chips acc rest
    else
      match base_bcm_chips.find? (fun bcm_chip => unit == bcm_chip.unit) with
      | none => Except.error ErrorCode.ERR_INTERNAL
      | some bcm_chip => do
        CHECK_RETURN_IF_FALSE (supported_chip_types.contains bcm_chip.type)
        addBcmChips supported_chip_types base_bcm_chips (acc ++ [bcm_chip]) rest

/-- The loop over `slot_port_to_internal`. -/
def validateInternalPorts : List ((Int × Int) × List Bool) → Except ErrorCode Unit
  | [] => pure ()
  | e :: rest => do
    CHECK_RETURN_IF_FALSE (e.2.length == 1)
    validateInternalPorts rest

/-- The table `speed_bps_to_expected_channels`, as the lookup `FindOrNull` on it. -/
def speed_bps_to_expected_channels (speed_bps : Nat) : Option (List Int) :=
  if speed_bps = kHundredGigBps then some [0]
  else if speed_bps = kFortyGigBps then some [0]
  else if speed_bps = kFiftyGigBps then some [1, 2]
  else if speed_bps = kTwentyGigBps then some [1, 2]
  else if speed_bps = kTwentyFiveGigBps then some [1, 2, 3, 4]
  else if speed_bps = kTenGigBps then some [1, 2, 3, 4]
  else none

/-- The loop over `slot_port_to_speed_bps` that validates speeds and channels. -/
def validateSpeedAndChannels (slot_port_to_channels : List ((Int × Int) × List Int)) :
    List ((Int × Int) × List Nat) → Except ErrorCode Unit
  | [] => pure ()
  | (slot_port_pair, speeds) :: rest =>
    match speeds with
    | [speed_bps] =>
      match speed_bps_to_expected_channels speed_bps with
      | none => Except.error ErrorCode.ERR_INTERNAL
      | some channels => do
        CHECK_RETURN_IF_FALSE (mapAt [] slot_port_pair slot_port_to_channels == channels)
        validateSpeedAndChannels slot_port_to_channels rest
    | _ => Except.error ErrorCode.ERR_INTERNAL

/-- The `switch` on the chip type that picks `min_speed_bps` for a flex port. -/
def flexMinSpeedBps : BcmChipType → Except ErrorCode Nat
  | BcmChipType.TOMAHAWK => pure kTwentyFiveGigBps
  | BcmChipType.TRIDENT2 => pure kTenGigBps
  | _ => Except.error ErrorCode.ERR_INTERNAL

/-- The set `units` of the base ports at one `(slot, port)` pair. -/
def flexUnits (base_bcm_ports : List BcmPort) (slot_port_pair : Int × Int) : List Int :=
  base_bcm_ports.foldl
    (fun units bcm_port =>
      if bcm_port.slot == slot_port_pair.1 && bcm_port.port == slot_port_pair.2 then
        setInsert bcm_port.unit units
      else units) []

/-- The chip type of a unit in the base map, `UNKNOWN` when no chip has that unit. -/
def flexChipType (base_bcm_chips : List BcmChip) (unit : Int) : BcmChipType :=
  match base_bcm_chips.find? (fun bcm_chip => bcm_chip.unit == unit) with
  | some bcm_chip => bcm_chip.type
  | none => BcmChipType.UNKNOWN

/-- The loop over `channels = {1, 2, 3, 4}` of one flex `(slot, port)` pair; `acc` holds the
ports added to the target map so far. -/
def addFlexChannels (base_bcm_ports : List BcmPort) (slot_port_pair : Int × Int)
    (min_speed_bps : Nat) : List BcmPort → List Int → Except ErrorCode (List BcmPort)
  | acc, [] => pure acc
  | acc, channel :: rest =>
    let singleton_port : SingletonPort :=
      { slot := slot_port_pair.1, port := slot_port_pair.2, channel := channel,
        speed_bps := min_speed_bps }
    match base_bcm_ports.find? (IsSingletonPortMatchesBcmPort singleton_port) with
    | none => Except.error ErrorCode.ERR_INTERNAL
    | some bcm_port =>
      addFlexChannels base_bcm_ports slot_port_pair min_speed_bps (acc ++ [bcm_port]) rest

/-- The loop over `flex_slot_port_pairs` that adds the flex ports to the target map. -/
def addFlexPorts (base_bcm_chips : List BcmChip) (base_bcm_ports : List BcmPort) :
    List BcmPort → List (Int × Int) → Except ErrorCode (List BcmPort)
  | acc, [] => pure acc
  | acc, slot_port_pair :: rest =>
    match flexUnits base_bcm_ports slot_port_pair with
    | [unit] => do
      let min_speed_bps ← flexMinSpeedBps (flexChipType base_bcm_chips unit)
      let acc' ← addFlexChannels base_bcm_ports slot_port_pair min_speed_bps acc [1, 2, 3, 4]
      addFlexPorts base_bcm_chips base_bcm_ports acc' rest
    | _ => Except.error ErrorCode.ERR_INTERNAL

/-- The map `unit_to_chip_type` of the target chips. -/
def unitToChipType (bcm_chips : List BcmChip) : List (Int × BcmChipType) :=
  bcm_chips.foldl (fun m bcm_chip => mapSet bcm_chip.unit bcm_chip.type m) []

/-- The map `unit_to_slot_port_channels` of the target ports. -/
def unitToSlotPortChannels (bcm_ports : List BcmPort) : List (Int × List (Int × Int × Int)) :=
  bcm_ports.foldl
    (fun m bcm_port =>
      mapSetInsert bcm_port.unit (bcm_port.slot, bcm_port.port, bcm_port.channel) m) []

/-- The value `chip_type_to_max_num_ports[type]`: the map has entries for TOMAHAWK and
TRIDENT2, and `operator[]` gives 0 for every other chip type. -/
def chip_type_to_max_num_ports (k : Constants) : BcmChipType → Nat
  | BcmChipType.TOMAHAWK => k.kTomahawkMaxBcmPortsPerChip
  | BcmChipType.TRIDENT2 => k.kTrident2MaxBcmPortsPerChip
  | _ => 0

/-- The loop over `unit_to_chip_type` that checks the number of ports per chip. -/
def checkMaxNumPorts (k : Constants)
    (unit_to_slot_port_channels : List (Int × List (Int × Int × Int))) :
    List (Int × BcmChipType) → Except ErrorCode Unit
  | [] => pure ()
  | e :: rest => do
    CHECK_RETURN_IF_FALSE
      (decide ((mapAt [] e.1 unit_to_slot_port_channels).length ≤
        chip_type_to_max_num_ports k e.2))
    checkMaxNumPorts k unit_to_slot_port_channels rest

/-- The loop that rewrites `logical_port` when `auto_add_logical_ports` is set. -/
def autoAddLogicalPorts (unit_to_slot_port_channels : List (Int × List (Int × Int × Int))) :
    List BcmPort → Except ErrorCode (List BcmPort)
  | [] => pure []
  | bcm_port :: rest =>
    match setIndex (bcm_port.slot, bcm_port.port, bcm_port.channel)
        (mapAt [] bcm_port.unit unit_to_slot_port_channels) with
    | none => Except.error ErrorCode.ERR_INTERNAL
    | some idx => do
      let rest' ← autoAddLogicalPorts unit_to_slot_port_channels rest
      pure ({ bcm_port with logical_port := (idx : Int) + 1 } :: rest')

/-- The maps `unit_to_physical_ports`, `unit_to_diag_ports`, `unit_to_logical_ports`. -/
structure PostSets where
  unit_to_physical_ports : List (Int × List Int) := []
  unit_to_diag_ports : List (Int × List Int) := []
  unit_to_logical_ports : List (Int × List Int) := []
  deriving DecidableEq, Repr

/-- The loop over the target ports in the post validation. -/
def postValidatePorts : PostSets → List BcmPort → Except ErrorCode Unit
  | _, [] => pure ()
  | st, bcm_port :: rest => do
    CHECK_RETURN_IF_FALSE
      (!setCount bcm_port.physical_port (mapAt [] bcm_port.unit st.unit_to_physical_ports))
    CHECK_RETURN_IF_FALSE
      (!setCount bcm_port.diag_port (mapAt [] bcm_port.unit st.unit_to_diag_ports))
    CHECK_RETURN_IF_FALSE
      (!setCount bcm_port.logical_port (mapAt [] bcm_port.unit st.unit_to_logical_ports))
    postValidatePorts
      { unit_to_physical_ports :=
          mapSetInsert bcm_port.unit bcm_port.physical_port st.unit_to_physical_ports
        unit_to_diag_ports := mapSetInsert bcm_port.unit bcm_port.diag_port st.unit_to_diag_ports
        unit_to_logical_ports :=
          mapSetInsert bcm_port.unit bcm_port.logical_port st.unit_to_logical_ports } rest

/-- The map `unit_to_logical_ports` after the CMIC port 0 of every target chip is put in. -/
def cmicLogicalPorts (bcm_chips : List BcmChip) : List (Int × List Int) :=
  bcm_chips.foldl (fun m bcm_chip => mapSetInsert bcm_chip.unit 0 m) []

/-- The part of `GenerateBcmChassisMapFromConfig` after the base map is loaded and its slots
are populated: its value is the target map. -/
def generateTarget (k : Constants) (base : BcmChassisMap) (config : ChassisConfig) :
    Except ErrorCode BcmChassisMap := do
  let platform := (config.chassis.map (fun c => c.platform)).getD Platform.PLT_UNKNOWN
  CHECK_RETURN_IF_FALSE (config.chassis.isSome && platform != Platform.PLT_UNKNOWN)
  let supported_chip_types ← supportedChipTypes platform
  let node_id_to_unit ← validateNodes [] config.nodes
  let st ← singletonPortLoop k base.bcm_ports { node_id_to_unit := node_id_to_unit }
    config.singleton_ports
  let bcm_chips ← addBcmChips supported_chip_types base.bcm_chips [] st.node_id_to_unit
  validateInternalPorts st.slot_port_to_internal
  validateSpeedAndChannels st.slot_port_to_channels st.slot_port_to_speed_bps
  let bcm_ports ← addFlexPorts base.bcm_chips base.bcm_ports st.bcm_ports st.flex_slot_port_pairs
  let unit_to_slot_port_channels := unitToSlotPortChannels bcm_ports
  checkMaxNumPorts k unit_to_slot_port_channels (unitToChipType bcm_chips)
  let bcm_ports ←
    (if base.auto_add_logical_ports then
      autoAddLogicalPorts unit_to_slot_port_channels bcm_ports
    else pure bcm_ports)
  postValidatePorts { unit_to_logical_ports := cmicLogicalPorts bcm_chips } bcm_ports
  pure { id := base.id
         auto_add_logical_ports := base.auto_add_logical_ports
         auto_add_slot := base.auto_add_slot
         bcm_chassis := base.bcm_chassis
         bcm_chips := bcm_chips
         bcm_ports := bcm_ports }

/-- `BcmChassisManager::GenerateBcmChassisMapFromConfig`.  The value on success is the pair
`(base_bcm_chassis_map, target_bcm_chassis_map)` of the two out-parameters, which the
callers pass as non-null pointers. -/
def GenerateBcmChassisMapFromConfig (k : Constants) (file : Except ErrorCode (List BcmChassisMap))
    (config : ChassisConfig) : Except ErrorCode (BcmChassisMap × BcmChassisMap) := do
  let base0 ← ReadBaseBcmChassisMapFromFile file (config.bcm_chassis_map_id.getD "")
  let base ←
    (if base0.auto_add_slot then PopulateSlotFromPushedChassisConfig config base0
    else pure base0)
  let target ← generateTarget k base config
  pure (base, target)

/-! ## Push -/

/-- The enum `OperationMode`. -/
inductive OperationMode
  | OPERATION_MODE_STANDALONE
  | OPERATION_MODE_COUPLED
  | OPERATION_MODE_SIM
  deriving DecidableEq, Repr

/-- `BcmChassisManager::PushChassisConfig`, with its collaborators as arguments: `serdesLoad`
is the status of `bcm_serdes_db_manager_->Load()`, `coldboot base target` the status of the
steps that follow the resolver on an uninitialized manager (`InitializeBcmChips` to
`RegisterEventWriters`), `resync` the status of the steps run on an initialized manager
(`SyncInternalState`, `ConfigurePortGroups`). -/
def PushChassisConfig (k : Constants) (mode_ : OperationMode) (initialized_ : Bool)
    (serdesLoad : Except ErrorCode Unit) (file : Except ErrorCode (List BcmChassisMap))
    (coldboot : BcmChassisMap → BcmChassisMap → Except ErrorCode Unit)
    (resync : Except ErrorCode Unit) (config : ChassisConfig) : Except ErrorCode Unit :=
  if !initialized_ then do
    (if mode_ == OperationMode.OPERATION_MODE_STANDALONE then serdesLoad else pure ())
    let maps ← GenerateBcmChassisMapFromConfig k file config
    coldboot maps.1 maps.2
  else resync

/-! ## What one iteration of the port loop does -/

/-- What a successful iteration of the loop over the singleton ports checked and changed;
`b` is the first base port that matches the singleton port. -/
structure StepSpec (k : Constants) (bp : List BcmPort) (st : PortLoopState) (s : SingletonPort)
    (st' : PortLoopState) (b : BcmPort) : Prop where
  id_pos : 0 < s.id
  id_ne_cpu : s.id ≠ k.kCpuPortId
  id_fresh : setCount s.id st.port_ids = false
  slot_pos : 0 < s.slot
  port_pos : 0 < s.port
  speed_pos : 0 < s.speed_bps
  tuple_fresh : setCount (s.slot, s.port, s.channel) st.slot_port_channel_tuples = false
  node_pos : 0 < s.node
  node_known : (mapFind s.node st.node_id_to_unit).isSome = true
  found : bp.find? (IsSingletonPortMatchesBcmPort s) = some b
  flex : (b.flex_port = true ∧
      st'.flex_slot_port_pairs = setInsert (s.slot, s.port) st.flex_slot_port_pairs ∧
      st'.bcm_ports = st.bcm_ports) ∨
    (b.flex_port = false ∧ setCount (s.slot, s.port) st.flex_slot_port_pairs = false ∧
      st'.flex_slot_port_pairs = st.flex_slot_port_pairs ∧ st'.bcm_ports = st.bcm_ports ++ [b])
  node : (mapAt 0 s.node st.node_id_to_unit = -1 ∧
      st'.node_id_to_unit = mapSet s.node b.unit st.node_id_to_unit) ∨
    (mapAt 0 s.node st.node_id_to_unit ≠ -1 ∧ mapAt 0 s.node st.node_id_to_unit = b.unit ∧
      st'.node_id_to_unit = st.node_id_to_unit)
  port_ids : st'.port_ids = setInsert s.id st.port_ids
  tuples : st'.slot_port_channel_tuples =
    setInsert (s.slot, s.port, s.channel) st.slot_port_channel_tuples
  channels : st'.slot_port_to_channels =
    mapSetInsert (s.slot, s.port) s.channel st.slot_port_to_channels
  speeds : st'.slot_port_to_speed_bps =
    mapSetInsert (s.slot, s.port) s.speed_bps st.slot_port_to_speed_bps
  internals : st'.slot_port_to_internal =
    mapSetInsert (s.slot, s.port) b.internal st.slot_port_to_internal

/-! ## Example inputs -/

/-- Example values of the constants. -/
def exampleConstants : Constants :=
  { kCpuPortId := 4294967293, kTomahawkMaxBcmPortsPerChip := 128,
    kTrident2MaxBcmPortsPerChip := 104 }

/-- Scenario A: a base map with one TRIDENT2 chip and one non-flex 40G port, with
`auto_add_slot` and `auto_add_logical_ports`. -/
def scenarioABase : BcmChassisMap :=
  { auto_add_logical_ports := true
    auto_add_slot := true
    bcm_chips := [{ type := BcmChipType.TRIDENT2, unit := 0 }]
    bcm_ports := [{ type := BcmPortType.XE, port := 1, channel := 0, unit := 0,
                    speed_bps := kFortyGigBps, num_serdes_lanes := 4 }] }

/-- Scenario A: a config with one node and one 40G singleton port, in slot 5. -/
def scenarioAConfig : ChassisConfig :=
  { chassis := some { platform := Platform.PLT_GENERIC_TRIDENT2 }
    nodes := [{ id := 100, slot := 5 }]
    singleton_ports := [{ id := 1, slot := 5, port := 1, channel := 0,
                          speed_bps := kFortyGigBps, node := 100 }] }

/-- Scenario A: the base map with slot 5 filled in. -/
def scenarioABaseOut : BcmChassisMap :=
  { auto_add_logical_ports := true
    auto_add_slot := true
    bcm_chips := [{ type := BcmChipType.TRIDENT2, unit := 0, slot := 5 }]
    bcm_ports := [{ type := BcmPortType.XE, slot := 5, port := 1, channel := 0, unit := 0,
                    speed_bps := kFortyGigBps, num_serdes_lanes := 4 }] }

/-- Scenario A: the applied map. -/
def scenarioATarget : BcmChassisMap :=
  { auto_add_logical_ports := true
    auto_add_slot := true
    bcm_chips := [{ type := BcmChipType.TRIDENT2, unit := 0, slot := 5 }]
    bcm_ports := [{ type := BcmPortType.XE, slot := 5, port := 1, channel := 0, unit := 0,
                    speed_bps := kFortyGigBps, num_serdes_lanes := 4, logical_port := 1 }] }

/-- Scenario A with a second singleton port that repeats the id 1. -/
def duplicateIdConfig : ChassisConfig :=
  { scenarioAConfig with
    singleton_ports := scenarioAConfig.singleton_ports ++ scenarioAConfig.singleton_ports }

/-- Scenario C: one flex 25G port of the base map, at `(slot, port) = (1, 2)` on unit 0. -/
def scenarioCPort (channel logical_port : Int) : BcmPort :=
  { type := BcmPortType.XE, slot := 1, port := 2, channel := channel, unit := 0,
    speed_bps := kTwentyFiveGigBps, logical_port := logical_port,
    physical_port := 4 + channel, diag_port := channel, serdes_lane := channel - 1,
    num_serdes_lanes := 1, flex_port := true }

/-- Scenario C: a base map with one TOMAHAWK chip and a flex port with four 25G channels. -/
def scenarioCBase : BcmChassisMap :=
  { auto_add_logical_ports := true
    bcm_chips := [{ type := BcmChipType.TOMAHAWK, slot := 1, unit := 0 }]
    bcm_ports := [scenarioCPort 1 0, scenarioCPort 2 0, scenarioCPort 3 0, scenarioCPort 4 0] }

/-- Scenario C: a singleton port of the config, 25G at `(slot, port) = (1, 2)`. -/
def scenarioCSingleton (id : Nat) (channel : Int) : SingletonPort :=
  { id := id, slot := 1, port := 2, channel := channel, speed_bps := kTwentyFiveGigBps,
    node := 100 }

/-- Scenario C: a config with the four 25G channels of the flex port. -/
def scenarioCConfig : ChassisConfig :=
  { chassis := some { platform := Platform.PLT_GENERIC_TOMAHAWK }
    nodes := [{ id := 100, slot := 1 }]
    singleton_ports := [scenarioCSingleton 1 1, scenarioCSingleton 2 2, scenarioCSingleton 3 3,
      scenarioCSingleton 4 4] }

/-- Scenario C: the applied map. -/
def scenarioCTarget : BcmChassisMap :=
  { auto_add_logical_ports := true
    bcm_chips := [{ type := BcmChipType.TOMAHAWK, slot := 1, unit := 0 }]
    bcm_ports := [scenarioCPort 1 1, scenarioCPort 2 2, scenarioCPort 3 3, scenarioCPort 4 4] }

/-- A port of `mixedBase` at `(slot, port) = (1, 1)` on unit 0; its physical, diag and logical
port are all `n`. -/
def mixedPort (channel : Int) (speed_bps : Nat) (flex_port : Bool) (n : Int) : BcmPort :=
  { type := BcmPortType.XE, slot := 1, port := 1, channel := channel, unit := 0,
    speed_bps := speed_bps, logical_port := n, physical_port := n, diag_port := n,
    num_serdes_lanes := 1, flex_port := flex_port }

/-- A base map with one TRIDENT2 chip whose port `(1, 1)` has a non-flex 20G channel 1, a flex
20G channel 2 and four flex 10G channels. -/
def mixedBase : BcmChassisMap :=
  { bcm_chips := [{ type := BcmChipType.TRIDENT2, slot := 1, unit := 0 }]
    bcm_ports := [mixedPort 1 kTwentyGigBps false 1, mixedPort 2 kTwentyGigBps true 2,
      mixedPort 1 kTenGigBps true 3, mixedPort 2 kTenGigBps true 4,
      mixedPort 3 kTenGigBps true 5, mixedPort 4 kTenGigBps true 6] }

/-- The 20G singleton port at channel 1 of `(1, 1)`; its first match in `mixedBase` is not
flex. -/
def mixedNonFlexSingleton : SingletonPort :=
  { id := 1, slot := 1, port := 1, channel := 1, speed_bps := kTwentyGigBps, node := 100 }

/-- The 20G singleton port at channel 2 of `(1, 1)`; its first match in `mixedBase` is flex. -/
def mixedFlexSingleton : SingletonPort :=
  { id := 2, slot := 1, port := 1, channel := 2, speed_bps := kTwentyGigBps, node := 100 }

/-- A config with the two 20G channels of `(1, 1)`, in the given order. -/
def mixedConfig (singleton_ports : List SingletonPort) : ChassisConfig :=
  { chassis := some { platform := Platform.PLT_GENERIC_TRIDENT2 }
    nodes := [{ id := 100, slot := 1 }]
    singleton_ports := singleton_ports }

/-- The applied map of `mixedConfig [mixedNonFlexSingleton, mixedFlexSingleton]`. -/
def mixedTarget : BcmChassisMap :=
  { bcm_chips := [{ type := BcmChipType.TRIDENT2, slot := 1, unit := 0 }]
    bcm_ports := [mixedPort 1 kTwentyGigBps false 1, mixedPort 1 kTenGigBps true 3,
      mixedPort 2 kTenGigBps true 4, mixedPort 3 kTenGigBps true 5,
      mixedPort 4 kTenGigBps true 6] }

/-! ## The manager: state, collaborators, operations -/

/-- The enum `HwState`; `HW_STATE_OTHER` stands for the states the manager never names. -/
inductive HwState
  | HW_STATE_UNKNOWN
  | HW_STATE_READY
  | HW_STATE_NOT_PRESENT
  | HW_STATE_PRESENT
  | HW_STATE_OTHER
  deriving DecidableEq, Repr

/-- The enum `PortState`. -/
inductive PortState
  | PORT_STATE_UNKNOWN
  | PORT_STATE_UP
  | PORT_STATE_DOWN
  | PORT_STATE_FAILED
  deriving DecidableEq, Repr

/-- The enum `TriState`. -/
inductive TriState
  | TRI_STATE_UNKNOWN
  | TRI_STATE_TRUE
  | TRI_STATE_FALSE
  deriving DecidableEq, Repr

/-- The message `BcmPortOptions`, with the fields the manager reads or writes; a field that
is not set has its default value. -/
structure BcmPortOptions where
  enabled : TriState := TriState.TRI_STATE_UNKNOWN
  blocked : TriState := TriState.TRI_STATE_UNKNOWN
  speed_bps : Nat := 0
  num_serdes_lanes : Int := 0
  deriving DecidableEq, Repr

/-- The message `FrontPanelPortInfo`, which the manager gets from PHAL and hands to the
serdes database without looking into it. -/
structure FrontPanelPortInfo where
  data : List Nat := []
  deriving DecidableEq, Repr

/-- The message `BcmSerdesLaneConfig`. -/
structure BcmSerdesLaneConfig where
  intf_type : String := ""
  bcm_serdes_register_configs : List (Nat × Nat) := []
  bcm_serdes_attribute_configs : List (String × Nat) := []
  deriving DecidableEq, Repr

/-- The two reader threads that `RegisterEventWriters` starts. -/
inductive ReaderThread
  | linkscan
  | transceiver
  deriving DecidableEq, Repr

/-- A call from the manager to one of its collaborators (serdes database, file utilities,
SDK, PHAL, threads, event channels, gNMI event writer), with the arguments that the manager
chooses.  `WriteStringToFile` is the write of the SDK config file, `GnmiWrite` the write of a
`PortOperStateChangedEvent` to `gnmi_event_writer_`. -/
inductive Call
  | SerdesDbLoad
  | WriteStringToFile (text : String)
  | RecursivelyCreateDir
  | InitializeSdk
  | FindUnit (unit pci_bus pci_slot : Int) (type : BcmChipType)
  | InitializeUnit (unit : Int) (warm_boot : Bool)
  | SetModuleId (unit module : Int)
  | InitializePort (unit logical_port : Int)
  | StartDiagShellServer
  | RegisterLinkscanEventWriter
  | RegisterTransceiverEventWriter
  | pthread_create (thread : ReaderThread)
  | pthread_detach (thread : ReaderThread)
  | StartLinkscan (unit : Int)
  | GetPortOptions (unit logical_port : Int)
  | SetPortOptions (unit logical_port : Int) (options : BcmPortOptions)
  | GetFrontPanelPortInfo (slot port : Int)
  | LookupSerdesConfigForPort (bcm_port : BcmPort) (fp_port_info : FrontPanelPortInfo)
  | ConfigSerdesForPort (unit logical_port : Int) (speed_bps : Nat)
      (serdes_core serdes_lane num_serdes_lanes : Int) (config : BcmSerdesLaneConfig)
  | UnregisterLinkscanEventWriter (id : Int)
  | UnregisterTransceiverEventWriter (id : Int)
  | CloseChannel (thread : ReaderThread)
  | ShutdownAllUnits
  | GnmiWrite (node_id port_id : Nat) (new_state : PortState)
  deriving DecidableEq, Repr

/-- What the manager is given from outside: the constants of headers that are not at hand,
the base map file as `ReadProtoFromTextFile` reads it, and the answer of every collaborator
to every call.  `status` answers the calls that only return a status; the calls that also
return a value have a field of their own.  `pthread_create` and `pthread_detach` return an
`int`.  `CloseChannel` answers `Channel::Close()`, and `GnmiWrite` answers the `Write` of the
gNMI event writer.  The macros that collect errors are not
at hand either: `appendStatusCode out e` is the code of `out` after
`APPEND_STATUS_IF_ERROR(out, status)` with an error `status` of code `e`, and
`appendErrorCode status` the code of `status` after `APPEND_ERROR(status)`. -/
structure Env where
  k : Constants
  kInvalidWriterId : Int
  appendStatusCode : Except ErrorCode Unit → ErrorCode → ErrorCode
  appendErrorCode : Except ErrorCode Unit → ErrorCode
  file : Except ErrorCode (List BcmChassisMap)
  status : Call → Except ErrorCode Unit
  RegisterLinkscanEventWriter : Except ErrorCode Int
  RegisterTransceiverEventWriter : Except ErrorCode Int
  pthread_create : ReaderThread → Int
  pthread_detach : ReaderThread → Int
  GetPortOptions : Int → Int → Except ErrorCode BcmPortOptions
  GetFrontPanelPortInfo : Int → Int → Except ErrorCode FrontPanelPortInfo
  LookupSerdesConfigForPort : BcmPort → FrontPanelPortInfo → Except ErrorCode BcmSerdesLaneConfig
  CloseChannel : ReaderThread → Bool
  GnmiWrite : Nat → Nat → PortState → Bool

/-- The data members of `BcmChassisManager`.  The maps are `std::map`s; a pointer to a
`BcmChip` or `BcmPort` is the record it points to (the records are not changed once they
are in a map); an event channel is `true` when the pointer to it is set, and so is
`gnmi_event_writer_`; the pointers to the collaborators are in `Env`. -/
structure BcmChassisManager where
  mode_ : OperationMode := OperationMode.OPERATION_MODE_STANDALONE
  initialized_ : Bool := false
  linkscan_event_writer_id_ : Int
  transceiver_event_writer_id_ : Int
  base_bcm_chassis_map_ : Option BcmChassisMap := none
  applied_bcm_chassis_map_ : Option BcmChassisMap := none
  unit_to_bcm_chip_ : List (Int × BcmChip) := []
  slot_port_channel_to_bcm_port_ : List ((Int × Int × Int) × BcmPort) := []
  slot_port_to_flex_bcm_ports_ : List ((Int × Int) × List BcmPort) := []
  slot_port_to_non_flex_bcm_ports_ : List ((Int × Int) × List BcmPort) := []
  slot_port_to_transceiver_state_ : List ((Int × Int) × HwState) := []
  unit_to_logical_ports_ : List (Int × List Int) := []
  node_id_to_unit_ : List (Nat × Int) := []
  unit_to_node_id_ : List (Int × Nat) := []
  node_id_to_port_ids_ : List (Nat × List Nat) := []
  port_id_to_slot_port_channel_ : List (Nat × (Int × Int × Int)) := []
  unit_logical_port_to_port_id_ : List ((Int × Int) × Nat) := []
  slot_port_channel_to_port_state_ : List ((Int × Int × Int) × PortState) := []
  xcvr_event_channel_ : Bool := false
  linkscan_event_channel_ : Bool := false
  gnmi_event_writer_ : Bool := false
  deriving DecidableEq, Repr

/-- The manager right after its constructor. -/
def BcmChassisManager.create (env : Env) (mode : OperationMode) : BcmChassisManager :=
  { mode_ := mode
    linkscan_event_writer_id_ := env.kInvalidWriterId
    transceiver_event_writer_id_ := env.kInvalidWriterId }

/-- What running a member function gives: the status (with the value, for a `StatusOr`),
the data members afterwards, and the calls to collaborators it made, in order. -/
structure Outcome (α : Type) where
  status : Except ErrorCode α
  mgr : BcmChassisManager
  calls : List Call

/-- A member function that may change the data members and call collaborators. -/
def Op (α : Type) : Type := BcmChassisManager → Outcome α

/-- Run a member function on the given data members. -/
def Op.run {α : Type} (x : Op α) (m : BcmChassisManager) : Outcome α := x m

/-- Return a value. -/
def Op.pure {α : Type} (a : α) : Op α := fun m => ⟨Except.ok a, m, []⟩

/-- Sequence: an error of the first part is returned at once (`RETURN_IF_ERROR`). -/
def Op.bind {α β : Type} (x : Op α) (f : α → Op β) : Op β := fun m =>
  match x m with
  | ⟨Except.ok a, m1, c1⟩ =>
    match f a m1 with
    | ⟨s, m2, c2⟩ => ⟨s, m2, c1 ++ c2⟩
  | ⟨Except.error e, m1, c1⟩ => ⟨Except.error e, m1, c1⟩

instance instMonadOp : Monad Op where
  pure := Op.pure
  bind := Op.bind

/-- Read the data members. -/
def Op.get : Op BcmChassisManager := fun m => ⟨Except.ok m, m, []⟩

/-- Change the data members. -/
def Op.modify (f : BcmChassisManager → BcmChassisManager) : Op Unit :=
  fun m => ⟨Except.ok (), f m, []⟩

/-- Return an error (`MAKE_ERROR`). -/
def Op.fail {α : Type} (e : ErrorCode) : Op α := fun m => ⟨Except.error e, m, []⟩

/-- The macro `CHECK_RETURN_IF_FALSE` inside a member function. -/
def Op.check (cond : Bool) : Op Unit :=
  if cond then Op.pure () else Op.fail ErrorCode.ERR_INTERNAL

/-- Call a collaborator: the call is recorded and its answer is the result. -/
def Op.call {α : Type} (c : Call) (answer : Except ErrorCode α) : Op α :=
  fun m => ⟨answer, m, [c]⟩

/-- Run a member function and give its status as a value: the caller goes on after an
error (as with `APPEND_STATUS_IF_ERROR` or a `StatusOr` that is inspected). -/
def Op.try {α : Type} (x : Op α) : Op (Except ErrorCode α) := fun m =>
  match x m with
  | ⟨s, m1, c1⟩ => ⟨Except.ok s, m1, c1⟩

/-- The macro `APPEND_STATUS_IF_ERROR(out, status)`, as the new value of `out`: an OK
`status` leaves `out` as it is, and an error makes `out` an error. -/
def APPEND_STATUS_IF_ERROR (env : Env) (out status : Except ErrorCode Unit) :
    Except ErrorCode Unit :=
  match status with
  | Except.ok () => out
  | Except.error e => Except.error (env.appendStatusCode out e)

/-- The map a `std::unique_ptr<BcmChassisMap>` points to.  The manager sets
`base_bcm_chassis_map_` and `applied_bcm_chassis_map_` before it reads them; for a null
pointer, which C++ gives no meaning to, the model reads an empty map. -/
def deref (p : Option BcmChassisMap) : BcmChassisMap := p.getD {}


/-- Use a status that is already computed as the result (`return status;`). -/
def Op.lift {α : Type} (x : Except ErrorCode α) : Op α := fun m => ⟨x, m, []⟩

/-- A `for` loop whose body is left at the first error (`RETURN_IF_ERROR`). -/
def Op.forEach {α : Type} (f : α → Op Unit) : List α → Op Unit
  | [] => Op.pure ()
  | a :: rest => Op.bind (f a) (fun _ => Op.forEach f rest)

/-- A `for` loop over a list in which every element passes a `CHECK_RETURN_IF_FALSE`. -/
def checkEach {α : Type} (cond : α → Bool) : List α → Except ErrorCode Unit
  | [] => pure ()
  | a :: rest => do
    CHECK_RETURN_IF_FALSE (cond a)
    checkEach cond rest

/-! ### First push: the SDK config file, chips and internal state -/

/-- The checks at the start of `InitializeBcmChips` that the target map is a pruned version
of the base map; `ProtoEqual` is equality of the messages. -/
def checkPrunedBcmChassisMap (base_bcm_chassis_map target_bcm_chassis_map : BcmChassisMap) :
    Except ErrorCode Unit := do
  CHECK_RETURN_IF_FALSE (base_bcm_chassis_map.id == target_bcm_chassis_map.id)
  CHECK_RETURN_IF_FALSE
    (base_bcm_chassis_map.auto_add_logical_ports == target_bcm_chassis_map.auto_add_logical_ports)
  CHECK_RETURN_IF_FALSE
    (base_bcm_chassis_map.bcm_chassis.isSome == target_bcm_chassis_map.bcm_chassis.isSome)
  (if target_bcm_chassis_map.bcm_chassis.isSome then
    CHECK_RETURN_IF_FALSE
      (target_bcm_chassis_map.bcm_chassis == base_bcm_chassis_map.bcm_chassis)
  else pure ())
  checkEach (fun bcm_chip => base_bcm_chassis_map.bcm_chips.any (fun x => x == bcm_chip))
    target_bcm_chassis_map.bcm_chips
  checkEach
    (fun bcm_port =>
      let p : BcmPort :=
        if target_bcm_chassis_map.auto_add_logical_ports then
          { bcm_port with logical_port := 0 }
        else bcm_port
      base_bcm_chassis_map.bcm_ports.any (fun x => x == p))
    target_bcm_chassis_map.bcm_ports

/-- One hexadecimal digit, uppercase. -/
def hexDigit (d : Nat) : Char :=
  match d with
  | 0 => '0'
  | 1 => '1'
  | 2 => '2'
  | 3 => '3'
  | 4 => '4'
  | 5 => '5'
  | 6 => '6'
  | 7 => '7'
  | 8 => '8'
  | 9 => '9'
  | 10 => 'A'
  | 11 => 'B'
  | 12 => 'C'
  | 13 => 'D'
  | 14 => 'E'
  | _ => 'F'

/-- The hexadecimal digits of `n`, most significant first, put in front of `acc`; `fuel`
bounds the number of digits. -/
def hexDigits : Nat → Nat → List Char → List Char
  | 0, _, acc => acc
  | fuel + 1, n, acc =>
    if n < 16 then hexDigit n :: acc
    else hexDigits fuel (n / 16) (hexDigit (n % 16) :: acc)

/-- What `<< std::hex << std::uppercase << n` puts into a stream for an unsigned `n`: the
hexadecimal numeral of `n` with uppercase digits and without leading zeros. -/
def hexUpper (n : Nat) : String := String.mk (hexDigits (n + 1) n [])

/-- What `<< i` puts into a stream for a signed integer: its decimal numeral. -/
def decimal (i : Int) : String := toString i

/-- The statement `v[unit] |= static_cast<uint64>(0x01) << shift` on a
`std::vector<uint64>`.  C++ gives no meaning to an index outside the vector and to a shift
that is negative or not below 64; the model leaves the vector as it is for such an index,
takes a negative shift as 0 and reduces the shifted value modulo `2 ^ 64`, so that a shift of
64 or more sets no bit (a processor that takes the shift count modulo 64 sets a bit there).
The shift is below 64 for every logical port below 192. -/
def orBit (v : List Nat) (unit shift : Int) : List Nat :=
  if 0 ≤ unit then v.modify (fun w => w ||| (1 <<< shift.toNat) % 2 ^ 64) unit.toNat else v

/-- The vectors `xe_pbmp_mask0`, `xe_pbmp_mask1`, `xe_pbmp_mask2` of `WriteBcmConfigFile`. -/
structure XePbmpMasks where
  xe_pbmp_mask0 : List Nat
  xe_pbmp_mask1 : List Nat
  xe_pbmp_mask2 : List Nat
  deriving DecidableEq, Repr

/-- One iteration of the loop of `WriteBcmConfigFile` that fills the XE port masks. -/
def xePbmpStep (masks : XePbmpMasks) (bcm_port : BcmPort) : XePbmpMasks :=
  if bcm_port.type == BcmPortType.XE || bcm_port.type == BcmPortType.CE then
    if bcm_port.logical_port < 64 then
      { masks with
        xe_pbmp_mask0 := orBit masks.xe_pbmp_mask0 bcm_port.unit bcm_port.logical_port }
    else if bcm_port.logical_port < 128 then
      { masks with
        xe_pbmp_mask1 := orBit masks.xe_pbmp_mask1 bcm_port.unit (bcm_port.logical_port - 64) }
    else
      { masks with
        xe_pbmp_mask2 := orBit masks.xe_pbmp_mask2 bcm_port.unit (bcm_port.logical_port - 128) }
  else masks

/-- The XE port masks after the loop over the ports of the target map; the vectors have
`max_num_units` entries, all 0 at the start. -/
def xePbmpMasks (max_num_units : Nat) (bcm_ports : List BcmPort) : XePbmpMasks :=
  bcm_ports.foldl xePbmpStep
    { xe_pbmp_mask0 := List.replicate max_num_units 0
      xe_pbmp_mask1 := List.replicate max_num_units 0
      xe_pbmp_mask2 := List.replicate max_num_units 0 }

/-- The vector `is_chip_oversubscribed` after the loop over the chips of the target map; an
index outside the vector, to which C++ gives no meaning, changes nothing. -/
def isChipOversubscribed (max_num_units : Nat) (bcm_chips : List BcmChip) : List Bool :=
  bcm_chips.foldl
    (fun v bcm_chip =>
      if bcm_chip.is_oversubscribed && decide (0 ≤ bcm_chip.unit) then
        v.modify (fun _ => true) bcm_chip.unit.toNat
      else v)
    (List.replicate max_num_units false)

/-- The string `t` with zeros in front up to 16 characters:
`std::string(2 * sizeof(uint64) - t.length(), '0') << t`. -/
def pad16 (t : String) : String := String.mk (List.replicate (16 - t.length) '0') ++ t

/-- The string `mask.str()` for the three words of one unit. -/
def xePbmpMask (mask0 mask1 mask2 : Nat) : String :=
  if mask2 != 0 then hexUpper mask2 ++ pad16 (hexUpper mask1) ++ pad16 (hexUpper mask0)
  else if mask1 != 0 then hexUpper mask1 ++ pad16 (hexUpper mask0)
  else hexUpper mask0

/-- The lines that the loop over the units writes for unit `i`. -/
def xePbmpLines (masks : XePbmpMasks) (is_chip_oversubscribed : List Bool) (i : Nat) :
    List String :=
  let mask0 := masks.xe_pbmp_mask0.getD i 0
  let mask1 := masks.xe_pbmp_mask1.getD i 0
  let mask2 := masks.xe_pbmp_mask2.getD i 0
  if mask1 != 0 || mask0 != 0 || mask2 != 0 then
    ["pbmp_xport_xe." ++ toString i ++ "=0x" ++ xePbmpMask mask0 mask1 mask2] ++
      (if is_chip_oversubscribed.getD i false then
        ["pbmp_oversubscribe." ++ toString i ++ "=0x" ++ xePbmpMask mask0 mask1 mask2]
      else [])
  else []

/-- The map `flex_chip_to_channel_to_speed`, read with `operator[]`, which gives 0 where the
map has no entry. -/
def flex_chip_to_channel_to_speed (chip_type : BcmChipType) (channel : Int) : Nat :=
  match chip_type with
  | BcmChipType.TOMAHAWK =>
    if channel = 1 then kHundredGigBps
    else if channel = 2 then kTwentyFiveGigBps
    else if channel = 3 then kFiftyGigBps
    else if channel = 4 then kTwentyFiveGigBps
    else 0
  | BcmChipType.TRIDENT2 =>
    if channel = 1 then kFortyGigBps
    else if channel = 2 then kTenGigBps
    else if channel = 3 then kTwentyGigBps
    else if channel = 4 then kTenGigBps
    else 0
  | _ => 0

/-- The speed that `WriteBcmConfigFile` writes for one port of the target map, after the
checks on the port. -/
def bcmConfigPortSpeed (target_bcm_chips : List BcmChip) (bcm_port : BcmPort) :
    Except ErrorCode Nat :=
  if bcm_port.type == BcmPortType.XE || bcm_port.type == BcmPortType.CE then
    if bcm_port.flex_port then do
      let chip_type := flexChipType target_bcm_chips bcm_port.unit
      CHECK_RETURN_IF_FALSE
        (chip_type == BcmChipType.TOMAHAWK || chip_type == BcmChipType.TRIDENT2)
      CHECK_RETURN_IF_FALSE (decide (bcm_port.channel ≥ 1) && decide (bcm_port.channel ≤ 4))
      pure (flex_chip_to_channel_to_speed chip_type bcm_port.channel)
    else pure bcm_port.speed_bps
  else if bcm_port.type == BcmPortType.MGMT then do
    CHECK_RETURN_IF_FALSE (!bcm_port.flex_port)
    pure bcm_port.speed_bps
  else Except.error ErrorCode.ERR_INTERNAL

/-- The line `portmap_<logical_port>.<unit>=<physical_port>:<speed>` of one port, with `:i`
at the end for a flex port with a non-zero serdes lane. -/
def portmapLine (bcm_port : BcmPort) (speed_bps : Nat) : String :=
  "portmap_" ++ decimal bcm_port.logical_port ++ "." ++ decimal bcm_port.unit ++ "=" ++
    decimal bcm_port.physical_port ++ ":" ++ toString (speed_bps / kBitsPerGigabit) ++
    (if bcm_port.flex_port && bcm_port.serdes_lane != 0 then ":i" else "")

/-- The line `dport_map_port_<logical_port>.<unit>=<diag_port>` of one port. -/
def dportMapLine (bcm_port : BcmPort) : String :=
  "dport_map_port_" ++ decimal bcm_port.logical_port ++ "." ++ decimal bcm_port.unit ++ "=" ++
    decimal bcm_port.diag_port

/-- A line `<name><diag_port>.<unit>=0x<value>` of one port, which is written when the value
is positive. -/
def laneLines (name : String) (bcm_port : BcmPort) (value : Int) : List String :=
  if value > 0 then
    [name ++ decimal bcm_port.diag_port ++ "." ++ decimal bcm_port.unit ++ "=0x" ++
      hexUpper value.toNat]
  else []

/-- The lines that `WriteBcmConfigFile` writes for one port of the target map. -/
def bcmConfigPortLines (target_bcm_chips : List BcmChip) (bcm_port : BcmPort) :
    Except ErrorCode (List String) := do
  let speed_bps ← bcmConfigPortSpeed target_bcm_chips bcm_port
  pure
    ([portmapLine bcm_port speed_bps, dportMapLine bcm_port] ++
      laneLines "xgxs_tx_lane_map_xe" bcm_port bcm_port.tx_lane_map ++
      laneLines "xgxs_rx_lane_map_xe" bcm_port bcm_port.rx_lane_map ++
      laneLines "phy_xaui_tx_polarity_flip_xe" bcm_port bcm_port.tx_polarity_flip ++
      laneLines "phy_xaui_rx_polarity_flip_xe" bcm_port bcm_port.rx_polarity_flip ++
      bcm_port.sdk_properties ++ [""])

/-- The loop of `WriteBcmConfigFile` over the ports of the target map. -/
def bcmConfigPortsLines (target_bcm_chips : List BcmChip) :
    List BcmPort → Except ErrorCode (List String)
  | [] => pure []
  | bcm_port :: rest => do
    let lines ← bcmConfigPortLines target_bcm_chips bcm_port
    let more ← bcmConfigPortsLines target_bcm_chips rest
    pure (lines ++ more)

/-- The chassis-level lines of the SDK config file. -/
def bcmConfigChassisLines (mode_ : OperationMode) (target_bcm_chassis_map : BcmChassisMap) :
    List String :=
  match target_bcm_chassis_map.bcm_chassis with
  | some bcm_chassis =>
    bcm_chassis.sdk_properties ++
      (if mode_ == OperationMode.OPERATION_MODE_SIM then
        ["tdma_intr_enable=0", "tslam_dma_enable=0", "table_dma_enable=0"]
      else []) ++ [""]
  | none => []

/-- The chip-level lines of the SDK config file. -/
def bcmConfigChipLines (bcm_chips : List BcmChip) : List String :=
  bcm_chips.flatMap
    (fun bcm_chip =>
      if bcm_chip.sdk_properties.length != 0 then bcm_chip.sdk_properties ++ [""] else [])

/-- The lines of the XE port maps of the SDK config file. -/
def bcmConfigPbmpLines (base_bcm_chassis_map target_bcm_chassis_map : BcmChassisMap) :
    List String :=
  (List.range base_bcm_chassis_map.bcm_chips.length).flatMap
    (xePbmpLines
      (xePbmpMasks base_bcm_chassis_map.bcm_chips.length target_bcm_chassis_map.bcm_ports)
      (isChipOversubscribed base_bcm_chassis_map.bcm_chips.length
        target_bcm_chassis_map.bcm_chips)) ++ [""]

/-- The lines that `WriteBcmConfigFile` puts into `buffer`, each of them ended by
`std::endl`; an error of the loop over the ports leaves the function before the file is
written. -/
def bcmConfigLines (mode_ : OperationMode)
    (base_bcm_chassis_map target_bcm_chassis_map : BcmChassisMap) :
    Except ErrorCode (List String) := do
  let port_lines ←
    bcmConfigPortsLines target_bcm_chassis_map.bcm_chips target_bcm_chassis_map.bcm_ports
  pure
    (bcmConfigChassisLines mode_ target_bcm_chassis_map ++
      bcmConfigChipLines target_bcm_chassis_map.bcm_chips ++
      bcmConfigPbmpLines base_bcm_chassis_map target_bcm_chassis_map ++ port_lines)

/-- The string `buffer.str()` for the lines put into `buffer`. -/
def bufferStr (lines : List String) : String :=
  String.join (lines.map (fun line => line ++ "\n"))

/-- `BcmChassisManager::WriteBcmConfigFile`: the text is built, and when that went without
error it is written to the file. -/
def BcmChassisManager.WriteBcmConfigFile (env : Env)
    (base_bcm_chassis_map target_bcm_chassis_map : BcmChassisMap) : Op Unit := do
  let m ← Op.get
  let lines ← Op.lift (bcmConfigLines m.mode_ base_bcm_chassis_map target_bcm_chassis_map)
  Op.call (Call.WriteStringToFile (bufferStr lines))
    (env.status (Call.WriteStringToFile (bufferStr lines)))

/-- The three SDK calls that attach one chip. -/
def attachUnit (env : Env) (bcm_chip : BcmChip) : Op Unit := do
  Op.call (Call.FindUnit bcm_chip.unit bcm_chip.pci_bus bcm_chip.pci_slot bcm_chip.type)
    (env.status (Call.FindUnit bcm_chip.unit bcm_chip.pci_bus bcm_chip.pci_slot bcm_chip.type))
  Op.call (Call.InitializeUnit bcm_chip.unit false)
    (env.status (Call.InitializeUnit bcm_chip.unit false))
  Op.call (Call.SetModuleId bcm_chip.unit bcm_chip.module)
    (env.status (Call.SetModuleId bcm_chip.unit bcm_chip.module))

/-- `BcmChassisManager::InitializeBcmChips`. -/
def BcmChassisManager.InitializeBcmChips (env : Env)
    (base_bcm_chassis_map target_bcm_chassis_map : BcmChassisMap) : Op Unit := do
  let m ← Op.get
  (if m.initialized_ then Op.fail ErrorCode.ERR_INTERNAL else Op.pure ())
  Op.lift (checkPrunedBcmChassisMap base_bcm_chassis_map target_bcm_chassis_map)
  BcmChassisManager.WriteBcmConfigFile env base_bcm_chassis_map target_bcm_chassis_map
  Op.call Call.RecursivelyCreateDir (env.status Call.RecursivelyCreateDir)
  Op.call Call.InitializeSdk (env.status Call.InitializeSdk)
  Op.forEach (attachUnit env) target_bcm_chassis_map.bcm_chips
  Op.forEach
    (fun bcm_port =>
      Op.call (Call.InitializePort bcm_port.unit bcm_port.logical_port)
        (env.status (Call.InitializePort bcm_port.unit bcm_port.logical_port)))
    target_bcm_chassis_map.bcm_ports
  Op.call Call.StartDiagShellServer (env.status Call.StartDiagShellServer)

/-- The initial `slot_port_to_transceiver_state_` for the ports of the target map. -/
def initialTransceiverStates (bcm_ports : List BcmPort) : List ((Int × Int) × HwState) :=
  bcm_ports.foldl
    (fun states bcm_port =>
      mapSet (bcm_port.slot, bcm_port.port)
        (if bcm_port.internal then HwState.HW_STATE_PRESENT else HwState.HW_STATE_UNKNOWN)
        states) []

/-- `BcmChassisManager::InitializeInternalState`. -/
def BcmChassisManager.InitializeInternalState
    (base_bcm_chassis_map target_bcm_chassis_map : BcmChassisMap) : Op Unit := do
  let m ← Op.get
  (if m.initialized_ then Op.fail ErrorCode.ERR_INTERNAL else Op.pure ())
  Op.modify (fun m =>
    { m with
      base_bcm_chassis_map_ := some base_bcm_chassis_map
      applied_bcm_chassis_map_ := some target_bcm_chassis_map
      slot_port_to_transceiver_state_ :=
        initialTransceiverStates target_bcm_chassis_map.bcm_ports })

/-! ### Sync of the internal state -/

/-- The clearing of the maps at the start of `SyncInternalState`. -/
def syncClear (m : BcmChassisManager) : BcmChassisManager :=
  { m with
    unit_to_bcm_chip_ := []
    slot_port_channel_to_bcm_port_ := []
    slot_port_to_flex_bcm_ports_ := []
    slot_port_to_non_flex_bcm_ports_ := []
    unit_to_logical_ports_ := []
    node_id_to_unit_ := []
    unit_to_node_id_ := []
    node_id_to_port_ids_ := []
    port_id_to_slot_port_channel_ := []
    unit_logical_port_to_port_id_ := [] }

/-- The loop of `SyncInternalState` over `config.nodes()`. -/
def syncNodes (nodes : List Node) (m : BcmChassisManager) : BcmChassisManager :=
  nodes.foldl
    (fun m node =>
      { m with
        node_id_to_unit_ := mapSet node.id (-1) m.node_id_to_unit_
        node_id_to_port_ids_ := mapSet node.id [] m.node_id_to_port_ids_ }) m

/-- The loop of `SyncInternalState` over the chips of the applied map. -/
def syncChips (m : BcmChassisManager) : BcmChassisManager :=
  (deref m.applied_bcm_chassis_map_).bcm_chips.foldl
    (fun m bcm_chip =>
      { m with
        unit_to_bcm_chip_ := mapSet bcm_chip.unit bcm_chip m.unit_to_bcm_chip_
        unit_to_logical_ports_ := mapSetInsert bcm_chip.unit 0 m.unit_to_logical_ports_ }) m

/-- The new `BcmPort` `p` that `SyncInternalState` makes for a matching base port: with
`auto_add_logical_ports` its logical port is that of the first applied port with the same
unit, physical port and diag port, and there must be one. -/
def syncLogicalPort (applied : BcmChassisMap) (bcm_port : BcmPort) : Except ErrorCode BcmPort :=
  if applied.auto_add_logical_ports then
    match applied.bcm_ports.find? (fun q =>
      bcm_port.unit == q.unit && bcm_port.physical_port == q.physical_port &&
        bcm_port.diag_port == q.diag_port) with
    | some q => pure { bcm_port with logical_port := q.logical_port }
    | none => Except.error ErrorCode.ERR_INTERNAL
  else pure bcm_port

/-- What `SyncInternalState` records for a singleton port and its new `BcmPort` `p`, up to
the check of the transceiver state. -/
def syncRecordPort (singleton_port : SingletonPort) (p : BcmPort) (m : BcmChassisManager) :
    BcmChassisManager :=
  { m with
    slot_port_channel_to_bcm_port_ :=
      mapSet (singleton_port.slot, singleton_port.port, singleton_port.channel) p
        m.slot_port_channel_to_bcm_port_
    node_id_to_unit_ := mapSet singleton_port.node p.unit m.node_id_to_unit_
    unit_to_node_id_ := mapSet p.unit singleton_port.node m.unit_to_node_id_
    node_id_to_port_ids_ :=
      mapSetInsert singleton_port.node singleton_port.id m.node_id_to_port_ids_
    unit_to_logical_ports_ := mapSetInsert p.unit p.logical_port m.unit_to_logical_ports_
    port_id_to_slot_port_channel_ :=
      mapSet singleton_port.id
        (singleton_port.slot, singleton_port.port, singleton_port.channel)
        m.port_id_to_slot_port_channel_
    unit_logical_port_to_port_id_ :=
      mapSet (p.unit, p.logical_port) singleton_port.id m.unit_logical_port_to_port_id_ }

/-- The `push_back` of `p` to the flex or the non-flex ports of its `(slot, port)`. -/
def syncRecordGroup (singleton_port : SingletonPort) (flex_port : Bool) (p : BcmPort)
    (m : BcmChassisManager) : BcmChassisManager :=
  if flex_port then
    { m with
      slot_port_to_flex_bcm_ports_ :=
        mapSet (singleton_port.slot, singleton_port.port)
          (mapAt [] (singleton_port.slot, singleton_port.port) m.slot_port_to_flex_bcm_ports_
            ++ [p])
          m.slot_port_to_flex_bcm_ports_ }
  else
    { m with
      slot_port_to_non_flex_bcm_ports_ :=
        mapSet (singleton_port.slot, singleton_port.port)
          (mapAt [] (singleton_port.slot, singleton_port.port)
            m.slot_port_to_non_flex_bcm_ports_ ++ [p])
          m.slot_port_to_non_flex_bcm_ports_ }

/-- One iteration of the loop of `SyncInternalState` over `config.singleton_ports()`; the
inner loop over the base ports stops at the first match, and nothing happens when there is
none.  `tmp` is `tmp_slot_port_channel_to_port_state`. -/
def syncPort (singleton_port : SingletonPort)
    (tmp : List ((Int × Int × Int) × PortState)) : Op (List ((Int × Int × Int) × PortState)) := do
  let m ← Op.get
  match (deref m.base_bcm_chassis_map_).bcm_ports.find?
      (IsSingletonPortMatchesBcmPort singleton_port) with
  | none => Op.pure tmp
  | some bcm_port => do
    let slot_port_channel_tuple :=
      (singleton_port.slot, singleton_port.port, singleton_port.channel)
    Op.check (!(mapFind slot_port_channel_tuple m.slot_port_channel_to_bcm_port_).isSome)
    let p ← Op.lift (syncLogicalPort (deref m.applied_bcm_chassis_map_) bcm_port)
    Op.modify (syncRecordPort singleton_port p)
    Op.check
      (mapFind (singleton_port.slot, singleton_port.port)
        m.slot_port_to_transceiver_state_).isSome
    Op.modify (syncRecordGroup singleton_port bcm_port.flex_port p)
    Op.pure
      (mapSet slot_port_channel_tuple
        ((mapFind slot_port_channel_tuple m.slot_port_channel_to_port_state_).getD
          PortState.PORT_STATE_UNKNOWN) tmp)

/-- The loop of `SyncInternalState` over `config.singleton_ports()`. -/
def syncPorts : List SingletonPort → List ((Int × Int × Int) × PortState) →
    Op (List ((Int × Int × Int) × PortState))
  | [], tmp => Op.pure tmp
  | s :: rest, tmp => Op.bind (syncPort s tmp) (fun tmp' => syncPorts rest tmp')

/-- `BcmChassisManager::SyncInternalState`. -/
def BcmChassisManager.SyncInternalState (config : ChassisConfig) : Op Unit := do
  Op.modify syncClear
  Op.modify (syncNodes config.nodes)
  Op.modify syncChips
  let tmp ← syncPorts config.singleton_ports []
  Op.modify (fun m => { m with slot_port_channel_to_port_state_ := tmp })

/-! ### Port groups -/

/-- `BcmChassisManager::SetPortOptionsForPortGroup`. -/
def BcmChassisManager.SetPortOptionsForPortGroup (env : Env) (slot_port_pair : Int × Int)
    (options : BcmPortOptions) : Op Unit := do
  let m ← Op.get
  let bcm_ports ←
    (match mapFind slot_port_pair m.slot_port_to_flex_bcm_ports_ with
    | some ports => Op.pure ports
    | none =>
      match mapFind slot_port_pair m.slot_port_to_non_flex_bcm_ports_ with
      | some ports => Op.pure ports
      | none => Op.fail ErrorCode.ERR_INTERNAL)
  (if options.enabled == TriState.TRI_STATE_TRUE &&
      m.mode_ == OperationMode.OPERATION_MODE_STANDALONE then do
    let fp_port_info ← Op.call (Call.GetFrontPanelPortInfo slot_port_pair.1 slot_port_pair.2)
      (env.GetFrontPanelPortInfo slot_port_pair.1 slot_port_pair.2)
    Op.forEach
      (fun (bcm_port : BcmPort) => do
        let bcm_serdes_lane_config ←
          Op.call (Call.LookupSerdesConfigForPort bcm_port fp_port_info)
            (env.LookupSerdesConfigForPort bcm_port fp_port_info)
        Op.call
          (Call.ConfigSerdesForPort bcm_port.unit bcm_port.logical_port bcm_port.speed_bps
            bcm_port.serdes_core bcm_port.serdes_lane bcm_port.num_serdes_lanes
            bcm_serdes_lane_config)
          (env.status
            (Call.ConfigSerdesForPort bcm_port.unit bcm_port.logical_port bcm_port.speed_bps
              bcm_port.serdes_core bcm_port.serdes_lane bcm_port.num_serdes_lanes
              bcm_serdes_lane_config)))
      bcm_ports
  else Op.pure ())
  Op.forEach
    (fun (bcm_port : BcmPort) =>
      Op.call (Call.SetPortOptions bcm_port.unit bcm_port.logical_port options)
        (env.status (Call.SetPortOptions bcm_port.unit bcm_port.logical_port options)))
    bcm_ports

/-- The sets `units_set` and `min_speed_logical_ports_set` of `SetSpeedForFlexPortGroup`. -/
structure FlexGroupSets where
  units_set : List Int := []
  min_speed_logical_ports_set : List Int := []
  deriving DecidableEq, Repr

/-- The loop of `SetSpeedForFlexPortGroup` over the ports of the applied map. -/
def flexGroupApplied (slot_port_pair : Int × Int) :
    FlexGroupSets → List BcmPort → Except ErrorCode FlexGroupSets
  | sets, [] => pure sets
  | sets, bcm_port :: rest =>
    if bcm_port.slot == slot_port_pair.1 && bcm_port.port == slot_port_pair.2 then do
      CHECK_RETURN_IF_FALSE bcm_port.flex_port
      flexGroupApplied slot_port_pair
        { units_set := setInsert bcm_port.unit sets.units_set
          min_speed_logical_ports_set :=
            setInsert bcm_port.logical_port sets.min_speed_logical_ports_set } rest
    else flexGroupApplied slot_port_pair sets rest

/-- The first element `*set.begin()` of a `std::set`; on an empty set, where C++ gives it no
meaning, the model reads `dflt`. -/
def setBegin {α : Type} (dflt : α) (set : List α) : α := set.headD dflt

/-- `BcmChassisManager::SetSpeedForFlexPortGroup`. -/
def BcmChassisManager.SetSpeedForFlexPortGroup (env : Env) (slot_port_pair : Int × Int) :
    Op Bool := do
  let m ← Op.get
  match mapFind slot_port_pair m.slot_port_to_flex_bcm_ports_ with
  | none => Op.fail ErrorCode.ERR_INTERNAL
  | some bcm_ports => do
    let sets ← Op.lift
      (flexGroupApplied slot_port_pair {} (deref m.applied_bcm_chassis_map_).bcm_ports)
    let units_set := bcm_ports.foldl (fun s p => setInsert p.unit s) sets.units_set
    let config_speed_logical_ports_set : List Int :=
      bcm_ports.foldl (fun s p => setInsert p.logical_port s) []
    let config_num_serdes_lanes_set : List Int :=
      bcm_ports.foldl (fun s p => setInsert p.num_serdes_lanes s) []
    let config_speed_bps_set : List Nat :=
      bcm_ports.foldl (fun s p => setInsert p.speed_bps s) []
    Op.check (units_set.length == 1)
    Op.check (config_num_serdes_lanes_set.length == 1)
    Op.check (config_speed_bps_set.length == 1)
    let unit := setBegin 0 units_set
    let control_logical_port := setBegin 0 sets.min_speed_logical_ports_set
    let config_num_serdes_lanes := setBegin 0 config_num_serdes_lanes_set
    let config_speed_bps := setBegin 0 config_speed_bps_set
    Op.check (setBegin 0 config_speed_logical_ports_set == control_logical_port)
    let options ← Op.call (Call.GetPortOptions unit control_logical_port)
      (env.GetPortOptions unit control_logical_port)
    (if options.speed_bps == config_speed_bps then Op.pure false
    else do
      Op.forEach
        (fun logical_port =>
          Op.call
            (Call.SetPortOptions unit logical_port
              { enabled := TriState.TRI_STATE_FALSE, blocked := TriState.TRI_STATE_TRUE })
            (env.status
              (Call.SetPortOptions unit logical_port
                { enabled := TriState.TRI_STATE_FALSE, blocked := TriState.TRI_STATE_TRUE })))
        sets.min_speed_logical_ports_set
      Op.call
        (Call.SetPortOptions unit control_logical_port
          { num_serdes_lanes := config_num_serdes_lanes })
        (env.status
          (Call.SetPortOptions unit control_logical_port
            { num_serdes_lanes := config_num_serdes_lanes }))
      Op.forEach
        (fun logical_port =>
          Op.call (Call.SetPortOptions unit logical_port { speed_bps := config_speed_bps })
            (env.status
              (Call.SetPortOptions unit logical_port { speed_bps := config_speed_bps })))
        config_speed_logical_ports_set
      Op.pure true)

/-- The change of `slot_port_to_transceiver_state_` after the speed of a flex port group
was changed: a READY group becomes PRESENT.  `operator[]` puts in `HW_STATE_UNKNOWN` for a
pair that is not a key. -/
def demoteReadyGroup (slot_port_pair : Int × Int) (m : BcmChassisManager) : BcmChassisManager :=
  match mapFind slot_port_pair m.slot_port_to_transceiver_state_ with
  | none =>
    { m with
      slot_port_to_transceiver_state_ :=
        mapSet slot_port_pair HwState.HW_STATE_UNKNOWN m.slot_port_to_transceiver_state_ }
  | some state =>
    if state == HwState.HW_STATE_READY then
      { m with
        slot_port_to_transceiver_state_ :=
          mapSet slot_port_pair HwState.HW_STATE_PRESENT m.slot_port_to_transceiver_state_ }
    else m

/-- The first loop of `ConfigurePortGroups`, over the flex port groups; `status` is the
status collected so far, and the value is the status collected at the end. -/
def configureFlexGroups (env : Env) :
    List ((Int × Int) × List BcmPort) → Except ErrorCode Unit → Op (Except ErrorCode Unit)
  | [], status => Op.pure status
  | e :: rest, status =>
    Op.bind (Op.try (BcmChassisManager.SetSpeedForFlexPortGroup env e.1)) (fun ret =>
      match ret with
      | Except.error err =>
        configureFlexGroups env rest (APPEND_STATUS_IF_ERROR env status (Except.error err))
      | Except.ok speed_changed =>
        Op.bind (if speed_changed then Op.modify (demoteReadyGroup e.1) else Op.pure ())
          (fun _ => configureFlexGroups env rest status))

/-- The port options that `ConfigurePortGroups` sets for a group in the given state. -/
def portGroupOptions (state : HwState) : BcmPortOptions :=
  { enabled :=
      if state == HwState.HW_STATE_PRESENT then TriState.TRI_STATE_TRUE
      else TriState.TRI_STATE_FALSE
    blocked :=
      if state != HwState.HW_STATE_PRESENT then TriState.TRI_STATE_TRUE
      else TriState.TRI_STATE_FALSE }

/-- The second loop of `ConfigurePortGroups`, over `slot_port_to_transceiver_state_`: the
entries are those at the start of the loop, and an entry is changed only in its own
iteration. -/
def configurePortOptions (env : Env) :
    List ((Int × Int) × HwState) → Except ErrorCode Unit → Op (Except ErrorCode Unit)
  | [], status => Op.pure status
  | e :: rest, status =>
    if e.2 != HwState.HW_STATE_READY then
      Op.bind (Op.try (BcmChassisManager.SetPortOptionsForPortGroup env e.1 (portGroupOptions e.2)))
        (fun error =>
          match error with
          | Except.error err =>
            configurePortOptions env rest (APPEND_STATUS_IF_ERROR env status (Except.error err))
          | Except.ok _ =>
            Op.bind
              (if e.2 == HwState.HW_STATE_PRESENT then
                Op.modify (fun m =>
                  { m with
                    slot_port_to_transceiver_state_ :=
                      mapSet e.1 HwState.HW_STATE_READY m.slot_port_to_transceiver_state_ })
              else Op.pure ())
              (fun _ => configurePortOptions env rest status))
    else configurePortOptions env rest status

/-- `BcmChassisManager::ConfigurePortGroups`. -/
def BcmChassisManager.ConfigurePortGroups (env : Env) : Op Unit := do
  let m ← Op.get
  let status ← configureFlexGroups env m.slot_port_to_flex_bcm_ports_ (Except.ok ())
  let m ← Op.get
  let status ← configurePortOptions env m.slot_port_to_transceiver_state_ status
  Op.lift status

/-! ### Event writers, push, verify, shutdown -/

/-- The start of one reader thread in `RegisterEventWriters`: `pthread_create` and
`pthread_detach` must both return 0. -/
def startReaderThread (env : Env) (thread : ReaderThread) : Op Unit := do
  let ret ← Op.call (Call.pthread_create thread) (Except.ok (env.pthread_create thread))
  (if ret != 0 then Op.fail ErrorCode.ERR_INTERNAL else Op.pure ())
  let ret ← Op.call (Call.pthread_detach thread) (Except.ok (env.pthread_detach thread))
  (if ret != 0 then Op.fail ErrorCode.ERR_INTERNAL else Op.pure ())

/-- `BcmChassisManager::RegisterEventWriters`. -/
def BcmChassisManager.RegisterEventWriters (env : Env) : Op Unit := do
  let m ← Op.get
  (if m.initialized_ then Op.fail ErrorCode.ERR_INTERNAL else Op.pure ())
  (if m.linkscan_event_writer_id_ == env.kInvalidWriterId then do
    Op.modify (fun m => { m with linkscan_event_channel_ := true })
    let id ← Op.call Call.RegisterLinkscanEventWriter env.RegisterLinkscanEventWriter
    Op.modify (fun m => { m with linkscan_event_writer_id_ := id })
    startReaderThread env ReaderThread.linkscan
    Op.forEach
      (fun (e : Int × BcmChip) =>
        Op.call (Call.StartLinkscan e.1) (env.status (Call.StartLinkscan e.1)))
      m.unit_to_bcm_chip_
  else Op.pure ())
  (if m.transceiver_event_writer_id_ == env.kInvalidWriterId then do
    Op.modify (fun m => { m with xcvr_event_channel_ := true })
    let id ← Op.call Call.RegisterTransceiverEventWriter env.RegisterTransceiverEventWriter
    Op.modify (fun m => { m with transceiver_event_writer_id_ := id })
    startReaderThread env ReaderThread.transceiver
  else Op.pure ())

/-- `BcmChassisManager::PushChassisConfig`. -/
def BcmChassisManager.PushChassisConfig (env : Env) (config : ChassisConfig) : Op Unit := do
  let m ← Op.get
  if !m.initialized_ then do
    (if m.mode_ == OperationMode.OPERATION_MODE_STANDALONE then
      Op.call Call.SerdesDbLoad (env.status Call.SerdesDbLoad)
    else Op.pure ())
    let maps ← Op.lift (GenerateBcmChassisMapFromConfig env.k env.file config)
    BcmChassisManager.InitializeBcmChips env maps.1 maps.2
    BcmChassisManager.InitializeInternalState maps.1 maps.2
    BcmChassisManager.SyncInternalState config
    BcmChassisManager.ConfigurePortGroups env
    BcmChassisManager.RegisterEventWriters env
    Op.modify (fun m => { m with initialized_ := true })
  else do
    BcmChassisManager.SyncInternalState config
    BcmChassisManager.ConfigurePortGroups env

/-- The map `node_id_to_unit` that `VerifyChassisConfig` computes: the inner loop over the
base ports does not stop at the first match. -/
def verifyNodeIdToUnit (base_bcm_ports : List BcmPort) (singleton_ports : List SingletonPort) :
    List (Nat × Int) :=
  singleton_ports.foldl
    (fun node_id_to_unit singleton_port =>
      base_bcm_ports.foldl
        (fun node_id_to_unit bcm_port =>
          if IsSingletonPortMatchesBcmPort singleton_port bcm_port then
            mapSet singleton_port.node bcm_port.unit node_id_to_unit
          else node_id_to_unit) node_id_to_unit) []

/-- `BcmChassisManager::VerifyChassisConfig`, which changes no data member and calls no
collaborator but the reader of the base map file. -/
def BcmChassisManager.VerifyChassisConfig (env : Env) (m : BcmChassisManager)
    (config : ChassisConfig) : Except ErrorCode Unit := do
  let maps ← GenerateBcmChassisMapFromConfig env.k env.file config
  if m.initialized_ then
    if !(maps.2 == deref m.applied_bcm_chassis_map_) then
      Except.error ErrorCode.ERR_REBOOT_REQUIRED
    else if verifyNodeIdToUnit maps.1.bcm_ports config.singleton_ports != m.node_id_to_unit_ then
      Except.error ErrorCode.ERR_REBOOT_REQUIRED
    else pure ()
  else pure ()

/-- The status after `APPEND_ERROR(status)`, which is an error. -/
def APPEND_ERROR (env : Env) (status : Except ErrorCode Unit) : Except ErrorCode Unit :=
  Except.error (env.appendErrorCode status)

/-- `BcmChassisManager::UnregisterEventWriters`; the value is the status it returns, after
everything is done. -/
def unregisterEventWriters (env : Env) : Op (Except ErrorCode Unit) := do
  let m ← Op.get
  let status : Except ErrorCode Unit := Except.ok ()
  let status ←
    (if m.linkscan_event_writer_id_ != env.kInvalidWriterId then do
      let ret ← Op.try
        (Op.call (Call.UnregisterLinkscanEventWriter m.linkscan_event_writer_id_)
          (env.status (Call.UnregisterLinkscanEventWriter m.linkscan_event_writer_id_)))
      let status := APPEND_STATUS_IF_ERROR env status ret
      Op.modify (fun m => { m with linkscan_event_writer_id_ := env.kInvalidWriterId })
      let closed ←
        (if m.linkscan_event_channel_ then
          Op.call (Call.CloseChannel ReaderThread.linkscan)
            (Except.ok (env.CloseChannel ReaderThread.linkscan))
        else Op.pure false)
      Op.modify (fun m => { m with linkscan_event_channel_ := false })
      Op.pure (if closed then status else APPEND_ERROR env status)
    else Op.pure status)
  (if m.transceiver_event_writer_id_ != env.kInvalidWriterId then do
    let ret ← Op.try
      (Op.call (Call.UnregisterTransceiverEventWriter m.transceiver_event_writer_id_)
        (env.status (Call.UnregisterTransceiverEventWriter m.transceiver_event_writer_id_)))
    let status := APPEND_STATUS_IF_ERROR env status ret
    Op.modify (fun m => { m with transceiver_event_writer_id_ := env.kInvalidWriterId })
    let closed ←
      (if m.xcvr_event_channel_ then
        Op.call (Call.CloseChannel ReaderThread.transceiver)
          (Except.ok (env.CloseChannel ReaderThread.transceiver))
      else Op.pure false)
    Op.modify (fun m => { m with xcvr_event_channel_ := false })
    Op.pure (if closed then status else APPEND_ERROR env status)
  else Op.pure status)

/-- `BcmChassisManager::UnregisterEventWriters`. -/
def BcmChassisManager.UnregisterEventWriters (env : Env) : Op Unit := do
  let status ← unregisterEventWriters env
  Op.lift status

/-- `BcmChassisManager::CleanupInternalState`. -/
def BcmChassisManager.CleanupInternalState (m : BcmChassisManager) : BcmChassisManager :=
  { m with
    unit_to_bcm_chip_ := []
    slot_port_channel_to_bcm_port_ := []
    slot_port_to_flex_bcm_ports_ := []
    slot_port_to_non_flex_bcm_ports_ := []
    slot_port_to_transceiver_state_ := []
    unit_to_logical_ports_ := []
    node_id_to_unit_ := []
    unit_to_node_id_ := []
    node_id_to_port_ids_ := []
    port_id_to_slot_port_channel_ := []
    unit_logical_port_to_port_id_ := []
    slot_port_channel_to_port_state_ := []
    base_bcm_chassis_map_ := none
    applied_bcm_chassis_map_ := none }

/-- `BcmChassisManager::Shutdown`. -/
def BcmChassisManager.Shutdown (env : Env) : Op Unit := do
  let status : Except ErrorCode Unit := Except.ok ()
  let ret ← Op.try (BcmChassisManager.UnregisterEventWriters env)
  let status := APPEND_STATUS_IF_ERROR env status ret
  let ret ← Op.try (Op.call Call.ShutdownAllUnits (env.status Call.ShutdownAllUnits))
  let status := APPEND_STATUS_IF_ERROR env status ret
  Op.modify (fun m => { m with initialized_ := false })
  Op.modify BcmChassisManager.CleanupInternalState
  Op.lift status

/-! ### Getters -/

/-- `BcmChassisManager::GetBcmChip`. -/
def BcmChassisManager.GetBcmChip (m : BcmChassisManager) (unit : Int) :
    Except ErrorCode BcmChip :=
  if !m.initialized_ then Except.error ErrorCode.ERR_NOT_INITIALIZED
  else
    match mapFind unit m.unit_to_bcm_chip_ with
    | some bcm_chip => pure bcm_chip
    | none => Except.error ErrorCode.ERR_INTERNAL

/-- `BcmChassisManager::GetBcmPort`. -/
def BcmChassisManager.GetBcmPort (m : BcmChassisManager) (slot port channel : Int) :
    Except ErrorCode BcmPort :=
  if !m.initialized_ then Except.error ErrorCode.ERR_NOT_INITIALIZED
  else
    match mapFind (slot, port, channel) m.slot_port_channel_to_bcm_port_ with
    | some bcm_port => pure bcm_port
    | none => Except.error ErrorCode.ERR_INTERNAL

/-- `BcmChassisManager::GetNodeIdToUnitMap`. -/
def BcmChassisManager.GetNodeIdToUnitMap (m : BcmChassisManager) :
    Except ErrorCode (List (Nat × Int)) :=
  if !m.initialized_ then Except.error ErrorCode.ERR_NOT_INITIALIZED
  else pure m.node_id_to_unit_

/-- `BcmChassisManager::GetUnitFromNodeId`. -/
def BcmChassisManager.GetUnitFromNodeId (m : BcmChassisManager) (node_id : Nat) :
    Except ErrorCode Int :=
  if !m.initialized_ then Except.error ErrorCode.ERR_NOT_INITIALIZED
  else
    match mapFind node_id m.node_id_to_unit_ with
    | some unit => pure unit
    | none => Except.error ErrorCode.ERR_INVALID_PARAM

/-- `BcmChassisManager::GetPortIdToUnitLogicalPortMap`. -/
def BcmChassisManager.GetPortIdToUnitLogicalPortMap (m : BcmChassisManager) :
    Except ErrorCode (List (Nat × (Int × Int))) :=
  if !m.initialized_ then Except.error ErrorCode.ERR_NOT_INITIALIZED
  else pure (m.unit_logical_port_to_port_id_.foldl (fun r e => mapSet e.2 e.1 r) [])

/-- `BcmChassisManager::GetTrunkIdToUnitTrunkPortMap`. -/
def BcmChassisManager.GetTrunkIdToUnitTrunkPortMap (m : BcmChassisManager) :
    Except ErrorCode (List (Nat × (Int × Int))) :=
  if !m.initialized_ then Except.error ErrorCode.ERR_NOT_INITIALIZED
  else pure []

/-- `BcmChassisManager::GetPortState`. -/
def BcmChassisManager.GetPortState (m : BcmChassisManager) (port_id : Nat) :
    Except ErrorCode PortState :=
  if !m.initialized_ then Except.error ErrorCode.ERR_NOT_INITIALIZED
  else
    match mapFind port_id m.port_id_to_slot_port_channel_ with
    | none => Except.error ErrorCode.ERR_INTERNAL
    | some slot_port_channel_tuple =>
      match mapFind slot_port_channel_tuple m.slot_port_channel_to_port_state_ with
      | none => Except.error ErrorCode.ERR_INTERNAL
      | some port_state => pure port_state

/-! ### Transceiver events -/

/-- The port options that `TransceiverEventHandler` sets: `enabled` by the new state, and
`blocked` only when the old state is `HW_STATE_UNKNOWN`. -/
def transceiverEventOptions (old_state new_state : HwState) : BcmPortOptions :=
  { enabled :=
      if new_state == HwState.HW_STATE_PRESENT then TriState.TRI_STATE_TRUE
      else TriState.TRI_STATE_FALSE
    blocked :=
      if old_state == HwState.HW_STATE_UNKNOWN then TriState.TRI_STATE_FALSE
      else TriState.TRI_STATE_UNKNOWN }

/-- `BcmChassisManager::TransceiverEventHandler`; `shutdown` is the global flag of that
name.  The function returns nothing, so the status is always OK. -/
def BcmChassisManager.TransceiverEventHandler (env : Env) (shutdown : Bool) (slot port : Int)
    (new_state : HwState) : Op Unit := do
  if shutdown then Op.pure ()
  else do
    let m ← Op.get
    match mapFind (slot, port) m.slot_port_to_transceiver_state_ with
    | none => Op.pure ()
    | some old_state =>
      if new_state != HwState.HW_STATE_PRESENT && new_state != HwState.HW_STATE_NOT_PRESENT then
        Op.pure ()
      else if old_state == HwState.HW_STATE_READY && new_state == HwState.HW_STATE_PRESENT then
        Op.pure ()
      else if old_state == HwState.HW_STATE_UNKNOWN &&
          new_state == HwState.HW_STATE_NOT_PRESENT then
        Op.pure ()
      else do
        Op.modify (fun m =>
          { m with
            slot_port_to_transceiver_state_ :=
              mapSet (slot, port) new_state m.slot_port_to_transceiver_state_ })
        let status ← Op.try
          (BcmChassisManager.SetPortOptionsForPortGroup env (slot, port)
            (transceiverEventOptions old_state new_state))
        match status with
        | Except.error _ => Op.pure ()
        | Except.ok _ =>
          Op.modify (fun m =>
            if mapFind (slot, port) m.slot_port_to_transceiver_state_ ==
                some HwState.HW_STATE_PRESENT then
              { m with
                slot_port_to_transceiver_state_ :=
                  mapSet (slot, port) HwState.HW_STATE_READY m.slot_port_to_transceiver_state_ }
            else m)


/-! ### Linkscan events and the gNMI event writer -/

/-- `BcmChassisManager::RegisterEventNotifyWriter`; `writer` tells whether the pointer that is
passed is set. -/
def BcmChassisManager.RegisterEventNotifyWriter (writer : Bool) : Op Unit :=
  Op.modify (fun m => { m with gnmi_event_writer_ := writer })

/-- `BcmChassisManager::UnregisterEventNotifyWriter`. -/
def BcmChassisManager.UnregisterEventNotifyWriter : Op Unit :=
  Op.modify (fun m => { m with gnmi_event_writer_ := false })

/-- `BcmChassisManager::SendPortOperStateGnmiEvent`: nothing without a writer; a writer whose
`Write` fails is dropped. -/
def BcmChassisManager.SendPortOperStateGnmiEvent (env : Env) (node_id port_id : Nat)
    (new_state : PortState) : Op Unit := do
  let m ← Op.get
  if !m.gnmi_event_writer_ then Op.pure ()
  else do
    let written ← Op.call (Call.GnmiWrite node_id port_id new_state)
      (Except.ok (env.GnmiWrite node_id port_id new_state))
    (if !written then Op.modify (fun m => { m with gnmi_event_writer_ := false })
    else Op.pure ())

/-- `BcmChassisManager::LinkscanEventHandler`; `shutdown` is the global flag of that name.
The function returns nothing, so the status is always OK. -/
def BcmChassisManager.LinkscanEventHandler (env : Env) (shutdown : Bool)
    (unit logical_port : Int) (new_state : PortState) : Op Unit := do
  if shutdown then Op.pure ()
  else do
    let m ← Op.get
    match mapFind unit m.unit_to_node_id_,
        mapFind (unit, logical_port) m.unit_logical_port_to_port_id_ with
    | some node_id, some port_id =>
      match mapFind port_id m.port_id_to_slot_port_channel_ with
      | none => Op.pure ()
      | some slot_port_channel_tuple => do
        Op.modify (fun m =>
          { m with
            slot_port_channel_to_port_state_ :=
              mapSet slot_port_channel_tuple new_state m.slot_port_channel_to_port_state_ })
        match mapFind slot_port_channel_tuple m.slot_port_channel_to_bcm_port_ with
        | none => Op.pure ()
        | some _ => BcmChassisManager.SendPortOperStateGnmiEvent env node_id port_id new_state
    | _, _ => Op.pure ()

/-! ### Frame conditions and error codes -/

/-- The operation `x` leaves the part `proj` of the manager as it was, whatever it returns. -/
def Op.Keeps {α β : Type} (proj : BcmChassisManager → β) (x : Op α) : Prop :=
  ∀ m, proj (x m).mgr = proj m

/-- The operation `x` leaves the part `proj` of the manager as it was when it returns an
error. -/
def Op.KeepsOnError {α β : Type} (proj : BcmChassisManager → β) (x : Op α) : Prop :=
  ∀ m e, (x m).status = Except.error e → proj (x m).mgr = proj m

/-- The operation `x` neither reads nor changes the manager: its status and its calls are the
same on every manager, and the manager stays as it is. -/
def Op.Const {α : Type} (x : Op α) : Prop :=
  ∀ m m', (x m).status = (x m').status ∧ (x m).calls = (x m').calls ∧ (x m).mgr = m

/-- Every call that the operation `x` makes has the property `P`. -/
def Op.CallsIn {α : Type} (P : Call → Prop) (x : Op α) : Prop :=
  ∀ m, ∀ c ∈ (x m).calls, P c

/-- The calls of the port group configuration: reading and setting port options, reading the
front panel port info, and looking up and configuring serdes. -/
def Call.isPortGroupCall : Call → Bool
  | Call.GetPortOptions _ _ => true
  | Call.SetPortOptions _ _ _ => true
  | Call.GetFrontPanelPortInfo _ _ => true
  | Call.LookupSerdesConfigForPort _ _ => true
  | Call.ConfigSerdesForPort _ _ _ _ _ _ _ => true
  | _ => false

/-- The calls `SetPortOptions`. -/
def Call.isSetPortOptions : Call → Bool
  | Call.SetPortOptions _ _ _ => true
  | _ => false

/-- The operation `x` leaves the manager with the property `P` when it starts with it,
whatever status it returns. -/
def Op.Preserves {α : Type} (P : BcmChassisManager → Prop) (x : Op α) : Prop :=
  ∀ m, P m → P (x m).mgr

/-- The operation `x` leaves the manager with the property `P` when it returns OK. -/
def Op.Ensures {α : Type} (P : BcmChassisManager → Prop) (x : Op α) : Prop :=
  ∀ m a, (x m).status = Except.ok a → P (x m).mgr

/-- The maps that `LinkscanEventHandler` reads are consistent: a `(unit, logical_port)` that
has a port id has a unit with a node id and a port id with a `(slot, port, channel)` tuple,
and that tuple has a `BcmPort`. -/
def BcmChassisManager.PortMapsClosed (m : BcmChassisManager) : Prop :=
  ∀ (unit logical_port : Int) (port_id : Nat),
    mapFind (unit, logical_port) m.unit_logical_port_to_port_id_ = some port_id →
      (mapFind unit m.unit_to_node_id_).isSome = true ∧
      ∃ slot_port_channel_tuple,
        mapFind port_id m.port_id_to_slot_port_channel_ = some slot_port_channel_tuple ∧
        (mapFind slot_port_channel_tuple m.slot_port_channel_to_bcm_port_).isSome = true

/-! ### Example collaborators and managers -/

/-- Collaborators that all succeed, over the given contents of the base map file: every
status is OK, the writer ids are 1 and 2 (the invalid id is taken to be 0), the thread calls
return 0, and the port options, the front panel port info and the serdes lane config that
are read are empty messages.  A status that collects errors is taken to keep the code of the
first one, and `APPEND_ERROR` on an OK status to give `ERR_UNKNOWN`. -/
def okEnv (file : Except ErrorCode (List BcmChassisMap)) : Env :=
  { k := exampleConstants
    kInvalidWriterId := 0
    appendStatusCode := fun out e =>
      match out with
      | Except.ok () => e
      | Except.error e0 => e0
    appendErrorCode := fun status =>
      match status with
      | Except.ok () => ErrorCode.ERR_UNKNOWN
      | Except.error e => e
    file := file
    status := fun _ => Except.ok ()
    RegisterLinkscanEventWriter := Except.ok 1
    RegisterTransceiverEventWriter := Except.ok 2
    pthread_create := fun _ => 0
    pthread_detach := fun _ => 0
    GetPortOptions := fun _ _ => Except.ok {}
    GetFrontPanelPortInfo := fun _ _ => Except.ok {}
    LookupSerdesConfigForPort := fun _ _ => Except.ok {}
    CloseChannel := fun _ => true
    GnmiWrite := fun _ _ _ => true }

/-- Scenario A: the collaborators, which all succeed and read the Scenario A base map. -/
def scenarioAEnv : Env := okEnv (Except.ok [scenarioABase])

/-- A new manager in standalone mode. -/
def freshManager (env : Env) : BcmChassisManager :=
  BcmChassisManager.create env OperationMode.OPERATION_MODE_STANDALONE

/-- A new manager in simulation mode, with the Scenario A collaborators. -/
def simManager : BcmChassisManager :=
  BcmChassisManager.create scenarioAEnv OperationMode.OPERATION_MODE_SIM

/-- Scenario A: the manager after the push of the Scenario A config on a new manager. -/
def scenarioAManager : BcmChassisManager :=
  ((BcmChassisManager.PushChassisConfig scenarioAEnv scenarioAConfig).run
    (freshManager scenarioAEnv)).mgr

/-- Scenario A with a second node, id 200, that no singleton port refers to. -/
def portlessNodeConfig : ChassisConfig :=
  { scenarioAConfig with nodes := scenarioAConfig.nodes ++ [{ id := 200, slot := 5 }] }

/-- The manager after the push of `portlessNodeConfig` on a new manager. -/
def portlessNodeManager : BcmChassisManager :=
  ((BcmChassisManager.PushChassisConfig scenarioAEnv portlessNodeConfig).run
    (freshManager scenarioAEnv)).mgr

/-- Scenario B: the Scenario A config with singleton port 1 changed to channel 1, 10G. -/
def scenarioBConfig : ChassisConfig :=
  { scenarioAConfig with
    singleton_ports := [{ id := 1, slot := 5, port := 1, channel := 1,
                          speed_bps := kTenGigBps, node := 100 }] }

/-- The collaborators, which all succeed, over the base map `mixedBase`. -/
def mixedEnv : Env := okEnv (Except.ok [mixedBase])

/-- The status `x` is OK or an error with code `ERR_INTERNAL`. -/
def FailsInternal {α : Type} (x : Except ErrorCode α) : Prop :=
  ∀ e, x = Except.error e → e = ErrorCode.ERR_INTERNAL

/-- Scenario A moved to slot 6: the node and the singleton port have slot 6. -/
def slotSixConfig : ChassisConfig :=
  { scenarioAConfig with
    nodes := [{ id := 100, slot := 6 }]
    singleton_ports := [{ id := 1, slot := 6, port := 1, channel := 0,
                          speed_bps := kFortyGigBps, node := 100 }] }

/-- The base map of Scenario A with slot 6 filled in. -/
def slotSixBase : BcmChassisMap :=
  { scenarioABaseOut with
    bcm_chips := [{ type := BcmChipType.TRIDENT2, unit := 0, slot := 6 }]
    bcm_ports := [{ type := BcmPortType.XE, slot := 6, port := 1, channel := 0, unit := 0,
                    speed_bps := kFortyGigBps, num_serdes_lanes := 4 }] }

/-- The applied map of `slotSixConfig`. -/
def slotSixTarget : BcmChassisMap :=
  { scenarioATarget with
    bcm_chips := [{ type := BcmChipType.TRIDENT2, unit := 0, slot := 6 }]
    bcm_ports := [{ type := BcmPortType.XE, slot := 6, port := 1, channel := 0, unit := 0,
                    speed_bps := kFortyGigBps, num_serdes_lanes := 4, logical_port := 1 }] }

/-- The scenario A manager with the link of port `(5, 1, 0)` up. -/
def linkUpManager : BcmChassisManager :=
  { scenarioAManager with
    slot_port_channel_to_port_state_ := [((5, 1, 0), PortState.PORT_STATE_UP)] }

/-- Scenario A with the id of the singleton port changed to 0, which the resolver rejects. -/
def zeroIdConfig : ChassisConfig :=
  { scenarioAConfig with
    singleton_ports := [{ id := 0, slot := 5, port := 1, channel := 0,
                          speed_bps := kFortyGigBps, node := 100 }] }

/-- The manager after the push of the Scenario B config on the manager after the push of
Scenario A: `SyncInternalState` empties the port maps and puts nothing in, as the port of
the config matches no port of the base map, and `ConfigurePortGroups` then fails for the
pair (5, 1), which has a transceiver state and no port group. -/
def groupLessManager : BcmChassisManager :=
  ((BcmChassisManager.PushChassisConfig scenarioAEnv scenarioBConfig).run scenarioAManager).mgr

/-- Scenario A with the chip and its port on unit 1, so that the one chip of the base map
does not have unit 0. -/
def unitOneBase : BcmChassisMap :=
  { scenarioABase with
    bcm_chips := [{ type := BcmChipType.TRIDENT2, unit := 1 }]
    bcm_ports := [{ type := BcmPortType.XE, port := 1, channel := 0, unit := 1,
                    speed_bps := kFortyGigBps, num_serdes_lanes := 4 }] }

/-- The base map of `unitOneBase` with slot 5 filled in. -/
def unitOneBaseOut : BcmChassisMap :=
  { unitOneBase with
    bcm_chips := [{ type := BcmChipType.TRIDENT2, unit := 1, slot := 5 }]
    bcm_ports := [{ type := BcmPortType.XE, slot := 5, port := 1, channel := 0, unit := 1,
                    speed_bps := kFortyGigBps, num_serdes_lanes := 4 }] }

/-- The applied map for `unitOneBase` and the Scenario A config. -/
def unitOneTarget : BcmChassisMap :=
  { unitOneBase with
    bcm_chips := [{ type := BcmChipType.TRIDENT2, unit := 1, slot := 5 }]
    bcm_ports := [{ type := BcmPortType.XE, slot := 5, port := 1, channel := 0, unit := 1,
                    speed_bps := kFortyGigBps, num_serdes_lanes := 4, logical_port := 1 }] }

/-- Collaborators that all succeed, over a base map file that holds `unitOneBase`. -/
def unitOneEnv : Env := okEnv (Except.ok [unitOneBase])

/-- The calls that attach a unit: `FindUnit`, `InitializeUnit` and `SetModuleId`. -/
def Call.isAttachCall : Call → Bool
  | Call.FindUnit _ _ _ _ => true
  | Call.InitializeUnit _ _ => true
  | Call.SetModuleId _ _ => true
  | _ => false

/-- A base map with two TRIDENT2 chips, units 0 and 1, and one non-flex 40G port on each:
front panel port 1 on unit 0 and front panel port 2 on unit 1. -/
def twoChipBase : BcmChassisMap :=
  { auto_add_logical_ports := true
    auto_add_slot := true
    bcm_chips := [{ type := BcmChipType.TRIDENT2, unit := 0, module := 0 },
                  { type := BcmChipType.TRIDENT2, unit := 1, module := 1 }]
    bcm_ports := [{ type := BcmPortType.XE, port := 1, channel := 0, unit := 0, module := 0,
                    speed_bps := kFortyGigBps, num_serdes_lanes := 4 },
                  { type := BcmPortType.XE, port := 2, channel := 0, unit := 1, module := 1,
                    speed_bps := kFortyGigBps, num_serdes_lanes := 4 }] }

/-- A config for `twoChipBase` in which the node with the smaller id has its port on the
unit with the larger number: node 1 has front panel port 2 (unit 1), node 2 has front panel
port 1 (unit 0). -/
def crossedNodesConfig : ChassisConfig :=
  { chassis := some { platform := Platform.PLT_GENERIC_TRIDENT2 }
    nodes := [{ id := 1, slot := 5 }, { id := 2, slot := 5 }]
    singleton_ports := [{ id := 1, slot := 5, port := 2, channel := 0,
                          speed_bps := kFortyGigBps, node := 1 },
                        { id := 2, slot := 5, port := 1, channel := 0,
                          speed_bps := kFortyGigBps, node := 2 }] }

/-- Collaborators that all succeed, over a base map file that holds `twoChipBase`. -/
def twoChipEnv : Env := okEnv (Except.ok [twoChipBase])

/-- A base map with one TRIDENT2 chip, unit 0, and two non-flex 40G ports on it. -/
def sharedUnitBase : BcmChassisMap :=
  { auto_add_logical_ports := true
    auto_add_slot := true
    bcm_chips := [{ type := BcmChipType.TRIDENT2, unit := 0, module := 0 }]
    bcm_ports := [{ type := BcmPortType.XE, port := 1, channel := 0, unit := 0,
                    physical_port := 1, diag_port := 1,
                    speed_bps := kFortyGigBps, num_serdes_lanes := 4 },
                  { type := BcmPortType.XE, port := 2, channel := 0, unit := 0,
                    physical_port := 2, diag_port := 2,
                    speed_bps := kFortyGigBps, num_serdes_lanes := 4 }] }

/-- A config for `sharedUnitBase` with two nodes, each with one of the two ports, so that
both nodes are on unit 0. -/
def sharedUnitConfig : ChassisConfig :=
  { chassis := some { platform := Platform.PLT_GENERIC_TRIDENT2 }
    nodes := [{ id := 1, slot := 5 }, { id := 2, slot := 5 }]
    singleton_ports := [{ id := 1, slot := 5, port := 1, channel := 0,
                          speed_bps := kFortyGigBps, node := 1 },
                        { id := 2, slot := 5, port := 2, channel := 0,
                          speed_bps := kFortyGigBps, node := 2 }] }

/-- Collaborators that all succeed, over a base map file that holds `sharedUnitBase`. -/
def sharedUnitEnv : Env := okEnv (Except.ok [sharedUnitBase])

/-- A base map whose one chip is a TRIDENT_PLUS, with one 40G port. -/
def tridentPlusBase : BcmChassisMap :=
  { auto_add_logical_ports := true
    auto_add_slot := true
    bcm_chips := [{ type := BcmChipType.TRIDENT_PLUS, unit := 0 }]
    bcm_ports := [{ type := BcmPortType.XE, port := 1, channel := 0, unit := 0,
                    speed_bps := kFortyGigBps, num_serdes_lanes := 4 }] }

/-- The Scenario A config on the platform TRIDENT_PLUS. -/
def tridentPlusConfig : ChassisConfig :=
  { scenarioAConfig with chassis := some { platform := Platform.PLT_GENERIC_TRIDENT_PLUS } }

/-- The Scenario A applied map with a chassis-level message that has one SDK property. -/
def chassisTarget : BcmChassisMap :=
  { scenarioATarget with bcm_chassis := some { sdk_properties := ["os=unix"] } }

/-- The calls that the loop of `InitializeBcmChips` over the chips makes when each of them
returns OK: the three calls of `attachUnit` for every chip, in the order of the list. -/
def attachCalls (bcm_chips : List BcmChip) : List Call :=
  bcm_chips.flatMap (fun bcm_chip =>
    [Call.FindUnit bcm_chip.unit bcm_chip.pci_bus bcm_chip.pci_slot bcm_chip.type,
      Call.InitializeUnit bcm_chip.unit false,
      Call.SetModuleId bcm_chip.unit bcm_chip.module])

/-- The base map `twoChipBase` with slot 5 filled in. -/
def crossedBaseOut : BcmChassisMap :=
  { auto_add_logical_ports := true
    auto_add_slot := true
    bcm_chips := [{ type := BcmChipType.TRIDENT2, slot := 5, unit := 0, module := 0 },
                  { type := BcmChipType.TRIDENT2, slot := 5, unit := 1, module := 1 }]
    bcm_ports := [{ type := BcmPortType.XE, slot := 5, port := 1, channel := 0, unit := 0,
                    module := 0, speed_bps := kFortyGigBps, num_serdes_lanes := 4 },
                  { type := BcmPortType.XE, slot := 5, port := 2, channel := 0, unit := 1,
                    module := 1, speed_bps := kFortyGigBps, num_serdes_lanes := 4 }] }

/-- The applied map for `crossedNodesConfig`: the chip of unit 1 comes first. -/
def crossedTarget : BcmChassisMap :=
  { auto_add_logical_ports := true
    auto_add_slot := true
    bcm_chips := [{ type := BcmChipType.TRIDENT2, slot := 5, unit := 1, module := 1 },
                  { type := BcmChipType.TRIDENT2, slot := 5, unit := 0, module := 0 }]
    bcm_ports := [{ type := BcmPortType.XE, slot := 5, port := 2, channel := 0, unit := 1,
                    module := 1, speed_bps := kFortyGigBps, num_serdes_lanes := 4,
                    logical_port := 1 },
                  { type := BcmPortType.XE, slot := 5, port := 1, channel := 0, unit := 0,
                    module := 0, speed_bps := kFortyGigBps, num_serdes_lanes := 4,
                    logical_port := 1 }] }

/-- The `SetPortOptions` calls of a speed change of a flex port group, in the order in which
`SetSpeedForFlexPortGroup` is to make them: the ports of the minimum speed are disabled and
blocked, the number of serdes lanes of the control port is set, and the speed of the
configured ports is set. -/
def speedChangeCalls (unit control_logical_port config_num_serdes_lanes : Int)
    (config_speed_bps : Nat)
    (min_speed_logical_ports config_speed_logical_ports : List Int) : List Call :=
  min_speed_logical_ports.map
      (fun logical_port =>
        Call.SetPortOptions unit logical_port
          { enabled := TriState.TRI_STATE_FALSE, blocked := TriState.TRI_STATE_TRUE }) ++
    [Call.SetPortOptions unit control_logical_port
      { num_serdes_lanes := config_num_serdes_lanes }] ++
    config_speed_logical_ports.map
      (fun logical_port =>
        Call.SetPortOptions unit logical_port { speed_bps := config_speed_bps })

/-- Collaborators that all succeed, over a base map file that holds the Scenario C base
map; the port options that are read have speed 0. -/
def scenarioCEnv : Env := okEnv (Except.ok [scenarioCBase])

/-- Scenario C: the manager after the push of the Scenario C config on a new manager. -/
def scenarioCManager : BcmChassisManager :=
  ((BcmChassisManager.PushChassisConfig scenarioCEnv scenarioCConfig).run
    (freshManager scenarioCEnv)).mgr

/-- Scenario C after the transceiver of the flex port group `(1, 2)` was reported PRESENT:
the group is READY. -/
def flexReadyManager : BcmChassisManager :=
  ((BcmChassisManager.TransceiverEventHandler scenarioCEnv false 1 2
    HwState.HW_STATE_PRESENT).run scenarioCManager).mgr

/-- The port `p` is added to the target map, before the logical ports are set, for the given
singleton ports: it is the first base port that matches one of them and is not flex, or it is
the first base port that matches one of the four channels, at the minimum speed of the chip,
of the `(slot, port)` of a singleton port whose first match is flex. -/
def IsTargetPortOf (base_bcm_chips : List BcmChip) (base_bcm_ports : List BcmPort)
    (singleton_ports : List SingletonPort) (p : BcmPort) : Prop :=
  (∃ s ∈ singleton_ports,
    base_bcm_ports.find? (IsSingletonPortMatchesBcmPort s) = some p ∧ p.flex_port = false) ∨
  (∃ s ∈ singleton_ports, ∃ b unit v c,
    base_bcm_ports.find? (IsSingletonPortMatchesBcmPort s) = some b ∧ b.flex_port = true ∧
    flexUnits base_bcm_ports (s.slot, s.port) = [unit] ∧
    flexMinSpeedBps (flexChipType base_bcm_chips unit) = Except.ok v ∧
    c ∈ ([1, 2, 3, 4] : List Int) ∧
    base_bcm_ports.find? (IsSingletonPortMatchesBcmPort
      { slot := s.slot, port := s.port, channel := c, speed_bps := v }) = some p)

/-- A config for `sharedUnitBase` with one node that has the two ports. -/
def twoPortConfig : ChassisConfig :=
  { chassis := some { platform := Platform.PLT_GENERIC_TRIDENT2 }
    nodes := [{ id := 1, slot := 5 }]
    singleton_ports := [{ id := 1, slot := 5, port := 1, channel := 0,
                          speed_bps := kFortyGigBps, node := 1 },
                        { id := 2, slot := 5, port := 2, channel := 0,
                          speed_bps := kFortyGigBps, node := 1 }] }

/-- A port of `sharedUnitBase` with slot 5 filled in and the given logical port; its front
panel port, physical port and diag port are all `n`. -/
def twoPortPort (n logical_port : Int) : BcmPort :=
  { type := BcmPortType.XE, slot := 5, port := n, channel := 0, unit := 0,
    physical_port := n, diag_port := n, speed_bps := kFortyGigBps, num_serdes_lanes := 4,
    logical_port := logical_port }

/-- The base map `sharedUnitBase` with slot 5 filled in. -/
def twoPortBaseOut : BcmChassisMap :=
  { auto_add_logical_ports := true
    auto_add_slot := true
    bcm_chips := [{ type := BcmChipType.TRIDENT2, slot := 5, unit := 0, module := 0 }]
    bcm_ports := [twoPortPort 1 0, twoPortPort 2 0] }

/-- The applied map for `twoPortConfig`. -/
def twoPortTarget : BcmChassisMap :=
  { twoPortBaseOut with bcm_ports := [twoPortPort 1 1, twoPortPort 2 2] }

/-- The applied map for `twoPortConfig` with the two singleton ports swapped. -/
def twoPortTargetSwapped : BcmChassisMap :=
  { twoPortBaseOut with bcm_ports := [twoPortPort 2 2, twoPortPort 1 1] }

/-! ## The class Status

Shallow embedding of the reference counting of `stratum/glue/status/status.h`.  The `Rep`
objects live in a memory, which is a list; a pointer to a `Rep` is an index into it, and the
array `global_reps` is at the start of the memory, so `&global_reps[0]` is the index 0.  The
function `UnrefSlow` is declared in the header and defined in `status.cc`; the functions that
call it take it as an argument. -/

/-- The constant `Status::kGlobalRef`, which is `~static_cast<Atomic32>(0)`: the 32-bit word
with all bits set. -/
def kGlobalRef : Nat := 2 ^ 32 - 1

/-- The struct `Status::Rep`, with the fields that the functions below read or write. -/
structure Rep where
  ref : Nat
  code : Int
  canonical_code : Int := 0
  deriving DecidableEq, Repr

/-- The class `Status`: its one data member is the pointer `rep_`. -/
structure Status where
  rep_ : Nat
  deriving DecidableEq, Repr

/-- `Status::RefCountInc`: the atomic increment of a 32-bit word. -/
def Status.RefCountInc (ref : Nat) : Nat := (ref + 1) % 2 ^ 32

/-- `Status::Ref`.  A pointer to no object, to which C++ gives no meaning, leaves the memory
as it is. -/
def Status.Ref (r : Nat) (memory : List Rep) : List Rep :=
  match memory[r]? with
  | some rep =>
    if rep.ref != kGlobalRef then
      memory.set r { rep with ref := Status.RefCountInc rep.ref }
    else memory
  | none => memory

/-- `Status::Unref`. -/
def Status.Unref (UnrefSlow : Nat → List Rep → List Rep) (r : Nat) (memory : List Rep) :
    List Rep :=
  match memory[r]? with
  | some rep => if rep.ref != kGlobalRef then UnrefSlow r memory else memory
  | none => memory

/-- The default constructor `Status::Status()`. -/
def Status.new : Status := { rep_ := 0 }

/-- The copy constructor `Status::Status(const Status& x)`: the new object and the memory
after the call. -/
def Status.copy (x : Status) (memory : List Rep) : Status × List Rep :=
  ({ rep_ := x.rep_ }, Status.Ref x.rep_ memory)

/-- The assignment `Status::operator=`: the object assigned to and the memory after the
call. -/
def Status.assign (UnrefSlow : Nat → List Rep → List Rep) (this x : Status)
    (memory : List Rep) : Status × List Rep :=
  let old_rep := this.rep_
  if x.rep_ != old_rep then
    ({ rep_ := x.rep_ }, Status.Unref UnrefSlow old_rep (Status.Ref x.rep_ memory))
  else (this, memory)

/-- The destructor `Status::~Status()`. -/
def Status.destroy (UnrefSlow : Nat → List Rep → List Rep) (this : Status)
    (memory : List Rep) : List Rep :=
  Status.Unref UnrefSlow this.rep_ memory

/-- `Status::ok()`.  A pointer to no object gives `false`. -/
def Status.ok (this : Status) (memory : List Rep) : Bool :=
  match memory[this.rep_]? with
  | some rep => rep.code == 0
  | none => false

/-- `OkStatus()`, which returns `Status()`. -/
def OkStatus : Status := Status.new

/-- An example of `UnrefSlow`: the count of the object is decremented. -/
def exampleUnrefSlow (r : Nat) (memory : List Rep) : List Rep :=
  memory.modify (fun rep => { rep with ref := rep.ref - 1 }) r

/-- An example memory: the global OK representation at index 0, and the representation of an
error with code 13 that two `Status` objects share. -/
def exampleMemory : List Rep := [{ ref := kGlobalRef, code := 0 }, { ref := 2, code := 13 }]

/-! # Properties of the resolver -/

/-! ## Status plumbing -/

theorem CHECK_ok_iff (c : Bool) (u : Unit) : CHECK_RETURN_IF_FALSE c = Except.ok u ↔ c = true := by
  cases c <;> simp [CHECK_RETURN_IF_FALSE]

theorem bind_ok_iff {ε α β : Type} (x : Except ε α) (f : α → Except ε β) (b : β) :
    (x >>= f) = Except.ok b ↔ ∃ a, x = Except.ok a ∧ f a = Except.ok b := by
  cases x <;> simp [bind, Except.bind]

theorem pure_ok_iff {ε α : Type} (a b : α) :
    (pure a : Except ε α) = Except.ok b ↔ a = b := by
  simp [pure, Except.pure]

/-! ## Laws of the key orders -/

theorem lawful_nat : KeyOrd.Lawful Nat where
  irrefl a := by simp [KeyOrd.lt]
  trans a b c := by simp only [KeyOrd.lt, decide_eq_true_eq]; omega
  tri a b := by simp only [KeyOrd.lt, decide_eq_false_iff_not]; omega

theorem lawful_int : KeyOrd.Lawful Int where
  irrefl a := by simp [KeyOrd.lt]
  trans a b c := by simp only [KeyOrd.lt, decide_eq_true_eq]; omega
  tri a b := by simp only [KeyOrd.lt, decide_eq_false_iff_not]; omega

theorem lawful_bool : KeyOrd.Lawful Bool where
  irrefl a := by cases a <;> rfl
  trans a b c := by cases a <;> cases b <;> cases c <;> simp [KeyOrd.lt]
  tri a b := by cases a <;> cases b <;> simp [KeyOrd.lt]

theorem lawful_prod {α β : Type} [KeyOrd α] [KeyOrd β] (ha : KeyOrd.Lawful α)
    (hb : KeyOrd.Lawful β) : KeyOrd.Lawful (α × β) where
  irrefl p := by simp [KeyOrd.lt, ha.irrefl, hb.irrefl]
  trans p q r := by
    intro h1 h2
    simp only [KeyOrd.lt, Bool.or_eq_true, Bool.and_eq_true, Bool.not_eq_true'] at h1 h2 ⊢
    rcases h1 with h1 | ⟨h1, h1'⟩ <;> rcases h2 with h2 | ⟨h2, h2'⟩
    · exact Or.inl (ha.trans _ _ _ h1 h2)
    · cases hqr : (KeyOrd.lt q.1 r.1)
      · have e := ha.tri _ _ hqr h2
        left; rw [← e]; exact h1
      · exact Or.inl (ha.trans _ _ _ h1 hqr)
    · cases hpq : (KeyOrd.lt p.1 q.1)
      · have e := ha.tri _ _ hpq h1
        left; rw [e]; exact h2
      · exact Or.inl (ha.trans _ _ _ hpq h2)
    · cases hpq : (KeyOrd.lt p.1 q.1)
      · have e1 := ha.tri _ _ hpq h1
        cases hqr : (KeyOrd.lt q.1 r.1)
        · have e2 := ha.tri _ _ hqr h2
          right
          refine ⟨?_, hb.trans _ _ _ h1' h2'⟩
          rw [e1, ← e2]; exact ha.irrefl _
        · left; rw [e1]; exact hqr
      · cases hqr : (KeyOrd.lt q.1 r.1)
        · have e2 := ha.tri _ _ hqr h2
          left; rw [← e2]; exact hpq
        · left; exact ha.trans _ _ _ hpq hqr
  tri p q := by
    intro h1 h2
    simp only [KeyOrd.lt, Bool.or_eq_false_iff, Bool.and_eq_false_iff, Bool.not_eq_false'] at h1 h2
    obtain ⟨h1a, h1b⟩ := h1
    obtain ⟨h2a, h2b⟩ := h2
    have e1 := ha.tri _ _ h1a h2a
    have e2 : p.2 = q.2 := by
      rcases h1b with h | h
      · rw [h2a] at h; cases h
      · rcases h2b with h' | h'
        · rw [h1a] at h'; cases h'
        · exact hb.tri _ _ h h'
    exact Prod.ext e1 e2

theorem lawful_pair : KeyOrd.Lawful (Int × Int) := lawful_prod lawful_int lawful_int

theorem lawful_triple : KeyOrd.Lawful (Int × Int × Int) := lawful_prod lawful_int lawful_pair

/-! ## Sets and maps -/

theorem setCount_setInsert {α : Type} [KeyOrd α] (h : KeyOrd.Lawful α) (x y : α) (l : List α) :
    setCount x (setInsert y l) = true ↔ x = y ∨ setCount x l = true := by
  induction l with
  | nil =>
    simp only [setInsert, setCount]
    cases hxy : KeyOrd.lt x y
    · cases hyx : KeyOrd.lt y x
      · simp [h.tri _ _ hxy hyx]
      · have : x ≠ y := by rintro rfl; rw [h.irrefl] at hyx; cases hyx
        simp [this]
    · have : x ≠ y := by rintro rfl; rw [h.irrefl] at hxy; cases hxy
      simp [this]
  | cons z zs ih =>
    simp only [setInsert]
    cases hyz : KeyOrd.lt y z
    · cases hzy : KeyOrd.lt z y
      · -- y = z
        have e := h.tri _ _ hyz hzy
        subst e
        simp only [Bool.false_eq_true, if_false]
        constructor
        · exact Or.inr
        · rintro (rfl | hc)
          · simp [setCount, h.irrefl]
          · exact hc
      · simp only [Bool.false_eq_true, if_false, if_true, setCount]
        cases hxz : KeyOrd.lt x z
        · cases hzx : KeyOrd.lt z x
          · simp
          · simp [ih]
        · have : x ≠ y := by
            rintro rfl
            have := h.trans _ _ _ hxz hzy
            rw [h.irrefl] at this; cases this
          simp [this]
    · simp only [if_true]
      cases hxy : KeyOrd.lt x y
      · cases hyx : KeyOrd.lt y x
        · have e := h.tri _ _ hxy hyx
          subst e
          simp [setCount, h.irrefl]
        · have : x ≠ y := by rintro rfl; rw [h.irrefl] at hyx; cases hyx
          simp [setCount, hxy, hyx, this]
      · have : x ≠ y := by rintro rfl; rw [h.irrefl] at hxy; cases hxy
        have hxz := h.trans _ _ _ hxy hyz
        simp [setCount, hxy, hxz, this]

theorem setCount_setInsert_self {α : Type} [KeyOrd α] (h : KeyOrd.Lawful α) (x : α)
    (l : List α) : setCount x (setInsert x l) = true :=
  (setCount_setInsert h x x l).2 (Or.inl rfl)

theorem setCount_mem {α : Type} [KeyOrd α] (h : KeyOrd.Lawful α) (x : α) (l : List α) :
    setCount x l = true → x ∈ l := by
  induction l with
  | nil => simp [setCount]
  | cons z zs ih =>
    simp only [setCount]
    cases hxz : KeyOrd.lt x z
    · cases hzx : KeyOrd.lt z x
      · intro _
        rw [h.tri _ _ hxz hzx]; exact List.mem_cons_self _ _
      · simp only [Bool.false_eq_true, if_false, if_true]
        intro hc; exact List.mem_cons_of_mem _ (ih hc)
    · simp

theorem mem_setInsert {α : Type} [KeyOrd α] (h : KeyOrd.Lawful α) (a x : α) (l : List α) :
    a ∈ setInsert x l ↔ a = x ∨ a ∈ l := by
  induction l with
  | nil => simp [setInsert]
  | cons z zs ih =>
    simp only [setInsert]
    cases hxz : KeyOrd.lt x z
    · cases hzx : KeyOrd.lt z x
      · have e := h.tri _ _ hxz hzx
        subst e
        simp
      · simp only [Bool.false_eq_true, if_false, if_true, List.mem_cons, ih]
        tauto
    · simp

theorem setInsert_sorted {α : Type} [KeyOrd α] (h : KeyOrd.Lawful α) (x : α) (l : List α)
    (hs : SetSorted l) : SetSorted (setInsert x l) := by
  induction l with
  | nil => simp [setInsert, SetSorted]
  | cons z zs ih =>
    unfold SetSorted at hs ⊢
    rw [List.pairwise_cons] at hs
    simp only [setInsert]
    cases hxz : KeyOrd.lt x z
    · cases hzx : KeyOrd.lt z x
      · simp only [Bool.false_eq_true, if_false]
        exact List.pairwise_cons.2 hs
      · simp only [Bool.false_eq_true, if_false, if_true]
        refine List.pairwise_cons.2 ⟨?_, ih hs.2⟩
        intro a ha
        rcases (mem_setInsert h a x zs).1 ha with rfl | ha
        · exact hzx
        · exact hs.1 a ha
    · simp only [if_true]
      refine List.pairwise_cons.2 ⟨?_, List.pairwise_cons.2 hs⟩
      intro a ha
      rcases List.mem_cons.1 ha with rfl | ha
      · exact hxz
      · exact h.trans _ _ _ hxz (hs.1 a ha)

theorem setCount_of_mem {α : Type} [KeyOrd α] (h : KeyOrd.Lawful α) (x : α) (l : List α)
    (hs : SetSorted l) : x ∈ l → setCount x l = true := by
  induction l with
  | nil => simp
  | cons z zs ih =>
    unfold SetSorted at hs
    rw [List.pairwise_cons] at hs
    intro hx
    simp only [setCount]
    rcases List.mem_cons.1 hx with rfl | hx
    · simp [h.irrefl]
    · have hzx := hs.1 x hx
      have hxz : KeyOrd.lt x z = false := by
        cases hxz : KeyOrd.lt x z
        · rfl
        · have := h.trans _ _ _ hxz hzx
          rw [h.irrefl] at this; cases this
      simp [hxz, hzx, ih hs.2 hx]

theorem setSorted_nodup {α : Type} [KeyOrd α] (h : KeyOrd.Lawful α) (l : List α)
    (hs : SetSorted l) : l.Nodup := by
  unfold SetSorted at hs
  refine List.Pairwise.imp ?_ hs
  intro a b hab e
  subst e
  rw [h.irrefl] at hab; cases hab

theorem setIndex_eq {α : Type} [KeyOrd α] (h : KeyOrd.Lawful α) (x : α) (l : List α)
    (hs : SetSorted l) (i : Nat) (hi : setIndex x l = some i) :
    i = (l.filter (fun y => KeyOrd.lt y x)).length ∧ i < l.length := by
  induction l generalizing i with
  | nil => simp [setIndex] at hi
  | cons z zs ih =>
    unfold SetSorted at hs
    rw [List.pairwise_cons] at hs
    simp only [setIndex] at hi
    cases hxz : KeyOrd.lt x z
    · cases hzx : KeyOrd.lt z x
      · simp only [hxz, hzx, Bool.false_eq_true, if_false, Option.some.injEq] at hi
        subst hi
        have e := h.tri _ _ hxz hzx
        subst e
        have : zs.filter (fun y => KeyOrd.lt y x) = [] := by
          rw [List.filter_eq_nil_iff]
          intro a ha hlt
          have := h.trans _ _ _ hlt (hs.1 a ha)
          rw [h.irrefl] at this; cases this
        simp [List.filter_cons, h.irrefl, this]
      · simp only [hxz, hzx, Bool.false_eq_true, if_false, if_true, Option.map_eq_some'] at hi
        obtain ⟨j, hj, rfl⟩ := hi
        have := ih hs.2 j hj
        simp only [List.filter_cons, hzx, if_true, List.length_cons]
        omega
    · simp [hxz] at hi

theorem mapFind_mapSet_self {κ V : Type} [KeyOrd κ] (h : KeyOrd.Lawful κ) (k : κ) (v : V)
    (m : List (κ × V)) : mapFind k (mapSet k v m) = some v := by
  induction m with
  | nil => simp [mapSet, mapFind, h.irrefl]
  | cons e m ih =>
    obtain ⟨k', v'⟩ := e
    simp only [mapSet]
    cases hkk : KeyOrd.lt k k'
    · cases hkk' : KeyOrd.lt k' k
      · simp [mapFind, hkk, hkk']
      · simp [mapFind, hkk, hkk', ih]
    · simp [mapFind, h.irrefl]

theorem mapFind_mapSet_ne {κ V : Type} [KeyOrd κ] (h : KeyOrd.Lawful κ) (k k'' : κ) (v : V)
    (m : List (κ × V)) (hne : k'' ≠ k) : mapFind k'' (mapSet k v m) = mapFind k'' m := by
  induction m with
  | nil =>
    simp only [mapSet, mapFind]
    cases h1 : KeyOrd.lt k'' k
    · cases h2 : KeyOrd.lt k k''
      · exact absurd (h.tri _ _ h1 h2) hne
      · simp
    · simp
  | cons e m ih =>
    obtain ⟨k', v'⟩ := e
    simp only [mapSet]
    cases hkk : KeyOrd.lt k k'
    · cases hkk' : KeyOrd.lt k' k
      · have e := h.tri _ _ hkk hkk'
        subst e
        simp only [Bool.false_eq_true, if_false, mapFind]
        cases h1 : KeyOrd.lt k'' k
        · cases h2 : KeyOrd.lt k k''
          · exact absurd (h.tri _ _ h1 h2) hne
          · simp
        · simp
      · simp only [Bool.false_eq_true, if_false, if_true, mapFind, ih]
    · simp only [if_true, mapFind]
      cases h1 : KeyOrd.lt k'' k
      · cases h2 : KeyOrd.lt k k''
        · exact absurd (h.tri _ _ h1 h2) hne
        · simp
      · have := h.trans _ _ _ h1 hkk
        simp [this]

theorem mapFind_mem {κ V : Type} [KeyOrd κ] (h : KeyOrd.Lawful κ) (k : κ) (v : V)
    (m : List (κ × V)) : mapFind k m = some v → (k, v) ∈ m := by
  induction m with
  | nil => simp [mapFind]
  | cons e m ih =>
    obtain ⟨k', v'⟩ := e
    simp only [mapFind]
    cases h1 : KeyOrd.lt k k'
    · cases h2 : KeyOrd.lt k' k
      · have e := h.tri _ _ h1 h2
        subst e
        simp only [Bool.false_eq_true, if_false, Option.some.injEq]
        rintro rfl
        exact List.mem_cons_self _ _
      · simp only [Bool.false_eq_true, if_false, if_true]
        intro hf; exact List.mem_cons_of_mem _ (ih hf)
    · simp

theorem mapAt_mapSetInsert_self {κ α : Type} [KeyOrd κ] [KeyOrd α] (h : KeyOrd.Lawful κ)
    (k : κ) (x : α) (m : List (κ × List α)) :
    mapAt [] k (mapSetInsert k x m) = setInsert x (mapAt [] k m) := by
  simp [mapAt, mapSetInsert, mapFind_mapSet_self h]

theorem mapAt_mapSetInsert_ne {κ α : Type} [KeyOrd κ] [KeyOrd α] (h : KeyOrd.Lawful κ)
    (k k'' : κ) (x : α) (m : List (κ × List α)) (hne : k'' ≠ k) :
    mapAt [] k'' (mapSetInsert k x m) = mapAt [] k'' m := by
  simp [mapAt, mapSetInsert, mapFind_mapSet_ne h _ _ _ _ hne]

theorem mapFind_mapSetInsert_self {κ α : Type} [KeyOrd κ] [KeyOrd α] (h : KeyOrd.Lawful κ)
    (k : κ) (x : α) (m : List (κ × List α)) :
    mapFind k (mapSetInsert k x m) = some (setInsert x (mapAt [] k m)) := by
  simp [mapSetInsert, mapFind_mapSet_self h]

theorem mapFind_mapSetInsert_ne {κ α : Type} [KeyOrd κ] [KeyOrd α] (h : KeyOrd.Lawful κ)
    (k k'' : κ) (x : α) (m : List (κ × List α)) (hne : k'' ≠ k) :
    mapFind k'' (mapSetInsert k x m) = mapFind k'' m := by
  simp [mapSetInsert, mapFind_mapSet_ne h _ _ _ _ hne]

/-- Membership in `m[k]` after `m[k0].insert(x0)`. -/
theorem setCount_mapAt_mapSetInsert {κ α : Type} [KeyOrd κ] [KeyOrd α] (hk : KeyOrd.Lawful κ)
    (ha : KeyOrd.Lawful α) (k k0 : κ) (x x0 : α) (m : List (κ × List α)) :
    setCount x (mapAt [] k (mapSetInsert k0 x0 m)) = true ↔
      (k = k0 ∧ x = x0) ∨ setCount x (mapAt [] k m) = true := by
  by_cases hkk : k = k0
  · subst hkk
    rw [mapAt_mapSetInsert_self hk, setCount_setInsert ha]
    simp
  · rw [mapAt_mapSetInsert_ne hk _ _ _ _ hkk]
    simp [hkk]

/-- Every set `m[k]` stays strictly increasing under `m[k0].insert(x0)`. -/
theorem mapSetInsert_sorted {κ α : Type} [KeyOrd κ] [KeyOrd α] (hk : KeyOrd.Lawful κ)
    (ha : KeyOrd.Lawful α) (k0 : κ) (x0 : α) (m : List (κ × List α))
    (hs : ∀ k, SetSorted (mapAt [] k m)) : ∀ k, SetSorted (mapAt [] k (mapSetInsert k0 x0 m)) := by
  intro k
  by_cases hkk : k = k0
  · subst hkk
    rw [mapAt_mapSetInsert_self hk]
    exact setInsert_sorted ha _ _ (hs k)
  · rw [mapAt_mapSetInsert_ne hk _ _ _ _ hkk]
    exact hs k

/-! ## The stages of the resolver -/

theorem GenerateBcmChassisMapFromConfig_ok (k : Constants)
    (file : Except ErrorCode (List BcmChassisMap)) (config : ChassisConfig)
    (base target : BcmChassisMap)
    (h : GenerateBcmChassisMapFromConfig k file config = Except.ok (base, target)) :
    ∃ base0, ReadBaseBcmChassisMapFromFile file (config.bcm_chassis_map_id.getD "") =
        Except.ok base0 ∧
      (if base0.auto_add_slot then PopulateSlotFromPushedChassisConfig config base0
        else pure base0) = Except.ok base ∧
      generateTarget k base config = Except.ok target := by
  unfold GenerateBcmChassisMapFromConfig at h
  simp only [bind_ok_iff, pure_ok_iff] at h
  obtain ⟨base0, h0, b, hb, t, ht, he⟩ := h
  cases he
  exact ⟨base0, h0, hb, ht⟩

theorem generateTarget_ok (k : Constants) (base : BcmChassisMap) (config : ChassisConfig)
    (target : BcmChassisMap) (h : generateTarget k base config = Except.ok target) :
    ∃ chassis supported nodeMap st chips ports ports',
      config.chassis = some chassis ∧ chassis.platform ≠ Platform.PLT_UNKNOWN ∧
      supportedChipTypes chassis.platform = Except.ok supported ∧
      validateNodes [] config.nodes = Except.ok nodeMap ∧
      singletonPortLoop k base.bcm_ports { node_id_to_unit := nodeMap } config.singleton_ports =
        Except.ok st ∧
      addBcmChips supported base.bcm_chips [] st.node_id_to_unit = Except.ok chips ∧
      validateInternalPorts st.slot_port_to_internal = Except.ok () ∧
      validateSpeedAndChannels st.slot_port_to_channels st.slot_port_to_speed_bps =
        Except.ok () ∧
      addFlexPorts base.bcm_chips base.bcm_ports st.bcm_ports st.flex_slot_port_pairs =
        Except.ok ports ∧
      checkMaxNumPorts k (unitToSlotPortChannels ports) (unitToChipType chips) = Except.ok () ∧
      (if base.auto_add_logical_ports then autoAddLogicalPorts (unitToSlotPortChannels ports) ports
        else pure ports) = Except.ok ports' ∧
      postValidatePorts { unit_to_logical_ports := cmicLogicalPorts chips } ports' =
        Except.ok () ∧
      target = { id := base.id
                 auto_add_logical_ports := base.auto_add_logical_ports
                 auto_add_slot := base.auto_add_slot
                 bcm_chassis := base.bcm_chassis
                 bcm_chips := chips
                 bcm_ports := ports' } := by
  unfold generateTarget at h
  simp only [bind_ok_iff, pure_ok_iff] at h
  obtain ⟨_, hc, sup, hsup, nm, hnm, st, hst, chips, hchips, _, hint, _, hsc, ports, hports,
    _, hmax, ports', hports', _, hpost, ht⟩ := h
  rw [CHECK_ok_iff] at hc
  cases hch : config.chassis with
  | none => simp [hch] at hc
  | some chassis =>
    simp only [hch, Option.map_some', Option.getD_some, Option.isSome_some, Bool.true_and,
      bne_iff_ne, ne_eq] at hc hsup
    exact ⟨chassis, sup, nm, st, chips, ports, ports', rfl, hc, hsup, hnm, hst, hchips, hint,
      hsc, hports, hmax, hports', hpost, ht.symm⟩

theorem singletonPortStep_ok (k : Constants) (bp : List BcmPort) (st : PortLoopState)
    (s : SingletonPort) (st' : PortLoopState)
    (h : singletonPortStep k bp st s = Except.ok st') : ∃ b, StepSpec k bp st s st' b := by
  unfold singletonPortStep at h
  simp only [bind_ok_iff, CHECK_ok_iff] at h
  obtain ⟨_, h1, _, h2, _, h3, _, h4, _, h5, _, h6, _, h7, _, h8, _, h9, h⟩ := h
  cases hf : bp.find? (IsSingletonPortMatchesBcmPort s) with
  | none => simp [hf] at h
  | some b =>
    simp only [hf, bind_ok_iff, pure_ok_iff] at h
    obtain ⟨flex, hflex, nu, hnu, hst⟩ := h
    subst hst
    refine ⟨b, ?_⟩
    constructor
    · simpa using h1
    · simpa using h2
    · simpa using h3
    · simpa using h4
    · simpa using h5
    · simpa using h6
    · simpa using h7
    · simpa using h8
    · simpa using h9
    · exact hf
    · cases hb : b.flex_port
      · simp only [hb, Bool.false_eq_true, if_false, bind_ok_iff, CHECK_ok_iff, pure_ok_iff] at hflex
        obtain ⟨_, hc, rfl⟩ := hflex
        right
        exact ⟨rfl, by simpa using hc, rfl, rfl⟩
      · simp only [hb, if_true, pure_ok_iff] at hflex
        subst hflex
        left
        exact ⟨rfl, rfl, rfl⟩
    · by_cases hm : mapAt 0 s.node st.node_id_to_unit = -1
      · left
        simp only [hm, beq_self_eq_true, if_true, pure_ok_iff] at hnu
        exact ⟨hm, hnu.symm⟩
      · right
        have : (mapAt 0 s.node st.node_id_to_unit == -1) = false := by simpa using hm
        simp only [this, Bool.false_eq_true, if_false, bind_ok_iff, CHECK_ok_iff, pure_ok_iff] at hnu
        obtain ⟨_, hc, rfl⟩ := hnu
        exact ⟨hm, by simpa using hc, rfl⟩
    · rfl
    · rfl
    · rfl
    · rfl
    · rfl

/-- Induction over the loop over the singleton ports: a property of the ports handled so far
and the loop state that every successful iteration keeps holds at the end of the loop. -/
theorem singletonPortLoop_induction (k : Constants) (bp : List BcmPort)
    (P : List SingletonPort → PortLoopState → Prop)
    (hstep : ∀ done st s st', P done st → singletonPortStep k bp st s = Except.ok st' →
      P (done ++ [s]) st') :
    ∀ (ports done : List SingletonPort) (st st' : PortLoopState), P done st →
      singletonPortLoop k bp st ports = Except.ok st' → P (done ++ ports) st' := by
  intro ports
  induction ports with
  | nil =>
    intro done st st' hP h
    simp only [singletonPortLoop, pure_ok_iff] at h
    subst h
    simpa using hP
  | cons s rest ih =>
    intro done st st' hP h
    simp only [singletonPortLoop, bind_ok_iff] at h
    obtain ⟨st1, h1, h2⟩ := h
    have := ih (done ++ [s]) st1 st' (hstep done st s st1 hP h1) h2
    simpa using this

theorem error_of_not_ok {ε α : Type} (x : Except ε α) (h : ∀ a, x ≠ Except.ok a) :
    ∃ e, x = Except.error e := by
  cases x with
  | error e => exact ⟨e, rfl⟩
  | ok a => exact absurd rfl (h a)

/-- After the loop over the singleton ports every port id is positive, differs from the CPU
port id, is recorded in `port_ids`, and no id occurs twice. -/
theorem singletonPortLoop_ids (k : Constants) (bp : List BcmPort) (ports : List SingletonPort)
    (st st' : PortLoopState)
    (h : singletonPortLoop k bp st ports = Except.ok st') :
    (∀ s ∈ ports, 0 < s.id ∧ s.id ≠ k.kCpuPortId) ∧ (ports.map (fun s => s.id)).Nodup := by
  have key := singletonPortLoop_induction k bp
    (fun done st => (∀ s ∈ done, 0 < s.id ∧ s.id ≠ k.kCpuPortId ∧
      setCount s.id st.port_ids = true) ∧ (done.map (fun s => s.id)).Nodup)
    (by
      intro done st s st' ⟨hall, hnd⟩ hstep
      obtain ⟨b, hb⟩ := singletonPortStep_ok k bp st s st' hstep
      constructor
      · intro s' hs'
        rcases List.mem_append.1 hs' with hs' | hs'
        · obtain ⟨h1, h2, h3⟩ := hall s' hs'
          refine ⟨h1, h2, ?_⟩
          rw [hb.port_ids, setCount_setInsert lawful_nat]
          exact Or.inr h3
        · simp only [List.mem_singleton] at hs'
          subst hs'
          refine ⟨hb.id_pos, hb.id_ne_cpu, ?_⟩
          rw [hb.port_ids]
          exact setCount_setInsert_self lawful_nat _ _
      · rw [List.map_append, List.nodup_append]
        refine ⟨hnd, by simp, ?_⟩
        intro a ha ha'
        simp only [List.map_cons, List.map_nil, List.mem_singleton] at ha'
        subst ha'
        obtain ⟨s', hs', he⟩ := List.mem_map.1 ha
        have := (hall s' hs').2.2
        rw [he, hb.id_fresh] at this
        cases this)
    ports [] st st' (by simp) h
  simp only [List.nil_append] at key
  exact ⟨fun s hs => ⟨(key.1 s hs).1, (key.1 s hs).2.1⟩, key.2⟩

/-- C7: the resolver returns an error for every config in which some singleton port has id 0,
has the reserved CPU port id, or shares its id with another singleton port; so does
`PushChassisConfig` of such a config on an uninitialized manager. -/
theorem C7_bad_port_id_rejected (k : Constants) (mode_ : OperationMode)
    (serdesLoad : Except ErrorCode Unit) (file : Except ErrorCode (List BcmChassisMap))
    (coldboot : BcmChassisMap → BcmChassisMap → Except ErrorCode Unit)
    (resync : Except ErrorCode Unit) (config : ChassisConfig)
    (hbad : (∃ s ∈ config.singleton_ports, s.id = 0 ∨ s.id = k.kCpuPortId) ∨
      ¬ (config.singleton_ports.map (fun s => s.id)).Nodup) :
    (∃ e, GenerateBcmChassisMapFromConfig k file config = Except.error e) ∧
    (∃ e, PushChassisConfig k mode_ false serdesLoad file coldboot resync config =
      Except.error e) := by
  have hgen : ∃ e, GenerateBcmChassisMapFromConfig k file config = Except.error e := by
    apply error_of_not_ok
    rintro ⟨base, target⟩ hok
    obtain ⟨base0, _, _, ht⟩ := GenerateBcmChassisMapFromConfig_ok k file config base target hok
    obtain ⟨chassis, sup, nm, st, chips, ports, ports', _, _, _, _, hloop, _⟩ :=
      generateTarget_ok k base config target ht
    have hids := singletonPortLoop_ids k base.bcm_ports config.singleton_ports _ st hloop
    rcases hbad with ⟨s, hs, h0 | hcpu⟩ | hdup
    · have := (hids.1 s hs).1
      omega
    · exact (hids.1 s hs).2 hcpu
    · exact hdup hids.2
  refine ⟨hgen, ?_⟩
  obtain ⟨e, he⟩ := hgen
  unfold PushChassisConfig
  simp only [Bool.not_false, if_true, he]
  cases hl : (if (mode_ == OperationMode.OPERATION_MODE_STANDALONE) = true then serdesLoad
      else pure ()) with
  | error e' => exact ⟨e', rfl⟩
  | ok u => exact ⟨e, rfl⟩

/-- Witness for C7: Scenario A with a second singleton port that repeats the id 1. -/
theorem C7_bad_port_id_rejected_witness :
    ((∃ s ∈ duplicateIdConfig.singleton_ports, s.id = 0 ∨ s.id = exampleConstants.kCpuPortId) ∨
      ¬ (duplicateIdConfig.singleton_ports.map (fun s => s.id)).Nodup) ∧
    (∃ e, GenerateBcmChassisMapFromConfig exampleConstants (Except.ok [scenarioABase])
      duplicateIdConfig = Except.error e) ∧
    (∃ e, PushChassisConfig exampleConstants OperationMode.OPERATION_MODE_STANDALONE false
      (Except.ok ()) (Except.ok [scenarioABase]) (fun _ _ => Except.ok ()) (Except.ok ())
      duplicateIdConfig = Except.error e) :=
  ⟨Or.inr (by decide),
    C7_bad_port_id_rejected exampleConstants OperationMode.OPERATION_MODE_STANDALONE
      (Except.ok ()) (Except.ok [scenarioABase]) (fun _ _ => Except.ok ()) (Except.ok ())
      duplicateIdConfig (Or.inr (by decide))⟩

theorem mapAt_of_mapFind {κ V : Type} [KeyOrd κ] (d : V) (k : κ) (m : List (κ × V)) (v : V)
    (h : mapFind k m = some v) : mapAt d k m = v := by
  simp [mapAt, h]

theorem setCount_iff_mem {α : Type} [KeyOrd α] (h : KeyOrd.Lawful α) (x : α) (l : List α)
    (hs : SetSorted l) : setCount x l = true ↔ x ∈ l :=
  ⟨setCount_mem h x l, setCount_of_mem h x l hs⟩

/-- After the loop over the singleton ports, `slot_port_to_speed_bps` has an entry for the
`(slot, port)` pair of every port, and the entry holds the speed of the port. -/
theorem singletonPortLoop_speeds (k : Constants) (bp : List BcmPort)
    (ports : List SingletonPort) (st st' : PortLoopState)
    (h : singletonPortLoop k bp st ports = Except.ok st') :
    ∀ s ∈ ports, ∃ l, mapFind (s.slot, s.port) st'.slot_port_to_speed_bps = some l ∧
      setCount s.speed_bps l = true := by
  have key := singletonPortLoop_induction k bp
    (fun done st => ∀ s ∈ done, ∃ l, mapFind (s.slot, s.port) st.slot_port_to_speed_bps = some l ∧
      setCount s.speed_bps l = true)
    (by
      intro done st s st' hall hstep
      obtain ⟨b, hb⟩ := singletonPortStep_ok k bp st s st' hstep
      intro s' hs'
      rw [hb.speeds]
      rcases List.mem_append.1 hs' with hs' | hs'
      · obtain ⟨l, hl, hc⟩ := hall s' hs'
        by_cases hp : (s'.slot, s'.port) = (s.slot, s.port)
        · rw [hp, mapFind_mapSetInsert_self lawful_pair]
          refine ⟨_, rfl, ?_⟩
          rw [setCount_setInsert lawful_nat]
          right
          rw [hp] at hl
          rw [mapAt_of_mapFind _ _ _ _ hl]
          exact hc
        · rw [mapFind_mapSetInsert_ne lawful_pair _ _ _ _ hp]
          exact ⟨l, hl, hc⟩
      · simp only [List.mem_singleton] at hs'
        subst hs'
        rw [mapFind_mapSetInsert_self lawful_pair]
        exact ⟨_, rfl, setCount_setInsert_self lawful_nat _ _⟩)
    ports [] st st' (by simp) h
  simpa using key

/-- After the loop over the singleton ports, started with an empty `slot_port_to_channels`,
the set recorded for a `(slot, port)` pair holds exactly the channels of the ports at it. -/
theorem singletonPortLoop_channels (k : Constants) (bp : List BcmPort)
    (ports : List SingletonPort) (st st' : PortLoopState) (hst : st.slot_port_to_channels = [])
    (h : singletonPortLoop k bp st ports = Except.ok st') :
    ∀ (pair : Int × Int) (c : Int),
      setCount c (mapAt [] pair st'.slot_port_to_channels) = true ↔
        ∃ s ∈ ports, (s.slot, s.port) = pair ∧ s.channel = c := by
  have key := singletonPortLoop_induction k bp
    (fun done st => ∀ (pair : Int × Int) (c : Int),
      setCount c (mapAt [] pair st.slot_port_to_channels) = true ↔
        ∃ s ∈ done, (s.slot, s.port) = pair ∧ s.channel = c)
    (by
      intro done st s st' hall hstep
      obtain ⟨b, hb⟩ := singletonPortStep_ok k bp st s st' hstep
      intro pair c
      rw [hb.channels, setCount_mapAt_mapSetInsert lawful_pair lawful_int, hall pair c]
      constructor
      · rintro (⟨rfl, rfl⟩ | ⟨s', hs', he⟩)
        · exact ⟨s, by simp, rfl, rfl⟩
        · exact ⟨s', by simp [hs'], he⟩
      · rintro ⟨s', hs', he1, he2⟩
        rcases List.mem_append.1 hs' with hs' | hs'
        · exact Or.inr ⟨s', hs', he1, he2⟩
        · simp only [List.mem_singleton] at hs'
          subst hs'
          exact Or.inl ⟨he1.symm, he2.symm⟩)
    ports [] st st' (by intro pair c; simp [hst, mapAt, mapFind, setCount]) h
  simpa using key

/-- A successful run of the loop that validates speeds and channels checked every entry. -/
theorem validateSpeedAndChannels_ok (channels : List ((Int × Int) × List Int))
    (speeds : List ((Int × Int) × List Nat))
    (h : validateSpeedAndChannels channels speeds = Except.ok ()) :
    ∀ e ∈ speeds, ∃ v chs, e.2 = [v] ∧ speed_bps_to_expected_channels v = some chs ∧
      mapAt [] e.1 channels = chs := by
  induction speeds with
  | nil => simp
  | cons e rest ih =>
    obtain ⟨pair, l⟩ := e
    simp only [validateSpeedAndChannels] at h
    split at h
    · rename_i v
      split at h
      · cases h
      · rename_i chs hchs
        simp only [bind_ok_iff, CHECK_ok_iff] at h
        obtain ⟨_, hc, hrest⟩ := h
        intro e' he'
        rcases List.mem_cons.1 he' with rfl | he'
        · exact ⟨v, chs, rfl, hchs, by simpa using hc⟩
        · exact ih hrest e' he'
    · cases h

theorem speed_bps_to_expected_channels_some (v : Nat) (chs : List Int)
    (h : speed_bps_to_expected_channels v = some chs) :
    ((v = kHundredGigBps ∨ v = kFortyGigBps) ∧ chs = [0]) ∨
    ((v = kFiftyGigBps ∨ v = kTwentyGigBps) ∧ chs = [1, 2]) ∨
    ((v = kTwentyFiveGigBps ∨ v = kTenGigBps) ∧ chs = [1, 2, 3, 4]) := by
  unfold speed_bps_to_expected_channels at h
  split_ifs at h with h1 h2 h3 h4 h5 h6 <;> simp only [Option.some.injEq] at h <;>
    subst h <;> simp [*]

/-- C1: the resolver succeeds only if, for the `(slot, port)` pair of every singleton port of
the config, all singleton ports of the pair have one common speed and the channels present
at the pair are exactly those required for the speed: {0} for 100G and 40G, {1, 2} for 50G
and 20G, {1, 2, 3, 4} for 25G and 10G. -/
theorem C1_speed_and_channels (k : Constants) (file : Except ErrorCode (List BcmChassisMap))
    (config : ChassisConfig) (base target : BcmChassisMap)
    (h : GenerateBcmChassisMapFromConfig k file config = Except.ok (base, target)) :
    ∀ s ∈ config.singleton_ports,
      (∀ s' ∈ config.singleton_ports, s'.slot = s.slot → s'.port = s.port →
        s'.speed_bps = s.speed_bps) ∧
      (((s.speed_bps = kHundredGigBps ∨ s.speed_bps = kFortyGigBps) ∧
          ∀ c : Int, (∃ s' ∈ config.singleton_ports,
            s'.slot = s.slot ∧ s'.port = s.port ∧ s'.channel = c) ↔ c = 0) ∨
       ((s.speed_bps = kFiftyGigBps ∨ s.speed_bps = kTwentyGigBps) ∧
          ∀ c : Int, (∃ s' ∈ config.singleton_ports,
            s'.slot = s.slot ∧ s'.port = s.port ∧ s'.channel = c) ↔ c = 1 ∨ c = 2) ∨
       ((s.speed_bps = kTwentyFiveGigBps ∨ s.speed_bps = kTenGigBps) ∧
          ∀ c : Int, (∃ s' ∈ config.singleton_ports,
            s'.slot = s.slot ∧ s'.port = s.port ∧ s'.channel = c) ↔
              c = 1 ∨ c = 2 ∨ c = 3 ∨ c = 4)) := by
  obtain ⟨base0, _, _, ht⟩ := GenerateBcmChassisMapFromConfig_ok k file config base target h
  obtain ⟨chassis, sup, nm, st, chips, ports, ports', _, _, _, _, hloop, _, _, hsc, _⟩ :=
    generateTarget_ok k base config target ht
  have hsp := singletonPortLoop_speeds k base.bcm_ports config.singleton_ports _ st hloop
  have hch := singletonPortLoop_channels k base.bcm_ports config.singleton_ports _ st rfl hloop
  have hval := validateSpeedAndChannels_ok _ _ hsc
  intro s hs
  obtain ⟨l, hl, hc⟩ := hsp s hs
  obtain ⟨v, chs, hv, hexp, hchs⟩ := hval _ (mapFind_mem lawful_pair _ _ _ hl)
  simp only at hv hchs
  subst hv
  have hspeed : ∀ s' ∈ config.singleton_ports, s'.slot = s.slot → s'.port = s.port →
      s'.speed_bps = v := by
    intro s' hs' e1 e2
    obtain ⟨l', hl', hc'⟩ := hsp s' hs'
    rw [e1, e2, hl] at hl'
    cases hl'
    simpa using setCount_mem lawful_nat _ _ hc'
  have hsv : s.speed_bps = v := hspeed s hs rfl rfl
  refine ⟨fun s' hs' e1 e2 => by rw [hsv]; exact hspeed s' hs' e1 e2, ?_⟩
  have hchan : ∀ c : Int, (∃ s' ∈ config.singleton_ports,
      s'.slot = s.slot ∧ s'.port = s.port ∧ s'.channel = c) ↔ setCount c chs = true := by
    intro c
    rw [← hchs, hch (s.slot, s.port) c]
    constructor
    · rintro ⟨s', hs', e1, e2, e3⟩
      exact ⟨s', hs', by rw [e1, e2], e3⟩
    · rintro ⟨s', hs', e1, e3⟩
      simp only [Prod.mk.injEq] at e1
      exact ⟨s', hs', e1.1, e1.2, e3⟩
  rw [hsv]
  rcases speed_bps_to_expected_channels_some v chs hexp with ⟨hv, rfl⟩ | ⟨hv, rfl⟩ | ⟨hv, rfl⟩
  · left
    refine ⟨hv, fun c => ?_⟩
    rw [hchan c, setCount_iff_mem lawful_int _ _ (by unfold SetSorted; decide)]
    simp
  · right; left
    refine ⟨hv, fun c => ?_⟩
    rw [hchan c, setCount_iff_mem lawful_int _ _ (by unfold SetSorted; decide)]
    simp
  · right; right
    refine ⟨hv, fun c => ?_⟩
    rw [hchan c, setCount_iff_mem lawful_int _ _ (by unfold SetSorted; decide)]
    simp

/-- Witness for C1: Scenario C, four 25G channels of one port. -/
theorem C1_speed_and_channels_witness :
    GenerateBcmChassisMapFromConfig exampleConstants (Except.ok [scenarioCBase])
        scenarioCConfig = Except.ok (scenarioCBase, scenarioCTarget) ∧
    (∀ s ∈ scenarioCConfig.singleton_ports,
      (∀ s' ∈ scenarioCConfig.singleton_ports, s'.slot = s.slot → s'.port = s.port →
        s'.speed_bps = s.speed_bps) ∧
      (((s.speed_bps = kHundredGigBps ∨ s.speed_bps = kFortyGigBps) ∧
          ∀ c : Int, (∃ s' ∈ scenarioCConfig.singleton_ports,
            s'.slot = s.slot ∧ s'.port = s.port ∧ s'.channel = c) ↔ c = 0) ∨
       ((s.speed_bps = kFiftyGigBps ∨ s.speed_bps = kTwentyGigBps) ∧
          ∀ c : Int, (∃ s' ∈ scenarioCConfig.singleton_ports,
            s'.slot = s.slot ∧ s'.port = s.port ∧ s'.channel = c) ↔ c = 1 ∨ c = 2) ∨
       ((s.speed_bps = kTwentyFiveGigBps ∨ s.speed_bps = kTenGigBps) ∧
          ∀ c : Int, (∃ s' ∈ scenarioCConfig.singleton_ports,
            s'.slot = s.slot ∧ s'.port = s.port ∧ s'.channel = c) ↔
              c = 1 ∨ c = 2 ∨ c = 3 ∨ c = 4))) :=
  ⟨by rfl, C1_speed_and_channels exampleConstants (Except.ok [scenarioCBase]) scenarioCConfig scenarioCBase
      scenarioCTarget (by rfl)⟩

theorem IsSingletonPortMatchesBcmPort_iff (s : SingletonPort) (b : BcmPort) :
    IsSingletonPortMatchesBcmPort s b = true ↔
      (b.type = BcmPortType.XE ∨ b.type = BcmPortType.CE) ∧ s.slot = b.slot ∧ s.port = b.port ∧
        s.channel = b.channel ∧ s.speed_bps = b.speed_bps := by
  unfold IsSingletonPortMatchesBcmPort
  cases hb : b.type <;> simp [and_assoc]

/-- The first base port that matches a singleton port is a base port that matches it. -/
theorem find_match_some (bp : List BcmPort) (s : SingletonPort) (b : BcmPort)
    (h : bp.find? (IsSingletonPortMatchesBcmPort s) = some b) :
    b ∈ bp ∧ (b.type = BcmPortType.XE ∨ b.type = BcmPortType.CE) ∧ s.slot = b.slot ∧
      s.port = b.port ∧ s.channel = b.channel ∧ s.speed_bps = b.speed_bps :=
  ⟨List.mem_of_find?_eq_some h, (IsSingletonPortMatchesBcmPort_iff s b).1 (List.find?_some h)⟩

/-- The ports that the loop over the singleton ports adds to the target map are the first
matches of the singleton ports that are not flex, in the order of the config. -/
theorem singletonPortLoop_ports (k : Constants) (bp : List BcmPort)
    (ports : List SingletonPort) (st st' : PortLoopState)
    (h : singletonPortLoop k bp st ports = Except.ok st') :
    st'.bcm_ports = st.bcm_ports ++ ports.filterMap (fun s =>
      (bp.find? (IsSingletonPortMatchesBcmPort s)).filter (fun b => !b.flex_port)) := by
  induction ports generalizing st with
  | nil =>
    simp only [singletonPortLoop, pure_ok_iff] at h
    subst h
    simp
  | cons s rest ih =>
    simp only [singletonPortLoop, bind_ok_iff] at h
    obtain ⟨st1, h1, h2⟩ := h
    obtain ⟨b, hb⟩ := singletonPortStep_ok k bp st s st1 h1
    rw [ih st1 h2]
    rcases hb.flex with ⟨hf, _, hp⟩ | ⟨hf, _, _, hp⟩
    · rw [hp, List.filterMap_cons]
      simp [hb.found, Option.filter, hf]
    · rw [hp, List.filterMap_cons]
      simp [hb.found, Option.filter, hf]

/-- A successful run of the loop that adds the chips: the chips added are, in the order of
`node_id_to_unit`, the first base chip of every non-negative unit in it, all of supported
type. -/
theorem addBcmChips_ok (sup : List BcmChipType) (bc : List BcmChip) (m : List (Nat × Int))
    (acc res : List BcmChip) (h : addBcmChips sup bc acc m = Except.ok res) :
    ∃ new, res = acc ++ new ∧
      List.Forall₂ (fun (e : Nat × Int) c =>
        bc.find? (fun bcm_chip => e.2 == bcm_chip.unit) = some c ∧ sup.contains c.type = true)
        (m.filter (fun e => decide (0 ≤ e.2))) new := by
  induction m generalizing acc with
  | nil =>
    simp only [addBcmChips, pure_ok_iff] at h
    subst h
    exact ⟨[], by simp, by simp⟩
  | cons e rest ih =>
    obtain ⟨n, u⟩ := e
    simp only [addBcmChips] at h
    by_cases hu : u < 0
    · simp only [hu, if_true] at h
      obtain ⟨new, hres, hall⟩ := ih acc h
      refine ⟨new, hres, ?_⟩
      have : ¬ (0 ≤ u) := by omega
      simpa [List.filter_cons, this] using hall
    · simp only [hu, if_false] at h
      cases hf : bc.find? (fun bcm_chip => u == bcm_chip.unit) with
      | none => simp [hf] at h
      | some c =>
        simp only [hf, bind_ok_iff, CHECK_ok_iff] at h
        obtain ⟨_, hc, hrest⟩ := h
        obtain ⟨new, hres, hall⟩ := ih (acc ++ [c]) hrest
        refine ⟨c :: new, by simp [hres], ?_⟩
        have : 0 ≤ u := by omega
        simp only [List.filter_cons, this, decide_True, if_true]
        exact List.Forall₂.cons ⟨hf, hc⟩ hall

/-- A successful run of the loop over the channels of a flex pair: one port is added per
channel, the first base port that matches the pair, the channel and the minimum speed. -/
theorem addFlexChannels_ok (bp : List BcmPort) (pair : Int × Int) (v : Nat)
    (chans : List Int) (acc res : List BcmPort)
    (h : addFlexChannels bp pair v acc chans = Except.ok res) :
    ∃ new, res = acc ++ new ∧
      List.Forall₂ (fun c p =>
        bp.find? (IsSingletonPortMatchesBcmPort
          { slot := pair.1, port := pair.2, channel := c, speed_bps := v }) = some p)
        chans new := by
  induction chans generalizing acc with
  | nil =>
    simp only [addFlexChannels, pure_ok_iff] at h
    subst h
    exact ⟨[], by simp, by simp⟩
  | cons c rest ih =>
    simp only [addFlexChannels] at h
    cases hf : bp.find? (IsSingletonPortMatchesBcmPort
        { slot := pair.1, port := pair.2, channel := c, speed_bps := v }) with
    | none => simp [hf] at h
    | some p =>
      simp only [hf] at h
      obtain ⟨new, hres, hall⟩ := ih (acc ++ [p]) h
      exact ⟨p :: new, by simp [hres], List.Forall₂.cons hf hall⟩

/-- A successful run of the loop over the flex pairs: for every pair, in order, a group of
four ports is added, for the channels 1, 2, 3, 4 at the minimum speed of the chip type of
the one unit that hosts the base ports of the pair. -/
theorem addFlexPorts_ok (bc : List BcmChip) (bp : List BcmPort) (pairs : List (Int × Int))
    (acc res : List BcmPort) (h : addFlexPorts bc bp acc pairs = Except.ok res) :
    ∃ groups : List (List BcmPort), res = acc ++ groups.flatten ∧
      List.Forall₂ (fun (pair : Int × Int) g => ∃ unit v,
        flexUnits bp pair = [unit] ∧ flexMinSpeedBps (flexChipType bc unit) = Except.ok v ∧
        List.Forall₂ (fun c p =>
          bp.find? (IsSingletonPortMatchesBcmPort
            { slot := pair.1, port := pair.2, channel := c, speed_bps := v }) = some p)
          [1, 2, 3, 4] g) pairs groups := by
  induction pairs generalizing acc with
  | nil =>
    simp only [addFlexPorts, pure_ok_iff] at h
    subst h
    exact ⟨[], by simp, by simp⟩
  | cons pair rest ih =>
    simp only [addFlexPorts] at h
    split at h
    · rename_i unit hunits
      simp only [bind_ok_iff] at h
      obtain ⟨v, hv, acc', hacc', hrest⟩ := h
      obtain ⟨g, hg, hgall⟩ := addFlexChannels_ok bp pair v _ acc acc' hacc'
      obtain ⟨groups, hres, hall⟩ := ih acc' hrest
      refine ⟨g :: groups, by simp [hres, hg], ?_⟩
      exact List.Forall₂.cons ⟨unit, v, hunits, hv, hgall⟩ hall
    · cases h

/-- A successful run of the loop that rewrites the logical ports: every port keeps all its
fields but `logical_port`, which becomes one more than the index of the port's
`(slot, port, channel)` in the set of its unit. -/
theorem autoAddLogicalPorts_ok (u2spc : List (Int × List (Int × Int × Int)))
    (ports ports' : List BcmPort) (h : autoAddLogicalPorts u2spc ports = Except.ok ports') :
    List.Forall₂ (fun p p' => ∃ idx : Nat,
      setIndex (p.slot, p.port, p.channel) (mapAt [] p.unit u2spc) = some idx ∧
      p' = { p with logical_port := (idx : Int) + 1 }) ports ports' := by
  induction ports generalizing ports' with
  | nil =>
    simp only [autoAddLogicalPorts, pure_ok_iff] at h
    subst h
    exact List.Forall₂.nil
  | cons p rest ih =>
    simp only [autoAddLogicalPorts] at h
    cases hi : setIndex (p.slot, p.port, p.channel) (mapAt [] p.unit u2spc) with
    | none => simp [hi] at h
    | some idx =>
      simp only [hi, bind_ok_iff, pure_ok_iff] at h
      obtain ⟨rest', hrest, rfl⟩ := h
      exact List.Forall₂.cons ⟨idx, hi, rfl⟩ (ih rest' hrest)

theorem forall₂_mem_right {α β : Type} {R : α → β → Prop} {l₁ : List α} {l₂ : List β}
    (h : List.Forall₂ R l₁ l₂) (b : β) (hb : b ∈ l₂) : ∃ a ∈ l₁, R a b := by
  induction h with
  | nil => cases hb
  | cons hr _ ih =>
    rcases List.mem_cons.1 hb with rfl | hb
    · exact ⟨_, List.mem_cons_self _ _, hr⟩
    · obtain ⟨a, ha, hr'⟩ := ih hb
      exact ⟨a, List.mem_cons_of_mem _ ha, hr'⟩

theorem forall₂_mem_left {α β : Type} {R : α → β → Prop} {l₁ : List α} {l₂ : List β}
    (h : List.Forall₂ R l₁ l₂) (a : α) (ha : a ∈ l₁) : ∃ b ∈ l₂, R a b := by
  induction h with
  | nil => cases ha
  | cons hr _ ih =>
    rcases List.mem_cons.1 ha with rfl | ha
    · exact ⟨_, List.mem_cons_self _ _, hr⟩
    · obtain ⟨b, hb, hr'⟩ := ih ha
      exact ⟨b, List.mem_cons_of_mem _ hb, hr'⟩

theorem setCount_foldl_setInsert {α β : Type} [KeyOrd α] (h : KeyOrd.Lawful α) (f : β → α)
    (l : List β) (init : List α) (x : α) :
    setCount x (l.foldl (fun acc a => setInsert (f a) acc) init) = true ↔
      setCount x init = true ∨ ∃ a ∈ l, f a = x := by
  induction l generalizing init with
  | nil => simp
  | cons a rest ih =>
    rw [List.foldl_cons, ih, setCount_setInsert h]
    constructor
    · rintro ((rfl | hc) | ⟨a', ha', he⟩)
      · exact Or.inr ⟨a, by simp, rfl⟩
      · exact Or.inl hc
      · exact Or.inr ⟨a', by simp [ha'], he⟩
    · rintro (hc | ⟨a', ha', he⟩)
      · exact Or.inl (Or.inr hc)
      · rcases List.mem_cons.1 ha' with rfl | ha'
        · exact Or.inl (Or.inl he.symm)
        · exact Or.inr ⟨a', ha', he⟩

/-- A successful `PopulateSlotFromPushedChassisConfig`: the nodes and singleton ports of the
config, of which there is at least one, all have one slot, and the base map gets that slot
on every chip and port and is otherwise unchanged. -/
theorem PopulateSlotFromPushedChassisConfig_ok (config : ChassisConfig)
    (base0 base : BcmChassisMap)
    (h : PopulateSlotFromPushedChassisConfig config base0 = Except.ok base) :
    ∃ slot : Int, (∀ n ∈ config.nodes, n.slot = slot) ∧
      (∀ p ∈ config.singleton_ports, p.slot = slot) ∧
      (config.nodes ≠ [] ∨ config.singleton_ports ≠ []) ∧
      base = { base0 with
        bcm_chips := base0.bcm_chips.map (fun c => { c with slot := slot })
        bcm_ports := base0.bcm_ports.map (fun p => { p with slot := slot }) } := by
  unfold PopulateSlotFromPushedChassisConfig at h
  simp only at h
  split at h
  · rename_i slot hslots
    simp only [pure_ok_iff] at h
    have hmem : ∀ x : Int, ((∃ n ∈ config.nodes, n.slot = x) ∨
        ∃ p ∈ config.singleton_ports, p.slot = x) → x = slot := by
      intro x hx
      have : setCount x [slot] = true := by
        rw [← hslots, setCount_foldl_setInsert lawful_int, setCount_foldl_setInsert lawful_int]
        rcases hx with hx | hx
        · exact Or.inl (Or.inr hx)
        · exact Or.inr hx
      simpa using setCount_mem lawful_int _ _ this
    refine ⟨slot, fun n hn => hmem _ (Or.inl ⟨n, hn, rfl⟩),
      fun p hp => hmem _ (Or.inr ⟨p, hp, rfl⟩), ?_, h.symm⟩
    by_contra hne
    simp only [not_or, not_not] at hne
    rw [hne.1, hne.2] at hslots
    simp at hslots
  · cases h

/-- Every chip of the target map is a chip of the base map, and every port of the target
map is a port of the base map, up to `logical_port` when `auto_add_logical_ports` is set. -/
theorem generateTarget_subset (k : Constants) (base : BcmChassisMap) (config : ChassisConfig)
    (target : BcmChassisMap) (h : generateTarget k base config = Except.ok target) :
    (∀ c ∈ target.bcm_chips, c ∈ base.bcm_chips) ∧
    (∀ p ∈ target.bcm_ports, ∃ b ∈ base.bcm_ports,
      p = b ∨ (base.auto_add_logical_ports = true ∧
        ∃ l : Int, p = { b with logical_port := l })) := by
  obtain ⟨chassis, sup, nm, st, chips, ports, ports', _, _, _, _, hloop, hchips, _, _, hflex, _,
    hauto, _, rfl⟩ := generateTarget_ok k base config target h
  obtain ⟨new, hnew, hall⟩ := addBcmChips_ok _ _ _ _ _ hchips
  obtain ⟨groups, hgr, hgall⟩ := addFlexPorts_ok _ _ _ _ _ hflex
  have hports : ∀ p ∈ ports, p ∈ base.bcm_ports := by
    intro p hp
    rw [hgr, singletonPortLoop_ports k _ _ _ _ hloop] at hp
    simp only [List.nil_append, List.mem_append, List.mem_filterMap, List.mem_flatten] at hp
    rcases hp with ⟨s, _, hs⟩ | ⟨g, hg, hpg⟩
    · cases hf : base.bcm_ports.find? (IsSingletonPortMatchesBcmPort s) with
      | none => simp [hf, Option.filter] at hs
      | some b =>
        simp only [hf, Option.filter] at hs
        split at hs
        · cases hs; exact (find_match_some _ _ _ hf).1
        · cases hs
    · obtain ⟨pair, _, unit, v, _, _, hch⟩ := forall₂_mem_right hgall g hg
      obtain ⟨c, _, hf⟩ := forall₂_mem_right hch p hpg
      exact (find_match_some _ _ _ hf).1
  constructor
  · intro c hc
    simp only [hnew, List.nil_append] at hc
    obtain ⟨e, _, hf, _⟩ := forall₂_mem_right hall c hc
    exact List.mem_of_find?_eq_some hf
  · intro p hp
    simp only at hp
    cases hal : base.auto_add_logical_ports
    · simp only [hal, Bool.false_eq_true, if_false, pure_ok_iff] at hauto
      subst hauto
      exact ⟨p, hports p hp, Or.inl rfl⟩
    · simp only [hal, if_true] at hauto
      obtain ⟨b, hb, idx, _, rfl⟩ := forall₂_mem_right (autoAddLogicalPorts_ok _ _ _ hauto) p hp
      exact ⟨b, hports b hb, Or.inr ⟨rfl, _, rfl⟩⟩

/-- C6: when the base map has `auto_add_slot` set, the resolver returns an error unless the
nodes and singleton ports of the config, of which there must be at least one, all have one
slot; and when they all have slot `s` and the resolver succeeds, every chip and port of the
returned base map and of the applied map has slot `s`. -/
theorem C6_auto_add_slot (k : Constants) (file : Except ErrorCode (List BcmChassisMap))
    (config : ChassisConfig) (base0 : BcmChassisMap)
    (h0 : ReadBaseBcmChassisMapFromFile file (config.bcm_chassis_map_id.getD "") =
      Except.ok base0)
    (hauto : base0.auto_add_slot = true) :
    ((¬ ∃ s : Int, (∀ n ∈ config.nodes, n.slot = s) ∧
        (∀ p ∈ config.singleton_ports, p.slot = s) ∧
        (config.nodes ≠ [] ∨ config.singleton_ports ≠ [])) →
      ∃ e, GenerateBcmChassisMapFromConfig k file config = Except.error e) ∧
    (∀ (s : Int) (base target : BcmChassisMap),
      (∀ n ∈ config.nodes, n.slot = s) → (∀ p ∈ config.singleton_ports, p.slot = s) →
      GenerateBcmChassisMapFromConfig k file config = Except.ok (base, target) →
        (∀ c ∈ base.bcm_chips, c.slot = s) ∧ (∀ p ∈ base.bcm_ports, p.slot = s) ∧
        (∀ c ∈ target.bcm_chips, c.slot = s) ∧ (∀ p ∈ target.bcm_ports, p.slot = s)) := by
  have key : ∀ base target,
      GenerateBcmChassisMapFromConfig k file config = Except.ok (base, target) →
      ∃ slot : Int, (∀ n ∈ config.nodes, n.slot = slot) ∧
        (∀ p ∈ config.singleton_ports, p.slot = slot) ∧
        (config.nodes ≠ [] ∨ config.singleton_ports ≠ []) ∧
        (∀ c ∈ base.bcm_chips, c.slot = slot) ∧ (∀ p ∈ base.bcm_ports, p.slot = slot) ∧
        (∀ c ∈ target.bcm_chips, c.slot = slot) ∧ (∀ p ∈ target.bcm_ports, p.slot = slot) := by
    intro base target hok
    obtain ⟨b0, hb0, hpop, ht⟩ := GenerateBcmChassisMapFromConfig_ok k file config base target hok
    rw [h0] at hb0
    cases hb0
    simp only [hauto, if_true] at hpop
    obtain ⟨slot, hn, hp, hne, hbase⟩ := PopulateSlotFromPushedChassisConfig_ok _ _ _ hpop
    have hbc : ∀ c ∈ base.bcm_chips, c.slot = slot := by
      intro c hc
      rw [hbase] at hc
      simp only [List.mem_map] at hc
      obtain ⟨c0, _, rfl⟩ := hc
      rfl
    have hbp : ∀ p ∈ base.bcm_ports, p.slot = slot := by
      intro p hp
      rw [hbase] at hp
      simp only [List.mem_map] at hp
      obtain ⟨p0, _, rfl⟩ := hp
      rfl
    obtain ⟨hsc, hsp⟩ := generateTarget_subset k base config target ht
    refine ⟨slot, hn, hp, hne, hbc, hbp, fun c hc => hbc c (hsc c hc), ?_⟩
    intro p hp
    obtain ⟨b, hb, rfl | ⟨_, l, rfl⟩⟩ := hsp p hp
    · exact hbp _ hb
    · exact hbp b hb
  constructor
  · intro hnot
    apply error_of_not_ok
    rintro ⟨base, target⟩ hok
    obtain ⟨slot, hn, hp, hne, _⟩ := key base target hok
    exact hnot ⟨slot, hn, hp, hne⟩
  · intro s base target hn hp hok
    obtain ⟨slot, hn', hp', hne, hrest⟩ := key base target hok
    have : slot = s := by
      rcases hne with hne | hne
      · obtain ⟨n, hmem⟩ := List.exists_mem_of_ne_nil _ hne
        rw [← hn' n hmem, hn n hmem]
      · obtain ⟨p, hmem⟩ := List.exists_mem_of_ne_nil _ hne
        rw [← hp' p hmem, hp p hmem]
    subst this
    exact hrest

/-- Witness for C6: Scenario A, where the node and the port are in slot 5. -/
theorem C6_auto_add_slot_witness :
    ReadBaseBcmChassisMapFromFile (Except.ok [scenarioABase])
      (scenarioAConfig.bcm_chassis_map_id.getD "") = Except.ok scenarioABase ∧
    scenarioABase.auto_add_slot = true ∧
    (((¬ ∃ s : Int, (∀ n ∈ scenarioAConfig.nodes, n.slot = s) ∧
        (∀ p ∈ scenarioAConfig.singleton_ports, p.slot = s) ∧
        (scenarioAConfig.nodes ≠ [] ∨ scenarioAConfig.singleton_ports ≠ [])) →
      ∃ e, GenerateBcmChassisMapFromConfig exampleConstants (Except.ok [scenarioABase])
        scenarioAConfig = Except.error e) ∧
    (∀ (s : Int) (base target : BcmChassisMap),
      (∀ n ∈ scenarioAConfig.nodes, n.slot = s) → (∀ p ∈ scenarioAConfig.singleton_ports, p.slot = s) →
      GenerateBcmChassisMapFromConfig exampleConstants (Except.ok [scenarioABase])
        scenarioAConfig = Except.ok (base, target) →
        (∀ c ∈ base.bcm_chips, c.slot = s) ∧ (∀ p ∈ base.bcm_ports, p.slot = s) ∧
        (∀ c ∈ target.bcm_chips, c.slot = s) ∧ (∀ p ∈ target.bcm_ports, p.slot = s))) :=
  ⟨by rfl, by rfl, C6_auto_add_slot exampleConstants (Except.ok [scenarioABase]) scenarioAConfig
    scenarioABase (by rfl) (by rfl)⟩

/-! ## The base map loader -/

theorem verifyBasePort_ok (a l : Bool) (st : BaseSets) (p : BcmPort)
    (h : verifyBasePort a l st p = Except.ok ()) :
    0 ≤ p.unit ∧ setCount p.unit st.units = true := by
  unfold verifyBasePort at h
  simp only [bind_ok_iff, CHECK_ok_iff] at h
  obtain ⟨_, _, _, _, _, _, _, _, _, hu, _⟩ := h
  simpa using hu

theorem verifyBasePorts_ok (a l : Bool) (st : BaseSets) (ports : List BcmPort)
    (h : verifyBasePorts a l st ports = Except.ok ()) :
    ∀ p ∈ ports, verifyBasePort a l st p = Except.ok () := by
  induction ports with
  | nil => simp
  | cons p rest ih =>
    simp only [verifyBasePorts, bind_ok_iff] at h
    obtain ⟨_, h1, h2⟩ := h
    intro q hq
    rcases List.mem_cons.1 hq with rfl | hq
    · exact h1
    · exact ih h2 q hq

/-- A successful `ReadBaseBcmChassisMapFromFile` returns a chassis map of the file whose
chips and ports pass the verification loops. -/
theorem ReadBaseBcmChassisMapFromFile_ok (file : Except ErrorCode (List BcmChassisMap))
    (id : String) (base0 : BcmChassisMap)
    (h : ReadBaseBcmChassisMapFromFile file id = Except.ok base0) :
    ∃ maps st, file = Except.ok maps ∧
      maps.find? (fun m => id.isEmpty || id == m.id) = some base0 ∧
      verifyBaseChips base0.auto_add_slot {} base0.bcm_chips = Except.ok st ∧
      verifyBasePorts base0.auto_add_slot base0.auto_add_logical_ports st base0.bcm_ports =
        Except.ok () := by
  unfold ReadBaseBcmChassisMapFromFile at h
  simp only [bind_ok_iff] at h
  obtain ⟨maps, hfile, h⟩ := h
  cases hf : maps.find? (fun m => id.isEmpty || id == m.id) with
  | none => simp [hf] at h
  | some b =>
    simp only [hf, bind_ok_iff, pure_ok_iff] at h
    obtain ⟨st, hst, _, hports, rfl⟩ := h
    exact ⟨maps, st, hfile, hf, hst, hports⟩

/-- Every port of the base map that the resolver returns has a non-negative unit. -/
theorem base_port_unit_nonneg (file : Except ErrorCode (List BcmChassisMap))
    (config : ChassisConfig) (base0 base : BcmChassisMap)
    (h0 : ReadBaseBcmChassisMapFromFile file (config.bcm_chassis_map_id.getD "") =
      Except.ok base0)
    (hpop : (if base0.auto_add_slot then PopulateSlotFromPushedChassisConfig config base0
      else pure base0) = Except.ok base) :
    ∀ p ∈ base.bcm_ports, 0 ≤ p.unit := by
  obtain ⟨maps, st, _, _, _, hports⟩ := ReadBaseBcmChassisMapFromFile_ok _ _ _ h0
  have h1 : ∀ p ∈ base0.bcm_ports, 0 ≤ p.unit := fun p hp =>
    (verifyBasePort_ok _ _ _ _ (verifyBasePorts_ok _ _ _ _ hports p hp)).1
  cases ha : base0.auto_add_slot
  · simp only [ha, Bool.false_eq_true, if_false, pure_ok_iff] at hpop
    subst hpop
    exact h1
  · simp only [ha, if_true] at hpop
    obtain ⟨slot, _, _, _, rfl⟩ := PopulateSlotFromPushedChassisConfig_ok _ _ _ hpop
    intro p hp
    simp only [List.mem_map] at hp
    obtain ⟨p0, hp0, rfl⟩ := hp
    exact h1 p0 hp0

/-- After the loop over the singleton ports, `node_id_to_unit` maps the node of every
singleton port to the unit of the first base port that matches the port. -/
theorem singletonPortLoop_node_unit (k : Constants) (bp : List BcmPort)
    (hbp : ∀ p ∈ bp, 0 ≤ p.unit) (ports : List SingletonPort) (st st' : PortLoopState)
    (h : singletonPortLoop k bp st ports = Except.ok st') :
    ∀ s ∈ ports, ∃ b, bp.find? (IsSingletonPortMatchesBcmPort s) = some b ∧
      mapFind s.node st'.node_id_to_unit = some b.unit := by
  have key := singletonPortLoop_induction k bp
    (fun done st => ∀ s ∈ done, ∃ b, bp.find? (IsSingletonPortMatchesBcmPort s) = some b ∧
      mapFind s.node st.node_id_to_unit = some b.unit)
    (by
      intro done st s st' hall hstep
      obtain ⟨b, hb⟩ := singletonPortStep_ok k bp st s st' hstep
      intro s' hs'
      rcases List.mem_append.1 hs' with hs' | hs'
      · obtain ⟨b', hb', hm⟩ := hall s' hs'
        refine ⟨b', hb', ?_⟩
        rcases hb.node with ⟨hneg, hset⟩ | ⟨_, _, hsame⟩
        · rw [hset]
          by_cases hn : s'.node = s.node
          · exfalso
            rw [hn] at hm
            rw [mapAt_of_mapFind _ _ _ _ hm] at hneg
            have := hbp b' (find_match_some _ _ _ hb').1
            omega
          · rw [mapFind_mapSet_ne lawful_nat _ _ _ _ hn]
            exact hm
        · rw [hsame]; exact hm
      · simp only [List.mem_singleton] at hs'
        subst hs'
        refine ⟨b, hb.found, ?_⟩
        rcases hb.node with ⟨_, hset⟩ | ⟨_, heq, hsame⟩
        · rw [hset, mapFind_mapSet_self lawful_nat]
        · rw [hsame]
          cases hm : mapFind s'.node st.node_id_to_unit with
          | none => have := hb.node_known; simp [hm] at this
          | some u =>
            rw [mapAt_of_mapFind _ _ _ _ hm] at heq
            rw [heq])
    ports [] st st' (by simp) h
  simpa using key

/-- C9: whenever the resolver returns OK, any two singleton ports of the config that name the
same node were matched to base ports on the same unit. -/
theorem C9_node_on_one_unit (k : Constants) (file : Except ErrorCode (List BcmChassisMap))
    (config : ChassisConfig) (base target : BcmChassisMap)
    (h : GenerateBcmChassisMapFromConfig k file config = Except.ok (base, target)) :
    ∀ s1 ∈ config.singleton_ports, ∀ s2 ∈ config.singleton_ports, s1.node = s2.node →
      ∃ b1 b2, base.bcm_ports.find? (IsSingletonPortMatchesBcmPort s1) = some b1 ∧
        base.bcm_ports.find? (IsSingletonPortMatchesBcmPort s2) = some b2 ∧
        b1.unit = b2.unit := by
  obtain ⟨base0, h0, hpop, ht⟩ := GenerateBcmChassisMapFromConfig_ok k file config base target h
  obtain ⟨chassis, sup, nm, st, chips, ports, ports', _, _, _, _, hloop, _⟩ :=
    generateTarget_ok k base config target ht
  have hnu := singletonPortLoop_node_unit k base.bcm_ports
    (base_port_unit_nonneg file config base0 base h0 hpop) config.singleton_ports _ st hloop
  intro s1 hs1 s2 hs2 hn
  obtain ⟨b1, hb1, hm1⟩ := hnu s1 hs1
  obtain ⟨b2, hb2, hm2⟩ := hnu s2 hs2
  rw [hn, hm2] at hm1
  simp only [Option.some.injEq] at hm1
  exact ⟨b1, b2, hb1, hb2, hm1.symm⟩

/-- Witness for C9: Scenario C, four ports of one node on unit 0. -/
theorem C9_node_on_one_unit_witness :
    GenerateBcmChassisMapFromConfig exampleConstants (Except.ok [scenarioCBase])
        scenarioCConfig = Except.ok (scenarioCBase, scenarioCTarget) ∧
    (∀ s1 ∈ scenarioCConfig.singleton_ports, ∀ s2 ∈ scenarioCConfig.singleton_ports, s1.node = s2.node →
      ∃ b1 b2, scenarioCBase.bcm_ports.find? (IsSingletonPortMatchesBcmPort s1) = some b1 ∧
        scenarioCBase.bcm_ports.find? (IsSingletonPortMatchesBcmPort s2) = some b2 ∧
        b1.unit = b2.unit) :=
  ⟨by rfl, C9_node_on_one_unit exampleConstants (Except.ok [scenarioCBase]) scenarioCConfig scenarioCBase
      scenarioCTarget (by rfl)⟩

/-- After the loop over the singleton ports, every pair in `flex_slot_port_pairs` was there
at the start or is the `(slot, port)` of a singleton port whose first match is flex. -/
theorem singletonPortLoop_flex (k : Constants) (bp : List BcmPort)
    (ports : List SingletonPort) (st st' : PortLoopState)
    (h : singletonPortLoop k bp st ports = Except.ok st') :
    ∀ pair ∈ st'.flex_slot_port_pairs, pair ∈ st.flex_slot_port_pairs ∨
      ∃ s ∈ ports, (s.slot, s.port) = pair ∧
        ∃ b, bp.find? (IsSingletonPortMatchesBcmPort s) = some b ∧ b.flex_port = true := by
  have key := singletonPortLoop_induction k bp
    (fun done st1 => ∀ pair ∈ st1.flex_slot_port_pairs, pair ∈ st.flex_slot_port_pairs ∨
      ∃ s ∈ done, (s.slot, s.port) = pair ∧
        ∃ b, bp.find? (IsSingletonPortMatchesBcmPort s) = some b ∧ b.flex_port = true)
    (by
      intro done st1 s st2 hall hstep
      obtain ⟨b, hb⟩ := singletonPortStep_ok k bp st1 s st2 hstep
      intro pair hpair
      have hold : pair ∈ st1.flex_slot_port_pairs → pair ∈ st.flex_slot_port_pairs ∨
          ∃ s' ∈ done ++ [s], (s'.slot, s'.port) = pair ∧
            ∃ b, bp.find? (IsSingletonPortMatchesBcmPort s') = some b ∧ b.flex_port = true := by
        intro hp
        rcases hall pair hp with h1 | ⟨s', hs', he⟩
        · exact Or.inl h1
        · exact Or.inr ⟨s', by simp [hs'], he⟩
      rcases hb.flex with ⟨hf, hset, _⟩ | ⟨_, _, hsame, _⟩
      · rw [hset, mem_setInsert lawful_pair] at hpair
        rcases hpair with rfl | hp
        · exact Or.inr ⟨s, by simp, rfl, b, hb.found, hf⟩
        · exact hold hp
      · rw [hsame] at hpair
        exact hold hpair)
    ports [] st st' (by intro pair hp; exact Or.inl hp) h
  simpa using key

theorem setCount_flexUnits (bp : List BcmPort) (pair : Int × Int) (b : BcmPort) (hb : b ∈ bp)
    (hs : b.slot = pair.1) (hp : b.port = pair.2) :
    setCount b.unit (flexUnits bp pair) = true := by
  unfold flexUnits
  have gen : ∀ (l : List BcmPort) (init : List Int),
      (setCount b.unit init = true ∨ b ∈ l) →
      setCount b.unit (l.foldl (fun units bcm_port =>
        if bcm_port.slot == pair.1 && bcm_port.port == pair.2 then
          setInsert bcm_port.unit units
        else units) init) = true := by
    intro l
    induction l with
    | nil => intro init h; simpa using h
    | cons a rest ih =>
      intro init h
      rw [List.foldl_cons]
      apply ih
      rcases h with h | h
      · left
        split
        · rw [setCount_setInsert lawful_int]; exact Or.inr h
        · exact h
      · rcases List.mem_cons.1 h with rfl | h
        · left
          simp only [hs, hp, beq_self_eq_true, Bool.and_self, if_true]
          exact setCount_setInsert_self lawful_int _ _
        · exact Or.inr h
  exact gen bp [] (Or.inr hb)

/-- When the base ports at a `(slot, port)` pair are all on one unit, it is their unit. -/
theorem flexUnits_singleton (bp : List BcmPort) (pair : Int × Int) (unit : Int)
    (hu : flexUnits bp pair = [unit]) (b : BcmPort) (hb : b ∈ bp) (hs : b.slot = pair.1)
    (hp : b.port = pair.2) : b.unit = unit := by
  have := setCount_flexUnits bp pair b hb hs hp
  rw [hu] at this
  simpa using setCount_mem lawful_int _ _ this

theorem setCount_cmicLogicalPorts (chips : List BcmChip) (c : BcmChip) (hc : c ∈ chips) :
    setCount 0 (mapAt [] c.unit (cmicLogicalPorts chips)) = true := by
  unfold cmicLogicalPorts
  have gen : ∀ (l : List BcmChip) (init : List (Int × List Int)),
      (setCount 0 (mapAt [] c.unit init) = true ∨ c ∈ l) →
      setCount 0 (mapAt [] c.unit
        (l.foldl (fun m bcm_chip => mapSetInsert bcm_chip.unit 0 m) init)) = true := by
    intro l
    induction l with
    | nil => intro init h; simpa using h
    | cons a rest ih =>
      intro init h
      rw [List.foldl_cons]
      apply ih
      rcases h with h | h
      · left
        rw [setCount_mapAt_mapSetInsert lawful_int lawful_int]
        exact Or.inr h
      · rcases List.mem_cons.1 h with rfl | h
        · left
          rw [setCount_mapAt_mapSetInsert lawful_int lawful_int]
          exact Or.inl ⟨rfl, rfl⟩
        · exact Or.inr h
  exact gen chips [] (Or.inr hc)

/-- A successful post validation: no two ports on one unit share a physical, diag or logical
port, and no port uses a physical, diag or logical port that is in the sets at the start. -/
theorem postValidatePorts_ok (st : PostSets) (ports : List BcmPort)
    (h : postValidatePorts st ports = Except.ok ()) :
    ports.Pairwise (fun p q => p.unit = q.unit →
      p.physical_port ≠ q.physical_port ∧ p.diag_port ≠ q.diag_port ∧
        p.logical_port ≠ q.logical_port) ∧
    ∀ p ∈ ports,
      setCount p.physical_port (mapAt [] p.unit st.unit_to_physical_ports) = false ∧
      setCount p.diag_port (mapAt [] p.unit st.unit_to_diag_ports) = false ∧
      setCount p.logical_port (mapAt [] p.unit st.unit_to_logical_ports) = false := by
  induction ports generalizing st with
  | nil => simp
  | cons p rest ih =>
    simp only [postValidatePorts, bind_ok_iff, CHECK_ok_iff, Bool.not_eq_true'] at h
    obtain ⟨_, h1, _, h2, _, h3, hrest⟩ := h
    obtain ⟨hpw, hall⟩ := ih _ hrest
    have hq : ∀ q ∈ rest,
        (¬ (q.unit = p.unit ∧ q.physical_port = p.physical_port) ∧
          setCount q.physical_port (mapAt [] q.unit st.unit_to_physical_ports) = false) ∧
        (¬ (q.unit = p.unit ∧ q.diag_port = p.diag_port) ∧
          setCount q.diag_port (mapAt [] q.unit st.unit_to_diag_ports) = false) ∧
        (¬ (q.unit = p.unit ∧ q.logical_port = p.logical_port) ∧
          setCount q.logical_port (mapAt [] q.unit st.unit_to_logical_ports) = false) := by
      intro q hq
      obtain ⟨a1, a2, a3⟩ := hall q hq
      simp only at a1 a2 a3
      have f : ∀ (x x0 : Int) (m : List (Int × List Int)),
          setCount x (mapAt [] q.unit (mapSetInsert p.unit x0 m)) = false →
          ¬ (q.unit = p.unit ∧ x = x0) ∧ setCount x (mapAt [] q.unit m) = false := by
        intro x x0 m hf
        have := (setCount_mapAt_mapSetInsert lawful_int lawful_int q.unit p.unit x x0 m).not
        rw [hf] at this
        simp only [Bool.false_eq_true, not_false_eq_true, not_or, Bool.not_eq_true,
          true_iff] at this
        exact this
      exact ⟨f _ _ _ a1, f _ _ _ a2, f _ _ _ a3⟩
    constructor
    · refine List.pairwise_cons.2 ⟨?_, hpw⟩
      intro q hqm hu
      obtain ⟨⟨b1, _⟩, ⟨b2, _⟩, ⟨b3, _⟩⟩ := hq q hqm
      exact ⟨fun e => b1 ⟨hu.symm, e.symm⟩, fun e => b2 ⟨hu.symm, e.symm⟩,
        fun e => b3 ⟨hu.symm, e.symm⟩⟩
    · intro q hq'
      rcases List.mem_cons.1 hq' with rfl | hq'
      · exact ⟨h1, h2, h3⟩
      · obtain ⟨⟨_, c1⟩, ⟨_, c2⟩, ⟨_, c3⟩⟩ := hq q hq'
        exact ⟨c1, c2, c3⟩

/-- The unit of every port of the target map is the unit of a chip of the target map. -/
theorem generateTarget_port_unit (k : Constants) (base : BcmChassisMap)
    (hbp : ∀ p ∈ base.bcm_ports, 0 ≤ p.unit) (config : ChassisConfig) (target : BcmChassisMap)
    (h : generateTarget k base config = Except.ok target) :
    ∀ p ∈ target.bcm_ports, ∃ c ∈ target.bcm_chips, c.unit = p.unit := by
  obtain ⟨chassis, sup, nm, st, chips, ports, ports', _, _, _, _, hloop, hchips, _, _, hflex, _,
    hauto, _, rfl⟩ := generateTarget_ok k base config target h
  obtain ⟨new, hnew, hall⟩ := addBcmChips_ok _ _ _ _ _ hchips
  obtain ⟨groups, hgr, hgall⟩ := addFlexPorts_ok _ _ _ _ _ hflex
  have hnu := singletonPortLoop_node_unit k base.bcm_ports hbp config.singleton_ports _ st hloop
  have hfl := singletonPortLoop_flex k base.bcm_ports config.singleton_ports _ st hloop
  -- a singleton port whose first match is `b` puts a chip with the unit of `b` in the target
  have hchip : ∀ s ∈ config.singleton_ports, ∀ b,
      base.bcm_ports.find? (IsSingletonPortMatchesBcmPort s) = some b →
      ∃ c ∈ chips, c.unit = b.unit := by
    intro s hs b hb
    obtain ⟨b', hb', hm⟩ := hnu s hs
    rw [hb] at hb'
    cases hb'
    have hmem := mapFind_mem lawful_nat _ _ _ hm
    have hnn := hbp b (find_match_some _ _ _ hb).1
    have hfil : (s.node, b.unit) ∈ st.node_id_to_unit.filter (fun e => decide (0 ≤ e.2)) := by
      simp [List.mem_filter, hmem, hnn]
    obtain ⟨c, hc, hf, _⟩ := forall₂_mem_left hall _ hfil
    refine ⟨c, by simp [hnew, hc], ?_⟩
    have := List.find?_some hf
    simp only [beq_iff_eq] at this
    exact this.symm
  have hports : ∀ p ∈ ports, ∃ c ∈ chips, c.unit = p.unit := by
    intro p hp
    rw [hgr, singletonPortLoop_ports k _ _ _ _ hloop] at hp
    simp only [List.nil_append, List.mem_append, List.mem_filterMap, List.mem_flatten] at hp
    rcases hp with ⟨s, hs, hsb⟩ | ⟨g, hg, hpg⟩
    · cases hf : base.bcm_ports.find? (IsSingletonPortMatchesBcmPort s) with
      | none => simp [hf, Option.filter] at hsb
      | some b =>
        simp only [hf, Option.filter] at hsb
        split at hsb
        · cases hsb; exact hchip s hs _ hf
        · cases hsb
    · obtain ⟨pair, hpair, unit, v, hunits, _, hch⟩ := forall₂_mem_right hgall g hg
      obtain ⟨c, _, hf⟩ := forall₂_mem_right hch p hpg
      obtain ⟨hpm, _, hps, hpp, _⟩ := find_match_some _ _ _ hf
      simp only at hps hpp
      have hpu := flexUnits_singleton _ _ _ hunits p hpm hps.symm hpp.symm
      rcases hfl pair hpair with hnil | ⟨s, hs, hsp, b, hb, _⟩
      · simp at hnil
      · obtain ⟨hbm, _, hbs, hbpo, _⟩ := find_match_some _ _ _ hb
        have hbu := flexUnits_singleton _ _ _ hunits b hbm
          (by rw [← hbs, ← hsp]) (by rw [← hbpo, ← hsp])
        obtain ⟨c', hc', hcu⟩ := hchip s hs b hb
        exact ⟨c', hc', by rw [hcu, hbu, hpu]⟩
  intro p hp
  simp only at hp ⊢
  cases hal : base.auto_add_logical_ports
  · simp only [hal, Bool.false_eq_true, if_false, pure_ok_iff] at hauto
    subst hauto
    exact hports p hp
  · simp only [hal, if_true] at hauto
    obtain ⟨b, hb, idx, _, rfl⟩ := forall₂_mem_right (autoAddLogicalPorts_ok _ _ _ hauto) p hp
    exact hports b hb

/-- C3: whenever the resolver returns OK, no two ports of the applied map on the same unit
share a physical port, a diag port or a logical port, and no port has logical port 0. -/
theorem C3_unique_ports_per_unit (k : Constants) (file : Except ErrorCode (List BcmChassisMap))
    (config : ChassisConfig) (base target : BcmChassisMap)
    (h : GenerateBcmChassisMapFromConfig k file config = Except.ok (base, target)) :
    target.bcm_ports.Pairwise (fun p q => p.unit = q.unit →
      p.physical_port ≠ q.physical_port ∧ p.diag_port ≠ q.diag_port ∧
        p.logical_port ≠ q.logical_port) ∧
    ∀ p ∈ target.bcm_ports, p.logical_port ≠ 0 := by
  obtain ⟨base0, h0, hpop, ht⟩ := GenerateBcmChassisMapFromConfig_ok k file config base target h
  have hbp := base_port_unit_nonneg file config base0 base h0 hpop
  have hunit := generateTarget_port_unit k base hbp config target ht
  obtain ⟨chassis, sup, nm, st, chips, ports, ports', _, _, _, _, _, _, _, _, _, _, _, hpost,
    rfl⟩ := generateTarget_ok k base config target ht
  obtain ⟨hpw, hall⟩ := postValidatePorts_ok _ _ hpost
  refine ⟨hpw, ?_⟩
  intro p hp h0
  obtain ⟨c, hc, hcu⟩ := hunit p hp
  have := (hall p hp).2.2
  simp only at this
  rw [h0, ← hcu, setCount_cmicLogicalPorts chips c hc] at this
  cases this

/-- Witness for C3: Scenario C. -/
theorem C3_unique_ports_per_unit_witness :
    GenerateBcmChassisMapFromConfig exampleConstants (Except.ok [scenarioCBase])
        scenarioCConfig = Except.ok (scenarioCBase, scenarioCTarget) ∧
    (scenarioCTarget.bcm_ports.Pairwise (fun p q => p.unit = q.unit →
      p.physical_port ≠ q.physical_port ∧ p.diag_port ≠ q.diag_port ∧
        p.logical_port ≠ q.logical_port) ∧
    ∀ p ∈ scenarioCTarget.bcm_ports, p.logical_port ≠ 0) :=
  ⟨by rfl, C3_unique_ports_per_unit exampleConstants (Except.ok [scenarioCBase]) scenarioCConfig scenarioCBase
      scenarioCTarget (by rfl)⟩

/-- The sets of `unit_to_slot_port_channels` are strictly increasing, and the set of a unit
holds exactly the `(slot, port, channel)` tuples of the ports on the unit. -/
theorem unitToSlotPortChannels_spec (ports : List BcmPort) :
    (∀ u, SetSorted (mapAt [] u (unitToSlotPortChannels ports))) ∧
    ∀ (u : Int) (t : Int × Int × Int), t ∈ mapAt [] u (unitToSlotPortChannels ports) ↔
      ∃ p ∈ ports, p.unit = u ∧ (p.slot, p.port, p.channel) = t := by
  unfold unitToSlotPortChannels
  have gen : ∀ (l : List BcmPort) (init : List (Int × List (Int × Int × Int))),
      (∀ u, SetSorted (mapAt [] u init)) →
      (∀ u, SetSorted (mapAt [] u (l.foldl (fun m bcm_port =>
        mapSetInsert bcm_port.unit (bcm_port.slot, bcm_port.port, bcm_port.channel) m) init))) ∧
      ∀ (u : Int) (t : Int × Int × Int),
        setCount t (mapAt [] u (l.foldl (fun m bcm_port =>
          mapSetInsert bcm_port.unit (bcm_port.slot, bcm_port.port, bcm_port.channel) m)
          init)) = true ↔
        setCount t (mapAt [] u init) = true ∨
          ∃ p ∈ l, p.unit = u ∧ (p.slot, p.port, p.channel) = t := by
    intro l
    induction l with
    | nil => intro init hs; exact ⟨hs, by simp⟩
    | cons a rest ih =>
      intro init hs
      rw [List.foldl_cons]
      obtain ⟨h1, h2⟩ := ih _ (mapSetInsert_sorted lawful_int lawful_triple a.unit
        (a.slot, a.port, a.channel) init hs)
      refine ⟨h1, ?_⟩
      intro u t
      rw [h2 u t, setCount_mapAt_mapSetInsert lawful_int lawful_triple]
      constructor
      · rintro ((⟨rfl, rfl⟩ | hc) | ⟨p, hp, he⟩)
        · exact Or.inr ⟨a, by simp, rfl, rfl⟩
        · exact Or.inl hc
        · exact Or.inr ⟨p, by simp [hp], he⟩
      · rintro (hc | ⟨p, hp, he1, he2⟩)
        · exact Or.inl (Or.inr hc)
        · rcases List.mem_cons.1 hp with rfl | hp
          · exact Or.inl (Or.inl ⟨he1.symm, he2.symm⟩)
          · exact Or.inr ⟨p, hp, he1, he2⟩
  have hinit : ∀ u : Int, SetSorted (mapAt [] u ([] : List (Int × List (Int × Int × Int)))) := by
    intro u; simp [mapAt, mapFind, SetSorted]
  obtain ⟨h1, h2⟩ := gen ports [] hinit
  refine ⟨h1, ?_⟩
  intro u t
  rw [← setCount_iff_mem lawful_triple _ _ (h1 u), h2 u t]
  simp [mapAt, mapFind, setCount]

/-- The size of the set of a unit in `unit_to_slot_port_channels` is the number of distinct
`(slot, port, channel)` tuples of the ports on the unit. -/
theorem unitToSlotPortChannels_length (ports : List BcmPort) (u : Int) :
    (mapAt [] u (unitToSlotPortChannels ports)).length =
      (((ports.filter (fun p => decide (p.unit = u))).map
        (fun p => (p.slot, p.port, p.channel))).toFinset).card := by
  obtain ⟨hs, hm⟩ := unitToSlotPortChannels_spec ports
  rw [← List.toFinset_card_of_nodup (setSorted_nodup lawful_triple _ (hs u))]
  congr 1
  ext t
  simp only [List.mem_toFinset, hm u t, List.mem_map, List.mem_filter, decide_eq_true_eq]
  constructor
  · rintro ⟨p, hp, hu, ht⟩; exact ⟨p, ⟨hp, hu⟩, ht⟩
  · rintro ⟨p, ⟨hp, hu⟩, ht⟩; exact ⟨p, hp, hu, ht⟩

/-- In `unit_to_chip_type` the unit of every chip has the type of a chip with that unit. -/
theorem unitToChipType_spec (chips : List BcmChip) :
    ∀ c ∈ chips, ∃ c' ∈ chips, c'.unit = c.unit ∧
      mapFind c.unit (unitToChipType chips) = some c'.type := by
  have gen : ∀ (l : List BcmChip) (init : List (Int × BcmChipType)) (u : Int),
      ((∃ t, mapFind u init = some t) ∨ ∃ c ∈ l, c.unit = u) →
      (∃ c' ∈ l, c'.unit = u ∧ mapFind u (l.foldl (fun m bcm_chip =>
          mapSet bcm_chip.unit bcm_chip.type m) init) = some c'.type) ∨
        ((∀ c ∈ l, c.unit ≠ u) ∧ mapFind u (l.foldl (fun m bcm_chip =>
          mapSet bcm_chip.unit bcm_chip.type m) init) = mapFind u init) := by
    intro l
    induction l with
    | nil => intro init u _; right; simp
    | cons a rest ih =>
      intro init u h
      rw [List.foldl_cons]
      by_cases hau : a.unit = u
      · have := ih (mapSet a.unit a.type init) u
          (Or.inl ⟨a.type, by rw [hau]; exact mapFind_mapSet_self lawful_int _ _ _⟩)
        rcases this with ⟨c', hc', hcu, hf⟩ | ⟨hne, hf⟩
        · exact Or.inl ⟨c', by simp [hc'], hcu, hf⟩
        · left
          refine ⟨a, by simp, hau, ?_⟩
          rw [hf, ← hau]
          exact mapFind_mapSet_self lawful_int _ _ _
      · have hpre : (∃ t, mapFind u (mapSet a.unit a.type init) = some t) ∨
            ∃ c ∈ rest, c.unit = u := by
          rcases h with ⟨t, ht⟩ | ⟨c, hc, hcu⟩
          · left
            exact ⟨t, by rw [mapFind_mapSet_ne lawful_int _ _ _ _ (Ne.symm hau)]; exact ht⟩
          · rcases List.mem_cons.1 hc with rfl | hc
            · exact absurd hcu hau
            · exact Or.inr ⟨c, hc, hcu⟩
        rcases ih (mapSet a.unit a.type init) u hpre with ⟨c', hc', hcu, hf⟩ | ⟨hne, hf⟩
        · exact Or.inl ⟨c', by simp [hc'], hcu, hf⟩
        · right
          refine ⟨?_, ?_⟩
          · intro c hc
            rcases List.mem_cons.1 hc with rfl | hc
            · exact hau
            · exact hne c hc
          · rw [hf, mapFind_mapSet_ne lawful_int _ _ _ _ (Ne.symm hau)]
  intro c hc
  rcases gen chips [] c.unit (Or.inr ⟨c, hc, rfl⟩) with h | ⟨hne, _⟩
  · exact h
  · exact absurd rfl (hne c hc)

/-- A successful run of the loop that checks the number of ports per chip. -/
theorem checkMaxNumPorts_ok (k : Constants) (u2spc : List (Int × List (Int × Int × Int)))
    (m : List (Int × BcmChipType)) (h : checkMaxNumPorts k u2spc m = Except.ok ()) :
    ∀ e ∈ m, (mapAt [] e.1 u2spc).length ≤ chip_type_to_max_num_ports k e.2 := by
  induction m with
  | nil => simp
  | cons e rest ih =>
    simp only [checkMaxNumPorts, bind_ok_iff, CHECK_ok_iff, decide_eq_true_eq] at h
    obtain ⟨_, h1, h2⟩ := h
    intro e' he'
    rcases List.mem_cons.1 he' with rfl | he'
    · exact h1
    · exact ih h2 e' he'

/-- Two chips of the target map with the same unit are the same chip. -/
theorem generateTarget_chip_unit (k : Constants) (base : BcmChassisMap) (config : ChassisConfig)
    (target : BcmChassisMap) (h : generateTarget k base config = Except.ok target) :
    ∀ c ∈ target.bcm_chips, ∀ c' ∈ target.bcm_chips, c.unit = c'.unit → c = c' := by
  obtain ⟨chassis, sup, nm, st, chips, ports, ports', _, _, _, _, _, hchips, _, _, _, _,
    _, _, rfl⟩ := generateTarget_ok k base config target h
  obtain ⟨new, hnew, hall⟩ := addBcmChips_ok _ _ _ _ _ hchips
  have hfind : ∀ c ∈ chips,
      base.bcm_chips.find? (fun bcm_chip => c.unit == bcm_chip.unit) = some c := by
    intro c hc
    simp only [hnew, List.nil_append] at hc
    obtain ⟨e, _, hf, _⟩ := forall₂_mem_right hall c hc
    have := List.find?_some hf
    simp only [beq_iff_eq] at this
    rw [← this]; exact hf
  intro c hc c' hc' hu
  have h1 := hfind c hc
  have h2 := hfind c' hc'
  rw [hu, h2] at h1
  cases h1
  rfl

theorem autoAddLogicalPorts_keys (u2spc : List (Int × List (Int × Int × Int)))
    (ports ports' : List BcmPort) (h : autoAddLogicalPorts u2spc ports = Except.ok ports') :
    ports'.map (fun p => (p.unit, p.slot, p.port, p.channel)) =
      ports.map (fun p => (p.unit, p.slot, p.port, p.channel)) := by
  have := autoAddLogicalPorts_ok _ _ _ h
  clear h
  induction this with
  | nil => rfl
  | cons hr _ ih =>
    obtain ⟨idx, _, rfl⟩ := hr
    simp only [List.map_cons, ih]

/-- The ports of the target map have the units and `(slot, port, channel)` tuples of the
ports before the logical ports are rewritten. -/
theorem auto_ports_same_keys (base : BcmChassisMap) (ports ports' : List BcmPort)
    (hauto : (if base.auto_add_logical_ports then
        autoAddLogicalPorts (unitToSlotPortChannels ports) ports
      else pure ports) = Except.ok ports') :
    ports'.map (fun p => (p.unit, p.slot, p.port, p.channel)) =
      ports.map (fun p => (p.unit, p.slot, p.port, p.channel)) := by
  cases hal : base.auto_add_logical_ports
  · simp only [hal, Bool.false_eq_true, if_false, pure_ok_iff] at hauto
    rw [hauto]
  · simp only [hal, if_true] at hauto
    exact autoAddLogicalPorts_keys _ _ _ hauto

theorem filter_unit_tuples (ports : List BcmPort) (u : Int) :
    (ports.filter (fun p => decide (p.unit = u))).map (fun p => (p.slot, p.port, p.channel)) =
      ((ports.map (fun p => (p.unit, p.slot, p.port, p.channel))).filter
        (fun x => decide (x.1 = u))).map (fun x => x.2) := by
  induction ports with
  | nil => rfl
  | cons p rest ih =>
    by_cases hp : p.unit = u
    · simp [List.filter_cons, hp, ih]
    · simp [List.filter_cons, hp, ih]

/-- C10: whenever the resolver returns OK, for every chip of the applied map the number of
distinct `(slot, port, channel)` tuples of the applied ports on the unit of the chip is at
most `kTomahawkMaxBcmPortsPerChip` for a TOMAHAWK chip and at most
`kTrident2MaxBcmPortsPerChip` for a TRIDENT2 chip. -/
theorem C10_port_cap_per_chip (k : Constants) (file : Except ErrorCode (List BcmChassisMap))
    (config : ChassisConfig) (base target : BcmChassisMap)
    (h : GenerateBcmChassisMapFromConfig k file config = Except.ok (base, target)) :
    ∀ c ∈ target.bcm_chips,
      (c.type = BcmChipType.TOMAHAWK →
        (((target.bcm_ports.filter (fun p => decide (p.unit = c.unit))).map
          (fun p => (p.slot, p.port, p.channel))).toFinset).card ≤
            k.kTomahawkMaxBcmPortsPerChip) ∧
      (c.type = BcmChipType.TRIDENT2 →
        (((target.bcm_ports.filter (fun p => decide (p.unit = c.unit))).map
          (fun p => (p.slot, p.port, p.channel))).toFinset).card ≤
            k.kTrident2MaxBcmPortsPerChip) := by
  obtain ⟨base0, h0, hpop, ht⟩ := GenerateBcmChassisMapFromConfig_ok k file config base target h
  have hcu := generateTarget_chip_unit k base config target ht
  obtain ⟨chassis, sup, nm, st, chips, ports, ports', _, _, _, _, _, _, _, _, _, hmax, hauto, _,
    rfl⟩ := generateTarget_ok k base config target ht
  have hkeys := auto_ports_same_keys base ports ports' hauto
  have hcheck := checkMaxNumPorts_ok _ _ _ hmax
  intro c hc
  simp only at hc hcu ⊢
  obtain ⟨c', hc', hu, hf⟩ := unitToChipType_spec chips c hc
  have hcc : c' = c := hcu c' hc' c hc hu
  subst hcc
  have hle := hcheck _ (mapFind_mem lawful_int _ _ _ hf)
  simp only at hle
  rw [unitToSlotPortChannels_length, filter_unit_tuples, ← hkeys, ← filter_unit_tuples] at hle
  constructor
  · intro hty
    rw [hty] at hle
    exact hle
  · intro hty
    rw [hty] at hle
    exact hle

/-- Witness for C10: Scenario C, four ports on a TOMAHAWK chip. -/
theorem C10_port_cap_per_chip_witness :
    GenerateBcmChassisMapFromConfig exampleConstants (Except.ok [scenarioCBase])
        scenarioCConfig = Except.ok (scenarioCBase, scenarioCTarget) ∧
    (∀ c ∈ scenarioCTarget.bcm_chips,
      (c.type = BcmChipType.TOMAHAWK →
        (((scenarioCTarget.bcm_ports.filter (fun p => decide (p.unit = c.unit))).map
          (fun p => (p.slot, p.port, p.channel))).toFinset).card ≤
            exampleConstants.kTomahawkMaxBcmPortsPerChip) ∧
      (c.type = BcmChipType.TRIDENT2 →
        (((scenarioCTarget.bcm_ports.filter (fun p => decide (p.unit = c.unit))).map
          (fun p => (p.slot, p.port, p.channel))).toFinset).card ≤
            exampleConstants.kTrident2MaxBcmPortsPerChip)) :=
  ⟨by rfl, C10_port_cap_per_chip exampleConstants (Except.ok [scenarioCBase]) scenarioCConfig scenarioCBase
      scenarioCTarget (by rfl)⟩

/-- The comparison of `(slot, port, channel)` tuples is the lexicographic order. -/
theorem tuple_lt_iff (a b c a' b' c' : Int) :
    KeyOrd.lt (a, b, c) (a', b', c') = true ↔
      a < a' ∨ (a = a' ∧ (b < b' ∨ (b = b' ∧ c < c'))) := by
  simp only [KeyOrd.lt, Bool.or_eq_true, Bool.and_eq_true, Bool.not_eq_true',
    decide_eq_true_eq, decide_eq_false_iff_not]
  omega

theorem setIndex_getElem {α : Type} [KeyOrd α] (h : KeyOrd.Lawful α) (l : List α)
    (hs : SetSorted l) (i : Nat) (hi : i < l.length) : setIndex l[i] l = some i := by
  induction l generalizing i with
  | nil => simp at hi
  | cons z zs ih =>
    unfold SetSorted at hs
    rw [List.pairwise_cons] at hs
    cases i with
    | zero => simp [setIndex, h.irrefl]
    | succ j =>
      simp only [List.length_cons, Nat.add_lt_add_iff_right] at hi
      simp only [List.getElem_cons_succ, setIndex]
      have hzx := hs.1 zs[j] (List.getElem_mem _)
      have hxz : KeyOrd.lt zs[j] z = false := by
        cases hxz : KeyOrd.lt zs[j] z
        · rfl
        · have := h.trans _ _ _ hxz hzx
          rw [h.irrefl] at this; cases this
      simp [hxz, hzx, ih hs.2 j hi]

theorem unitToSlotPortChannels_toFinset (ports : List BcmPort) (u : Int) :
    (mapAt [] u (unitToSlotPortChannels ports)).toFinset =
      ((ports.filter (fun p => decide (p.unit = u))).map
        (fun p => (p.slot, p.port, p.channel))).toFinset := by
  obtain ⟨_, hm⟩ := unitToSlotPortChannels_spec ports
  ext t
  simp only [List.mem_toFinset, hm u t, List.mem_map, List.mem_filter, decide_eq_true_eq]
  constructor
  · rintro ⟨p, hp, hu, ht⟩; exact ⟨p, ⟨hp, hu⟩, ht⟩
  · rintro ⟨p, ⟨hp, hu⟩, ht⟩; exact ⟨p, hp, hu, ht⟩

theorem unitToSlotPortChannels_of_keys (ports ports' : List BcmPort)
    (h : ports'.map (fun p => (p.unit, p.slot, p.port, p.channel)) =
      ports.map (fun p => (p.unit, p.slot, p.port, p.channel))) :
    unitToSlotPortChannels ports' = unitToSlotPortChannels ports := by
  have e : ∀ l : List BcmPort, unitToSlotPortChannels l =
      (l.map (fun p => (p.unit, p.slot, p.port, p.channel))).foldl
        (fun m x => mapSetInsert x.1 x.2 m) [] := by
    intro l
    unfold unitToSlotPortChannels
    rw [List.foldl_map]
  rw [e, e, h]

/-- With `auto_add_logical_ports`, the logical port of every port of the target map is one
more than the index of its `(slot, port, channel)` in the set of its unit. -/
theorem auto_logical_port_index (ports ports' : List BcmPort)
    (h : autoAddLogicalPorts (unitToSlotPortChannels ports) ports = Except.ok ports') :
    ∀ p ∈ ports', ∃ idx : Nat,
      setIndex (p.slot, p.port, p.channel) (mapAt [] p.unit (unitToSlotPortChannels ports')) =
        some idx ∧ p.logical_port = (idx : Int) + 1 := by
  rw [unitToSlotPortChannels_of_keys ports ports' (autoAddLogicalPorts_keys _ _ _ h)]
  intro p hp
  obtain ⟨p0, _, idx, hi, rfl⟩ := forall₂_mem_right (autoAddLogicalPorts_ok _ _ _ h) p hp
  exact ⟨idx, hi, rfl⟩

/-- C2: when the base map has `auto_add_logical_ports` set and the resolver succeeds, the
logical port of every applied port is 1 plus the number of distinct `(slot, port, channel)`
tuples of applied ports on its unit that are lexicographically smaller than its own; the
logical ports used on a unit are exactly 1..n, with n the number of applied ports on the
unit; and logical port 0 is never assigned. -/
theorem C2_auto_logical_ports (k : Constants) (file : Except ErrorCode (List BcmChassisMap))
    (config : ChassisConfig) (base target : BcmChassisMap)
    (h : GenerateBcmChassisMapFromConfig k file config = Except.ok (base, target))
    (hauto : base.auto_add_logical_ports = true) :
    (∀ p ∈ target.bcm_ports, p.logical_port = 1 +
      (((((target.bcm_ports.filter (fun q => decide (q.unit = p.unit))).map
        (fun q => (q.slot, q.port, q.channel))).toFinset).filter
          (fun t => t.1 < p.slot ∨ (t.1 = p.slot ∧
            (t.2.1 < p.port ∨ (t.2.1 = p.port ∧ t.2.2 < p.channel))))).card : Int)) ∧
    (∀ (u l : Int), (∃ p ∈ target.bcm_ports, p.unit = u ∧ p.logical_port = l) ↔
      1 ≤ l ∧ l ≤ ((target.bcm_ports.filter (fun q => decide (q.unit = u))).length : Int)) ∧
    (∀ p ∈ target.bcm_ports, p.logical_port ≠ 0) := by
  obtain ⟨base0, h0, hpop, ht⟩ := GenerateBcmChassisMapFromConfig_ok k file config base target h
  obtain ⟨chassis, sup, nm, st, chips, ports, ports', _, _, _, _, _, _, _, _, _, _, hal, hpost,
    rfl⟩ := generateTarget_ok k base config target ht
  simp only [hauto, if_true] at hal
  simp only
  have hidx := auto_logical_port_index ports ports' hal
  obtain ⟨hsorted, hmem⟩ := unitToSlotPortChannels_spec ports'
  obtain ⟨hpw, _⟩ := postValidatePorts_ok _ _ hpost
  -- the tuples of the ports on one unit are distinct
  have hnodup : ∀ u : Int, ((ports'.filter (fun q => decide (q.unit = u))).map
      (fun q => (q.slot, q.port, q.channel))).Nodup := by
    intro u
    unfold List.Nodup
    rw [List.pairwise_map]
    have := List.Pairwise.filter (fun q => decide (q.unit = u)) hpw
    refine List.Pairwise.imp_of_mem ?_ this
    intro p q hp hq hr ht
    simp only [List.mem_filter, decide_eq_true_eq] at hp hq
    obtain ⟨i, hi, hli⟩ := hidx p hp.1
    obtain ⟨j, hj, hlj⟩ := hidx q hq.1
    rw [hp.2] at hi
    rw [hq.2, ← ht, hi] at hj
    cases hj
    exact (hr (by rw [hp.2, hq.2])).2.2 (by rw [hli, hlj])
  have hlen : ∀ u : Int, (mapAt [] u (unitToSlotPortChannels ports')).length =
      (ports'.filter (fun q => decide (q.unit = u))).length := by
    intro u
    rw [unitToSlotPortChannels_length, List.toFinset_card_of_nodup (hnodup u), List.length_map]
  refine ⟨?_, ?_, ?_⟩
  · intro p hp
    obtain ⟨idx, hi, hl⟩ := hidx p hp
    obtain ⟨he, _⟩ := setIndex_eq lawful_triple _ _ (hsorted p.unit) idx hi
    have hfil : (mapAt [] p.unit (unitToSlotPortChannels ports')).filter
        (fun y => KeyOrd.lt y (p.slot, p.port, p.channel)) =
        (mapAt [] p.unit (unitToSlotPortChannels ports')).filter
        (fun t => decide (t.1 < p.slot ∨ (t.1 = p.slot ∧
            (t.2.1 < p.port ∨ (t.2.1 = p.port ∧ t.2.2 < p.channel))))) := by
      apply List.filter_congr
      rintro ⟨a, b, c⟩ _
      rw [Bool.eq_iff_iff, tuple_lt_iff]
      simp
    have hfin : Finset.filter
        (fun t : Int × Int × Int => t.1 < p.slot ∨ (t.1 = p.slot ∧
            (t.2.1 < p.port ∨ (t.2.1 = p.port ∧ t.2.2 < p.channel))))
        (mapAt [] p.unit (unitToSlotPortChannels ports')).toFinset =
        ((mapAt [] p.unit (unitToSlotPortChannels ports')).filter
        (fun t => decide (t.1 < p.slot ∨ (t.1 = p.slot ∧
            (t.2.1 < p.port ∨ (t.2.1 = p.port ∧ t.2.2 < p.channel)))))).toFinset := by
      ext t
      simp only [Finset.mem_filter, List.mem_toFinset, List.mem_filter, decide_eq_true_eq]
    rw [hl, he, ← unitToSlotPortChannels_toFinset, hfin,
      List.toFinset_card_of_nodup
        ((setSorted_nodup lawful_triple _ (hsorted p.unit)).filter _), hfil]
    omega
  · intro u l
    constructor
    · rintro ⟨p, hp, rfl, rfl⟩
      obtain ⟨idx, hi, hl⟩ := hidx p hp
      obtain ⟨_, hlt⟩ := setIndex_eq lawful_triple _ _ (hsorted p.unit) idx hi
      rw [hlen] at hlt
      omega
    · rintro ⟨h1, h2⟩
      have hi : (l - 1).toNat < (mapAt [] u (unitToSlotPortChannels ports')).length := by
        rw [hlen]; omega
      obtain ⟨p, hp, hpu, hpt⟩ := (hmem u _).1 (List.getElem_mem hi)
      refine ⟨p, hp, hpu, ?_⟩
      obtain ⟨idx, hidx', hl⟩ := hidx p hp
      have := setIndex_getElem lawful_triple _ (hsorted u) _ hi
      rw [hpu, hpt, this] at hidx'
      cases hidx'
      rw [hl]
      omega
  · intro p hp
    obtain ⟨idx, _, hl⟩ := hidx p hp
    omega

/-- Witness for C2: Scenario C, logical ports 1 to 4 on unit 0. -/
theorem C2_auto_logical_ports_witness :
    GenerateBcmChassisMapFromConfig exampleConstants (Except.ok [scenarioCBase])
        scenarioCConfig = Except.ok (scenarioCBase, scenarioCTarget) ∧
    scenarioCBase.auto_add_logical_ports = true ∧
    ((∀ p ∈ scenarioCTarget.bcm_ports, p.logical_port = 1 +
      (((((scenarioCTarget.bcm_ports.filter (fun q => decide (q.unit = p.unit))).map
        (fun q => (q.slot, q.port, q.channel))).toFinset).filter
          (fun t => t.1 < p.slot ∨ (t.1 = p.slot ∧
            (t.2.1 < p.port ∨ (t.2.1 = p.port ∧ t.2.2 < p.channel))))).card : Int)) ∧
    (∀ (u l : Int), (∃ p ∈ scenarioCTarget.bcm_ports, p.unit = u ∧ p.logical_port = l) ↔
      1 ≤ l ∧ l ≤ ((scenarioCTarget.bcm_ports.filter (fun q => decide (q.unit = u))).length : Int)) ∧
    (∀ p ∈ scenarioCTarget.bcm_ports, p.logical_port ≠ 0)) :=
  ⟨by rfl, by rfl, C2_auto_logical_ports exampleConstants (Except.ok [scenarioCBase]) scenarioCConfig scenarioCBase
      scenarioCTarget (by rfl) (by rfl)⟩

/-- After the loop over the singleton ports, the `(slot, port)` pair of every singleton port
whose first match is flex is in `flex_slot_port_pairs`. -/
theorem singletonPortLoop_flex_mem (k : Constants) (bp : List BcmPort)
    (ports : List SingletonPort) (st st' : PortLoopState)
    (h : singletonPortLoop k bp st ports = Except.ok st') :
    ∀ s ∈ ports, ∀ b, bp.find? (IsSingletonPortMatchesBcmPort s) = some b →
      b.flex_port = true → (s.slot, s.port) ∈ st'.flex_slot_port_pairs := by
  have key := singletonPortLoop_induction k bp
    (fun done st1 => ∀ s ∈ done, ∀ b, bp.find? (IsSingletonPortMatchesBcmPort s) = some b →
      b.flex_port = true → (s.slot, s.port) ∈ st1.flex_slot_port_pairs)
    (by
      intro done st1 s st2 hall hstep
      obtain ⟨b, hb⟩ := singletonPortStep_ok k bp st1 s st2 hstep
      intro s' hs' b' hb' hf'
      rcases List.mem_append.1 hs' with hs' | hs'
      · have := hall s' hs' b' hb' hf'
        rcases hb.flex with ⟨_, hset, _⟩ | ⟨_, _, hsame, _⟩
        · rw [hset, mem_setInsert lawful_pair]; exact Or.inr this
        · rw [hsame]; exact this
      · simp only [List.mem_singleton] at hs'
        subst hs'
        rw [hb.found] at hb'
        cases hb'
        rcases hb.flex with ⟨_, hset, _⟩ | ⟨hnf, _⟩
        · rw [hset, mem_setInsert lawful_pair]; exact Or.inl rfl
        · rw [hnf] at hf'; cases hf')
    ports [] st st' (by simp) h
  simpa using key

theorem verifyBaseChips_ok (a : Bool) (st st' : BaseSets) (chips : List BcmChip)
    (h : verifyBaseChips a st chips = Except.ok st') :
    (chips.map (fun c => c.unit)).Nodup ∧ ∀ c ∈ chips, setCount c.unit st.units = false := by
  induction chips generalizing st with
  | nil => simp
  | cons c rest ih =>
    simp only [verifyBaseChips, bind_ok_iff] at h
    obtain ⟨st1, h1, h2⟩ := h
    unfold verifyBaseChip at h1
    simp only [bind_ok_iff, CHECK_ok_iff, pure_ok_iff] at h1
    obtain ⟨_, _, slots, _, _, hu, _, _, _, _, _, _, rfl⟩ := h1
    simp only [Bool.and_eq_true, decide_eq_true_eq, Bool.not_eq_true'] at hu
    obtain ⟨hnd, hall⟩ := ih _ h2
    simp only at hall
    have hq : ∀ q ∈ rest, q.unit ≠ c.unit ∧ setCount q.unit st.units = false := by
      intro q hq
      have := (setCount_setInsert lawful_int q.unit c.unit st.units).not
      rw [hall q hq] at this
      simp only [Bool.false_eq_true, not_false_eq_true, not_or, Bool.not_eq_true,
        true_iff] at this
      exact this
    constructor
    · rw [List.map_cons, List.nodup_cons]
      refine ⟨?_, hnd⟩
      intro hmem
      obtain ⟨q, hq', he⟩ := List.mem_map.1 hmem
      exact (hq q hq').1 he
    · intro q hq'
      rcases List.mem_cons.1 hq' with rfl | hq'
      · exact hu.2
      · exact (hq q hq').2

/-- The chips of the base map that the resolver returns have pairwise distinct units. -/
theorem base_chip_units_nodup (file : Except ErrorCode (List BcmChassisMap))
    (config : ChassisConfig) (base0 base : BcmChassisMap)
    (h0 : ReadBaseBcmChassisMapFromFile file (config.bcm_chassis_map_id.getD "") =
      Except.ok base0)
    (hpop : (if base0.auto_add_slot then PopulateSlotFromPushedChassisConfig config base0
      else pure base0) = Except.ok base) :
    (base.bcm_chips.map (fun c => c.unit)).Nodup := by
  obtain ⟨maps, st, _, _, hchips, _⟩ := ReadBaseBcmChassisMapFromFile_ok _ _ _ h0
  have h1 := (verifyBaseChips_ok _ _ _ _ hchips).1
  cases ha : base0.auto_add_slot
  · simp only [ha, Bool.false_eq_true, if_false, pure_ok_iff] at hpop
    subst hpop
    exact h1
  · simp only [ha, if_true] at hpop
    obtain ⟨slot, _, _, _, rfl⟩ := PopulateSlotFromPushedChassisConfig_ok _ _ _ hpop
    simp only [List.map_map]
    exact h1

theorem nodup_map_unit_eq (chips : List BcmChip) (h : (chips.map (fun c => c.unit)).Nodup)
    (c c' : BcmChip) (hc : c ∈ chips) (hc' : c' ∈ chips) (hu : c.unit = c'.unit) : c = c' :=
  List.inj_on_of_nodup_map h hc hc' hu

theorem flexMinSpeedBps_ok (t : BcmChipType) (v : Nat) (h : flexMinSpeedBps t = Except.ok v) :
    (t = BcmChipType.TOMAHAWK ∧ v = kTwentyFiveGigBps) ∨
    (t = BcmChipType.TRIDENT2 ∧ v = kTenGigBps) := by
  cases t <;> simp [flexMinSpeedBps, pure, Except.pure] at h
  · right; exact ⟨rfl, h.symm⟩
  · left; exact ⟨rfl, h.symm⟩

/-- The ports of the target map are the ports before the logical ports are rewritten, up to
`logical_port`. -/
theorem auto_ports_forall₂ (base : BcmChassisMap) (ports ports' : List BcmPort)
    (hauto : (if base.auto_add_logical_ports then
        autoAddLogicalPorts (unitToSlotPortChannels ports) ports
      else pure ports) = Except.ok ports') :
    List.Forall₂ (fun p p' => ∃ l : Int, p' = { p with logical_port := l }) ports ports' := by
  cases hal : base.auto_add_logical_ports
  · simp only [hal, Bool.false_eq_true, if_false, pure_ok_iff] at hauto
    subst hauto
    exact List.forall₂_same.2 (fun p _ => ⟨p.logical_port, rfl⟩)
  · simp only [hal, if_true] at hauto
    refine List.Forall₂.imp ?_ (autoAddLogicalPorts_ok _ _ _ hauto)
    rintro p p' ⟨idx, _, rfl⟩
    exact ⟨_, rfl⟩

theorem forall₂_infix {α β : Type} {R : α → β → Prop} {l : List α} {l' : List β}
    (h : List.Forall₂ R l l') (g : List α) (hg : g <:+: l) :
    ∃ g', g' <:+: l' ∧ List.Forall₂ R g g' := by
  obtain ⟨a, c, rfl⟩ := hg
  refine ⟨(l'.drop a.length).take g.length, ?_, ?_⟩
  · exact (List.take_prefix _ _).isInfix.trans (List.drop_suffix _ _).isInfix
  · have := List.forall₂_take g.length (List.forall₂_drop a.length h)
    simpa using this

/-- C5 (counterexample): in Scenario C the chip is a TOMAHAWK, the singleton ports match
flex base ports, the resolver returns OK, and the applied port at channel 1 of the flex pair
has speed 25G, not 100G. -/
theorem C5_counterexample :
    GenerateBcmChassisMapFromConfig exampleConstants (Except.ok [scenarioCBase])
      scenarioCConfig = Except.ok (scenarioCBase, scenarioCTarget) ∧
    (∀ c ∈ scenarioCBase.bcm_chips, c.type = BcmChipType.TOMAHAWK) ∧
    (∀ s ∈ scenarioCConfig.singleton_ports, ∃ b,
      scenarioCBase.bcm_ports.find? (IsSingletonPortMatchesBcmPort s) = some b ∧
        b.flex_port = true) ∧
    ¬ (∀ p ∈ scenarioCTarget.bcm_ports, p.channel = 1 → p.speed_bps = kHundredGigBps) := by
  refine ⟨by rfl, by decide, by decide, ?_⟩
  intro hall
  have := hall (scenarioCPort 1 1) (by simp [scenarioCTarget]) (by rfl)
  revert this
  decide

/-- C5 (amended): whenever the resolver returns OK, for every singleton port of the config
whose first match is a flex base port, the base map has exactly one chip with the unit of
that port, of type TOMAHAWK or TRIDENT2, and the applied map holds four consecutive ports on
that unit for the channels 1, 2, 3, 4 of the `(slot, port)` pair, each of them with speed
25G when the chip is a TOMAHAWK and 10G when it is a TRIDENT2. -/
theorem C5_flex_expansion_speed (k : Constants) (file : Except ErrorCode (List BcmChassisMap))
    (config : ChassisConfig) (base target : BcmChassisMap)
    (h : GenerateBcmChassisMapFromConfig k file config = Except.ok (base, target)) :
    ∀ s ∈ config.singleton_ports, ∀ b,
      base.bcm_ports.find? (IsSingletonPortMatchesBcmPort s) = some b → b.flex_port = true →
      ∃ chip ∈ base.bcm_chips, chip.unit = b.unit ∧
        (∀ chip' ∈ base.bcm_chips, chip'.unit = b.unit → chip' = chip) ∧
        ∃ v : Nat, ((chip.type = BcmChipType.TOMAHAWK ∧ v = kTwentyFiveGigBps) ∨
            (chip.type = BcmChipType.TRIDENT2 ∧ v = kTenGigBps)) ∧
          ∃ p1 p2 p3 p4 : BcmPort, [p1, p2, p3, p4] <:+: target.bcm_ports ∧
            p1.channel = 1 ∧ p2.channel = 2 ∧ p3.channel = 3 ∧ p4.channel = 4 ∧
            ∀ p ∈ [p1, p2, p3, p4],
              p.slot = s.slot ∧ p.port = s.port ∧ p.unit = b.unit ∧ p.speed_bps = v := by
  obtain ⟨base0, h0, hpop, ht⟩ := GenerateBcmChassisMapFromConfig_ok k file config base target h
  have hnd := base_chip_units_nodup file config base0 base h0 hpop
  obtain ⟨chassis, sup, nm, st, chips, ports, ports', _, _, _, _, hloop, _, _, _, hflex, _,
    hauto, _, rfl⟩ := generateTarget_ok k base config target ht
  obtain ⟨groups, hgr, hgall⟩ := addFlexPorts_ok _ _ _ _ _ hflex
  have hfm := singletonPortLoop_flex_mem k base.bcm_ports config.singleton_ports _ st hloop
  have hf2 := auto_ports_forall₂ base ports ports' hauto
  intro s hs b hb hbf
  obtain ⟨g, hg, unit, v, hunits, hv, hch⟩ := forall₂_mem_left hgall _ (hfm s hs b hb hbf)
  obtain ⟨hbm, _, hbs, hbp, _⟩ := find_match_some _ _ _ hb
  have hbu : b.unit = unit := flexUnits_singleton _ _ _ hunits b hbm hbs.symm hbp.symm
  have hty := flexMinSpeedBps_ok _ _ hv
  -- the hosting chip
  have hchip : ∃ chip, base.bcm_chips.find? (fun c => c.unit == unit) = some chip ∧
      flexChipType base.bcm_chips unit = chip.type := by
    unfold flexChipType at hty ⊢
    cases hfc : base.bcm_chips.find? (fun c => c.unit == unit) with
    | none => simp [hfc] at hty
    | some chip => exact ⟨chip, rfl, rfl⟩
  obtain ⟨chip, hfc, hct⟩ := hchip
  have hcm := List.mem_of_find?_eq_some hfc
  have hcu : chip.unit = unit := by simpa using List.find?_some hfc
  refine ⟨chip, hcm, by rw [hcu, hbu], ?_, v, by rw [← hct]; exact hty, ?_⟩
  · intro chip' hc' hu'
    exact nodup_map_unit_eq _ hnd _ _ hc' hcm (by rw [hu', hcu, hbu])
  -- the four ports
  have hginf : g <:+: ports := by
    rw [hgr]
    exact (List.infix_of_mem_flatten hg).trans (List.suffix_append _ _).isInfix
  obtain ⟨g', hg', hrel⟩ := forall₂_infix hf2 g hginf
  cases hch with
  | cons h1 hch =>
    cases hch with
    | cons h2 hch =>
      cases hch with
      | cons h3 hch =>
        cases hch with
        | cons h4 hch =>
          cases hch
          cases hrel with
          | cons r1 hrel =>
            cases hrel with
            | cons r2 hrel =>
              cases hrel with
              | cons r3 hrel =>
                cases hrel with
                | cons r4 hrel =>
                  cases hrel
                  obtain ⟨l1, rfl⟩ := r1
                  obtain ⟨l2, rfl⟩ := r2
                  obtain ⟨l3, rfl⟩ := r3
                  obtain ⟨l4, rfl⟩ := r4
                  obtain ⟨m1, _, s1, q1, c1, v1⟩ := find_match_some _ _ _ h1
                  obtain ⟨m2, _, s2, q2, c2, v2⟩ := find_match_some _ _ _ h2
                  obtain ⟨m3, _, s3, q3, c3, v3⟩ := find_match_some _ _ _ h3
                  obtain ⟨m4, _, s4, q4, c4, v4⟩ := find_match_some _ _ _ h4
                  simp only at s1 q1 c1 v1 s2 q2 c2 v2 s3 q3 c3 v3 s4 q4 c4 v4
                  have u1 := flexUnits_singleton _ _ _ hunits _ m1 s1.symm q1.symm
                  have u2 := flexUnits_singleton _ _ _ hunits _ m2 s2.symm q2.symm
                  have u3 := flexUnits_singleton _ _ _ hunits _ m3 s3.symm q3.symm
                  have u4 := flexUnits_singleton _ _ _ hunits _ m4 s4.symm q4.symm
                  refine ⟨_, _, _, _, hg', c1.symm, c2.symm, c3.symm, c4.symm, ?_⟩
                  intro p hp
                  simp only [List.mem_cons, List.mem_singleton, List.not_mem_nil, or_false] at hp
                  rcases hp with rfl | rfl | rfl | rfl
                  · exact ⟨s1.symm, q1.symm, by rw [hbu]; exact u1, v1.symm⟩
                  · exact ⟨s2.symm, q2.symm, by rw [hbu]; exact u2, v2.symm⟩
                  · exact ⟨s3.symm, q3.symm, by rw [hbu]; exact u3, v3.symm⟩
                  · exact ⟨s4.symm, q4.symm, by rw [hbu]; exact u4, v4.symm⟩

/-- Witness for the amended C5: Scenario C. -/
theorem C5_flex_expansion_speed_witness :
    GenerateBcmChassisMapFromConfig exampleConstants (Except.ok [scenarioCBase])
        scenarioCConfig = Except.ok (scenarioCBase, scenarioCTarget) ∧
    (∀ s ∈ scenarioCConfig.singleton_ports, ∀ b,
      scenarioCBase.bcm_ports.find? (IsSingletonPortMatchesBcmPort s) = some b → b.flex_port = true →
      ∃ chip ∈ scenarioCBase.bcm_chips, chip.unit = b.unit ∧
        (∀ chip' ∈ scenarioCBase.bcm_chips, chip'.unit = b.unit → chip' = chip) ∧
        ∃ v : Nat, ((chip.type = BcmChipType.TOMAHAWK ∧ v = kTwentyFiveGigBps) ∨
            (chip.type = BcmChipType.TRIDENT2 ∧ v = kTenGigBps)) ∧
          ∃ p1 p2 p3 p4 : BcmPort, [p1, p2, p3, p4] <:+: scenarioCTarget.bcm_ports ∧
            p1.channel = 1 ∧ p2.channel = 2 ∧ p3.channel = 3 ∧ p4.channel = 4 ∧
            ∀ p ∈ [p1, p2, p3, p4],
              p.slot = s.slot ∧ p.port = s.port ∧ p.unit = b.unit ∧ p.speed_bps = v) :=
  ⟨by rfl, C5_flex_expansion_speed exampleConstants (Except.ok [scenarioCBase]) scenarioCConfig scenarioCBase
      scenarioCTarget (by rfl)⟩

/-! ## The flex / non-flex cross-check -/

/-- C4 (the code at the failing input): in `mixedBase` the singleton port at channel 2 of
`(1, 1)` matches a flex base port, the resolver returns OK on the config that lists the
non-flex channel 1 before it, and the applied map has five ports at `(1, 1)`, two of them
at channel 1. -/
theorem C4_mixed_pair_has_five_ports :
    mixedBase.bcm_ports.find? (IsSingletonPortMatchesBcmPort mixedFlexSingleton) =
      some (mixedPort 2 kTwentyGigBps true 2) ∧
    (mixedPort 2 kTwentyGigBps true 2).flex_port = true ∧
    GenerateBcmChassisMapFromConfig exampleConstants (Except.ok [mixedBase])
      (mixedConfig [mixedNonFlexSingleton, mixedFlexSingleton]) =
        Except.ok (mixedBase, mixedTarget) ∧
    (mixedTarget.bcm_ports.filter (fun p => p.slot == 1 && p.port == 1)).length = 5 ∧
    (mixedTarget.bcm_ports.filter
      (fun p => p.slot == 1 && p.port == 1 && p.channel == 1)).length = 2 :=
  ⟨by rfl, by rfl, by rfl, by rfl, by rfl⟩

/-- C8 (the code at the failing input): the two 20G singleton ports share `(1, 1)`, the
first matches a non-flex base port and the second a flex one; the resolver returns OK when
the non-flex one comes first in the config, and an error only when the flex one comes
first. -/
theorem C8_non_flex_before_flex_accepted :
    mixedBase.bcm_ports.find? (IsSingletonPortMatchesBcmPort mixedNonFlexSingleton) =
      some (mixedPort 1 kTwentyGigBps false 1) ∧
    mixedBase.bcm_ports.find? (IsSingletonPortMatchesBcmPort mixedFlexSingleton) =
      some (mixedPort 2 kTwentyGigBps true 2) ∧
    (mixedNonFlexSingleton.slot, mixedNonFlexSingleton.port) =
      (mixedFlexSingleton.slot, mixedFlexSingleton.port) ∧
    GenerateBcmChassisMapFromConfig exampleConstants (Except.ok [mixedBase])
      (mixedConfig [mixedNonFlexSingleton, mixedFlexSingleton]) =
        Except.ok (mixedBase, mixedTarget) ∧
    GenerateBcmChassisMapFromConfig exampleConstants (Except.ok [mixedBase])
      (mixedConfig [mixedFlexSingleton, mixedNonFlexSingleton]) =
        Except.error ErrorCode.ERR_INTERNAL :=
  ⟨by rfl, by rfl, by rfl, by rfl, by rfl⟩

/-! # Properties of the manager -/

/-! ## Operations -/

theorem Op.bind_eq {α β : Type} (x : Op α) (f : α → Op β) : (x >>= f) = Op.bind x f := rfl

theorem Op.pure_eq {α : Type} (a : α) : (pure a : Op α) = Op.pure a := rfl

theorem Op.bind_of_ok {α β : Type} (x : Op α) (f : α → Op β) (m : BcmChassisManager) (a : α)
    (h : (x m).status = Except.ok a) :
    Op.bind x f m =
      ⟨(f a (x m).mgr).status, (f a (x m).mgr).mgr, (x m).calls ++ (f a (x m).mgr).calls⟩ := by
  unfold Op.bind
  cases hx : x m with
  | mk s m1 c1 =>
    rw [hx] at h
    simp only at h
    subst h
    rfl

theorem Op.bind_of_error {α β : Type} (x : Op α) (f : α → Op β) (m : BcmChassisManager)
    (e : ErrorCode) (h : (x m).status = Except.error e) :
    Op.bind x f m = ⟨Except.error e, (x m).mgr, (x m).calls⟩ := by
  unfold Op.bind
  cases hx : x m with
  | mk s m1 c1 =>
    rw [hx] at h
    simp only at h
    subst h
    rfl

theorem Op.bind_status_ok {α β : Type} (x : Op α) (f : α → Op β) (m : BcmChassisManager) (b : β)
    (h : (Op.bind x f m).status = Except.ok b) :
    ∃ a, (x m).status = Except.ok a ∧ (f a (x m).mgr).status = Except.ok b ∧
      (Op.bind x f m).mgr = (f a (x m).mgr).mgr := by
  cases hs : (x m).status with
  | error e =>
    rw [Op.bind_of_error x f m e hs] at h
    cases h
  | ok a =>
    rw [Op.bind_of_ok x f m a hs] at h ⊢
    exact ⟨a, rfl, h, rfl⟩

theorem Op.keeps_pure {α β : Type} (proj : BcmChassisManager → β) (a : α) :
    Op.Keeps proj (Op.pure a) := fun _ => rfl

theorem Op.keeps_fail {α β : Type} (proj : BcmChassisManager → β) (e : ErrorCode) :
    Op.Keeps proj (Op.fail e : Op α) := fun _ => rfl

theorem Op.keeps_get {β : Type} (proj : BcmChassisManager → β) : Op.Keeps proj Op.get :=
  fun _ => rfl

theorem Op.keeps_lift {α β : Type} (proj : BcmChassisManager → β) (x : Except ErrorCode α) :
    Op.Keeps proj (Op.lift x) := fun _ => rfl

theorem Op.keeps_call {α β : Type} (proj : BcmChassisManager → β) (c : Call)
    (answer : Except ErrorCode α) : Op.Keeps proj (Op.call c answer) := fun _ => rfl

theorem Op.keeps_check {β : Type} (proj : BcmChassisManager → β) (cond : Bool) :
    Op.Keeps proj (Op.check cond) := by
  intro m
  cases cond <;> rfl

theorem Op.keeps_modify {β : Type} (proj : BcmChassisManager → β)
    (f : BcmChassisManager → BcmChassisManager) (h : ∀ m, proj (f m) = proj m) :
    Op.Keeps proj (Op.modify f) := fun m => h m

theorem Op.keeps_bind {α β γ : Type} (proj : BcmChassisManager → γ) (x : Op α) (f : α → Op β)
    (hx : Op.Keeps proj x) (hf : ∀ a, Op.Keeps proj (f a)) : Op.Keeps proj (Op.bind x f) := by
  intro m
  cases hs : (x m).status with
  | error e => rw [Op.bind_of_error x f m e hs]; exact hx m
  | ok a =>
    rw [Op.bind_of_ok x f m a hs]
    exact (hf a _).trans (hx m)

theorem Op.keeps_try {α β : Type} (proj : BcmChassisManager → β) (x : Op α)
    (hx : Op.Keeps proj x) : Op.Keeps proj (Op.try x) := fun m => hx m

theorem Op.keeps_ite {α β : Type} (proj : BcmChassisManager → β) (c : Prop) [Decidable c]
    (x y : Op α) (hx : Op.Keeps proj x) (hy : Op.Keeps proj y) :
    Op.Keeps proj (if c then x else y) := by
  split
  · exact hx
  · exact hy

theorem Op.keeps_forEach {α β : Type} (proj : BcmChassisManager → β) (f : α → Op Unit)
    (hf : ∀ a, Op.Keeps proj (f a)) (l : List α) : Op.Keeps proj (Op.forEach f l) := by
  induction l with
  | nil => exact Op.keeps_pure proj ()
  | cons a rest ih => exact Op.keeps_bind proj _ _ (hf a) (fun _ => ih)

theorem Op.keepsOnError_of_keeps {α β : Type} (proj : BcmChassisManager → β) (x : Op α)
    (hx : Op.Keeps proj x) : Op.KeepsOnError proj x := fun m _ _ => hx m

theorem Op.keepsOnError_bind {α β γ : Type} (proj : BcmChassisManager → γ) (x : Op α)
    (f : α → Op β) (hx : Op.Keeps proj x) (hf : ∀ a, Op.KeepsOnError proj (f a)) :
    Op.KeepsOnError proj (Op.bind x f) := by
  intro m e he
  cases hs : (x m).status with
  | error e' => rw [Op.bind_of_error x f m e' hs]; exact hx m
  | ok a =>
    rw [Op.bind_of_ok x f m a hs] at he ⊢
    exact (hf a _ e he).trans (hx m)

theorem Op.keepsOnError_modify {β : Type} (proj : BcmChassisManager → β)
    (f : BcmChassisManager → BcmChassisManager) : Op.KeepsOnError proj (Op.modify f) := by
  intro m e he
  cases he

/-! ## What the operations leave alone -/

theorem foldl_keeps {α β : Type} (proj : BcmChassisManager → β)
    (f : BcmChassisManager → α → BcmChassisManager) (h : ∀ m a, proj (f m a) = proj m)
    (l : List α) (m : BcmChassisManager) : proj (l.foldl f m) = proj m := by
  induction l generalizing m with
  | nil => rfl
  | cons a rest ih => exact (ih (f m a)).trans (h m a)

theorem SetPortOptionsForPortGroup_keeps {β : Type} (proj : BcmChassisManager → β) (env : Env)
    (slot_port_pair : Int × Int) (options : BcmPortOptions) :
    Op.Keeps proj (BcmChassisManager.SetPortOptionsForPortGroup env slot_port_pair options) := by
  unfold BcmChassisManager.SetPortOptionsForPortGroup
  simp only [Op.bind_eq, Op.pure_eq]
  repeat' first
    | apply Op.keeps_bind
    | apply Op.keeps_forEach
    | apply Op.keeps_get
    | apply Op.keeps_pure
    | apply Op.keeps_fail
    | apply Op.keeps_call
    | split
    | intro _

theorem SetSpeedForFlexPortGroup_keeps {β : Type} (proj : BcmChassisManager → β) (env : Env)
    (slot_port_pair : Int × Int) :
    Op.Keeps proj (BcmChassisManager.SetSpeedForFlexPortGroup env slot_port_pair) := by
  unfold BcmChassisManager.SetSpeedForFlexPortGroup
  simp only [Op.bind_eq, Op.pure_eq]
  repeat' first
    | apply Op.keeps_bind
    | apply Op.keeps_forEach
    | apply Op.keeps_get
    | apply Op.keeps_pure
    | apply Op.keeps_fail
    | apply Op.keeps_call
    | apply Op.keeps_check
    | apply Op.keeps_lift
    | split
    | intro _

theorem attachUnit_keeps {β : Type} (proj : BcmChassisManager → β) (env : Env)
    (bcm_chip : BcmChip) : Op.Keeps proj (attachUnit env bcm_chip) := by
  unfold attachUnit
  simp only [Op.bind_eq, Op.pure_eq]
  repeat' first
    | apply Op.keeps_bind
    | apply Op.keeps_call
    | intro _

theorem InitializeBcmChips_keeps {β : Type} (proj : BcmChassisManager → β) (env : Env)
    (base target : BcmChassisMap) :
    Op.Keeps proj (BcmChassisManager.InitializeBcmChips env base target) := by
  unfold BcmChassisManager.InitializeBcmChips BcmChassisManager.WriteBcmConfigFile
  simp only [Op.bind_eq, Op.pure_eq]
  repeat' first
    | apply Op.keeps_bind
    | apply Op.keeps_forEach
    | apply Op.keeps_get
    | apply Op.keeps_pure
    | apply Op.keeps_fail
    | apply Op.keeps_call
    | apply Op.keeps_lift
    | apply attachUnit_keeps
    | split
    | intro _

theorem InitializeInternalState_keeps_initialized (base target : BcmChassisMap) :
    Op.Keeps (fun m => m.initialized_)
      (BcmChassisManager.InitializeInternalState base target) := by
  unfold BcmChassisManager.InitializeInternalState
  simp only [Op.bind_eq, Op.pure_eq]
  repeat' first
    | apply Op.keeps_bind
    | apply Op.keeps_get
    | apply Op.keeps_pure
    | apply Op.keeps_fail
    | (apply Op.keeps_modify; intro m; rfl)
    | split
    | intro _

theorem syncPort_keeps {β : Type} (proj : BcmChassisManager → β)
    (h4 : ∀ s p m, proj (syncRecordPort s p m) = proj m)
    (h5 : ∀ s f p m, proj (syncRecordGroup s f p m) = proj m)
    (s : SingletonPort) (tmp : List ((Int × Int × Int) × PortState)) :
    Op.Keeps proj (syncPort s tmp) := by
  unfold syncPort
  simp only [Op.bind_eq, Op.pure_eq]
  repeat' first
    | apply Op.keeps_bind
    | apply Op.keeps_get
    | apply Op.keeps_pure
    | apply Op.keeps_check
    | apply Op.keeps_lift
    | (apply Op.keeps_modify; first | exact h4 _ _ | exact h5 _ _ _)
    | split
    | intro _

theorem syncPorts_keeps {β : Type} (proj : BcmChassisManager → β)
    (h4 : ∀ s p m, proj (syncRecordPort s p m) = proj m)
    (h5 : ∀ s f p m, proj (syncRecordGroup s f p m) = proj m)
    (ports : List SingletonPort) (tmp : List ((Int × Int × Int) × PortState)) :
    Op.Keeps proj (syncPorts ports tmp) := by
  induction ports generalizing tmp with
  | nil => exact Op.keeps_pure proj tmp
  | cons s rest ih =>
    exact Op.keeps_bind proj _ _ (syncPort_keeps proj h4 h5 s tmp) (fun tmp' => ih tmp')

theorem SyncInternalState_keeps {β : Type} (proj : BcmChassisManager → β)
    (h1 : ∀ m, proj (syncClear m) = proj m)
    (h2 : ∀ m (node : Node),
      proj { m with
        node_id_to_unit_ := mapSet node.id (-1) m.node_id_to_unit_
        node_id_to_port_ids_ := mapSet node.id [] m.node_id_to_port_ids_ } = proj m)
    (h3 : ∀ m (bcm_chip : BcmChip),
      proj { m with
        unit_to_bcm_chip_ := mapSet bcm_chip.unit bcm_chip m.unit_to_bcm_chip_
        unit_to_logical_ports_ := mapSetInsert bcm_chip.unit 0 m.unit_to_logical_ports_ } =
        proj m)
    (h4 : ∀ s p m, proj (syncRecordPort s p m) = proj m)
    (h5 : ∀ s f p m, proj (syncRecordGroup s f p m) = proj m)
    (h6 : ∀ tmp m, proj { m with slot_port_channel_to_port_state_ := tmp } = proj m)
    (config : ChassisConfig) :
    Op.Keeps proj (BcmChassisManager.SyncInternalState config) := by
  unfold BcmChassisManager.SyncInternalState
  simp only [Op.bind_eq, Op.pure_eq]
  refine Op.keeps_bind proj _ _ (Op.keeps_modify proj _ h1) (fun _ => ?_)
  refine Op.keeps_bind proj _ _
    (Op.keeps_modify proj _ (fun m => foldl_keeps proj _ h2 config.nodes m)) (fun _ => ?_)
  refine Op.keeps_bind proj _ _
    (Op.keeps_modify proj _ (fun m => ?_)) (fun _ => ?_)
  · unfold syncChips
    exact foldl_keeps proj
      (fun (m' : BcmChassisManager) (bcm_chip : BcmChip) =>
        { m' with
          unit_to_bcm_chip_ := mapSet bcm_chip.unit bcm_chip m'.unit_to_bcm_chip_
          unit_to_logical_ports_ := mapSetInsert bcm_chip.unit 0 m'.unit_to_logical_ports_ })
      h3 _ m
  · exact Op.keeps_bind proj _ _ (syncPorts_keeps proj h4 h5 _ _)
      (fun tmp => Op.keeps_modify proj _ (h6 tmp))

theorem syncRecordGroup_keeps {β : Type} (proj : BcmChassisManager → β)
    (hf : ∀ m v, proj { m with slot_port_to_flex_bcm_ports_ := v } = proj m)
    (hn : ∀ m v, proj { m with slot_port_to_non_flex_bcm_ports_ := v } = proj m)
    (s : SingletonPort) (f : Bool) (p : BcmPort) (m : BcmChassisManager) :
    proj (syncRecordGroup s f p m) = proj m := by
  unfold syncRecordGroup
  split
  · exact hf _ _
  · exact hn _ _

theorem SyncInternalState_keeps_initialized (config : ChassisConfig) :
    Op.Keeps (fun m => m.initialized_) (BcmChassisManager.SyncInternalState config) :=
  SyncInternalState_keeps (fun m => m.initialized_) (fun _ => rfl) (fun _ _ => rfl)
    (fun _ _ => rfl) (fun _ _ _ => rfl)
    (fun s f p m =>
      syncRecordGroup_keeps (fun m => m.initialized_) (fun _ _ => rfl) (fun _ _ => rfl) s f p m)
    (fun _ _ => rfl) config

theorem SyncInternalState_keeps_transceiver_state (config : ChassisConfig) :
    Op.Keeps (fun m => m.slot_port_to_transceiver_state_)
      (BcmChassisManager.SyncInternalState config) :=
  SyncInternalState_keeps (fun m => m.slot_port_to_transceiver_state_) (fun _ => rfl)
    (fun _ _ => rfl) (fun _ _ => rfl) (fun _ _ _ => rfl)
    (fun s f p m =>
      syncRecordGroup_keeps (fun m => m.slot_port_to_transceiver_state_) (fun _ _ => rfl)
        (fun _ _ => rfl) s f p m)
    (fun _ _ => rfl) config

theorem demoteReadyGroup_initialized (pair : Int × Int) (m : BcmChassisManager) :
    (demoteReadyGroup pair m).initialized_ = m.initialized_ := by
  unfold demoteReadyGroup
  split
  · rfl
  · split <;> rfl

theorem configureFlexGroups_keeps_initialized (env : Env)
    (l : List ((Int × Int) × List BcmPort)) (status : Except ErrorCode Unit) :
    Op.Keeps (fun m => m.initialized_) (configureFlexGroups env l status) := by
  induction l generalizing status with
  | nil => exact Op.keeps_pure _ status
  | cons e rest ih =>
    unfold configureFlexGroups
    refine Op.keeps_bind _ _ _
      (Op.keeps_try _ _ (SetSpeedForFlexPortGroup_keeps _ env e.1)) (fun ret => ?_)
    cases ret with
    | error err => exact ih _
    | ok speed_changed =>
      refine Op.keeps_bind _ _ _ ?_ (fun _ => ih _)
      split
      · exact Op.keeps_modify _ _ (demoteReadyGroup_initialized e.1)
      · exact Op.keeps_pure _ ()

theorem configurePortOptions_keeps_initialized (env : Env)
    (l : List ((Int × Int) × HwState)) (status : Except ErrorCode Unit) :
    Op.Keeps (fun m => m.initialized_) (configurePortOptions env l status) := by
  induction l generalizing status with
  | nil => exact Op.keeps_pure _ status
  | cons e rest ih =>
    unfold configurePortOptions
    split
    · refine Op.keeps_bind _ _ _
        (Op.keeps_try _ _ (SetPortOptionsForPortGroup_keeps _ env e.1 _)) (fun ret => ?_)
      cases ret with
      | error err => exact ih _
      | ok u =>
        refine Op.keeps_bind _ _ _ ?_ (fun _ => ih _)
        split
        · exact Op.keeps_modify _ _ (fun _ => rfl)
        · exact Op.keeps_pure _ ()
    · exact ih _

theorem ConfigurePortGroups_keeps_initialized (env : Env) :
    Op.Keeps (fun m => m.initialized_) (BcmChassisManager.ConfigurePortGroups env) := by
  unfold BcmChassisManager.ConfigurePortGroups
  simp only [Op.bind_eq, Op.pure_eq]
  repeat' first
    | apply Op.keeps_bind
    | apply Op.keeps_get
    | apply Op.keeps_lift
    | apply configureFlexGroups_keeps_initialized
    | apply configurePortOptions_keeps_initialized
    | intro _

theorem RegisterEventWriters_keeps_initialized (env : Env) :
    Op.Keeps (fun m => m.initialized_) (BcmChassisManager.RegisterEventWriters env) := by
  unfold BcmChassisManager.RegisterEventWriters startReaderThread
  simp only [Op.bind_eq, Op.pure_eq]
  repeat' first
    | apply Op.keeps_bind
    | apply Op.keeps_forEach
    | apply Op.keeps_get
    | apply Op.keeps_pure
    | apply Op.keeps_fail
    | apply Op.keeps_call
    | (apply Op.keeps_modify; intro m; rfl)
    | split
    | intro _

theorem Op.try_apply {α : Type} (x : Op α) (m : BcmChassisManager) :
    Op.try x m = ⟨Except.ok (x m).status, (x m).mgr, (x m).calls⟩ := rfl

theorem Op.bind_try {α β : Type} (x : Op α) (f : Except ErrorCode α → Op β)
    (m : BcmChassisManager) :
    Op.bind (Op.try x) f m =
      ⟨(f (x m).status (x m).mgr).status, (f (x m).status (x m).mgr).mgr,
        (x m).calls ++ (f (x m).status (x m).mgr).calls⟩ :=
  Op.bind_of_ok (Op.try x) f m (x m).status rfl

theorem Op.bind_modify {β : Type} (g : BcmChassisManager → BcmChassisManager)
    (f : Unit → Op β) (m : BcmChassisManager) : Op.bind (Op.modify g) f m = f () (g m) := by
  rw [Op.bind_of_ok (Op.modify g) f m () rfl]
  rfl

theorem Op.bind_get {β : Type} (f : BcmChassisManager → Op β) (m : BcmChassisManager) :
    Op.bind Op.get f m = f m m := by
  rw [Op.bind_of_ok Op.get f m m rfl]
  rfl

theorem Op.bind_pure {α β : Type} (a : α) (f : α → Op β) (m : BcmChassisManager) :
    Op.bind (Op.pure a) f m = f a m := by
  rw [Op.bind_of_ok (Op.pure a) f m a rfl]
  rfl

/-- A push that returns an error leaves `initialized_` as it was. -/
theorem PushChassisConfig_keeps_initialized_on_error (env : Env) (config : ChassisConfig) :
    Op.KeepsOnError (fun m => m.initialized_)
      (BcmChassisManager.PushChassisConfig env config) := by
  unfold BcmChassisManager.PushChassisConfig
  simp only [Op.bind_eq, Op.pure_eq]
  refine Op.keepsOnError_bind _ _ _ (Op.keeps_get _) (fun m => ?_)
  split
  · refine Op.keepsOnError_bind _ _ _ ?_ (fun _ => ?_)
    · split
      · exact Op.keeps_call _ _ _
      · exact Op.keeps_pure _ _
    refine Op.keepsOnError_bind _ _ _ (Op.keeps_lift _ _) (fun maps => ?_)
    refine Op.keepsOnError_bind _ _ _ (InitializeBcmChips_keeps _ env _ _) (fun _ => ?_)
    refine Op.keepsOnError_bind _ _ _ (InitializeInternalState_keeps_initialized _ _)
      (fun _ => ?_)
    refine Op.keepsOnError_bind _ _ _ (SyncInternalState_keeps_initialized _) (fun _ => ?_)
    refine Op.keepsOnError_bind _ _ _ (ConfigurePortGroups_keeps_initialized _) (fun _ => ?_)
    refine Op.keepsOnError_bind _ _ _ (RegisterEventWriters_keeps_initialized _) (fun _ => ?_)
    exact Op.keepsOnError_modify _ _
  · exact Op.keepsOnError_of_keeps _ _
      (Op.keeps_bind _ _ _ (SyncInternalState_keeps_initialized _)
        (fun _ => ConfigurePortGroups_keeps_initialized _))

/-- After `Shutdown` the manager is not initialized, whatever `Shutdown` returns. -/
theorem Shutdown_initialized (env : Env) (m : BcmChassisManager) :
    ((BcmChassisManager.Shutdown env).run m).mgr.initialized_ = false := by
  unfold BcmChassisManager.Shutdown Op.run
  simp only [Op.bind_eq, Op.pure_eq, Op.bind_try, Op.bind_modify]
  rfl

/-- C17: `SyncInternalState` never modifies `slot_port_to_transceiver_state_`: whether the
call returns OK or an error, the map after the call is the map before it. -/
theorem C17_sync_keeps_transceiver_state (config : ChassisConfig) (m : BcmChassisManager) :
    ((BcmChassisManager.SyncInternalState config).run m).mgr.slot_port_to_transceiver_state_ =
      m.slot_port_to_transceiver_state_ :=
  SyncInternalState_keeps_transceiver_state config m

/-- C19: a manager that is not initialized, which is so for a new manager, for the manager
after a push that returned an error on a manager that was not initialized, and for the
manager after `Shutdown`, answers `ERR_NOT_INITIALIZED` in each of the seven getters, for
every argument. -/
theorem C19_getters_not_initialized (env : Env) (mode : OperationMode) (config : ChassisConfig)
    (m0 m : BcmChassisManager)
    (h : m.initialized_ = false ∨ m = BcmChassisManager.create env mode ∨
      (m0.initialized_ = false ∧
        (∃ e, ((BcmChassisManager.PushChassisConfig env config).run m0).status =
          Except.error e) ∧
        m = ((BcmChassisManager.PushChassisConfig env config).run m0).mgr) ∨
      m = ((BcmChassisManager.Shutdown env).run m0).mgr) :
    (∀ unit, BcmChassisManager.GetBcmChip m unit =
      Except.error ErrorCode.ERR_NOT_INITIALIZED) ∧
    (∀ slot port channel, BcmChassisManager.GetBcmPort m slot port channel =
      Except.error ErrorCode.ERR_NOT_INITIALIZED) ∧
    BcmChassisManager.GetNodeIdToUnitMap m = Except.error ErrorCode.ERR_NOT_INITIALIZED ∧
    (∀ node_id, BcmChassisManager.GetUnitFromNodeId m node_id =
      Except.error ErrorCode.ERR_NOT_INITIALIZED) ∧
    BcmChassisManager.GetPortIdToUnitLogicalPortMap m =
      Except.error ErrorCode.ERR_NOT_INITIALIZED ∧
    BcmChassisManager.GetTrunkIdToUnitTrunkPortMap m =
      Except.error ErrorCode.ERR_NOT_INITIALIZED ∧
    (∀ port_id, BcmChassisManager.GetPortState m port_id =
      Except.error ErrorCode.ERR_NOT_INITIALIZED) := by
  have hi : m.initialized_ = false := by
    rcases h with h | rfl | ⟨h0, ⟨e, he⟩, rfl⟩ | rfl
    · exact h
    · rfl
    · exact (PushChassisConfig_keeps_initialized_on_error env config m0 e he).trans h0
    · exact Shutdown_initialized env m0
  simp [BcmChassisManager.GetBcmChip, BcmChassisManager.GetBcmPort,
    BcmChassisManager.GetNodeIdToUnitMap, BcmChassisManager.GetUnitFromNodeId,
    BcmChassisManager.GetPortIdToUnitLogicalPortMap,
    BcmChassisManager.GetTrunkIdToUnitTrunkPortMap, BcmChassisManager.GetPortState, hi]

/-! ## Verify and push on the example inputs -/

/-- Witness for C19: the push of a config with a repeated port id on a new manager returns
an error, and the getters of the manager after it answer `ERR_NOT_INITIALIZED`. -/
theorem C19_getters_not_initialized_witness :
    (((BcmChassisManager.PushChassisConfig scenarioAEnv duplicateIdConfig).run
        (freshManager scenarioAEnv)).mgr.initialized_ = false ∨
      ((BcmChassisManager.PushChassisConfig scenarioAEnv duplicateIdConfig).run
        (freshManager scenarioAEnv)).mgr =
        BcmChassisManager.create scenarioAEnv OperationMode.OPERATION_MODE_STANDALONE ∨
      ((freshManager scenarioAEnv).initialized_ = false ∧
        (∃ e, ((BcmChassisManager.PushChassisConfig scenarioAEnv duplicateIdConfig).run
          (freshManager scenarioAEnv)).status = Except.error e) ∧
        ((BcmChassisManager.PushChassisConfig scenarioAEnv duplicateIdConfig).run
          (freshManager scenarioAEnv)).mgr =
          ((BcmChassisManager.PushChassisConfig scenarioAEnv duplicateIdConfig).run
            (freshManager scenarioAEnv)).mgr) ∨
      ((BcmChassisManager.PushChassisConfig scenarioAEnv duplicateIdConfig).run
        (freshManager scenarioAEnv)).mgr =
        ((BcmChassisManager.Shutdown scenarioAEnv).run (freshManager scenarioAEnv)).mgr) ∧
    ((∀ unit, BcmChassisManager.GetBcmChip
        ((BcmChassisManager.PushChassisConfig scenarioAEnv duplicateIdConfig).run
          (freshManager scenarioAEnv)).mgr unit =
      Except.error ErrorCode.ERR_NOT_INITIALIZED) ∧
    (∀ slot port channel, BcmChassisManager.GetBcmPort
        ((BcmChassisManager.PushChassisConfig scenarioAEnv duplicateIdConfig).run
          (freshManager scenarioAEnv)).mgr slot port channel =
      Except.error ErrorCode.ERR_NOT_INITIALIZED) ∧
    BcmChassisManager.GetNodeIdToUnitMap
        ((BcmChassisManager.PushChassisConfig scenarioAEnv duplicateIdConfig).run
          (freshManager scenarioAEnv)).mgr = Except.error ErrorCode.ERR_NOT_INITIALIZED ∧
    (∀ node_id, BcmChassisManager.GetUnitFromNodeId
        ((BcmChassisManager.PushChassisConfig scenarioAEnv duplicateIdConfig).run
          (freshManager scenarioAEnv)).mgr node_id =
      Except.error ErrorCode.ERR_NOT_INITIALIZED) ∧
    BcmChassisManager.GetPortIdToUnitLogicalPortMap
        ((BcmChassisManager.PushChassisConfig scenarioAEnv duplicateIdConfig).run
          (freshManager scenarioAEnv)).mgr =
      Except.error ErrorCode.ERR_NOT_INITIALIZED ∧
    BcmChassisManager.GetTrunkIdToUnitTrunkPortMap
        ((BcmChassisManager.PushChassisConfig scenarioAEnv duplicateIdConfig).run
          (freshManager scenarioAEnv)).mgr =
      Except.error ErrorCode.ERR_NOT_INITIALIZED ∧
    (∀ port_id, BcmChassisManager.GetPortState
        ((BcmChassisManager.PushChassisConfig scenarioAEnv duplicateIdConfig).run
          (freshManager scenarioAEnv)).mgr port_id =
      Except.error ErrorCode.ERR_NOT_INITIALIZED)) :=
  ⟨Or.inr (Or.inr (Or.inl ⟨by rfl, ⟨ErrorCode.ERR_INTERNAL, by rfl⟩, rfl⟩)),
    C19_getters_not_initialized scenarioAEnv OperationMode.OPERATION_MODE_STANDALONE
      duplicateIdConfig (freshManager scenarioAEnv) _
      (Or.inr (Or.inr (Or.inl ⟨by rfl, ⟨ErrorCode.ERR_INTERNAL, by rfl⟩, rfl⟩)))⟩

/-- C13 (failing input): the push of the Scenario A config with a second node that has no
singleton port returns OK on a new manager, with all collaborators succeeding, and leaves
the manager initialized with `node_id_to_unit_ = {100 ↦ 0, 200 ↦ -1}`; the map that
`VerifyChassisConfig` computes for the same config is `{100 ↦ 0}`, and the verify of the
same config on that manager returns `ERR_REBOOT_REQUIRED`. -/
theorem C13_verify_after_push_of_portless_node :
    ((BcmChassisManager.PushChassisConfig scenarioAEnv portlessNodeConfig).run
      (freshManager scenarioAEnv)).status = Except.ok () ∧
    portlessNodeManager.initialized_ = true ∧
    portlessNodeManager.node_id_to_unit_ = [(100, 0), (200, -1)] ∧
    verifyNodeIdToUnit scenarioABaseOut.bcm_ports portlessNodeConfig.singleton_ports =
      [(100, 0)] ∧
    BcmChassisManager.VerifyChassisConfig scenarioAEnv portlessNodeManager portlessNodeConfig =
      Except.error ErrorCode.ERR_REBOOT_REQUIRED :=
  ⟨by rfl, by rfl, by decide, by decide, by rfl⟩

/-- C14 (counterexample): after the push of the Scenario A config on a new manager, which
returns OK, the verify of the Scenario B config returns an error whose code is not
`ERR_REBOOT_REQUIRED`. -/
theorem C14_counterexample :
    ((BcmChassisManager.PushChassisConfig scenarioAEnv scenarioAConfig).run
      (freshManager scenarioAEnv)).status = Except.ok () ∧
    ∃ e, BcmChassisManager.VerifyChassisConfig scenarioAEnv scenarioAManager scenarioBConfig =
      Except.error e ∧ e ≠ ErrorCode.ERR_REBOOT_REQUIRED :=
  ⟨by rfl, ErrorCode.ERR_INTERNAL, by rfl, by decide⟩

/-- C14 (amended): Scenario B.  The push of the Scenario A config on a new manager over the
Scenario A base map returns OK and leaves the manager initialized; the Scenario B config,
with singleton port 1 at channel 1 and 10G, matches no port of the base map, so the resolver
and with it `VerifyChassisConfig` on that manager return `ERR_INTERNAL`. -/
theorem C14_scenario_b_is_internal_error :
    ((BcmChassisManager.PushChassisConfig scenarioAEnv scenarioAConfig).run
      (freshManager scenarioAEnv)).status = Except.ok () ∧
    scenarioAManager.initialized_ = true ∧
    (∀ s ∈ scenarioBConfig.singleton_ports, ∀ b ∈ scenarioABaseOut.bcm_ports,
      IsSingletonPortMatchesBcmPort s b = false) ∧
    GenerateBcmChassisMapFromConfig scenarioAEnv.k scenarioAEnv.file scenarioBConfig =
      Except.error ErrorCode.ERR_INTERNAL ∧
    BcmChassisManager.VerifyChassisConfig scenarioAEnv scenarioAManager scenarioBConfig =
      Except.error ErrorCode.ERR_INTERNAL :=
  ⟨by rfl, by rfl, by decide, by rfl, by rfl⟩

/-- C15 (failing input): over the base map `mixedBase`, with all collaborators succeeding,
the verify of the config with the non-flex 20G channel before the flex 20G channel of
`(1, 1)` returns OK on a new manager, and the push of the same config on a new manager
returns `ERR_INTERNAL` and leaves the manager not initialized: the applied map holds a
non-flex port at the flex pair `(1, 1)`, which the loop of `SetSpeedForFlexPortGroup` over
the applied ports rejects. -/
theorem C15_verify_ok_and_push_fails :
    BcmChassisManager.VerifyChassisConfig mixedEnv (freshManager mixedEnv)
      (mixedConfig [mixedNonFlexSingleton, mixedFlexSingleton]) = Except.ok () ∧
    ((BcmChassisManager.PushChassisConfig mixedEnv
      (mixedConfig [mixedNonFlexSingleton, mixedFlexSingleton])).run
        (freshManager mixedEnv)).status = Except.error ErrorCode.ERR_INTERNAL ∧
    ((BcmChassisManager.PushChassisConfig mixedEnv
      (mixedConfig [mixedNonFlexSingleton, mixedFlexSingleton])).run
        (freshManager mixedEnv)).mgr.initialized_ = false ∧
    ((BcmChassisManager.PushChassisConfig mixedEnv
      (mixedConfig [mixedNonFlexSingleton, mixedFlexSingleton])).run
        (freshManager mixedEnv)).mgr.applied_bcm_chassis_map_ = some mixedTarget ∧
    flexGroupApplied (1, 1) {} mixedTarget.bcm_ports = Except.error ErrorCode.ERR_INTERNAL :=
  ⟨by rfl, by rfl, by rfl, by decide, by rfl⟩

/-- C20 (counterexample): on the manager after the push of Scenario A the state of `(5, 1)`
is `HW_STATE_UNKNOWN`, and `SetPortOptionsForPortGroup` with `enabled = TRUE` and
`blocked = FALSE` would succeed with a call of `SetPortOptions`; yet with the flag `shutdown`
set, `TransceiverEventHandler` for `(5, 1)` and `HW_STATE_PRESENT` makes no call and leaves
the state `HW_STATE_UNKNOWN`. -/
theorem C20_counterexample :
    mapFind (5, 1) scenarioAManager.slot_port_to_transceiver_state_ =
      some HwState.HW_STATE_UNKNOWN ∧
    ((BcmChassisManager.SetPortOptionsForPortGroup scenarioAEnv (5, 1)
      { enabled := TriState.TRI_STATE_TRUE, blocked := TriState.TRI_STATE_FALSE }).run
      { scenarioAManager with
        slot_port_to_transceiver_state_ :=
          mapSet (5, 1) HwState.HW_STATE_PRESENT
            scenarioAManager.slot_port_to_transceiver_state_ }).status = Except.ok () ∧
    ((BcmChassisManager.SetPortOptionsForPortGroup scenarioAEnv (5, 1)
      { enabled := TriState.TRI_STATE_TRUE, blocked := TriState.TRI_STATE_FALSE }).run
      { scenarioAManager with
        slot_port_to_transceiver_state_ :=
          mapSet (5, 1) HwState.HW_STATE_PRESENT
            scenarioAManager.slot_port_to_transceiver_state_ }).calls ≠ [] ∧
    ((BcmChassisManager.TransceiverEventHandler scenarioAEnv true 5 1
      HwState.HW_STATE_PRESENT).run scenarioAManager).calls = [] ∧
    mapFind (5, 1)
      ((BcmChassisManager.TransceiverEventHandler scenarioAEnv true 5 1
        HwState.HW_STATE_PRESENT).run scenarioAManager).mgr.slot_port_to_transceiver_state_ =
      some HwState.HW_STATE_UNKNOWN :=
  ⟨by decide, by rfl, by decide, by rfl, by decide⟩

/-! ## Transceiver events -/

/-- What `TransceiverEventHandler` does when the flag `shutdown` is not set, the pair is
known, the new state is PRESENT or NOT_PRESENT and the event is not discarded: it stores the
new state, calls `SetPortOptionsForPortGroup`, and after a call that returned OK stores
READY when the new state is PRESENT. -/
theorem TransceiverEventHandler_apply (env : Env) (m : BcmChassisManager) (slot port : Int)
    (old_state new_state : HwState)
    (hfind : mapFind (slot, port) m.slot_port_to_transceiver_state_ = some old_state)
    (hvalid : new_state = HwState.HW_STATE_PRESENT ∨ new_state = HwState.HW_STATE_NOT_PRESENT)
    (h1 : ¬ (old_state = HwState.HW_STATE_READY ∧ new_state = HwState.HW_STATE_PRESENT))
    (h2 : ¬ (old_state = HwState.HW_STATE_UNKNOWN ∧
      new_state = HwState.HW_STATE_NOT_PRESENT)) :
    (BcmChassisManager.TransceiverEventHandler env false slot port new_state).run m =
      { status := Except.ok ()
        mgr :=
          match ((BcmChassisManager.SetPortOptionsForPortGroup env (slot, port)
            (transceiverEventOptions old_state new_state)).run
              { m with
                slot_port_to_transceiver_state_ :=
                  mapSet (slot, port) new_state m.slot_port_to_transceiver_state_ }).status with
          | Except.ok _ =>
            { m with
              slot_port_to_transceiver_state_ :=
                if new_state = HwState.HW_STATE_PRESENT then
                  mapSet (slot, port) HwState.HW_STATE_READY
                    (mapSet (slot, port) new_state m.slot_port_to_transceiver_state_)
                else mapSet (slot, port) new_state m.slot_port_to_transceiver_state_ }
          | Except.error _ =>
            { m with
              slot_port_to_transceiver_state_ :=
                mapSet (slot, port) new_state m.slot_port_to_transceiver_state_ }
        calls :=
          ((BcmChassisManager.SetPortOptionsForPortGroup env (slot, port)
            (transceiverEventOptions old_state new_state)).run
              { m with
                slot_port_to_transceiver_state_ :=
                  mapSet (slot, port) new_state m.slot_port_to_transceiver_state_ }).calls } := by
  have hc1 : (new_state != HwState.HW_STATE_PRESENT &&
      new_state != HwState.HW_STATE_NOT_PRESENT) = false := by
    rcases hvalid with rfl | rfl <;> rfl
  have hc2 : (old_state == HwState.HW_STATE_READY &&
      new_state == HwState.HW_STATE_PRESENT) = false := by
    cases hb : (old_state == HwState.HW_STATE_READY && new_state == HwState.HW_STATE_PRESENT)
    · rfl
    · simp only [Bool.and_eq_true, beq_iff_eq] at hb
      exact absurd hb h1
  have hc3 : (old_state == HwState.HW_STATE_UNKNOWN &&
      new_state == HwState.HW_STATE_NOT_PRESENT) = false := by
    cases hb : (old_state == HwState.HW_STATE_UNKNOWN &&
      new_state == HwState.HW_STATE_NOT_PRESENT)
    · rfl
    · simp only [Bool.and_eq_true, beq_iff_eq] at hb
      exact absurd hb h2
  unfold BcmChassisManager.TransceiverEventHandler Op.run
  simp only [Op.bind_eq, Op.pure_eq, Bool.false_eq_true, if_false, Op.bind_get, hfind, hc1, hc2,
    hc3, Op.bind_modify, Op.bind_try]
  have hkeep := SetPortOptionsForPortGroup_keeps id env (slot, port)
    (transceiverEventOptions old_state new_state)
    { m with
      slot_port_to_transceiver_state_ :=
        mapSet (slot, port) new_state m.slot_port_to_transceiver_state_ }
  simp only [id] at hkeep
  cases hs : (BcmChassisManager.SetPortOptionsForPortGroup env (slot, port)
    (transceiverEventOptions old_state new_state)
      { m with
        slot_port_to_transceiver_state_ :=
          mapSet (slot, port) new_state m.slot_port_to_transceiver_state_ }).status with
  | error e =>
    simp only [hkeep, Op.pure, List.append_nil]
  | ok u =>
    simp only [hkeep, Op.modify, List.append_nil, mapFind_mapSet_self lawful_pair]
    by_cases hn : new_state = HwState.HW_STATE_PRESENT
    · simp [hn]
    · simp [hn]

/-- C20 (amended): when the flag `shutdown` is not set, `TransceiverEventHandler` for a
`(slot, port)` whose state in `slot_port_to_transceiver_state_` is `HW_STATE_UNKNOWN` or
`HW_STATE_NOT_PRESENT`, with the new state `HW_STATE_PRESENT`, first stores
`HW_STATE_PRESENT` and then makes exactly the calls of `SetPortOptionsForPortGroup` for
`(slot, port)` with `enabled = TRUE` and with `blocked = FALSE` when the old state was
`HW_STATE_UNKNOWN`, `blocked` unset when it was `HW_STATE_NOT_PRESENT`; if that call returns
OK the state of `(slot, port)` afterwards is `HW_STATE_READY`, and if it returns an error
the state stays `HW_STATE_PRESENT`. -/
theorem C20_transceiver_present_event (env : Env) (m : BcmChassisManager) (slot port : Int)
    (old_state : HwState)
    (hfind : mapFind (slot, port) m.slot_port_to_transceiver_state_ = some old_state)
    (hold : old_state = HwState.HW_STATE_UNKNOWN ∨ old_state = HwState.HW_STATE_NOT_PRESENT) :
    ((BcmChassisManager.TransceiverEventHandler env false slot port
        HwState.HW_STATE_PRESENT).run m).calls =
      ((BcmChassisManager.SetPortOptionsForPortGroup env (slot, port)
        { enabled := TriState.TRI_STATE_TRUE
          blocked :=
            if old_state = HwState.HW_STATE_UNKNOWN then TriState.TRI_STATE_FALSE
            else TriState.TRI_STATE_UNKNOWN }).run
        { m with
          slot_port_to_transceiver_state_ :=
            mapSet (slot, port) HwState.HW_STATE_PRESENT
              m.slot_port_to_transceiver_state_ }).calls ∧
    (((BcmChassisManager.SetPortOptionsForPortGroup env (slot, port)
        { enabled := TriState.TRI_STATE_TRUE
          blocked :=
            if old_state = HwState.HW_STATE_UNKNOWN then TriState.TRI_STATE_FALSE
            else TriState.TRI_STATE_UNKNOWN }).run
        { m with
          slot_port_to_transceiver_state_ :=
            mapSet (slot, port) HwState.HW_STATE_PRESENT
              m.slot_port_to_transceiver_state_ }).status = Except.ok () →
      mapFind (slot, port)
        ((BcmChassisManager.TransceiverEventHandler env false slot port
          HwState.HW_STATE_PRESENT).run m).mgr.slot_port_to_transceiver_state_ =
        some HwState.HW_STATE_READY) ∧
    (∀ e, ((BcmChassisManager.SetPortOptionsForPortGroup env (slot, port)
        { enabled := TriState.TRI_STATE_TRUE
          blocked :=
            if old_state = HwState.HW_STATE_UNKNOWN then TriState.TRI_STATE_FALSE
            else TriState.TRI_STATE_UNKNOWN }).run
        { m with
          slot_port_to_transceiver_state_ :=
            mapSet (slot, port) HwState.HW_STATE_PRESENT
              m.slot_port_to_transceiver_state_ }).status = Except.error e →
      mapFind (slot, port)
        ((BcmChassisManager.TransceiverEventHandler env false slot port
          HwState.HW_STATE_PRESENT).run m).mgr.slot_port_to_transceiver_state_ =
        some HwState.HW_STATE_PRESENT) := by
  have hopt : transceiverEventOptions old_state HwState.HW_STATE_PRESENT =
      { enabled := TriState.TRI_STATE_TRUE
        blocked :=
          if old_state = HwState.HW_STATE_UNKNOWN then TriState.TRI_STATE_FALSE
          else TriState.TRI_STATE_UNKNOWN } := by
    rcases hold with rfl | rfl <;> rfl
  rw [TransceiverEventHandler_apply env m slot port old_state HwState.HW_STATE_PRESENT hfind
    (Or.inl rfl) (by rcases hold with rfl | rfl <;> simp)
    (by rcases hold with rfl | rfl <;> simp), hopt]
  refine ⟨rfl, ?_, ?_⟩
  · intro hok
    simp only [hok, if_true]
    exact mapFind_mapSet_self lawful_pair _ _ _
  · intro e he
    simp only [he]
    exact mapFind_mapSet_self lawful_pair _ _ _

/-- Witness for C20: the transceiver event `(5, 1)`, PRESENT, on the manager after the push
of Scenario A, where the state of `(5, 1)` is `HW_STATE_UNKNOWN`. -/
theorem C20_transceiver_present_event_witness :
    (mapFind (5, 1) scenarioAManager.slot_port_to_transceiver_state_ =
      some HwState.HW_STATE_UNKNOWN ∧
    (HwState.HW_STATE_UNKNOWN = HwState.HW_STATE_UNKNOWN ∨
      HwState.HW_STATE_UNKNOWN = HwState.HW_STATE_NOT_PRESENT)) ∧
    (((BcmChassisManager.TransceiverEventHandler scenarioAEnv false 5 1
        HwState.HW_STATE_PRESENT).run scenarioAManager).calls =
      ((BcmChassisManager.SetPortOptionsForPortGroup scenarioAEnv (5, 1)
        { enabled := TriState.TRI_STATE_TRUE
          blocked :=
            if HwState.HW_STATE_UNKNOWN = HwState.HW_STATE_UNKNOWN then TriState.TRI_STATE_FALSE
            else TriState.TRI_STATE_UNKNOWN }).run
        { scenarioAManager with
          slot_port_to_transceiver_state_ :=
            mapSet (5, 1) HwState.HW_STATE_PRESENT
              scenarioAManager.slot_port_to_transceiver_state_ }).calls ∧
    (((BcmChassisManager.SetPortOptionsForPortGroup scenarioAEnv (5, 1)
        { enabled := TriState.TRI_STATE_TRUE
          blocked :=
            if HwState.HW_STATE_UNKNOWN = HwState.HW_STATE_UNKNOWN then TriState.TRI_STATE_FALSE
            else TriState.TRI_STATE_UNKNOWN }).run
        { scenarioAManager with
          slot_port_to_transceiver_state_ :=
            mapSet (5, 1) HwState.HW_STATE_PRESENT
              scenarioAManager.slot_port_to_transceiver_state_ }).status = Except.ok () →
      mapFind (5, 1)
        ((BcmChassisManager.TransceiverEventHandler scenarioAEnv false 5 1
          HwState.HW_STATE_PRESENT).run scenarioAManager).mgr.slot_port_to_transceiver_state_ =
        some HwState.HW_STATE_READY) ∧
    (∀ e, ((BcmChassisManager.SetPortOptionsForPortGroup scenarioAEnv (5, 1)
        { enabled := TriState.TRI_STATE_TRUE
          blocked :=
            if HwState.HW_STATE_UNKNOWN = HwState.HW_STATE_UNKNOWN then TriState.TRI_STATE_FALSE
            else TriState.TRI_STATE_UNKNOWN }).run
        { scenarioAManager with
          slot_port_to_transceiver_state_ :=
            mapSet (5, 1) HwState.HW_STATE_PRESENT
              scenarioAManager.slot_port_to_transceiver_state_ }).status = Except.error e →
      mapFind (5, 1)
        ((BcmChassisManager.TransceiverEventHandler scenarioAEnv false 5 1
          HwState.HW_STATE_PRESENT).run scenarioAManager).mgr.slot_port_to_transceiver_state_ =
        some HwState.HW_STATE_PRESENT)) :=
  ⟨⟨by decide, Or.inl rfl⟩,
    C20_transceiver_present_event scenarioAEnv scenarioAManager 5 1 HwState.HW_STATE_UNKNOWN
      (by decide) (Or.inl rfl)⟩

/-! ## The error codes of the resolver -/

theorem failsInternal_pure {α : Type} (a : α) : FailsInternal (pure a : Except ErrorCode α) := by
  intro e h
  cases h

theorem failsInternal_error {α : Type} :
    FailsInternal (Except.error ErrorCode.ERR_INTERNAL : Except ErrorCode α) := by
  intro e h
  cases h
  rfl

theorem failsInternal_check (cond : Bool) : FailsInternal (CHECK_RETURN_IF_FALSE cond) := by
  intro e h
  cases cond
  · cases h
    rfl
  · cases h

theorem failsInternal_bind {α β : Type} (x : Except ErrorCode α) (f : α → Except ErrorCode β)
    (hx : FailsInternal x) (hf : ∀ a, FailsInternal (f a)) : FailsInternal (x >>= f) := by
  intro e h
  cases x with
  | error e' =>
    cases h
    exact hx _ rfl
  | ok a => exact hf a e h

theorem failsInternal_verifyBaseChips (a : Bool) (st : BaseSets) (chips : List BcmChip) :
    FailsInternal (verifyBaseChips a st chips) := by
  induction chips generalizing st with
  | nil => exact failsInternal_pure st
  | cons c cs ih =>
    unfold verifyBaseChips verifyBaseChip
    repeat' first
      | apply failsInternal_bind
      | apply failsInternal_pure
      | apply failsInternal_check
      | apply ih
      | split
      | intro _

theorem failsInternal_verifyBasePorts (a l : Bool) (st : BaseSets) (ports : List BcmPort) :
    FailsInternal (verifyBasePorts a l st ports) := by
  induction ports with
  | nil => exact failsInternal_pure ()
  | cons p ps ih =>
    unfold verifyBasePorts verifyBasePort
    repeat' first
      | apply failsInternal_bind
      | apply failsInternal_pure
      | apply failsInternal_check
      | exact ih
      | split
      | intro _

theorem failsInternal_validateNodes (m : List (Nat × Int)) (nodes : List Node) :
    FailsInternal (validateNodes m nodes) := by
  induction nodes generalizing m with
  | nil => exact failsInternal_pure m
  | cons n rest ih =>
    unfold validateNodes
    repeat' first
      | apply failsInternal_bind
      | apply failsInternal_check
      | apply ih
      | intro _

theorem failsInternal_singletonPortLoop (k : Constants) (bp : List BcmPort)
    (st : PortLoopState) (ports : List SingletonPort) :
    FailsInternal (singletonPortLoop k bp st ports) := by
  induction ports generalizing st with
  | nil => exact failsInternal_pure st
  | cons s rest ih =>
    unfold singletonPortLoop singletonPortStep
    repeat' first
      | apply failsInternal_bind
      | apply failsInternal_pure
      | apply failsInternal_check
      | apply failsInternal_error
      | apply ih
      | split
      | intro _

theorem failsInternal_addBcmChips (sup : List BcmChipType) (bc acc : List BcmChip)
    (l : List (Nat × Int)) : FailsInternal (addBcmChips sup bc acc l) := by
  induction l generalizing acc with
  | nil => exact failsInternal_pure acc
  | cons e rest ih =>
    obtain ⟨n, unit⟩ := e
    unfold addBcmChips
    repeat' first
      | apply failsInternal_bind
      | apply failsInternal_check
      | apply failsInternal_error
      | apply ih
      | split
      | intro _

theorem failsInternal_validateInternalPorts (l : List ((Int × Int) × List Bool)) :
    FailsInternal (validateInternalPorts l) := by
  induction l with
  | nil => exact failsInternal_pure ()
  | cons e rest ih =>
    unfold validateInternalPorts
    repeat' first
      | apply failsInternal_bind
      | apply failsInternal_check
      | exact ih
      | intro _

theorem failsInternal_validateSpeedAndChannels (c : List ((Int × Int) × List Int))
    (l : List ((Int × Int) × List Nat)) : FailsInternal (validateSpeedAndChannels c l) := by
  induction l with
  | nil => exact failsInternal_pure ()
  | cons e rest ih =>
    obtain ⟨pair, speeds⟩ := e
    unfold validateSpeedAndChannels
    repeat' first
      | apply failsInternal_bind
      | apply failsInternal_check
      | apply failsInternal_error
      | exact ih
      | split
      | intro _

theorem failsInternal_addFlexChannels (bp : List BcmPort) (pair : Int × Int) (speed : Nat)
    (acc : List BcmPort) (channels : List Int) :
    FailsInternal (addFlexChannels bp pair speed acc channels) := by
  induction channels generalizing acc with
  | nil => exact failsInternal_pure acc
  | cons c rest ih =>
    unfold addFlexChannels
    simp only
    split
    · exact failsInternal_error
    · exact ih _

theorem failsInternal_addFlexPorts (bc : List BcmChip) (bp acc : List BcmPort)
    (pairs : List (Int × Int)) : FailsInternal (addFlexPorts bc bp acc pairs) := by
  induction pairs generalizing acc with
  | nil => exact failsInternal_pure acc
  | cons pair rest ih =>
    unfold addFlexPorts
    split
    · refine failsInternal_bind _ _ ?_ (fun speed => ?_)
      · unfold flexMinSpeedBps
        split
        · exact failsInternal_pure _
        · exact failsInternal_pure _
        · exact failsInternal_error
      · exact failsInternal_bind _ _ (failsInternal_addFlexChannels _ _ _ _ _) (fun _ => ih _)
    · exact failsInternal_error

theorem failsInternal_checkMaxNumPorts (k : Constants)
    (u : List (Int × List (Int × Int × Int))) (l : List (Int × BcmChipType)) :
    FailsInternal (checkMaxNumPorts k u l) := by
  induction l with
  | nil => exact failsInternal_pure ()
  | cons e rest ih =>
    unfold checkMaxNumPorts
    exact failsInternal_bind _ _ (failsInternal_check _) (fun _ => ih)

theorem failsInternal_autoAddLogicalPorts (u : List (Int × List (Int × Int × Int)))
    (ports : List BcmPort) : FailsInternal (autoAddLogicalPorts u ports) := by
  induction ports with
  | nil => exact failsInternal_pure []
  | cons p rest ih =>
    unfold autoAddLogicalPorts
    split
    · exact failsInternal_error
    · exact failsInternal_bind _ _ ih (fun _ => failsInternal_pure _)

theorem failsInternal_postValidatePorts (st : PostSets) (ports : List BcmPort) :
    FailsInternal (postValidatePorts st ports) := by
  induction ports generalizing st with
  | nil => exact failsInternal_pure ()
  | cons p rest ih =>
    unfold postValidatePorts
    repeat' first
      | apply failsInternal_bind
      | apply failsInternal_check
      | apply ih
      | intro _

theorem failsInternal_generateTarget (k : Constants) (base : BcmChassisMap)
    (config : ChassisConfig) : FailsInternal (generateTarget k base config) := by
  unfold generateTarget
  simp only
  refine failsInternal_bind _ _ (failsInternal_check _) (fun _ => ?_)
  refine failsInternal_bind _ _ ?_ (fun sup => ?_)
  · unfold supportedChipTypes
    split
    · exact failsInternal_pure _
    · exact failsInternal_pure _
    · exact failsInternal_pure _
    · exact failsInternal_error
  refine failsInternal_bind _ _ (failsInternal_validateNodes _ _) (fun nm => ?_)
  refine failsInternal_bind _ _ (failsInternal_singletonPortLoop _ _ _ _) (fun st => ?_)
  refine failsInternal_bind _ _ (failsInternal_addBcmChips _ _ _ _) (fun chips => ?_)
  refine failsInternal_bind _ _ (failsInternal_validateInternalPorts _) (fun _ => ?_)
  refine failsInternal_bind _ _ (failsInternal_validateSpeedAndChannels _ _) (fun _ => ?_)
  refine failsInternal_bind _ _ (failsInternal_addFlexPorts _ _ _ _) (fun ports => ?_)
  refine failsInternal_bind _ _ (failsInternal_checkMaxNumPorts _ _ _) (fun _ => ?_)
  refine failsInternal_bind _ _ ?_ (fun ports' => ?_)
  · split
    · exact failsInternal_autoAddLogicalPorts _ _
    · exact failsInternal_pure _
  exact failsInternal_bind _ _ (failsInternal_postValidatePorts _ _)
    (fun _ => failsInternal_pure _)

/-- An error of the resolver has the code `ERR_INTERNAL`, or it is the error of the read of
the base map file. -/
theorem GenerateBcmChassisMapFromConfig_error (k : Constants)
    (file : Except ErrorCode (List BcmChassisMap)) (config : ChassisConfig) (e : ErrorCode)
    (h : GenerateBcmChassisMapFromConfig k file config = Except.error e) :
    e = ErrorCode.ERR_INTERNAL ∨ file = Except.error e := by
  cases file with
  | error e' =>
    right
    cases h
    rfl
  | ok maps =>
    left
    revert e
    show FailsInternal (GenerateBcmChassisMapFromConfig k (Except.ok maps) config)
    unfold GenerateBcmChassisMapFromConfig
    refine failsInternal_bind _ _ ?_ (fun base0 => ?_)
    · unfold ReadBaseBcmChassisMapFromFile
      refine failsInternal_bind _ _ (failsInternal_pure maps) (fun l => ?_)
      split
      · exact failsInternal_error
      · exact failsInternal_bind _ _ (failsInternal_verifyBaseChips _ _ _) (fun st =>
          failsInternal_bind _ _ (failsInternal_verifyBasePorts _ _ _ _) (fun _ =>
            failsInternal_pure _))
    refine failsInternal_bind _ _ ?_ (fun base => ?_)
    · split
      · unfold PopulateSlotFromPushedChassisConfig
        simp only
        split
        · exact failsInternal_pure _
        · exact failsInternal_error
      · exact failsInternal_pure _
    exact failsInternal_bind _ _ (failsInternal_generateTarget _ _ _)
      (fun _ => failsInternal_pure _)

/-! ## Verify -/

/-- C12: on an initialized manager, for every config on which the resolver returns OK with
an applied map that differs from the stored applied map, `VerifyChassisConfig` returns
`ERR_REBOOT_REQUIRED`; on a manager that is not initialized `VerifyChassisConfig` returns
the status of the resolver, which is not `ERR_REBOOT_REQUIRED` unless the read of the base
map file fails with that very code. -/
theorem C12_verify_reboot_required (env : Env) (m : BcmChassisManager)
    (config : ChassisConfig) :
    (m.initialized_ = true → ∀ base target applied,
      GenerateBcmChassisMapFromConfig env.k env.file config = Except.ok (base, target) →
      m.applied_bcm_chassis_map_ = some applied → target ≠ applied →
      BcmChassisManager.VerifyChassisConfig env m config =
        Except.error ErrorCode.ERR_REBOOT_REQUIRED) ∧
    (m.initialized_ = false →
      BcmChassisManager.VerifyChassisConfig env m config =
        (GenerateBcmChassisMapFromConfig env.k env.file config).map (fun _ => ()) ∧
      (env.file ≠ Except.error ErrorCode.ERR_REBOOT_REQUIRED →
        BcmChassisManager.VerifyChassisConfig env m config ≠
          Except.error ErrorCode.ERR_REBOOT_REQUIRED)) := by
  constructor
  · intro hi base target applied hgen happ hne
    unfold BcmChassisManager.VerifyChassisConfig
    simp [hgen, hi, happ, deref, hne, bind, Except.bind]
  · intro hi
    have heq : BcmChassisManager.VerifyChassisConfig env m config =
        (GenerateBcmChassisMapFromConfig env.k env.file config).map (fun _ => ()) := by
      unfold BcmChassisManager.VerifyChassisConfig
      cases hgen : GenerateBcmChassisMapFromConfig env.k env.file config with
      | error e => rfl
      | ok maps => simp [hi, Except.map]
    refine ⟨heq, fun hfile hv => ?_⟩
    rw [heq] at hv
    cases hgen : GenerateBcmChassisMapFromConfig env.k env.file config with
    | ok maps =>
      rw [hgen] at hv
      cases hv
    | error e =>
      rw [hgen] at hv
      cases hv
      rcases GenerateBcmChassisMapFromConfig_error _ _ _ _ hgen with h | h
      · cases h
      · exact hfile h

/-- Witness for C12: on the manager after the push of Scenario A, the verify of the same
config moved to slot 6 returns `ERR_REBOOT_REQUIRED`; on a new manager the verify of the
Scenario A config returns the OK of the resolver. -/
theorem C12_verify_reboot_required_witness :
    (scenarioAManager.initialized_ = true ∧
      GenerateBcmChassisMapFromConfig scenarioAEnv.k scenarioAEnv.file slotSixConfig =
        Except.ok (slotSixBase, slotSixTarget) ∧
      scenarioAManager.applied_bcm_chassis_map_ = some scenarioATarget ∧
      slotSixTarget ≠ scenarioATarget ∧
      BcmChassisManager.VerifyChassisConfig scenarioAEnv scenarioAManager slotSixConfig =
        Except.error ErrorCode.ERR_REBOOT_REQUIRED) ∧
    ((freshManager scenarioAEnv).initialized_ = false ∧
      scenarioAEnv.file ≠ Except.error ErrorCode.ERR_REBOOT_REQUIRED ∧
      BcmChassisManager.VerifyChassisConfig scenarioAEnv (freshManager scenarioAEnv)
        scenarioAConfig =
        (GenerateBcmChassisMapFromConfig scenarioAEnv.k scenarioAEnv.file scenarioAConfig).map
          (fun _ => ()) ∧
      BcmChassisManager.VerifyChassisConfig scenarioAEnv (freshManager scenarioAEnv)
        scenarioAConfig ≠ Except.error ErrorCode.ERR_REBOOT_REQUIRED) :=
  ⟨⟨by rfl, by rfl, by decide, by decide,
      (C12_verify_reboot_required scenarioAEnv scenarioAManager slotSixConfig).1 (by rfl)
        slotSixBase slotSixTarget scenarioATarget (by rfl) (by decide) (by decide)⟩,
    ⟨by rfl, (by intro h; cases h),
      ((C12_verify_reboot_required scenarioAEnv (freshManager scenarioAEnv)
        scenarioAConfig).2 (by rfl)).1,
      ((C12_verify_reboot_required scenarioAEnv (freshManager scenarioAEnv)
        scenarioAConfig).2 (by rfl)).2 (by intro h; cases h)⟩⟩

/-! ## The pruned-subset checks -/

theorem checkEach_ok_iff {α : Type} (cond : α → Bool) (l : List α) :
    checkEach cond l = Except.ok () ↔ ∀ a ∈ l, cond a = true := by
  induction l with
  | nil => simp [checkEach, pure, Except.pure]
  | cons a rest ih =>
    simp only [checkEach, bind_ok_iff, CHECK_ok_iff, ih, List.mem_cons, forall_eq_or_imp]
    constructor
    · rintro ⟨_, h1, h2⟩
      exact ⟨h1, h2⟩
    · rintro ⟨h1, h2⟩
      exact ⟨(), h1, h2⟩

theorem verifyBasePort_logical_port (a l : Bool) (st : BaseSets) (p : BcmPort)
    (h : verifyBasePort a l st p = Except.ok ()) (hl : l = true) : p.logical_port = 0 := by
  unfold verifyBasePort at h
  simp only [bind_ok_iff, CHECK_ok_iff] at h
  obtain ⟨_, _, _, _, _, _, _, _, _, _, _, _, _, _, _, _, _, _, _, _, _, _, _, _, _, _, _, _,
    _, _, _, _, hlog⟩ := h
  simpa [hl, CHECK_ok_iff] using hlog

/-- With `auto_add_logical_ports` every port of the base map that the resolver returns has
no logical port. -/
theorem base_port_logical_port (file : Except ErrorCode (List BcmChassisMap))
    (config : ChassisConfig) (base0 base : BcmChassisMap)
    (h0 : ReadBaseBcmChassisMapFromFile file (config.bcm_chassis_map_id.getD "") =
      Except.ok base0)
    (hpop : (if base0.auto_add_slot then PopulateSlotFromPushedChassisConfig config base0
      else pure base0) = Except.ok base)
    (hauto : base.auto_add_logical_ports = true) :
    ∀ p ∈ base.bcm_ports, p.logical_port = 0 := by
  obtain ⟨maps, st, _, _, _, hports⟩ := ReadBaseBcmChassisMapFromFile_ok _ _ _ h0
  have h1 : base0.auto_add_logical_ports = true → ∀ p ∈ base0.bcm_ports, p.logical_port = 0 :=
    fun hl p hp => verifyBasePort_logical_port _ _ _ _ (verifyBasePorts_ok _ _ _ _ hports p hp) hl
  cases ha : base0.auto_add_slot
  · simp only [ha, Bool.false_eq_true, if_false, pure_ok_iff] at hpop
    subst hpop
    exact h1 hauto
  · simp only [ha, if_true] at hpop
    obtain ⟨slot, _, _, _, rfl⟩ := PopulateSlotFromPushedChassisConfig_ok _ _ _ hpop
    intro p hp
    simp only [List.mem_map] at hp
    obtain ⟨p0, hp0, rfl⟩ := hp
    exact h1 hauto p0 hp0

/-- C11: whenever the resolver returns OK, every chip of the applied map is a chip of the
returned base map, every port of the applied map, with its logical port cleared when
`auto_add_logical_ports` is set, is a port of the base map, the unit of every applied port
is the unit of an applied chip, and the pair passes the pruned-subset checks at the start
of `InitializeBcmChips`. -/
theorem C11_applied_is_pruned_subset (k : Constants)
    (file : Except ErrorCode (List BcmChassisMap)) (config : ChassisConfig)
    (base target : BcmChassisMap)
    (h : GenerateBcmChassisMapFromConfig k file config = Except.ok (base, target)) :
    (∀ c ∈ target.bcm_chips, c ∈ base.bcm_chips) ∧
    (∀ p ∈ target.bcm_ports,
      (if target.auto_add_logical_ports then { p with logical_port := 0 } else p) ∈
        base.bcm_ports) ∧
    (∀ p ∈ target.bcm_ports, ∃ c ∈ target.bcm_chips, c.unit = p.unit) ∧
    checkPrunedBcmChassisMap base target = Except.ok () := by
  obtain ⟨base0, h0, hpop, ht⟩ := GenerateBcmChassisMapFromConfig_ok k file config base target h
  obtain ⟨hchips, hports⟩ := generateTarget_subset k base config target ht
  have hunit := generateTarget_port_unit k base (base_port_unit_nonneg file config base0 base h0 hpop)
    config target ht
  have hlog := base_port_logical_port file config base0 base h0 hpop
  obtain ⟨chassis, sup, nm, st, chips, ports, ports', _, _, _, _, _, _, _, _, _, _, _, _, htarget⟩ :=
    generateTarget_ok k base config target ht
  have hid : target.id = base.id := by rw [htarget]
  have hauto : target.auto_add_logical_ports = base.auto_add_logical_ports := by rw [htarget]
  have hch : target.bcm_chassis = base.bcm_chassis := by rw [htarget]
  have hp : ∀ p ∈ target.bcm_ports,
      (if target.auto_add_logical_ports then { p with logical_port := 0 } else p) ∈
        base.bcm_ports := by
    intro p hpm
    obtain ⟨b, hb, hpb⟩ := hports p hpm
    rw [hauto]
    cases ha : base.auto_add_logical_ports
    · rcases hpb with rfl | ⟨ha', _⟩
      · simpa using hb
      · rw [ha] at ha'
        cases ha'
    · have hb0 := hlog ha b hb
      have : ({ p with logical_port := 0 } : BcmPort) = b := by
        rcases hpb with rfl | ⟨_, l, rfl⟩
        · cases p
          simp only at hb0
          subst hb0
          rfl
        · cases b
          simp only at hb0
          subst hb0
          rfl
      simpa [this] using hb
  refine ⟨hchips, hp, hunit, ?_⟩
  unfold checkPrunedBcmChassisMap
  simp only [bind_ok_iff, CHECK_ok_iff, checkEach_ok_iff, hid, hauto, hch, beq_self_eq_true,
    exists_const, true_and]
  refine ⟨(), ?_, (), ?_, ?_⟩
  · split
    · rfl
    · rfl
  · rw [checkEach_ok_iff]
    intro c hc
    exact List.any_eq_true.2 ⟨c, hchips c hc, by simp⟩
  · intro p hpm
    have := hp p hpm
    rw [hauto] at this
    exact List.any_eq_true.2 ⟨_, this, by simp⟩

/-- Witness for C11: Scenario A. -/
theorem C11_applied_is_pruned_subset_witness :
    GenerateBcmChassisMapFromConfig exampleConstants (Except.ok [scenarioABase])
      scenarioAConfig = Except.ok (scenarioABaseOut, scenarioATarget) ∧
    ((∀ c ∈ scenarioATarget.bcm_chips, c ∈ scenarioABaseOut.bcm_chips) ∧
    (∀ p ∈ scenarioATarget.bcm_ports,
      (if scenarioATarget.auto_add_logical_ports then { p with logical_port := 0 } else p) ∈
        scenarioABaseOut.bcm_ports) ∧
    (∀ p ∈ scenarioATarget.bcm_ports, ∃ c ∈ scenarioATarget.bcm_chips, c.unit = p.unit) ∧
    checkPrunedBcmChassisMap scenarioABaseOut scenarioATarget = Except.ok ()) :=
  ⟨by rfl, C11_applied_is_pruned_subset exampleConstants (Except.ok [scenarioABase])
    scenarioAConfig scenarioABaseOut scenarioATarget (by rfl)⟩

/-! ## Sync of the internal state -/

theorem Op.bind_check {β : Type} (cond : Bool) (f : Unit → Op β) (m : BcmChassisManager) :
    Op.bind (Op.check cond) f m =
      if cond then f () m else ⟨Except.error ErrorCode.ERR_INTERNAL, m, []⟩ := by
  cases cond
  · rfl
  · exact Op.bind_pure () f m

theorem Op.bind_lift {α β : Type} (x : Except ErrorCode α) (f : α → Op β)
    (m : BcmChassisManager) :
    Op.bind (Op.lift x) f m =
      match x with
      | Except.ok a => f a m
      | Except.error e => ⟨Except.error e, m, []⟩ := by
  cases x with
  | error e => rfl
  | ok a => exact Op.bind_pure a f m

/-- One iteration of the loop of `SyncInternalState` over the singleton ports, written
out. -/
theorem syncPort_apply (s : SingletonPort) (tmp : List ((Int × Int × Int) × PortState))
    (m : BcmChassisManager) :
    syncPort s tmp m =
      match (deref m.base_bcm_chassis_map_).bcm_ports.find? (IsSingletonPortMatchesBcmPort s) with
      | none => ⟨Except.ok tmp, m, []⟩
      | some bcm_port =>
        if !(mapFind (s.slot, s.port, s.channel) m.slot_port_channel_to_bcm_port_).isSome then
          match syncLogicalPort (deref m.applied_bcm_chassis_map_) bcm_port with
          | Except.ok p =>
            if (mapFind (s.slot, s.port) m.slot_port_to_transceiver_state_).isSome then
              ⟨Except.ok
                (mapSet (s.slot, s.port, s.channel)
                  ((mapFind (s.slot, s.port, s.channel) m.slot_port_channel_to_port_state_).getD
                    PortState.PORT_STATE_UNKNOWN) tmp),
                syncRecordGroup s bcm_port.flex_port p (syncRecordPort s p m), []⟩
            else ⟨Except.error ErrorCode.ERR_INTERNAL, syncRecordPort s p m, []⟩
          | Except.error e => ⟨Except.error e, m, []⟩
        else ⟨Except.error ErrorCode.ERR_INTERNAL, m, []⟩ := by
  unfold syncPort
  simp only [Op.bind_eq, Op.pure_eq, Op.bind_get]
  cases hf : (deref m.base_bcm_chassis_map_).bcm_ports.find? (IsSingletonPortMatchesBcmPort s) with
  | none => rfl
  | some bcm_port =>
    simp only [Op.bind_check, Op.bind_lift, Op.bind_modify]
    split
    · cases hl : syncLogicalPort (deref m.applied_bcm_chassis_map_) bcm_port with
      | error e => rfl
      | ok p =>
        simp only
        split
        · rfl
        · rfl
    · rfl

theorem mapSet_keys {κ V : Type} [KeyOrd κ] (k : κ) (v : V) (m : List (κ × V)) :
    (mapSet k v m).map Prod.fst = setInsert k (m.map Prod.fst) := by
  induction m with
  | nil => rfl
  | cons e m ih =>
    obtain ⟨k', v'⟩ := e
    simp only [mapSet, List.map_cons, setInsert]
    split
    · rfl
    · split
      · simp only [List.map_cons, ih]
      · rfl

theorem mapFind_isSome {κ V : Type} [KeyOrd κ] (k : κ) (m : List (κ × V)) :
    (mapFind k m).isSome = setCount k (m.map Prod.fst) := by
  induction m with
  | nil => rfl
  | cons e m ih =>
    obtain ⟨k', v'⟩ := e
    simp only [mapFind, List.map_cons, setCount]
    split
    · rfl
    · split
      · exact ih
      · rfl

theorem syncPorts_keeps_base (ports : List SingletonPort)
    (tmp : List ((Int × Int × Int) × PortState)) :
    Op.Keeps (fun m => m.base_bcm_chassis_map_) (syncPorts ports tmp) :=
  syncPorts_keeps (fun m => m.base_bcm_chassis_map_) (fun _ _ _ => rfl)
    (fun s f p m =>
      syncRecordGroup_keeps (fun m => m.base_bcm_chassis_map_) (fun _ _ => rfl)
        (fun _ _ => rfl) s f p m) ports tmp

theorem syncPort_keeps_base (s : SingletonPort) (tmp : List ((Int × Int × Int) × PortState)) :
    Op.Keeps (fun m => m.base_bcm_chassis_map_) (syncPort s tmp) :=
  syncPort_keeps (fun m => m.base_bcm_chassis_map_) (fun _ _ _ => rfl)
    (fun s f p m =>
      syncRecordGroup_keeps (fun m => m.base_bcm_chassis_map_) (fun _ _ => rfl)
        (fun _ _ => rfl) s f p m) s tmp

theorem syncPort_keeps_port_state (s : SingletonPort)
    (tmp : List ((Int × Int × Int) × PortState)) :
    Op.Keeps (fun m => m.slot_port_channel_to_port_state_) (syncPort s tmp) :=
  syncPort_keeps (fun m => m.slot_port_channel_to_port_state_) (fun _ _ _ => rfl)
    (fun s f p m =>
      syncRecordGroup_keeps (fun m => m.slot_port_channel_to_port_state_) (fun _ _ => rfl)
        (fun _ _ => rfl) s f p m) s tmp

/-- The value of `tmp_slot_port_channel_to_port_state` after one iteration that returned
OK. -/
theorem syncPort_tmp (s : SingletonPort) (tmp tmp' : List ((Int × Int × Int) × PortState))
    (m : BcmChassisManager) (h : (syncPort s tmp m).status = Except.ok tmp') :
    tmp' =
      if ((deref m.base_bcm_chassis_map_).bcm_ports.find?
          (IsSingletonPortMatchesBcmPort s)).isSome then
        mapSet (s.slot, s.port, s.channel)
          ((mapFind (s.slot, s.port, s.channel) m.slot_port_channel_to_port_state_).getD
            PortState.PORT_STATE_UNKNOWN) tmp
      else tmp := by
  rw [syncPort_apply] at h
  cases hf : (deref m.base_bcm_chassis_map_).bcm_ports.find? (IsSingletonPortMatchesBcmPort s) with
  | none =>
    rw [hf] at h
    simp only at h
    cases h
    rfl
  | some b =>
    rw [hf] at h
    simp only at h
    split at h
    · cases hl : syncLogicalPort (deref m.applied_bcm_chassis_map_) b with
      | error e =>
        rw [hl] at h
        cases h
      | ok p =>
        rw [hl] at h
        simp only at h
        split at h
        · cases h
          rfl
        · cases h
    · cases h

/-- The port states that the loop of `SyncInternalState` over the singleton ports collects:
the keys stay sorted, the tuples of the ports that match a base port become keys, with the
state that the manager had for them, and the other entries stay. -/
theorem syncPorts_tmp (ports : List SingletonPort)
    (tmp tmp' : List ((Int × Int × Int) × PortState)) (m : BcmChassisManager)
    (hs : SetSorted (tmp.map Prod.fst))
    (h : (syncPorts ports tmp m).status = Except.ok tmp') :
    SetSorted (tmp'.map Prod.fst) ∧
    ∀ t : Int × Int × Int,
      ((∃ s ∈ ports, (s.slot, s.port, s.channel) = t ∧
          ∃ b ∈ (deref m.base_bcm_chassis_map_).bcm_ports,
            IsSingletonPortMatchesBcmPort s b = true) →
        mapFind t tmp' =
          some ((mapFind t m.slot_port_channel_to_port_state_).getD
            PortState.PORT_STATE_UNKNOWN)) ∧
      ((¬ ∃ s ∈ ports, (s.slot, s.port, s.channel) = t ∧
          ∃ b ∈ (deref m.base_bcm_chassis_map_).bcm_ports,
            IsSingletonPortMatchesBcmPort s b = true) →
        mapFind t tmp' = mapFind t tmp) := by
  induction ports generalizing tmp m with
  | nil =>
    cases h
    exact ⟨hs, fun t => ⟨by simp, fun _ => rfl⟩⟩
  | cons s rest ih =>
    unfold syncPorts at h
    obtain ⟨tmp1, h1, h2, _⟩ := Op.bind_status_ok _ _ _ _ h
    have htmp1 := syncPort_tmp s tmp tmp1 m h1
    have hbase : (syncPort s tmp m).mgr.base_bcm_chassis_map_ = m.base_bcm_chassis_map_ :=
      syncPort_keeps_base s tmp m
    have hstate : (syncPort s tmp m).mgr.slot_port_channel_to_port_state_ =
        m.slot_port_channel_to_port_state_ := syncPort_keeps_port_state s tmp m
    have hs1 : SetSorted (tmp1.map Prod.fst) := by
      rw [htmp1]
      split
      · rw [mapSet_keys]
        exact setInsert_sorted lawful_triple _ _ hs
      · exact hs
    obtain ⟨hsorted, hall⟩ := ih tmp1 _ hs1 h2
    rw [hbase, hstate] at hall
    refine ⟨hsorted, fun t => ?_⟩
    have hmatch : ((deref m.base_bcm_chassis_map_).bcm_ports.find?
        (IsSingletonPortMatchesBcmPort s)).isSome = true ↔
        ∃ b ∈ (deref m.base_bcm_chassis_map_).bcm_ports,
          IsSingletonPortMatchesBcmPort s b = true := by
      simp [List.find?_isSome]
    by_cases hrest : ∃ s' ∈ rest, (s'.slot, s'.port, s'.channel) = t ∧
        ∃ b ∈ (deref m.base_bcm_chassis_map_).bcm_ports,
          IsSingletonPortMatchesBcmPort s' b = true
    · refine ⟨fun _ => (hall t).1 hrest, fun hno => ?_⟩
      obtain ⟨s', hs', hrest'⟩ := hrest
      exact absurd ⟨s', List.mem_cons_of_mem _ hs', hrest'⟩ hno
    · have ht1 := (hall t).2 hrest
      constructor
      · rintro ⟨s', hs', hts', hb'⟩
        rcases List.mem_cons.1 hs' with rfl | hs'
        · rw [ht1, htmp1, if_pos (hmatch.2 hb'), hts']
          exact mapFind_mapSet_self lawful_triple _ _ _
        · exact absurd ⟨s', hs', hts', hb'⟩ hrest
      · intro hno
        rw [ht1, htmp1]
        split
        · rename_i hm
          have hne : t ≠ (s.slot, s.port, s.channel) := by
            intro he
            exact hno ⟨s, List.mem_cons_self _ _, he.symm, hmatch.1 hm⟩
          exact mapFind_mapSet_ne lawful_triple _ _ _ _ hne
        · rfl

/-- What `SyncInternalState` has done when it returns OK. -/
theorem SyncInternalState_ok (config : ChassisConfig) (m : BcmChassisManager)
    (h : ((BcmChassisManager.SyncInternalState config).run m).status = Except.ok ()) :
    ∃ tmp,
      (syncPorts config.singleton_ports []
        (syncChips (syncNodes config.nodes (syncClear m)))).status = Except.ok tmp ∧
      ((BcmChassisManager.SyncInternalState config).run m).mgr =
        { (syncPorts config.singleton_ports []
            (syncChips (syncNodes config.nodes (syncClear m)))).mgr with
          slot_port_channel_to_port_state_ := tmp } := by
  unfold BcmChassisManager.SyncInternalState Op.run at h ⊢
  simp only [Op.bind_eq, Op.pure_eq, Op.bind_modify] at h ⊢
  obtain ⟨tmp, h1, _, h3⟩ := Op.bind_status_ok _ _ _ _ h
  exact ⟨tmp, h1, h3⟩

theorem syncChips_keeps {β : Type} (proj : BcmChassisManager → β)
    (h3 : ∀ m (bcm_chip : BcmChip),
      proj { m with
        unit_to_bcm_chip_ := mapSet bcm_chip.unit bcm_chip m.unit_to_bcm_chip_
        unit_to_logical_ports_ := mapSetInsert bcm_chip.unit 0 m.unit_to_logical_ports_ } =
        proj m)
    (m : BcmChassisManager) : proj (syncChips m) = proj m := by
  unfold syncChips
  exact foldl_keeps proj
    (fun (m' : BcmChassisManager) (bcm_chip : BcmChip) =>
      { m' with
        unit_to_bcm_chip_ := mapSet bcm_chip.unit bcm_chip m'.unit_to_bcm_chip_
        unit_to_logical_ports_ := mapSetInsert bcm_chip.unit 0 m'.unit_to_logical_ports_ })
    h3 _ m

theorem syncNodes_keeps {β : Type} (proj : BcmChassisManager → β)
    (h2 : ∀ m (node : Node),
      proj { m with
        node_id_to_unit_ := mapSet node.id (-1) m.node_id_to_unit_
        node_id_to_port_ids_ := mapSet node.id [] m.node_id_to_port_ids_ } = proj m)
    (nodes : List Node) (m : BcmChassisManager) : proj (syncNodes nodes m) = proj m :=
  foldl_keeps proj _ h2 nodes m

/-- C16: after a `SyncInternalState` that returned OK, the keys of
`slot_port_channel_to_port_state_` are exactly the `(slot, port, channel)` tuples of the
singleton ports of the config that match a port of the stored base map; a tuple that was a
key before the call has the state it had, and a tuple that was not has
`PORT_STATE_UNKNOWN`. -/
theorem C16_sync_port_states (config : ChassisConfig) (m : BcmChassisManager)
    (base : BcmChassisMap) (hbase : m.base_bcm_chassis_map_ = some base)
    (h : ((BcmChassisManager.SyncInternalState config).run m).status = Except.ok ()) :
    (∀ t : Int × Int × Int,
      t ∈ (((BcmChassisManager.SyncInternalState config).run
          m).mgr.slot_port_channel_to_port_state_).map Prod.fst ↔
        ∃ s ∈ config.singleton_ports, (s.slot, s.port, s.channel) = t ∧
          ∃ b ∈ base.bcm_ports, IsSingletonPortMatchesBcmPort s b = true) ∧
    (∀ t ∈ (((BcmChassisManager.SyncInternalState config).run
        m).mgr.slot_port_channel_to_port_state_).map Prod.fst,
      (∀ state, mapFind t m.slot_port_channel_to_port_state_ = some state →
        mapFind t ((BcmChassisManager.SyncInternalState config).run
          m).mgr.slot_port_channel_to_port_state_ = some state) ∧
      (mapFind t m.slot_port_channel_to_port_state_ = none →
        mapFind t ((BcmChassisManager.SyncInternalState config).run
          m).mgr.slot_port_channel_to_port_state_ = some PortState.PORT_STATE_UNKNOWN)) := by
  obtain ⟨tmp, htmp, hmgr⟩ := SyncInternalState_ok config m h
  have hnew : ((BcmChassisManager.SyncInternalState config).run
      m).mgr.slot_port_channel_to_port_state_ = tmp := by rw [hmgr]
  rw [hnew]
  obtain ⟨hsorted, hall⟩ := syncPorts_tmp config.singleton_ports [] tmp _
    (by simp [SetSorted]) htmp
  have hb0 : (syncChips (syncNodes config.nodes (syncClear m))).base_bcm_chassis_map_ =
      some base := by
    rw [syncChips_keeps (fun m => m.base_bcm_chassis_map_) (fun _ _ => rfl),
      syncNodes_keeps (fun m => m.base_bcm_chassis_map_) (fun _ _ => rfl)]
    exact hbase
  have hs0 : (syncChips (syncNodes config.nodes (syncClear m))).slot_port_channel_to_port_state_ =
      m.slot_port_channel_to_port_state_ := by
    rw [syncChips_keeps (fun m => m.slot_port_channel_to_port_state_) (fun _ _ => rfl),
      syncNodes_keeps (fun m => m.slot_port_channel_to_port_state_) (fun _ _ => rfl)]
    rfl
  rw [hb0, hs0] at hall
  simp only [deref, Option.getD_some] at hall
  have hkey : ∀ t : Int × Int × Int, t ∈ tmp.map Prod.fst ↔
      ∃ s ∈ config.singleton_ports, (s.slot, s.port, s.channel) = t ∧
        ∃ b ∈ base.bcm_ports, IsSingletonPortMatchesBcmPort s b = true := by
    intro t
    rw [← setCount_iff_mem lawful_triple t _ hsorted, ← mapFind_isSome]
    constructor
    · intro hsome
      by_contra hno
      rw [(hall t).2 hno] at hsome
      cases hsome
    · intro hex
      rw [(hall t).1 hex]
      rfl
  refine ⟨hkey, fun t ht => ?_⟩
  have hv := (hall t).1 ((hkey t).1 ht)
  constructor
  · intro state hstate
    rw [hv, hstate]
    rfl
  · intro hnone
    rw [hv, hnone]
    rfl

/-! ## The node maps after sync -/

theorem syncNodes_node_id_to_unit (nodes : List Node) (m : BcmChassisManager) :
    (syncNodes nodes m).node_id_to_unit_ =
      nodes.foldl (fun acc node => mapSet node.id (-1) acc) m.node_id_to_unit_ := by
  unfold syncNodes
  induction nodes generalizing m with
  | nil => rfl
  | cons n rest ih =>
    simp only [List.foldl_cons]
    rw [ih]

theorem mapFind_foldl_nodes (nodes : List Node) (init : List (Nat × Int)) (id : Nat) :
    mapFind id (nodes.foldl (fun acc node => mapSet node.id (-1) acc) init) =
      if ∃ n ∈ nodes, n.id = id then some (-1) else mapFind id init := by
  induction nodes generalizing init with
  | nil => simp
  | cons n rest ih =>
    simp only [List.foldl_cons, ih, List.mem_cons, exists_eq_or_imp]
    by_cases hrest : ∃ n' ∈ rest, n'.id = id
    · simp [hrest]
    · by_cases hn : n.id = id
      · subst hn
        simp [hrest, mapFind_mapSet_self lawful_nat]
      · simp [hrest, hn, mapFind_mapSet_ne lawful_nat _ _ _ _ (Ne.symm hn)]

theorem syncRecordGroup_node_id_to_unit (s : SingletonPort) (f : Bool) (p : BcmPort)
    (m : BcmChassisManager) :
    (syncRecordGroup s f p m).node_id_to_unit_ = m.node_id_to_unit_ :=
  syncRecordGroup_keeps (fun m => m.node_id_to_unit_) (fun _ _ => rfl) (fun _ _ => rfl) s f p m

/-- One iteration of the loop over the singleton ports leaves `node_id_to_unit_` as it was,
or it sets the entry of the node of a singleton port that matches a base port. -/
theorem syncPort_node_id_to_unit (s : SingletonPort)
    (tmp : List ((Int × Int × Int) × PortState)) (m : BcmChassisManager) :
    (syncPort s tmp m).mgr.node_id_to_unit_ = m.node_id_to_unit_ ∨
    ((∃ b ∈ (deref m.base_bcm_chassis_map_).bcm_ports,
        IsSingletonPortMatchesBcmPort s b = true) ∧
      ∃ unit, (syncPort s tmp m).mgr.node_id_to_unit_ = mapSet s.node unit m.node_id_to_unit_) := by
  rw [syncPort_apply]
  cases hf : (deref m.base_bcm_chassis_map_).bcm_ports.find? (IsSingletonPortMatchesBcmPort s) with
  | none => exact Or.inl rfl
  | some b =>
    have hb : ∃ b ∈ (deref m.base_bcm_chassis_map_).bcm_ports,
        IsSingletonPortMatchesBcmPort s b = true :=
      ⟨b, List.mem_of_find?_eq_some hf, List.find?_some hf⟩
    simp only
    split
    · cases hl : syncLogicalPort (deref m.applied_bcm_chassis_map_) b with
      | error e => exact Or.inl rfl
      | ok p =>
        simp only
        split
        · exact Or.inr ⟨hb, p.unit, by rw [syncRecordGroup_node_id_to_unit]; rfl⟩
        · exact Or.inr ⟨hb, p.unit, rfl⟩
    · exact Or.inl rfl

/-- The loop over the singleton ports keeps the keys of `node_id_to_unit_`, and it keeps the
entry of every node to which no singleton port that matches a base port refers. -/
theorem syncPorts_node_id_to_unit (ports : List SingletonPort)
    (tmp : List ((Int × Int × Int) × PortState)) (m : BcmChassisManager) (id : Nat) :
    ((mapFind id m.node_id_to_unit_).isSome = true →
      (mapFind id (syncPorts ports tmp m).mgr.node_id_to_unit_).isSome = true) ∧
    ((∀ s ∈ ports, s.node = id → ∀ b ∈ (deref m.base_bcm_chassis_map_).bcm_ports,
        IsSingletonPortMatchesBcmPort s b = false) →
      mapFind id (syncPorts ports tmp m).mgr.node_id_to_unit_ = mapFind id m.node_id_to_unit_) := by
  induction ports generalizing tmp m with
  | nil => exact ⟨fun h => h, fun _ => rfl⟩
  | cons s rest ih =>
    have hbase : (syncPort s tmp m).mgr.base_bcm_chassis_map_ = m.base_bcm_chassis_map_ :=
      syncPort_keeps_base s tmp m
    have hstep := syncPort_node_id_to_unit s tmp m
    unfold syncPorts
    cases hs : (syncPort s tmp m).status with
    | error e =>
      rw [Op.bind_of_error _ _ _ e hs]
      simp only
      constructor
      · intro hsome
        rcases hstep with h | ⟨_, unit, h⟩
        · rw [h]; exact hsome
        · rw [h]
          by_cases hid : id = s.node
          · rw [hid, mapFind_mapSet_self lawful_nat]; rfl
          · rw [mapFind_mapSet_ne lawful_nat _ _ _ _ hid]; exact hsome
      · intro hno
        rcases hstep with h | ⟨⟨b, hb, hmb⟩, unit, h⟩
        · rw [h]
        · rw [h]
          have hid : id ≠ s.node := by
            intro he
            have := hno s (List.mem_cons_self _ _) he.symm b hb
            rw [hmb] at this
            cases this
          exact mapFind_mapSet_ne lawful_nat _ _ _ _ hid
    | ok tmp1 =>
      rw [Op.bind_of_ok _ _ _ tmp1 hs]
      simp only
      obtain ⟨ih1, ih2⟩ := ih tmp1 (syncPort s tmp m).mgr
      rw [hbase] at ih2
      constructor
      · intro hsome
        apply ih1
        rcases hstep with h | ⟨_, unit, h⟩
        · rw [h]; exact hsome
        · rw [h]
          by_cases hid : id = s.node
          · rw [hid, mapFind_mapSet_self lawful_nat]; rfl
          · rw [mapFind_mapSet_ne lawful_nat _ _ _ _ hid]; exact hsome
      · intro hno
        rw [ih2 (fun s' hs' => hno s' (List.mem_cons_of_mem _ hs'))]
        rcases hstep with h | ⟨⟨b, hb, hmb⟩, unit, h⟩
        · rw [h]
        · rw [h]
          have hid : id ≠ s.node := by
            intro he
            have := hno s (List.mem_cons_self _ _) he.symm b hb
            rw [hmb] at this
            cases this
          exact mapFind_mapSet_ne lawful_nat _ _ _ _ hid

/-- C18: after a `SyncInternalState` that returned OK, `node_id_to_unit_` has an entry for
the id of every node of the config, and the entry is -1 for a node to which no singleton
port that matches a port of the stored base map refers; on an initialized manager with this
`node_id_to_unit_`, `GetUnitFromNodeId` returns the value -1 for such a node, and
`ERR_INVALID_PARAM` for an id that is not a key of the map. -/
theorem C18_sync_node_units (config : ChassisConfig) (m : BcmChassisManager)
    (base : BcmChassisMap) (hbase : m.base_bcm_chassis_map_ = some base)
    (h : ((BcmChassisManager.SyncInternalState config).run m).status = Except.ok ()) :
    (∀ n ∈ config.nodes,
      (mapFind n.id ((BcmChassisManager.SyncInternalState config).run
        m).mgr.node_id_to_unit_).isSome = true) ∧
    (∀ n ∈ config.nodes,
      (∀ s ∈ config.singleton_ports, s.node = n.id →
        ∀ b ∈ base.bcm_ports, IsSingletonPortMatchesBcmPort s b = false) →
      mapFind n.id ((BcmChassisManager.SyncInternalState config).run
        m).mgr.node_id_to_unit_ = some (-1)) ∧
    (∀ m' : BcmChassisManager, m'.initialized_ = true →
      m'.node_id_to_unit_ =
        ((BcmChassisManager.SyncInternalState config).run m).mgr.node_id_to_unit_ →
      (∀ n ∈ config.nodes,
        (∀ s ∈ config.singleton_ports, s.node = n.id →
          ∀ b ∈ base.bcm_ports, IsSingletonPortMatchesBcmPort s b = false) →
        BcmChassisManager.GetUnitFromNodeId m' n.id = Except.ok (-1)) ∧
      (∀ node_id, mapFind node_id m'.node_id_to_unit_ = none →
        BcmChassisManager.GetUnitFromNodeId m' node_id =
          Except.error ErrorCode.ERR_INVALID_PARAM)) := by
  obtain ⟨tmp, htmp, hmgr⟩ := SyncInternalState_ok config m h
  have hnew : ((BcmChassisManager.SyncInternalState config).run m).mgr.node_id_to_unit_ =
      (syncPorts config.singleton_ports []
        (syncChips (syncNodes config.nodes (syncClear m)))).mgr.node_id_to_unit_ := by
    rw [hmgr]
  rw [hnew]
  have hb0 : (syncChips (syncNodes config.nodes (syncClear m))).base_bcm_chassis_map_ =
      some base := by
    rw [syncChips_keeps (fun m => m.base_bcm_chassis_map_) (fun _ _ => rfl),
      syncNodes_keeps (fun m => m.base_bcm_chassis_map_) (fun _ _ => rfl)]
    exact hbase
  have hn0 : ∀ id, mapFind id (syncChips (syncNodes config.nodes (syncClear m))).node_id_to_unit_ =
      if ∃ n ∈ config.nodes, n.id = id then some (-1) else none := by
    intro id
    rw [syncChips_keeps (fun m => m.node_id_to_unit_) (fun _ _ => rfl),
      syncNodes_node_id_to_unit, mapFind_foldl_nodes]
    rfl
  have h1 : ∀ n ∈ config.nodes,
      (mapFind n.id (syncPorts config.singleton_ports []
        (syncChips (syncNodes config.nodes (syncClear m)))).mgr.node_id_to_unit_).isSome =
        true := by
    intro n hn
    apply (syncPorts_node_id_to_unit _ _ _ n.id).1
    rw [hn0, if_pos ⟨n, hn, rfl⟩]
    rfl
  have h2 : ∀ n ∈ config.nodes,
      (∀ s ∈ config.singleton_ports, s.node = n.id →
        ∀ b ∈ base.bcm_ports, IsSingletonPortMatchesBcmPort s b = false) →
      mapFind n.id (syncPorts config.singleton_ports []
        (syncChips (syncNodes config.nodes (syncClear m)))).mgr.node_id_to_unit_ =
        some (-1) := by
    intro n hn hno
    rw [(syncPorts_node_id_to_unit _ _ _ n.id).2 (by
      rw [hb0]
      simpa [deref] using hno), hn0, if_pos ⟨n, hn, rfl⟩]
  refine ⟨h1, h2, fun m' hi hmap => ?_⟩
  constructor
  · intro n hn hno
    unfold BcmChassisManager.GetUnitFromNodeId
    simp [hi, hmap, h2 n hn hno, pure, Except.pure]
  · intro node_id hnone
    unfold BcmChassisManager.GetUnitFromNodeId
    simp [hi, hnone]

/-- Witness for C16: the sync of the Scenario A config on the Scenario A manager with the link
of port `(5, 1, 0)` up. -/
theorem C16_sync_port_states_witness :
    (linkUpManager.base_bcm_chassis_map_ = some scenarioABaseOut ∧
      ((BcmChassisManager.SyncInternalState scenarioAConfig).run linkUpManager).status =
        Except.ok ()) ∧
    ((∀ t : Int × Int × Int,
      t ∈ (((BcmChassisManager.SyncInternalState scenarioAConfig).run
          linkUpManager).mgr.slot_port_channel_to_port_state_).map Prod.fst ↔
        ∃ s ∈ scenarioAConfig.singleton_ports, (s.slot, s.port, s.channel) = t ∧
          ∃ b ∈ scenarioABaseOut.bcm_ports, IsSingletonPortMatchesBcmPort s b = true) ∧
    (∀ t ∈ (((BcmChassisManager.SyncInternalState scenarioAConfig).run
        linkUpManager).mgr.slot_port_channel_to_port_state_).map Prod.fst,
      (∀ state, mapFind t linkUpManager.slot_port_channel_to_port_state_ = some state →
        mapFind t ((BcmChassisManager.SyncInternalState scenarioAConfig).run
          linkUpManager).mgr.slot_port_channel_to_port_state_ = some state) ∧
      (mapFind t linkUpManager.slot_port_channel_to_port_state_ = none →
        mapFind t ((BcmChassisManager.SyncInternalState scenarioAConfig).run
          linkUpManager).mgr.slot_port_channel_to_port_state_ = some PortState.PORT_STATE_UNKNOWN))) :=
  ⟨⟨by decide, by rfl⟩,
    C16_sync_port_states scenarioAConfig linkUpManager scenarioABaseOut (by decide) (by rfl)⟩

/-- Witness for C18: the sync of Scenario A with a second node without ports, on the
Scenario A manager. -/
theorem C18_sync_node_units_witness :
    (scenarioAManager.base_bcm_chassis_map_ = some scenarioABaseOut ∧
      ((BcmChassisManager.SyncInternalState portlessNodeConfig).run scenarioAManager).status =
        Except.ok ()) ∧
    ((∀ n ∈ portlessNodeConfig.nodes,
      (mapFind n.id ((BcmChassisManager.SyncInternalState portlessNodeConfig).run
        scenarioAManager).mgr.node_id_to_unit_).isSome = true) ∧
    (∀ n ∈ portlessNodeConfig.nodes,
      (∀ s ∈ portlessNodeConfig.singleton_ports, s.node = n.id →
        ∀ b ∈ scenarioABaseOut.bcm_ports, IsSingletonPortMatchesBcmPort s b = false) →
      mapFind n.id ((BcmChassisManager.SyncInternalState portlessNodeConfig).run
        scenarioAManager).mgr.node_id_to_unit_ = some (-1)) ∧
    (∀ m' : BcmChassisManager, m'.initialized_ = true →
      m'.node_id_to_unit_ =
        ((BcmChassisManager.SyncInternalState portlessNodeConfig).run scenarioAManager).mgr.node_id_to_unit_ →
      (∀ n ∈ portlessNodeConfig.nodes,
        (∀ s ∈ portlessNodeConfig.singleton_ports, s.node = n.id →
          ∀ b ∈ scenarioABaseOut.bcm_ports, IsSingletonPortMatchesBcmPort s b = false) →
        BcmChassisManager.GetUnitFromNodeId m' n.id = Except.ok (-1)) ∧
      (∀ node_id, mapFind node_id m'.node_id_to_unit_ = none →
        BcmChassisManager.GetUnitFromNodeId m' node_id =
          Except.error ErrorCode.ERR_INVALID_PARAM))) :=
  ⟨⟨by decide, by rfl⟩,
    C18_sync_node_units portlessNodeConfig scenarioAManager scenarioABaseOut (by decide) (by rfl)⟩

/-! ## The two renderings of push -/

theorem Op.bind_call_status {α β : Type} (c : Call) (answer : Except ErrorCode α)
    (f : α → Op β) (m : BcmChassisManager) :
    (Op.bind (Op.call c answer) f m).status =
      match answer with
      | Except.ok a => (f a m).status
      | Except.error e => Except.error e := by
  cases answer with
  | error e => rfl
  | ok a => rw [Op.bind_of_ok (Op.call c (Except.ok a)) f m a rfl]; rfl

/-- The status of `BcmChassisManager.PushChassisConfig` is that of `PushChassisConfig` with
the steps after the resolver run on the manager. -/
theorem PushChassisConfig_status (env : Env) (config : ChassisConfig) (m : BcmChassisManager) :
    ((BcmChassisManager.PushChassisConfig env config).run m).status =
      PushChassisConfig env.k m.mode_ m.initialized_ (env.status Call.SerdesDbLoad) env.file
        (fun base target =>
          ((do
            BcmChassisManager.InitializeBcmChips env base target
            BcmChassisManager.InitializeInternalState base target
            BcmChassisManager.SyncInternalState config
            BcmChassisManager.ConfigurePortGroups env
            BcmChassisManager.RegisterEventWriters env
            Op.modify (fun m => { m with initialized_ := true }) : Op Unit).run m).status)
        ((do
          BcmChassisManager.SyncInternalState config
          BcmChassisManager.ConfigurePortGroups env : Op Unit).run m).status config := by
  unfold BcmChassisManager.PushChassisConfig PushChassisConfig Op.run
  simp only [Op.bind_eq, Op.pure_eq, Op.bind_get]
  cases hi : m.initialized_
  · simp only [Bool.not_false, if_true]
    have hrest : ∀ u : Unit,
        (Op.bind (Op.lift (GenerateBcmChassisMapFromConfig env.k env.file config))
          (fun maps =>
            Op.bind (BcmChassisManager.InitializeBcmChips env maps.1 maps.2) fun _ =>
              Op.bind (BcmChassisManager.InitializeInternalState maps.1 maps.2) fun _ =>
                Op.bind (BcmChassisManager.SyncInternalState config) fun _ =>
                  Op.bind (BcmChassisManager.ConfigurePortGroups env) fun _ =>
                    Op.bind (BcmChassisManager.RegisterEventWriters env) fun _ =>
                      Op.modify fun m => { m with initialized_ := true }) m).status =
          (do
            let maps ← GenerateBcmChassisMapFromConfig env.k env.file config
            (Op.bind (BcmChassisManager.InitializeBcmChips env maps.1 maps.2) fun _ =>
              Op.bind (BcmChassisManager.InitializeInternalState maps.1 maps.2) fun _ =>
                Op.bind (BcmChassisManager.SyncInternalState config) fun _ =>
                  Op.bind (BcmChassisManager.ConfigurePortGroups env) fun _ =>
                    Op.bind (BcmChassisManager.RegisterEventWriters env) fun _ =>
                      Op.modify fun m => { m with initialized_ := true }) m |>.status) := by
      intro _
      rw [Op.bind_lift]
      cases GenerateBcmChassisMapFromConfig env.k env.file config with
      | error e => rfl
      | ok maps => rfl
    cases hm : (m.mode_ == OperationMode.OPERATION_MODE_STANDALONE)
    · simp only [Bool.false_eq_true, if_false, Op.bind_pure]
      exact hrest ()
    · simp only [if_true, Op.bind_call_status]
      cases env.status Call.SerdesDbLoad with
      | error e => rfl
      | ok u => exact hrest u
  · simp only [Bool.not_true, Bool.false_eq_true, if_false]

/-! ## Operations that do not touch the manager, and the calls of an operation -/

theorem Op.const_pure {α : Type} (a : α) : Op.Const (Op.pure a) := fun _ _ => ⟨rfl, rfl, rfl⟩

theorem Op.const_fail {α : Type} (e : ErrorCode) : Op.Const (Op.fail e : Op α) :=
  fun _ _ => ⟨rfl, rfl, rfl⟩

theorem Op.const_lift {α : Type} (x : Except ErrorCode α) : Op.Const (Op.lift x) :=
  fun _ _ => ⟨rfl, rfl, rfl⟩

theorem Op.const_call {α : Type} (c : Call) (answer : Except ErrorCode α) :
    Op.Const (Op.call c answer) := fun _ _ => ⟨rfl, rfl, rfl⟩

theorem Op.const_check (cond : Bool) : Op.Const (Op.check cond) := by
  intro m m'
  cases cond <;> exact ⟨rfl, rfl, rfl⟩

theorem Op.const_bind {α β : Type} (x : Op α) (f : α → Op β) (hx : Op.Const x)
    (hf : ∀ a, Op.Const (f a)) : Op.Const (Op.bind x f) := by
  intro m m'
  obtain ⟨hs, hc, hm⟩ := hx m m'
  have hm' := (hx m' m').2.2
  cases h : (x m).status with
  | error e =>
    rw [Op.bind_of_error x f m e h, Op.bind_of_error x f m' e (hs ▸ h)]
    exact ⟨rfl, hc, hm⟩
  | ok a =>
    rw [Op.bind_of_ok x f m a h, Op.bind_of_ok x f m' a (hs ▸ h)]
    obtain ⟨hs2, hc2, hm2⟩ := hf a (x m).mgr (x m').mgr
    refine ⟨hs2, ?_, ?_⟩
    · simp only [hc, hc2]
    · exact hm2.trans hm

theorem Op.const_forEach {α : Type} (f : α → Op Unit) (hf : ∀ a, Op.Const (f a))
    (l : List α) : Op.Const (Op.forEach f l) := by
  induction l with
  | nil => exact Op.const_pure ()
  | cons a rest ih => exact Op.const_bind _ _ (hf a) (fun _ => ih)

theorem Op.callsIn_pure {α : Type} (P : Call → Prop) (a : α) : Op.CallsIn P (Op.pure a) := by
  intro m c hc
  cases hc

theorem Op.callsIn_fail {α : Type} (P : Call → Prop) (e : ErrorCode) :
    Op.CallsIn P (Op.fail e : Op α) := by
  intro m c hc
  cases hc

theorem Op.callsIn_get (P : Call → Prop) : Op.CallsIn P Op.get := by
  intro m c hc
  cases hc

theorem Op.callsIn_lift {α : Type} (P : Call → Prop) (x : Except ErrorCode α) :
    Op.CallsIn P (Op.lift x) := by
  intro m c hc
  cases hc

theorem Op.callsIn_modify (P : Call → Prop) (f : BcmChassisManager → BcmChassisManager) :
    Op.CallsIn P (Op.modify f) := by
  intro m c hc
  cases hc

theorem Op.callsIn_check (P : Call → Prop) (cond : Bool) : Op.CallsIn P (Op.check cond) := by
  intro m c hc
  cases cond <;> cases hc

theorem Op.callsIn_call {α : Type} (P : Call → Prop) (c : Call) (answer : Except ErrorCode α)
    (h : P c) : Op.CallsIn P (Op.call c answer) := by
  intro m c' hc
  have : c' = c := by simpa [Op.call] using hc
  rw [this]
  exact h

theorem Op.callsIn_bind {α β : Type} (P : Call → Prop) (x : Op α) (f : α → Op β)
    (hx : Op.CallsIn P x) (hf : ∀ a, Op.CallsIn P (f a)) : Op.CallsIn P (Op.bind x f) := by
  intro m c hc
  cases hs : (x m).status with
  | error e =>
    rw [Op.bind_of_error x f m e hs] at hc
    exact hx m c hc
  | ok a =>
    rw [Op.bind_of_ok x f m a hs] at hc
    rcases List.mem_append.1 hc with h | h
    · exact hx m c h
    · exact hf a _ c h

theorem Op.callsIn_try {α : Type} (P : Call → Prop) (x : Op α) (hx : Op.CallsIn P x) :
    Op.CallsIn P (Op.try x) := fun m c hc => hx m c hc

theorem Op.callsIn_forEach {α : Type} (P : Call → Prop) (f : α → Op Unit)
    (hf : ∀ a, Op.CallsIn P (f a)) (l : List α) : Op.CallsIn P (Op.forEach f l) := by
  induction l with
  | nil => exact Op.callsIn_pure P ()
  | cons a rest ih => exact Op.callsIn_bind P _ _ (hf a) (fun _ => ih)

/-- A loop whose body always returns OK and leaves the manager as it is returns OK, leaves
the manager as it is, and makes the calls of its iterations in order. -/
theorem Op.forEach_ok {α : Type} (f : α → Op Unit) (l : List α) (m : BcmChassisManager)
    (hf : ∀ a ∈ l, (f a m).status = Except.ok () ∧ (f a m).mgr = m) :
    (Op.forEach f l m).status = Except.ok () ∧ (Op.forEach f l m).mgr = m ∧
      (Op.forEach f l m).calls = l.flatMap (fun a => (f a m).calls) := by
  induction l with
  | nil => exact ⟨rfl, rfl, rfl⟩
  | cons a rest ih =>
    obtain ⟨hs, hm⟩ := hf a (List.mem_cons_self _ _)
    obtain ⟨ihs, ihm, ihc⟩ := ih (fun b hb => hf b (List.mem_cons_of_mem _ hb))
    unfold Op.forEach
    rw [Op.bind_of_ok _ _ m () hs, hm]
    exact ⟨ihs, ihm, by simp only [List.flatMap_cons, ihc]⟩

/-! ## Events that are discarded -/

/-- C21: `TransceiverEventHandler` discards the event — it returns with the manager as it
was, in particular `slot_port_to_transceiver_state_`, and without any call to a
collaborator — when `(slot, port)` is not a key of `slot_port_to_transceiver_state_`, when
the new state is neither PRESENT nor NOT_PRESENT, when the old state is READY and the new
state PRESENT, and when the old state is UNKNOWN and the new state NOT_PRESENT. -/
theorem C21_transceiver_event_discarded (env : Env) (shutdown : Bool) (m : BcmChassisManager)
    (slot port : Int) (new_state : HwState)
    (h : mapFind (slot, port) m.slot_port_to_transceiver_state_ = none ∨
      (new_state ≠ HwState.HW_STATE_PRESENT ∧ new_state ≠ HwState.HW_STATE_NOT_PRESENT) ∨
      (mapFind (slot, port) m.slot_port_to_transceiver_state_ = some HwState.HW_STATE_READY ∧
        new_state = HwState.HW_STATE_PRESENT) ∨
      (mapFind (slot, port) m.slot_port_to_transceiver_state_ = some HwState.HW_STATE_UNKNOWN ∧
        new_state = HwState.HW_STATE_NOT_PRESENT)) :
    (BcmChassisManager.TransceiverEventHandler env shutdown slot port new_state).run m =
      { status := Except.ok (), mgr := m, calls := [] } := by
  unfold BcmChassisManager.TransceiverEventHandler Op.run
  cases shutdown
  · simp only [Op.bind_eq, Op.pure_eq, Bool.false_eq_true, if_false, Op.bind_get]
    rcases h with h | ⟨h1, h2⟩ | ⟨h1, h2⟩ | ⟨h1, h2⟩
    · rw [h]
      rfl
    · cases hf : mapFind (slot, port) m.slot_port_to_transceiver_state_ with
      | none => rfl
      | some old_state =>
        have : (new_state != HwState.HW_STATE_PRESENT &&
            new_state != HwState.HW_STATE_NOT_PRESENT) = true := by
          simp [h1, h2]
        simp only [this, if_true]
        rfl
    · rw [h1, h2]
      rfl
    · rw [h1, h2]
      rfl
  · rfl

/-- Witness for C21: the event `(5, 1)`, NOT_PRESENT, on the manager after the push of
Scenario A, where the state of `(5, 1)` is UNKNOWN. -/
theorem C21_transceiver_event_discarded_witness :
    (mapFind (5, 1) scenarioAManager.slot_port_to_transceiver_state_ = none ∨
      (HwState.HW_STATE_NOT_PRESENT ≠ HwState.HW_STATE_PRESENT ∧
        HwState.HW_STATE_NOT_PRESENT ≠ HwState.HW_STATE_NOT_PRESENT) ∨
      (mapFind (5, 1) scenarioAManager.slot_port_to_transceiver_state_ =
          some HwState.HW_STATE_READY ∧
        HwState.HW_STATE_NOT_PRESENT = HwState.HW_STATE_PRESENT) ∨
      (mapFind (5, 1) scenarioAManager.slot_port_to_transceiver_state_ =
          some HwState.HW_STATE_UNKNOWN ∧
        HwState.HW_STATE_NOT_PRESENT = HwState.HW_STATE_NOT_PRESENT)) ∧
    (BcmChassisManager.TransceiverEventHandler scenarioAEnv false 5 1
        HwState.HW_STATE_NOT_PRESENT).run scenarioAManager =
      { status := Except.ok (), mgr := scenarioAManager, calls := [] } :=
  ⟨Or.inr (Or.inr (Or.inr ⟨by decide, rfl⟩)),
    C21_transceiver_event_discarded scenarioAEnv false scenarioAManager 5 1
      HwState.HW_STATE_NOT_PRESENT (Or.inr (Or.inr (Or.inr ⟨by decide, rfl⟩)))⟩

/-- C23: `LinkscanEventHandler` for a `(unit, logical_port)` that is not a key of
`unit_logical_port_to_port_id_` returns with the manager as it was, so with every map as it
was, and without any call, so without a write to the gNMI event writer. -/
theorem C23_linkscan_unknown_port_dropped (env : Env) (shutdown : Bool)
    (m : BcmChassisManager) (unit logical_port : Int) (new_state : PortState)
    (h : mapFind (unit, logical_port) m.unit_logical_port_to_port_id_ = none) :
    (BcmChassisManager.LinkscanEventHandler env shutdown unit logical_port new_state).run m =
      { status := Except.ok (), mgr := m, calls := [] } := by
  unfold BcmChassisManager.LinkscanEventHandler Op.run
  cases shutdown
  · simp only [Op.bind_eq, Op.pure_eq, Bool.false_eq_true, if_false, Op.bind_get, h]
    cases mapFind unit m.unit_to_node_id_ <;> rfl
  · rfl

/-- Witness for C23: Scenario E, the linkscan event for `(0, 99)` after Scenario A, with a
gNMI event writer registered. -/
theorem C23_linkscan_unknown_port_dropped_witness :
    mapFind ((0 : Int), (99 : Int))
      ({ scenarioAManager with gnmi_event_writer_ := true } :
        BcmChassisManager).unit_logical_port_to_port_id_ = none ∧
    (BcmChassisManager.LinkscanEventHandler scenarioAEnv false 0 99
        PortState.PORT_STATE_UP).run { scenarioAManager with gnmi_event_writer_ := true } =
      { status := Except.ok (), mgr := { scenarioAManager with gnmi_event_writer_ := true },
        calls := [] } :=
  ⟨by decide,
    C23_linkscan_unknown_port_dropped scenarioAEnv false
      { scenarioAManager with gnmi_event_writer_ := true } 0 99 PortState.PORT_STATE_UP
      (by decide)⟩

/-! ## Shutdown -/

/-- `UnregisterEventWriters` leaves every data member but the two writer ids and the two
event channels as it was, and both writer ids are the invalid id afterwards. -/
theorem UnregisterEventWriters_mgr (env : Env) (m : BcmChassisManager) :
    ((BcmChassisManager.UnregisterEventWriters env).run m).mgr =
      { m with
        linkscan_event_writer_id_ := env.kInvalidWriterId
        transceiver_event_writer_id_ := env.kInvalidWriterId
        xcvr_event_channel_ :=
          ((BcmChassisManager.UnregisterEventWriters env).run m).mgr.xcvr_event_channel_
        linkscan_event_channel_ :=
          ((BcmChassisManager.UnregisterEventWriters env).run m).mgr.linkscan_event_channel_ } := by
  unfold BcmChassisManager.UnregisterEventWriters unregisterEventWriters Op.run
  simp only [Op.bind_eq, Op.pure_eq]
  by_cases h1 : m.linkscan_event_writer_id_ = env.kInvalidWriterId <;>
    by_cases h2 : m.transceiver_event_writer_id_ = env.kInvalidWriterId <;>
    cases h3 : m.linkscan_event_channel_ <;> cases h4 : m.xcvr_event_channel_ <;>
    simp only [Op.bind, Op.get, Op.try, Op.modify, Op.call, Op.pure, Op.lift, h1, h2, h3, h4,
      bne_self_eq_false, Bool.false_eq_true, if_false, if_true, bne_iff_ne, ne_eq,
      not_false_eq_true, not_true_eq_false] <;>
    (cases m; simp_all)

/-- C28: `Shutdown` makes the calls of `UnregisterEventWriters` and then the call
`ShutdownAllUnits`, whatever `UnregisterEventWriters` returns; it returns OK exactly when
`UnregisterEventWriters` and `ShutdownAllUnits` both return OK; and in every case the
manager afterwards is not initialized, its twelve maps are empty, the stored base and
applied maps are null, and both event writer ids are the invalid id. -/
theorem C28_shutdown (env : Env) (m : BcmChassisManager) :
    ((BcmChassisManager.Shutdown env).run m).calls =
      ((BcmChassisManager.UnregisterEventWriters env).run m).calls ++
        [Call.ShutdownAllUnits] ∧
    (((BcmChassisManager.Shutdown env).run m).status = Except.ok () ↔
      ((BcmChassisManager.UnregisterEventWriters env).run m).status = Except.ok () ∧
        env.status Call.ShutdownAllUnits = Except.ok ()) ∧
    ((BcmChassisManager.Shutdown env).run m).mgr.initialized_ = false ∧
    ((BcmChassisManager.Shutdown env).run m).mgr.unit_to_bcm_chip_ = [] ∧
    ((BcmChassisManager.Shutdown env).run m).mgr.slot_port_channel_to_bcm_port_ = [] ∧
    ((BcmChassisManager.Shutdown env).run m).mgr.slot_port_to_flex_bcm_ports_ = [] ∧
    ((BcmChassisManager.Shutdown env).run m).mgr.slot_port_to_non_flex_bcm_ports_ = [] ∧
    ((BcmChassisManager.Shutdown env).run m).mgr.slot_port_to_transceiver_state_ = [] ∧
    ((BcmChassisManager.Shutdown env).run m).mgr.unit_to_logical_ports_ = [] ∧
    ((BcmChassisManager.Shutdown env).run m).mgr.node_id_to_unit_ = [] ∧
    ((BcmChassisManager.Shutdown env).run m).mgr.unit_to_node_id_ = [] ∧
    ((BcmChassisManager.Shutdown env).run m).mgr.node_id_to_port_ids_ = [] ∧
    ((BcmChassisManager.Shutdown env).run m).mgr.port_id_to_slot_port_channel_ = [] ∧
    ((BcmChassisManager.Shutdown env).run m).mgr.unit_logical_port_to_port_id_ = [] ∧
    ((BcmChassisManager.Shutdown env).run m).mgr.slot_port_channel_to_port_state_ = [] ∧
    ((BcmChassisManager.Shutdown env).run m).mgr.base_bcm_chassis_map_ = none ∧
    ((BcmChassisManager.Shutdown env).run m).mgr.applied_bcm_chassis_map_ = none ∧
    ((BcmChassisManager.Shutdown env).run m).mgr.linkscan_event_writer_id_ =
      env.kInvalidWriterId ∧
    ((BcmChassisManager.Shutdown env).run m).mgr.transceiver_event_writer_id_ =
      env.kInvalidWriterId := by
  have hmgr := UnregisterEventWriters_mgr env m
  have hrun : (BcmChassisManager.Shutdown env).run m =
      { status :=
          APPEND_STATUS_IF_ERROR env
            (APPEND_STATUS_IF_ERROR env (Except.ok ())
              ((BcmChassisManager.UnregisterEventWriters env).run m).status)
            (env.status Call.ShutdownAllUnits)
        mgr :=
          BcmChassisManager.CleanupInternalState
            { ((BcmChassisManager.UnregisterEventWriters env).run m).mgr with
              initialized_ := false }
        calls :=
          ((BcmChassisManager.UnregisterEventWriters env).run m).calls ++
            [Call.ShutdownAllUnits] } := by
    unfold BcmChassisManager.Shutdown Op.run
    simp only [Op.bind_eq, Op.pure_eq, Op.bind_try, Op.bind_modify]
    rfl
  rw [hrun, hmgr]
  refine ⟨rfl, ?_, rfl, rfl, rfl, rfl, rfl, rfl, rfl, rfl, rfl, rfl, rfl, rfl, rfl, rfl, rfl,
    rfl, rfl⟩
  simp only
  cases hu : ((BcmChassisManager.UnregisterEventWriters env).run m).status with
  | error e =>
    cases hsd : env.status Call.ShutdownAllUnits with
    | error e' => simp [APPEND_STATUS_IF_ERROR]
    | ok u => simp [APPEND_STATUS_IF_ERROR]
  | ok u =>
    cases hsd : env.status Call.ShutdownAllUnits with
    | error e' => simp [APPEND_STATUS_IF_ERROR]
    | ok u => simp [APPEND_STATUS_IF_ERROR]

/-! ## Push on an initialized manager -/

theorem demoteReadyGroup_keeps {β : Type} (proj : BcmChassisManager → β)
    (h : ∀ m v, proj { m with slot_port_to_transceiver_state_ := v } = proj m)
    (pair : Int × Int) (m : BcmChassisManager) : proj (demoteReadyGroup pair m) = proj m := by
  unfold demoteReadyGroup
  split
  · exact h _ _
  · split
    · exact h _ _
    · rfl

theorem configureFlexGroups_keeps {β : Type} (proj : BcmChassisManager → β)
    (h : ∀ m v, proj { m with slot_port_to_transceiver_state_ := v } = proj m) (env : Env)
    (l : List ((Int × Int) × List BcmPort)) (status : Except ErrorCode Unit) :
    Op.Keeps proj (configureFlexGroups env l status) := by
  induction l generalizing status with
  | nil => exact Op.keeps_pure _ status
  | cons e rest ih =>
    unfold configureFlexGroups
    refine Op.keeps_bind _ _ _
      (Op.keeps_try _ _ (SetSpeedForFlexPortGroup_keeps _ env e.1)) (fun ret => ?_)
    cases ret with
    | error err => exact ih _
    | ok speed_changed =>
      refine Op.keeps_bind _ _ _ ?_ (fun _ => ih _)
      split
      · exact Op.keeps_modify _ _ (demoteReadyGroup_keeps proj h e.1)
      · exact Op.keeps_pure _ ()

theorem configurePortOptions_keeps {β : Type} (proj : BcmChassisManager → β)
    (h : ∀ m v, proj { m with slot_port_to_transceiver_state_ := v } = proj m) (env : Env)
    (l : List ((Int × Int) × HwState)) (status : Except ErrorCode Unit) :
    Op.Keeps proj (configurePortOptions env l status) := by
  induction l generalizing status with
  | nil => exact Op.keeps_pure _ status
  | cons e rest ih =>
    unfold configurePortOptions
    split
    · refine Op.keeps_bind _ _ _
        (Op.keeps_try _ _ (SetPortOptionsForPortGroup_keeps _ env e.1 _)) (fun ret => ?_)
      cases ret with
      | error err => exact ih _
      | ok u =>
        refine Op.keeps_bind _ _ _ ?_ (fun _ => ih _)
        split
        · exact Op.keeps_modify _ _ (fun m => h m _)
        · exact Op.keeps_pure _ ()
    · exact ih _

/-- `ConfigurePortGroups` changes no data member but `slot_port_to_transceiver_state_`. -/
theorem ConfigurePortGroups_keeps {β : Type} (proj : BcmChassisManager → β)
    (h : ∀ m v, proj { m with slot_port_to_transceiver_state_ := v } = proj m) (env : Env) :
    Op.Keeps proj (BcmChassisManager.ConfigurePortGroups env) := by
  unfold BcmChassisManager.ConfigurePortGroups
  simp only [Op.bind_eq, Op.pure_eq]
  repeat' first
    | apply Op.keeps_bind
    | apply Op.keeps_get
    | apply Op.keeps_lift
    | exact configureFlexGroups_keeps proj h env _ _
    | exact configurePortOptions_keeps proj h env _ _
    | intro _

theorem SetPortOptionsForPortGroup_calls (env : Env) (pair : Int × Int)
    (options : BcmPortOptions) :
    Op.CallsIn (fun c => c.isPortGroupCall = true)
      (BcmChassisManager.SetPortOptionsForPortGroup env pair options) := by
  unfold BcmChassisManager.SetPortOptionsForPortGroup
  simp only [Op.bind_eq, Op.pure_eq]
  repeat' first
    | apply Op.callsIn_bind
    | apply Op.callsIn_forEach
    | apply Op.callsIn_get
    | apply Op.callsIn_pure
    | apply Op.callsIn_fail
    | (apply Op.callsIn_call; rfl)
    | split
    | intro _

theorem SetSpeedForFlexPortGroup_calls (env : Env) (pair : Int × Int) :
    Op.CallsIn (fun c => c.isPortGroupCall = true)
      (BcmChassisManager.SetSpeedForFlexPortGroup env pair) := by
  unfold BcmChassisManager.SetSpeedForFlexPortGroup
  simp only [Op.bind_eq, Op.pure_eq]
  repeat' first
    | apply Op.callsIn_bind
    | apply Op.callsIn_forEach
    | apply Op.callsIn_get
    | apply Op.callsIn_pure
    | apply Op.callsIn_fail
    | apply Op.callsIn_check
    | apply Op.callsIn_lift
    | (apply Op.callsIn_call; rfl)
    | split
    | intro _

theorem configureFlexGroups_calls (env : Env) (l : List ((Int × Int) × List BcmPort))
    (status : Except ErrorCode Unit) :
    Op.CallsIn (fun c => c.isPortGroupCall = true) (configureFlexGroups env l status) := by
  induction l generalizing status with
  | nil => exact Op.callsIn_pure _ status
  | cons e rest ih =>
    unfold configureFlexGroups
    refine Op.callsIn_bind _ _ _
      (Op.callsIn_try _ _ (SetSpeedForFlexPortGroup_calls env e.1)) (fun ret => ?_)
    cases ret with
    | error err => exact ih _
    | ok speed_changed =>
      refine Op.callsIn_bind _ _ _ ?_ (fun _ => ih _)
      split
      · exact Op.callsIn_modify _ _
      · exact Op.callsIn_pure _ ()

theorem configurePortOptions_calls (env : Env) (l : List ((Int × Int) × HwState))
    (status : Except ErrorCode Unit) :
    Op.CallsIn (fun c => c.isPortGroupCall = true) (configurePortOptions env l status) := by
  induction l generalizing status with
  | nil => exact Op.callsIn_pure _ status
  | cons e rest ih =>
    unfold configurePortOptions
    split
    · refine Op.callsIn_bind _ _ _
        (Op.callsIn_try _ _ (SetPortOptionsForPortGroup_calls env e.1 _)) (fun ret => ?_)
      cases ret with
      | error err => exact ih _
      | ok u =>
        refine Op.callsIn_bind _ _ _ ?_ (fun _ => ih _)
        split
        · exact Op.callsIn_modify _ _
        · exact Op.callsIn_pure _ ()
    · exact ih _

theorem ConfigurePortGroups_calls (env : Env) :
    Op.CallsIn (fun c => c.isPortGroupCall = true)
      (BcmChassisManager.ConfigurePortGroups env) := by
  unfold BcmChassisManager.ConfigurePortGroups
  simp only [Op.bind_eq, Op.pure_eq]
  repeat' first
    | apply Op.callsIn_bind
    | apply Op.callsIn_get
    | apply Op.callsIn_lift
    | exact configureFlexGroups_calls env _ _
    | exact configurePortOptions_calls env _ _
    | intro _

theorem syncPorts_calls (P : Call → Prop) (ports : List SingletonPort)
    (tmp : List ((Int × Int × Int) × PortState)) : Op.CallsIn P (syncPorts ports tmp) := by
  induction ports generalizing tmp with
  | nil => exact Op.callsIn_pure P tmp
  | cons s rest ih =>
    unfold syncPorts
    refine Op.callsIn_bind P _ _ ?_ (fun tmp' => ih tmp')
    intro m c hc
    rw [syncPort_apply] at hc
    revert hc
    repeat' split
    all_goals simp

/-- `SyncInternalState` calls no collaborator. -/
theorem SyncInternalState_calls (P : Call → Prop) (config : ChassisConfig) :
    Op.CallsIn P (BcmChassisManager.SyncInternalState config) := by
  unfold BcmChassisManager.SyncInternalState
  simp only [Op.bind_eq, Op.pure_eq]
  repeat' first
    | apply Op.callsIn_bind
    | apply Op.callsIn_modify
    | exact syncPorts_calls P _ _
    | intro _

/-- On an initialized manager `PushChassisConfig` is `SyncInternalState` followed by
`ConfigurePortGroups`. -/
theorem PushChassisConfig_initialized (env : Env) (config : ChassisConfig)
    (m : BcmChassisManager) (hi : m.initialized_ = true) :
    (BcmChassisManager.PushChassisConfig env config).run m =
      (Op.bind (BcmChassisManager.SyncInternalState config)
        (fun _ => BcmChassisManager.ConfigurePortGroups env)).run m := by
  unfold BcmChassisManager.PushChassisConfig Op.run
  simp only [Op.bind_eq, Op.pure_eq, Op.bind_get, hi, Bool.not_true, Bool.false_eq_true,
    if_false]

/-- C26: `PushChassisConfig` on an initialized manager makes only calls of the port group
configuration (`GetPortOptions`, `SetPortOptions`, `GetFrontPanelPortInfo`,
`LookupSerdesConfigForPort`, `ConfigSerdesForPort`), so none of `InitializeSdk`, `FindUnit`,
`InitializeUnit`, `SetModuleId`, `InitializePort`, `StartDiagShellServer`, `StartLinkscan`,
`RegisterLinkscanEventWriter`, `RegisterTransceiverEventWriter` and no write of the SDK
config file; it leaves the stored base and applied maps and the two event writer ids as they
were, and the manager initialized, whether it returns OK or an error. -/
theorem C26_push_initialized_frame (env : Env) (config : ChassisConfig)
    (m : BcmChassisManager) (hi : m.initialized_ = true) :
    (∀ c ∈ ((BcmChassisManager.PushChassisConfig env config).run m).calls,
      c.isPortGroupCall = true) ∧
    ((BcmChassisManager.PushChassisConfig env config).run m).mgr.base_bcm_chassis_map_ =
      m.base_bcm_chassis_map_ ∧
    ((BcmChassisManager.PushChassisConfig env config).run m).mgr.applied_bcm_chassis_map_ =
      m.applied_bcm_chassis_map_ ∧
    ((BcmChassisManager.PushChassisConfig env config).run m).mgr.linkscan_event_writer_id_ =
      m.linkscan_event_writer_id_ ∧
    ((BcmChassisManager.PushChassisConfig env config).run m).mgr.transceiver_event_writer_id_ =
      m.transceiver_event_writer_id_ ∧
    ((BcmChassisManager.PushChassisConfig env config).run m).mgr.initialized_ = true := by
  rw [PushChassisConfig_initialized env config m hi]
  have hkeep : ∀ {β : Type} (proj : BcmChassisManager → β),
      (∀ m, proj (syncClear m) = proj m) →
      (∀ m (node : Node),
        proj { m with
          node_id_to_unit_ := mapSet node.id (-1) m.node_id_to_unit_
          node_id_to_port_ids_ := mapSet node.id [] m.node_id_to_port_ids_ } = proj m) →
      (∀ m (bcm_chip : BcmChip),
        proj { m with
          unit_to_bcm_chip_ := mapSet bcm_chip.unit bcm_chip m.unit_to_bcm_chip_
          unit_to_logical_ports_ := mapSetInsert bcm_chip.unit 0 m.unit_to_logical_ports_ } =
          proj m) →
      (∀ s p m, proj (syncRecordPort s p m) = proj m) →
      (∀ m v, proj { m with slot_port_to_flex_bcm_ports_ := v } = proj m) →
      (∀ m v, proj { m with slot_port_to_non_flex_bcm_ports_ := v } = proj m) →
      (∀ tmp m, proj { m with slot_port_channel_to_port_state_ := tmp } = proj m) →
      (∀ m v, proj { m with slot_port_to_transceiver_state_ := v } = proj m) →
      proj ((Op.bind (BcmChassisManager.SyncInternalState config)
        (fun _ => BcmChassisManager.ConfigurePortGroups env)).run m).mgr = proj m := by
    intro β proj h1 h2 h3 h4 hf hn h6 h7
    exact Op.keeps_bind proj _ _
      (SyncInternalState_keeps proj h1 h2 h3 h4
        (fun s f p m => syncRecordGroup_keeps proj hf hn s f p m) h6 config)
      (fun _ => ConfigurePortGroups_keeps proj h7 env) m
  refine ⟨?_, ?_, ?_, ?_, ?_, ?_⟩
  · exact Op.callsIn_bind _ _ _ (SyncInternalState_calls _ config)
      (fun _ => ConfigurePortGroups_calls env) m
  · exact hkeep (fun m => m.base_bcm_chassis_map_) (fun _ => rfl) (fun _ _ => rfl)
      (fun _ _ => rfl) (fun _ _ _ => rfl) (fun _ _ => rfl) (fun _ _ => rfl) (fun _ _ => rfl)
      (fun _ _ => rfl)
  · exact hkeep (fun m => m.applied_bcm_chassis_map_) (fun _ => rfl) (fun _ _ => rfl)
      (fun _ _ => rfl) (fun _ _ _ => rfl) (fun _ _ => rfl) (fun _ _ => rfl) (fun _ _ => rfl)
      (fun _ _ => rfl)
  · exact hkeep (fun m => m.linkscan_event_writer_id_) (fun _ => rfl) (fun _ _ => rfl)
      (fun _ _ => rfl) (fun _ _ _ => rfl) (fun _ _ => rfl) (fun _ _ => rfl) (fun _ _ => rfl)
      (fun _ _ => rfl)
  · exact hkeep (fun m => m.transceiver_event_writer_id_) (fun _ => rfl) (fun _ _ => rfl)
      (fun _ _ => rfl) (fun _ _ _ => rfl) (fun _ _ => rfl) (fun _ _ => rfl) (fun _ _ => rfl)
      (fun _ _ => rfl)
  · exact (hkeep (fun m => m.initialized_) (fun _ => rfl) (fun _ _ => rfl)
      (fun _ _ => rfl) (fun _ _ _ => rfl) (fun _ _ => rfl) (fun _ _ => rfl) (fun _ _ => rfl)
      (fun _ _ => rfl)).trans hi

/-- C27 (counterexample): on the manager after the push of Scenario A, which is
initialized, (1) the push of the config with port id 0, which the resolver rejects, returns
OK and changes `port_id_to_slot_port_channel_`; (2) the push of the Scenario B config, which
the resolver rejects, returns an error after it has emptied
`slot_port_channel_to_bcm_port_`. -/
theorem C27_counterexample :
    scenarioAManager.initialized_ = true ∧
    (GenerateBcmChassisMapFromConfig scenarioAEnv.k scenarioAEnv.file zeroIdConfig =
        Except.error ErrorCode.ERR_INTERNAL ∧
      ((BcmChassisManager.PushChassisConfig scenarioAEnv zeroIdConfig).run
        scenarioAManager).status = Except.ok () ∧
      scenarioAManager.port_id_to_slot_port_channel_ = [(1, (5, 1, 0))] ∧
      ((BcmChassisManager.PushChassisConfig scenarioAEnv zeroIdConfig).run
        scenarioAManager).mgr.port_id_to_slot_port_channel_ = [(0, (5, 1, 0))]) ∧
    (GenerateBcmChassisMapFromConfig scenarioAEnv.k scenarioAEnv.file scenarioBConfig =
        Except.error ErrorCode.ERR_INTERNAL ∧
      ((BcmChassisManager.PushChassisConfig scenarioAEnv scenarioBConfig).run
        scenarioAManager).status = Except.error ErrorCode.ERR_INTERNAL ∧
      scenarioAManager.slot_port_channel_to_bcm_port_ ≠ [] ∧
      ((BcmChassisManager.PushChassisConfig scenarioAEnv scenarioBConfig).run
        scenarioAManager).mgr.slot_port_channel_to_bcm_port_ = []) :=
  ⟨by rfl, ⟨by rfl, by rfl, by decide, by decide⟩, ⟨by rfl, by rfl, by decide, by decide⟩⟩

/-- C27 (amended): `PushChassisConfig` on an initialized manager does not resolve the maps:
its status, the manager it leaves and its calls are those of `SyncInternalState` on the
config as it is given, followed, when that returned OK, by `ConfigurePortGroups`; the
resolver is not called. -/
theorem C27_push_initialized_does_not_resolve (env : Env) (config : ChassisConfig)
    (m : BcmChassisManager) (hi : m.initialized_ = true) :
    (BcmChassisManager.PushChassisConfig env config).run m =
      (Op.bind (BcmChassisManager.SyncInternalState config)
        (fun _ => BcmChassisManager.ConfigurePortGroups env)).run m ∧
    (∀ e, ((BcmChassisManager.SyncInternalState config).run m).status = Except.error e →
      (BcmChassisManager.PushChassisConfig env config).run m =
        { status := Except.error e
          mgr := ((BcmChassisManager.SyncInternalState config).run m).mgr
          calls := ((BcmChassisManager.SyncInternalState config).run m).calls }) ∧
    (((BcmChassisManager.SyncInternalState config).run m).status = Except.ok () →
      ((BcmChassisManager.PushChassisConfig env config).run m).status =
        ((BcmChassisManager.ConfigurePortGroups env).run
          ((BcmChassisManager.SyncInternalState config).run m).mgr).status ∧
      ((BcmChassisManager.PushChassisConfig env config).run m).mgr =
        ((BcmChassisManager.ConfigurePortGroups env).run
          ((BcmChassisManager.SyncInternalState config).run m).mgr).mgr) := by
  have h := PushChassisConfig_initialized env config m hi
  refine ⟨h, ?_, ?_⟩
  · intro e he
    rw [h]
    exact Op.bind_of_error _ _ m e he
  · intro hok
    rw [h]
    unfold Op.run at hok ⊢
    rw [Op.bind_of_ok _ _ m () hok]
    exact ⟨rfl, rfl⟩

/-- Witness for C27: the push of the config with port id 0 on the manager after the push of
Scenario A. -/
theorem C27_push_initialized_does_not_resolve_witness :
    scenarioAManager.initialized_ = true ∧
    (BcmChassisManager.PushChassisConfig scenarioAEnv zeroIdConfig).run scenarioAManager =
      (Op.bind (BcmChassisManager.SyncInternalState zeroIdConfig)
        (fun _ => BcmChassisManager.ConfigurePortGroups scenarioAEnv)).run scenarioAManager :=
  ⟨by rfl,
    (C27_push_initialized_does_not_resolve scenarioAEnv zeroIdConfig scenarioAManager
      (by rfl)).1⟩

/-- Witness for C26: the push of the Scenario A config on the manager after the push of
Scenario A. -/
theorem C26_push_initialized_frame_witness :
    scenarioAManager.initialized_ = true ∧
    ((∀ c ∈ ((BcmChassisManager.PushChassisConfig scenarioAEnv scenarioAConfig).run
        scenarioAManager).calls, c.isPortGroupCall = true) ∧
    ((BcmChassisManager.PushChassisConfig scenarioAEnv scenarioAConfig).run
      scenarioAManager).mgr.base_bcm_chassis_map_ = scenarioAManager.base_bcm_chassis_map_ ∧
    ((BcmChassisManager.PushChassisConfig scenarioAEnv scenarioAConfig).run
      scenarioAManager).mgr.applied_bcm_chassis_map_ =
      scenarioAManager.applied_bcm_chassis_map_ ∧
    ((BcmChassisManager.PushChassisConfig scenarioAEnv scenarioAConfig).run
      scenarioAManager).mgr.linkscan_event_writer_id_ =
      scenarioAManager.linkscan_event_writer_id_ ∧
    ((BcmChassisManager.PushChassisConfig scenarioAEnv scenarioAConfig).run
      scenarioAManager).mgr.transceiver_event_writer_id_ =
      scenarioAManager.transceiver_event_writer_id_ ∧
    ((BcmChassisManager.PushChassisConfig scenarioAEnv scenarioAConfig).run
      scenarioAManager).mgr.initialized_ = true) :=
  ⟨by rfl, C26_push_initialized_frame scenarioAEnv scenarioAConfig scenarioAManager (by rfl)⟩

/-! ## The port-options pass of `ConfigurePortGroups` -/

/-- In a map with increasing keys, every entry is found under its key. -/
theorem mapFind_of_mem {κ V : Type} [KeyOrd κ] (h : KeyOrd.Lawful κ) (k : κ) (v : V)
    (m : List (κ × V)) (hs : SetSorted (m.map Prod.fst)) (hmem : (k, v) ∈ m) :
    mapFind k m = some v := by
  induction m with
  | nil => cases hmem
  | cons e m ih =>
    obtain ⟨k', v'⟩ := e
    simp only [List.map_cons, SetSorted, List.pairwise_cons] at hs
    rcases List.mem_cons.1 hmem with heq | hin
    · cases heq
      simp [mapFind, h.irrefl]
    · have hlt : KeyOrd.lt k' k = true := hs.1 k (List.mem_map.2 ⟨(k, v), hin, rfl⟩)
      have hnlt : KeyOrd.lt k k' = false := by
        cases hc : KeyOrd.lt k k'
        · rfl
        · have := h.trans _ _ _ hlt hc
          rw [h.irrefl] at this
          cases this
      simp only [mapFind, hnlt, hlt, Bool.false_eq_true, if_false, if_true]
      exact ih hs.2 hin

/-- In a map with increasing keys, a key has one value. -/
theorem mem_unique_of_sorted {κ V : Type} [KeyOrd κ] (h : KeyOrd.Lawful κ) (k : κ) (v w : V)
    (m : List (κ × V)) (hs : SetSorted (m.map Prod.fst)) (hv : (k, v) ∈ m) (hw : (k, w) ∈ m) :
    v = w := by
  have h1 := mapFind_of_mem h k v m hs hv
  have h2 := mapFind_of_mem h k w m hs hw
  rw [h1] at h2
  exact Option.some.inj h2

/-- `SetPortOptionsForPortGroup` leaves the manager as it is, and its status and calls depend
on the manager only through the two port-group maps and the mode. -/
theorem SetPortOptionsForPortGroup_congr (env : Env) (slot_port_pair : Int × Int)
    (options : BcmPortOptions) (m m' : BcmChassisManager)
    (h1 : m.slot_port_to_flex_bcm_ports_ = m'.slot_port_to_flex_bcm_ports_)
    (h2 : m.slot_port_to_non_flex_bcm_ports_ = m'.slot_port_to_non_flex_bcm_ports_)
    (h3 : m.mode_ = m'.mode_) :
    (BcmChassisManager.SetPortOptionsForPortGroup env slot_port_pair options m).status =
      (BcmChassisManager.SetPortOptionsForPortGroup env slot_port_pair options m').status ∧
    (BcmChassisManager.SetPortOptionsForPortGroup env slot_port_pair options m).calls =
      (BcmChassisManager.SetPortOptionsForPortGroup env slot_port_pair options m').calls ∧
    (BcmChassisManager.SetPortOptionsForPortGroup env slot_port_pair options m).mgr = m := by
  unfold BcmChassisManager.SetPortOptionsForPortGroup
  simp only [Op.bind_eq, Op.pure_eq, Op.bind_get]
  rw [h1, h2, h3]
  refine (?_ : Op.Const _) m m'
  repeat' first
    | apply Op.const_bind
    | apply Op.const_forEach
    | apply Op.const_pure
    | apply Op.const_fail
    | apply Op.const_call
    | split
    | intro _

/-- The port-options pass, run on a manager `m'` that has the port-group maps and the mode of
`m`: the status it returns, the manager it leaves and its calls, in terms of what
`SetPortOptionsForPortGroup` does on `m`. -/
theorem configurePortOptions_run (env : Env) (m : BcmChassisManager)
    (l : List ((Int × Int) × HwState)) :
    ∀ (status : Except ErrorCode Unit) (m' : BcmChassisManager),
      m'.slot_port_to_flex_bcm_ports_ = m.slot_port_to_flex_bcm_ports_ →
      m'.slot_port_to_non_flex_bcm_ports_ = m.slot_port_to_non_flex_bcm_ports_ →
      m'.mode_ = m.mode_ →
      (configurePortOptions env l status m').calls =
          (l.filter (fun e => e.2 != HwState.HW_STATE_READY)).flatMap (fun e =>
            (BcmChassisManager.SetPortOptionsForPortGroup env e.1 (portGroupOptions e.2)
              m).calls) ∧
      (∃ st, (configurePortOptions env l status m').status = Except.ok st ∧
        (st = Except.ok () ↔ status = Except.ok () ∧
          ∀ e ∈ l, e.2 ≠ HwState.HW_STATE_READY →
            (BcmChassisManager.SetPortOptionsForPortGroup env e.1 (portGroupOptions e.2)
              m).status = Except.ok ())) ∧
      (configurePortOptions env l status m').mgr =
        { m' with slot_port_to_transceiver_state_ :=
            (configurePortOptions env l status m').mgr.slot_port_to_transceiver_state_ } ∧
      (∀ k, (k, HwState.HW_STATE_PRESENT) ∈ l →
        (BcmChassisManager.SetPortOptionsForPortGroup env k
          (portGroupOptions HwState.HW_STATE_PRESENT) m).status = Except.ok () →
        mapFind k (configurePortOptions env l status m').mgr.slot_port_to_transceiver_state_ =
          some HwState.HW_STATE_READY) ∧
      (∀ k, ¬ ((k, HwState.HW_STATE_PRESENT) ∈ l ∧
          (BcmChassisManager.SetPortOptionsForPortGroup env k
            (portGroupOptions HwState.HW_STATE_PRESENT) m).status = Except.ok ()) →
        mapFind k (configurePortOptions env l status m').mgr.slot_port_to_transceiver_state_ =
          mapFind k m'.slot_port_to_transceiver_state_) := by
  induction l with
  | nil =>
    intro status m' _ _ _
    refine ⟨rfl, ⟨status, rfl, ?_⟩, rfl, ?_, ?_⟩
    · simp
    · intro k hk; cases hk
    · intro k _; rfl
  | cons e rest ih =>
    intro status m' h1 h2 h3
    obtain ⟨k0, s0⟩ := e
    obtain ⟨hcs, hcc, hcm⟩ := SetPortOptionsForPortGroup_congr env k0 (portGroupOptions s0)
      m' m h1 h2 h3
    unfold configurePortOptions
    by_cases hr : s0 = HwState.HW_STATE_READY
    · subst hr
      obtain ⟨i1, i2, i3, i4, i5⟩ := ih status m' h1 h2 h3
      simp only [bne_self_eq_false, Bool.false_eq_true, if_false]
      refine ⟨?_, ?_, i3, ?_, ?_⟩
      · rw [i1]; simp [List.filter_cons]
      · obtain ⟨st, hst, hiff⟩ := i2
        refine ⟨st, hst, ?_⟩
        rw [hiff]
        simp
      · intro k hk hok
        rcases List.mem_cons.1 hk with heq | hin
        · cases heq
        · exact i4 k hin hok
      · intro k hk
        apply i5 k
        intro hh
        exact hk ⟨List.mem_cons_of_mem _ hh.1, hh.2⟩
    · have hne : (s0 != HwState.HW_STATE_READY) = true := by
        simpa using hr
      simp only [hne, if_true]
      rw [Op.bind_try]
      simp only [hcm]
      cases hst0 : (BcmChassisManager.SetPortOptionsForPortGroup env k0 (portGroupOptions s0)
          m').status with
      | error err =>
        have hst1 := hcs ▸ hst0
        obtain ⟨i1, i2, i3, i4, i5⟩ :=
          ih (APPEND_STATUS_IF_ERROR env status (Except.error err)) m' h1 h2 h3
        simp only
        refine ⟨?_, ?_, i3, ?_, ?_⟩
        · rw [i1, hcc]; simp [List.filter_cons, hne]
        · obtain ⟨st, hst, hiff⟩ := i2
          refine ⟨st, hst, ?_⟩
          rw [hiff]
          constructor
          · intro hh
            exact absurd hh.1 (by simp [APPEND_STATUS_IF_ERROR])
          · intro hh
            have := hh.2 (k0, s0) (List.mem_cons_self _ _) hr
            rw [hst1] at this
            cases this
        · intro k hk hok
          rcases List.mem_cons.1 hk with heq | hin
          · cases heq
            rw [hst1] at hok
            cases hok
          · exact i4 k hin hok
        · intro k hk
          apply i5 k
          intro hh
          exact hk ⟨List.mem_cons_of_mem _ hh.1, hh.2⟩
      | ok u =>
        cases u
        have hst1 := hcs ▸ hst0
        simp only
        by_cases hp : s0 = HwState.HW_STATE_PRESENT
        · subst hp
          simp only [beq_self_eq_true, if_true]
          rw [Op.bind_modify]
          obtain ⟨i1, i2, i3, i4, i5⟩ := ih status
            { m' with slot_port_to_transceiver_state_ :=
                mapSet k0 HwState.HW_STATE_READY m'.slot_port_to_transceiver_state_ } h1 h2 h3
          refine ⟨?_, ?_, ?_, ?_, ?_⟩
          · rw [i1, hcc]; simp [List.filter_cons]
          · obtain ⟨st, hst, hiff⟩ := i2
            refine ⟨st, hst, ?_⟩
            rw [hiff]
            constructor
            · rintro ⟨ha, hb⟩
              refine ⟨ha, ?_⟩
              intro e he hne'
              rcases List.mem_cons.1 he with heq | hin
              · cases heq; exact hst1
              · exact hb e hin hne'
            · rintro ⟨ha, hb⟩
              exact ⟨ha, fun e he => hb e (List.mem_cons_of_mem _ he)⟩
          · rw [i3]
          · intro k hk hok
            by_cases hin : (k, HwState.HW_STATE_PRESENT) ∈ rest
            · exact i4 k hin hok
            · rcases List.mem_cons.1 hk with heq | hin'
              · cases heq
                rw [i5 k0 (fun hh => hin hh.1)]
                exact mapFind_mapSet_self lawful_pair _ _ _
              · exact absurd hin' hin
          · intro k hk
            have hkne : k ≠ k0 := by
              rintro rfl
              exact hk ⟨List.mem_cons_self _ _, hst1⟩
            rw [i5 k (fun hh => hk ⟨List.mem_cons_of_mem _ hh.1, hh.2⟩)]
            exact mapFind_mapSet_ne lawful_pair _ _ _ _ hkne
        · have hpb : (s0 == HwState.HW_STATE_PRESENT) = false := by
            simpa using hp
          simp only [hpb, Bool.false_eq_true, if_false]
          rw [Op.bind_pure]
          obtain ⟨i1, i2, i3, i4, i5⟩ := ih status m' h1 h2 h3
          refine ⟨?_, ?_, ?_, ?_, ?_⟩
          · rw [i1, hcc]; simp [List.filter_cons, hne]
          · obtain ⟨st, hst, hiff⟩ := i2
            refine ⟨st, hst, ?_⟩
            rw [hiff]
            constructor
            · rintro ⟨ha, hb⟩
              refine ⟨ha, ?_⟩
              intro e he hne'
              rcases List.mem_cons.1 he with heq | hin
              · cases heq; exact hst1
              · exact hb e hin hne'
            · rintro ⟨ha, hb⟩
              exact ⟨ha, fun e he => hb e (List.mem_cons_of_mem _ he)⟩
          · exact i3
          · intro k hk hok
            rcases List.mem_cons.1 hk with heq | hin
            · cases heq; exact absurd rfl hp
            · exact i4 k hin hok
          · intro k hk
            apply i5 k
            intro hh
            exact hk ⟨List.mem_cons_of_mem _ hh.1, hh.2⟩

/-- The flex pass of `ConfigurePortGroups` always hands a collected status on to the
port-options pass. -/
theorem configureFlexGroups_status (env : Env) (l : List ((Int × Int) × List BcmPort)) :
    ∀ (status : Except ErrorCode Unit) (m : BcmChassisManager),
      ∃ st, (configureFlexGroups env l status m).status = Except.ok st := by
  induction l with
  | nil => intro status m; exact ⟨status, rfl⟩
  | cons e rest ih =>
    intro status m
    unfold configureFlexGroups
    rw [Op.bind_try]
    cases (BcmChassisManager.SetSpeedForFlexPortGroup env e.1 m).status with
    | error err => exact ih _ _
    | ok speed_changed =>
      cases speed_changed
      · simp only [Bool.false_eq_true, if_false]
        rw [Op.bind_pure]
        exact ih _ _
      · simp only [if_true]
        rw [Op.bind_modify]
        exact ih _ _

/-- `ConfigurePortGroups` is the flex pass followed by the port-options pass on the manager
and with the status that the flex pass leaves; it returns the status that the port-options
pass collected. -/
theorem ConfigurePortGroups_run (env : Env) (m0 : BcmChassisManager)
    (status st : Except ErrorCode Unit)
    (hflex : (configureFlexGroups env m0.slot_port_to_flex_bcm_ports_ (Except.ok ())
      m0).status = Except.ok status)
    (hpass : (configurePortOptions env
      (configureFlexGroups env m0.slot_port_to_flex_bcm_ports_ (Except.ok ())
        m0).mgr.slot_port_to_transceiver_state_ status
      (configureFlexGroups env m0.slot_port_to_flex_bcm_ports_ (Except.ok ()) m0).mgr).status =
        Except.ok st) :
    (BcmChassisManager.ConfigurePortGroups env m0).status = st ∧
    (BcmChassisManager.ConfigurePortGroups env m0).mgr =
      (configurePortOptions env
        (configureFlexGroups env m0.slot_port_to_flex_bcm_ports_ (Except.ok ())
          m0).mgr.slot_port_to_transceiver_state_ status
        (configureFlexGroups env m0.slot_port_to_flex_bcm_ports_ (Except.ok ()) m0).mgr).mgr ∧
    (BcmChassisManager.ConfigurePortGroups env m0).calls =
      (configureFlexGroups env m0.slot_port_to_flex_bcm_ports_ (Except.ok ()) m0).calls ++
      (configurePortOptions env
        (configureFlexGroups env m0.slot_port_to_flex_bcm_ports_ (Except.ok ())
          m0).mgr.slot_port_to_transceiver_state_ status
        (configureFlexGroups env m0.slot_port_to_flex_bcm_ports_ (Except.ok ()) m0).mgr).calls := by
  unfold BcmChassisManager.ConfigurePortGroups
  simp only [Op.bind_eq, Op.pure_eq, Op.bind_get]
  rw [Op.bind_of_ok _ _ m0 status hflex]
  simp only [Op.bind_get]
  rw [Op.bind_of_ok _ _ _ st hpass]
  simp [Op.lift]

/-- C25: the port-options pass of `ConfigurePortGroups`, on a manager whose transceiver-state
map has increasing keys (it is a `std::map`).  The options are enabled=TRUE, blocked=FALSE
for PRESENT and enabled=FALSE, blocked=TRUE for UNKNOWN and NOT_PRESENT.  The calls of the
pass are those of `SetPortOptionsForPortGroup` with these options for the entries that are
not READY, in order, whether earlier groups failed or not; a READY entry gets none.  After
the pass a PRESENT entry whose options were applied with success is READY and every other
entry has its state.  The collected status is OK exactly when it was OK before and no group
failed, and it is the status that `ConfigurePortGroups` returns. -/
theorem C25_port_options_pass (env : Env) (m : BcmChassisManager)
    (status : Except ErrorCode Unit)
    (hs : SetSorted (m.slot_port_to_transceiver_state_.map Prod.fst)) :
    (portGroupOptions HwState.HW_STATE_PRESENT =
        { enabled := TriState.TRI_STATE_TRUE, blocked := TriState.TRI_STATE_FALSE } ∧
      portGroupOptions HwState.HW_STATE_UNKNOWN =
        { enabled := TriState.TRI_STATE_FALSE, blocked := TriState.TRI_STATE_TRUE } ∧
      portGroupOptions HwState.HW_STATE_NOT_PRESENT =
        { enabled := TriState.TRI_STATE_FALSE, blocked := TriState.TRI_STATE_TRUE }) ∧
    ((configurePortOptions env m.slot_port_to_transceiver_state_ status).run m).calls =
      (m.slot_port_to_transceiver_state_.filter
        (fun e => e.2 != HwState.HW_STATE_READY)).flatMap (fun e =>
          ((BcmChassisManager.SetPortOptionsForPortGroup env e.1
            (portGroupOptions e.2)).run m).calls) ∧
    (∀ pair state, (pair, state) ∈ m.slot_port_to_transceiver_state_ →
      (state = HwState.HW_STATE_PRESENT →
        ((BcmChassisManager.SetPortOptionsForPortGroup env pair
          (portGroupOptions state)).run m).status = Except.ok () →
        mapFind pair ((configurePortOptions env m.slot_port_to_transceiver_state_
          status).run m).mgr.slot_port_to_transceiver_state_ =
            some HwState.HW_STATE_READY) ∧
      (¬ (state = HwState.HW_STATE_PRESENT ∧
          ((BcmChassisManager.SetPortOptionsForPortGroup env pair
            (portGroupOptions state)).run m).status = Except.ok ()) →
        mapFind pair ((configurePortOptions env m.slot_port_to_transceiver_state_
          status).run m).mgr.slot_port_to_transceiver_state_ = some state)) ∧
    (∃ st, ((configurePortOptions env m.slot_port_to_transceiver_state_ status).run
        m).status = Except.ok st ∧
      (st = Except.ok () ↔ status = Except.ok () ∧
        ∀ e ∈ m.slot_port_to_transceiver_state_, e.2 ≠ HwState.HW_STATE_READY →
          ((BcmChassisManager.SetPortOptionsForPortGroup env e.1
            (portGroupOptions e.2)).run m).status = Except.ok ()) ∧
      ∀ m0,
        ((configureFlexGroups env m0.slot_port_to_flex_bcm_ports_ (Except.ok ())).run
          m0).mgr = m →
        ((configureFlexGroups env m0.slot_port_to_flex_bcm_ports_ (Except.ok ())).run
          m0).status = Except.ok status →
        ((BcmChassisManager.ConfigurePortGroups env).run m0).status = st ∧
        ((BcmChassisManager.ConfigurePortGroups env).run m0).mgr =
          ((configurePortOptions env m.slot_port_to_transceiver_state_ status).run m).mgr) := by
  obtain ⟨hc, ⟨st, hst, hiff⟩, _, hready, hother⟩ :=
    configurePortOptions_run env m m.slot_port_to_transceiver_state_ status m rfl rfl rfl
  refine ⟨⟨rfl, rfl, rfl⟩, hc, ?_, ⟨st, hst, hiff, ?_⟩⟩
  · intro pair state hmem
    constructor
    · rintro rfl hok
      exact hready pair hmem hok
    · intro hn
      have hfind := mapFind_of_mem lawful_pair pair state _ hs hmem
      unfold Op.run
      rw [hother pair ?_, hfind]
      rintro ⟨hp, hok⟩
      have := mem_unique_of_sorted lawful_pair pair _ _ _ hs hmem hp
      subst this
      exact hn ⟨rfl, hok⟩
  · intro m0 hm hflex
    unfold Op.run at hm hflex
    subst hm
    have := ConfigurePortGroups_run env m0 status st hflex hst
    exact ⟨this.1, this.2.1⟩

/-- Witness for C25: the port-options pass on the manager after the push of Scenario A. -/
theorem C25_port_options_pass_witness :
    SetSorted (scenarioAManager.slot_port_to_transceiver_state_.map Prod.fst) ∧
    ((configurePortOptions scenarioAEnv scenarioAManager.slot_port_to_transceiver_state_
        (Except.ok ())).run scenarioAManager).calls =
      (scenarioAManager.slot_port_to_transceiver_state_.filter
        (fun e => e.2 != HwState.HW_STATE_READY)).flatMap (fun e =>
          ((BcmChassisManager.SetPortOptionsForPortGroup scenarioAEnv e.1
            (portGroupOptions e.2)).run scenarioAManager).calls) :=
  ⟨by unfold SetSorted; decide,
    (C25_port_options_pass scenarioAEnv scenarioAManager (Except.ok ())
      (by unfold SetSorted; decide)).2.1⟩

/-! ## Transceiver events on a port group -/

/-- The loop of `SetPortOptionsForPortGroup` that sets the options, when `SetPortOptions`
succeeds. -/
theorem forEach_SetPortOptions (env : Env) (options : BcmPortOptions)
    (hstatus : ∀ c, env.status c = Except.ok ()) (m : BcmChassisManager)
    (ports : List BcmPort) :
    Op.forEach
      (fun (bcm_port : BcmPort) =>
        Op.call (Call.SetPortOptions bcm_port.unit bcm_port.logical_port options)
          (env.status (Call.SetPortOptions bcm_port.unit bcm_port.logical_port options)))
      ports m =
    ⟨Except.ok (), m,
      ports.map (fun p => Call.SetPortOptions p.unit p.logical_port options)⟩ := by
  induction ports with
  | nil => rfl
  | cons p rest ih =>
    unfold Op.forEach
    rw [Op.bind_of_ok _ _ m () (by simp only [Op.call, hstatus])]
    simp only [Op.call, ih, List.map_cons, List.singleton_append]

/-- The loop of `SetPortOptionsForPortGroup` that configures serdes, when the lookup and
`ConfigSerdesForPort` succeed: it sets no port options. -/
theorem forEach_serdes (env : Env) (fp_port_info : FrontPanelPortInfo)
    (hstatus : ∀ c, env.status c = Except.ok ())
    (hlookup : ∀ b i, ∃ c, env.LookupSerdesConfigForPort b i = Except.ok c)
    (m : BcmChassisManager) (ports : List BcmPort) :
    (Op.forEach
      (fun (bcm_port : BcmPort) =>
        Op.bind
          (Op.call (Call.LookupSerdesConfigForPort bcm_port fp_port_info)
            (env.LookupSerdesConfigForPort bcm_port fp_port_info))
          (fun bcm_serdes_lane_config =>
            Op.call
              (Call.ConfigSerdesForPort bcm_port.unit bcm_port.logical_port bcm_port.speed_bps
                bcm_port.serdes_core bcm_port.serdes_lane bcm_port.num_serdes_lanes
                bcm_serdes_lane_config)
              (env.status
                (Call.ConfigSerdesForPort bcm_port.unit bcm_port.logical_port
                  bcm_port.speed_bps bcm_port.serdes_core bcm_port.serdes_lane
                  bcm_port.num_serdes_lanes bcm_serdes_lane_config))))
      ports m).status = Except.ok () ∧
    (Op.forEach
      (fun (bcm_port : BcmPort) =>
        Op.bind
          (Op.call (Call.LookupSerdesConfigForPort bcm_port fp_port_info)
            (env.LookupSerdesConfigForPort bcm_port fp_port_info))
          (fun bcm_serdes_lane_config =>
            Op.call
              (Call.ConfigSerdesForPort bcm_port.unit bcm_port.logical_port bcm_port.speed_bps
                bcm_port.serdes_core bcm_port.serdes_lane bcm_port.num_serdes_lanes
                bcm_serdes_lane_config)
              (env.status
                (Call.ConfigSerdesForPort bcm_port.unit bcm_port.logical_port
                  bcm_port.speed_bps bcm_port.serdes_core bcm_port.serdes_lane
                  bcm_port.num_serdes_lanes bcm_serdes_lane_config))))
      ports m).calls.filter Call.isSetPortOptions = [] ∧
    (Op.forEach
      (fun (bcm_port : BcmPort) =>
        Op.bind
          (Op.call (Call.LookupSerdesConfigForPort bcm_port fp_port_info)
            (env.LookupSerdesConfigForPort bcm_port fp_port_info))
          (fun bcm_serdes_lane_config =>
            Op.call
              (Call.ConfigSerdesForPort bcm_port.unit bcm_port.logical_port bcm_port.speed_bps
                bcm_port.serdes_core bcm_port.serdes_lane bcm_port.num_serdes_lanes
                bcm_serdes_lane_config)
              (env.status
                (Call.ConfigSerdesForPort bcm_port.unit bcm_port.logical_port
                  bcm_port.speed_bps bcm_port.serdes_core bcm_port.serdes_lane
                  bcm_port.num_serdes_lanes bcm_serdes_lane_config))))
      ports m).mgr = m := by
  induction ports with
  | nil => exact ⟨rfl, rfl, rfl⟩
  | cons p rest ih =>
    obtain ⟨c, hc⟩ := hlookup p fp_port_info
    unfold Op.forEach
    have hbody : (Op.bind
          (Op.call (Call.LookupSerdesConfigForPort p fp_port_info)
            (env.LookupSerdesConfigForPort p fp_port_info))
          (fun bcm_serdes_lane_config =>
            Op.call
              (Call.ConfigSerdesForPort p.unit p.logical_port p.speed_bps
                p.serdes_core p.serdes_lane p.num_serdes_lanes
                bcm_serdes_lane_config)
              (env.status
                (Call.ConfigSerdesForPort p.unit p.logical_port
                  p.speed_bps p.serdes_core p.serdes_lane
                  p.num_serdes_lanes bcm_serdes_lane_config)))) m =
        ⟨Except.ok (), m, [Call.LookupSerdesConfigForPort p fp_port_info,
          Call.ConfigSerdesForPort p.unit p.logical_port p.speed_bps
                p.serdes_core p.serdes_lane p.num_serdes_lanes c]⟩ := by
      rw [Op.bind_of_ok _ _ m c (by simp only [Op.call, hc])]
      simp only [Op.call, hstatus, List.singleton_append]
    rw [Op.bind_of_ok _ _ m () (by rw [hbody])]
    simp only [hbody]
    refine ⟨ih.1, ?_, ih.2.2⟩
    simp only [List.filter_append, ih.2.1, List.append_nil]
    rfl

/-- `SetPortOptionsForPortGroup` on a pair that has a port group, when all the calls succeed:
it returns OK and sets the options on the ports of the group, in order. -/
theorem SetPortOptionsForPortGroup_ok (env : Env) (slot_port_pair : Int × Int)
    (options : BcmPortOptions) (m : BcmChassisManager) (ports : List BcmPort)
    (hgroup : mapFind slot_port_pair m.slot_port_to_flex_bcm_ports_ = some ports ∨
      (mapFind slot_port_pair m.slot_port_to_flex_bcm_ports_ = none ∧
        mapFind slot_port_pair m.slot_port_to_non_flex_bcm_ports_ = some ports))
    (hstatus : ∀ c, env.status c = Except.ok ())
    (hinfo : ∀ s p, ∃ i, env.GetFrontPanelPortInfo s p = Except.ok i)
    (hlookup : ∀ b i, ∃ c, env.LookupSerdesConfigForPort b i = Except.ok c) :
    (BcmChassisManager.SetPortOptionsForPortGroup env slot_port_pair options m).status =
      Except.ok () ∧
    (BcmChassisManager.SetPortOptionsForPortGroup env slot_port_pair options
      m).calls.filter Call.isSetPortOptions =
        ports.map (fun p => Call.SetPortOptions p.unit p.logical_port options) := by
  unfold BcmChassisManager.SetPortOptionsForPortGroup
  simp only [Op.bind_eq, Op.pure_eq, Op.bind_get]
  have hgoal : ∀ (x : Op (List BcmPort)) (f : List BcmPort → Op Unit),
      x = Op.pure ports → Op.bind x f m = f ports m := by
    intro x f hx
    rw [hx, Op.bind_pure]
  rw [hgoal _ _ (by rcases hgroup with h | ⟨h, h'⟩
                    · simp only [h]
                    · simp only [h, h'])]
  split
  · obtain ⟨i, hi⟩ := hinfo slot_port_pair.1 slot_port_pair.2
    obtain ⟨hs, hc, hm⟩ := forEach_serdes env i hstatus hlookup m ports
    rw [Op.bind_of_ok _ _ m () ?_]
    · rw [Op.bind_of_ok (Op.call _ _) _ m i (by simp only [Op.call, hi])]
      simp only [Op.call, List.singleton_append]
      rw [hm, forEach_SetPortOptions env options hstatus]
      refine ⟨rfl, ?_⟩
      simp only [List.filter_append, List.filter_cons, hc]
      simp [Call.isSetPortOptions, List.filter_eq_self]
    · rw [Op.bind_of_ok (Op.call _ _) _ m i (by simp only [Op.call, hi])]
      exact hs
  · rw [Op.bind_pure, forEach_SetPortOptions env options hstatus]
    refine ⟨rfl, ?_⟩
    simp [Call.isSetPortOptions, List.filter_eq_self]

/-- One transceiver event that is not discarded, on a pair that has a port group, when the
flag `shutdown` is not set and all the calls succeed: the options of the event are set on
the ports of the group, and the pair is READY after PRESENT and NOT_PRESENT after
NOT_PRESENT; the port-group maps stay as they are. -/
theorem TransceiverEventHandler_group (env : Env) (m : BcmChassisManager) (slot port : Int)
    (old_state new_state : HwState) (ports : List BcmPort)
    (hfind : mapFind (slot, port) m.slot_port_to_transceiver_state_ = some old_state)
    (hvalid : new_state = HwState.HW_STATE_PRESENT ∨ new_state = HwState.HW_STATE_NOT_PRESENT)
    (h1 : ¬ (old_state = HwState.HW_STATE_READY ∧ new_state = HwState.HW_STATE_PRESENT))
    (h2 : ¬ (old_state = HwState.HW_STATE_UNKNOWN ∧
      new_state = HwState.HW_STATE_NOT_PRESENT))
    (hgroup : mapFind (slot, port) m.slot_port_to_flex_bcm_ports_ = some ports ∨
      (mapFind (slot, port) m.slot_port_to_flex_bcm_ports_ = none ∧
        mapFind (slot, port) m.slot_port_to_non_flex_bcm_ports_ = some ports))
    (hstatus : ∀ c, env.status c = Except.ok ())
    (hinfo : ∀ s p, ∃ i, env.GetFrontPanelPortInfo s p = Except.ok i)
    (hlookup : ∀ b i, ∃ c, env.LookupSerdesConfigForPort b i = Except.ok c) :
    ((BcmChassisManager.TransceiverEventHandler env false slot port new_state).run
      m).mgr.slot_port_to_flex_bcm_ports_ = m.slot_port_to_flex_bcm_ports_ ∧
    ((BcmChassisManager.TransceiverEventHandler env false slot port new_state).run
      m).mgr.slot_port_to_non_flex_bcm_ports_ = m.slot_port_to_non_flex_bcm_ports_ ∧
    mapFind (slot, port)
      ((BcmChassisManager.TransceiverEventHandler env false slot port new_state).run
        m).mgr.slot_port_to_transceiver_state_ =
      some (if new_state = HwState.HW_STATE_PRESENT then HwState.HW_STATE_READY
        else new_state) ∧
    ((BcmChassisManager.TransceiverEventHandler env false slot port new_state).run
      m).calls.filter Call.isSetPortOptions =
      ports.map (fun p => Call.SetPortOptions p.unit p.logical_port
        (transceiverEventOptions old_state new_state)) := by
  rw [TransceiverEventHandler_apply env m slot port old_state new_state hfind hvalid h1 h2]
  obtain ⟨hok, hcalls⟩ := SetPortOptionsForPortGroup_ok env (slot, port)
    (transceiverEventOptions old_state new_state)
    { m with
      slot_port_to_transceiver_state_ :=
        mapSet (slot, port) new_state m.slot_port_to_transceiver_state_ }
    ports hgroup hstatus hinfo hlookup
  unfold Op.run
  simp only [hok, hcalls]
  refine ⟨trivial, trivial, ?_, trivial⟩
  by_cases hp : new_state = HwState.HW_STATE_PRESENT
  · simp only [hp, if_true]
    exact mapFind_mapSet_self lawful_pair _ _ _
  · simp only [hp, if_false]
    exact mapFind_mapSet_self lawful_pair _ _ _

/-- C22 (counterexample): (1) on the manager after the push of Scenario A the pair (5, 1) is
UNKNOWN, and when the flag `shutdown` is set the event PRESENT makes no call and leaves the
pair UNKNOWN; (2) on the manager after the failed push of the Scenario B config the pair
(5, 1) is UNKNOWN and has no port group, and the event PRESENT, with the flag not set, makes
no call and leaves the pair PRESENT, not READY. -/
theorem C22_counterexample :
    (mapFind ((5 : Int), (1 : Int)) scenarioAManager.slot_port_to_transceiver_state_ =
        some HwState.HW_STATE_UNKNOWN ∧
      ((BcmChassisManager.TransceiverEventHandler scenarioAEnv true 5 1
        HwState.HW_STATE_PRESENT).run scenarioAManager).calls = [] ∧
      mapFind ((5 : Int), (1 : Int))
        ((BcmChassisManager.TransceiverEventHandler scenarioAEnv true 5 1
          HwState.HW_STATE_PRESENT).run scenarioAManager).mgr.slot_port_to_transceiver_state_ =
        some HwState.HW_STATE_UNKNOWN) ∧
    (mapFind ((5 : Int), (1 : Int)) groupLessManager.slot_port_to_transceiver_state_ =
        some HwState.HW_STATE_UNKNOWN ∧
      mapFind ((5 : Int), (1 : Int)) groupLessManager.slot_port_to_flex_bcm_ports_ = none ∧
      mapFind ((5 : Int), (1 : Int)) groupLessManager.slot_port_to_non_flex_bcm_ports_ = none ∧
      ((BcmChassisManager.TransceiverEventHandler scenarioAEnv false 5 1
        HwState.HW_STATE_PRESENT).run groupLessManager).calls = [] ∧
      mapFind ((5 : Int), (1 : Int))
        ((BcmChassisManager.TransceiverEventHandler scenarioAEnv false 5 1
          HwState.HW_STATE_PRESENT).run groupLessManager).mgr.slot_port_to_transceiver_state_ =
        some HwState.HW_STATE_PRESENT) :=
  ⟨⟨by decide, by decide, by decide⟩, ⟨by decide, by decide, by decide, by decide, by decide⟩⟩

/-- C22 (amended): for a (slot, port) whose transceiver state is UNKNOWN and that has a flex
or non-flex port group with the ports `ports`, when the flag `shutdown` is not set and all
collaborator calls succeed, the events PRESENT, NOT_PRESENT, PRESENT in that order set port
options on the ports of the group with enabled = TRUE (and blocked = FALSE), then
enabled = FALSE, then enabled = TRUE, and the state of the pair after each event is READY,
NOT_PRESENT, READY. -/
theorem C22_transceiver_round_trip (env : Env) (m : BcmChassisManager) (slot port : Int)
    (ports : List BcmPort)
    (hfind : mapFind (slot, port) m.slot_port_to_transceiver_state_ =
      some HwState.HW_STATE_UNKNOWN)
    (hgroup : mapFind (slot, port) m.slot_port_to_flex_bcm_ports_ = some ports ∨
      (mapFind (slot, port) m.slot_port_to_flex_bcm_ports_ = none ∧
        mapFind (slot, port) m.slot_port_to_non_flex_bcm_ports_ = some ports))
    (hstatus : ∀ c, env.status c = Except.ok ())
    (hinfo : ∀ s p, ∃ i, env.GetFrontPanelPortInfo s p = Except.ok i)
    (hlookup : ∀ b i, ∃ c, env.LookupSerdesConfigForPort b i = Except.ok c) :
    (((BcmChassisManager.TransceiverEventHandler env false slot port
        HwState.HW_STATE_PRESENT).run m).calls.filter Call.isSetPortOptions =
        ports.map (fun p => Call.SetPortOptions p.unit p.logical_port
          { enabled := TriState.TRI_STATE_TRUE, blocked := TriState.TRI_STATE_FALSE }) ∧
      mapFind (slot, port)
        ((BcmChassisManager.TransceiverEventHandler env false slot port
          HwState.HW_STATE_PRESENT).run m).mgr.slot_port_to_transceiver_state_ =
        some HwState.HW_STATE_READY) ∧
    (((BcmChassisManager.TransceiverEventHandler env false slot port
        HwState.HW_STATE_NOT_PRESENT).run
          ((BcmChassisManager.TransceiverEventHandler env false slot port
            HwState.HW_STATE_PRESENT).run m).mgr).calls.filter Call.isSetPortOptions =
        ports.map (fun p => Call.SetPortOptions p.unit p.logical_port
          { enabled := TriState.TRI_STATE_FALSE }) ∧
      mapFind (slot, port)
        ((BcmChassisManager.TransceiverEventHandler env false slot port
          HwState.HW_STATE_NOT_PRESENT).run
            ((BcmChassisManager.TransceiverEventHandler env false slot port
              HwState.HW_STATE_PRESENT).run m).mgr).mgr.slot_port_to_transceiver_state_ =
        some HwState.HW_STATE_NOT_PRESENT) ∧
    (((BcmChassisManager.TransceiverEventHandler env false slot port
        HwState.HW_STATE_PRESENT).run
          ((BcmChassisManager.TransceiverEventHandler env false slot port
            HwState.HW_STATE_NOT_PRESENT).run
              ((BcmChassisManager.TransceiverEventHandler env false slot port
                HwState.HW_STATE_PRESENT).run m).mgr).mgr).calls.filter
                  Call.isSetPortOptions =
        ports.map (fun p => Call.SetPortOptions p.unit p.logical_port
          { enabled := TriState.TRI_STATE_TRUE }) ∧
      mapFind (slot, port)
        ((BcmChassisManager.TransceiverEventHandler env false slot port
          HwState.HW_STATE_PRESENT).run
            ((BcmChassisManager.TransceiverEventHandler env false slot port
              HwState.HW_STATE_NOT_PRESENT).run
                ((BcmChassisManager.TransceiverEventHandler env false slot port
                  HwState.HW_STATE_PRESENT).run
                    m).mgr).mgr).mgr.slot_port_to_transceiver_state_ =
        some HwState.HW_STATE_READY) := by
  obtain ⟨f1, n1, s1, c1⟩ := TransceiverEventHandler_group env m slot port
    HwState.HW_STATE_UNKNOWN HwState.HW_STATE_PRESENT ports hfind (Or.inl rfl)
    (by decide) (by decide) hgroup hstatus hinfo hlookup
  obtain ⟨f2, n2, s2, c2⟩ := TransceiverEventHandler_group env
    ((BcmChassisManager.TransceiverEventHandler env false slot port
      HwState.HW_STATE_PRESENT).run m).mgr slot port
    HwState.HW_STATE_READY HwState.HW_STATE_NOT_PRESENT ports s1 (Or.inr rfl)
    (by decide) (by decide) (by rw [f1, n1]; exact hgroup) hstatus hinfo hlookup
  obtain ⟨_, _, s3, c3⟩ := TransceiverEventHandler_group env
    ((BcmChassisManager.TransceiverEventHandler env false slot port
      HwState.HW_STATE_NOT_PRESENT).run
        ((BcmChassisManager.TransceiverEventHandler env false slot port
          HwState.HW_STATE_PRESENT).run m).mgr).mgr slot port
    HwState.HW_STATE_NOT_PRESENT HwState.HW_STATE_PRESENT ports s2 (Or.inl rfl)
    (by decide) (by decide) (by rw [f2, n2, f1, n1]; exact hgroup) hstatus hinfo hlookup
  exact ⟨⟨c1, s1⟩, ⟨c2, s2⟩, ⟨c3, s3⟩⟩

/-- Witness for C22: the three events for the pair (5, 1) on the manager after the push of
Scenario A, whose port group is the one non-flex port of the applied map. -/
theorem C22_transceiver_round_trip_witness :
    mapFind ((5 : Int), (1 : Int)) scenarioAManager.slot_port_to_transceiver_state_ =
      some HwState.HW_STATE_UNKNOWN ∧
    mapFind ((5 : Int), (1 : Int)) scenarioAManager.slot_port_to_non_flex_bcm_ports_ =
      some scenarioATarget.bcm_ports ∧
    mapFind ((5 : Int), (1 : Int))
      ((BcmChassisManager.TransceiverEventHandler scenarioAEnv false 5 1
        HwState.HW_STATE_PRESENT).run
          ((BcmChassisManager.TransceiverEventHandler scenarioAEnv false 5 1
            HwState.HW_STATE_NOT_PRESENT).run
              ((BcmChassisManager.TransceiverEventHandler scenarioAEnv false 5 1
                HwState.HW_STATE_PRESENT).run
                  scenarioAManager).mgr).mgr).mgr.slot_port_to_transceiver_state_ =
      some HwState.HW_STATE_READY :=
  ⟨by decide, by decide,
    (C22_transceiver_round_trip scenarioAEnv scenarioAManager 5 1 scenarioATarget.bcm_ports
      (by decide) (Or.inr ⟨by decide, by decide⟩) (fun _ => rfl)
      (fun _ _ => ⟨_, rfl⟩) (fun _ _ => ⟨_, rfl⟩)).2.2.2⟩

/-! ## Properties that operations preserve or ensure -/

theorem Op.preserves_pure {α : Type} (P : BcmChassisManager → Prop) (a : α) :
    Op.Preserves P (Op.pure a) := fun _ h => h

theorem Op.preserves_fail {α : Type} (P : BcmChassisManager → Prop) (e : ErrorCode) :
    Op.Preserves P (Op.fail e : Op α) := fun _ h => h

theorem Op.preserves_get (P : BcmChassisManager → Prop) : Op.Preserves P Op.get :=
  fun _ h => h

theorem Op.preserves_lift {α : Type} (P : BcmChassisManager → Prop) (x : Except ErrorCode α) :
    Op.Preserves P (Op.lift x) := fun _ h => h

theorem Op.preserves_call {α : Type} (P : BcmChassisManager → Prop) (c : Call)
    (answer : Except ErrorCode α) : Op.Preserves P (Op.call c answer) := fun _ h => h

theorem Op.preserves_check (P : BcmChassisManager → Prop) (cond : Bool) :
    Op.Preserves P (Op.check cond) := by
  intro m h
  cases cond <;> exact h

theorem Op.preserves_modify (P : BcmChassisManager → Prop)
    (f : BcmChassisManager → BcmChassisManager) (h : ∀ m, P m → P (f m)) :
    Op.Preserves P (Op.modify f) := fun m hm => h m hm

theorem Op.preserves_bind {α β : Type} (P : BcmChassisManager → Prop) (x : Op α)
    (f : α → Op β) (hx : Op.Preserves P x) (hf : ∀ a, Op.Preserves P (f a)) :
    Op.Preserves P (Op.bind x f) := by
  intro m hm
  cases hs : (x m).status with
  | error e => rw [Op.bind_of_error x f m e hs]; exact hx m hm
  | ok a =>
    rw [Op.bind_of_ok x f m a hs]
    exact hf a _ (hx m hm)

theorem Op.preserves_forEach {α : Type} (P : BcmChassisManager → Prop) (f : α → Op Unit)
    (hf : ∀ a, Op.Preserves P (f a)) (l : List α) : Op.Preserves P (Op.forEach f l) := by
  induction l with
  | nil => exact Op.preserves_pure P ()
  | cons a rest ih => exact Op.preserves_bind P _ _ (hf a) (fun _ => ih)

/-- An operation that keeps the part `proj` of the manager preserves a property that depends
on that part only. -/
theorem Op.preserves_of_keeps {α β : Type} (P : BcmChassisManager → Prop)
    (proj : BcmChassisManager → β) (hP : ∀ m m', proj m' = proj m → P m → P m') (x : Op α)
    (hx : Op.Keeps proj x) : Op.Preserves P x := fun m hm => hP m _ (hx m) hm

theorem Op.ensures_bind_left {α β : Type} (P : BcmChassisManager → Prop) (x : Op α)
    (f : α → Op β) (hx : Op.Ensures P x) (hf : ∀ a, Op.Preserves P (f a)) :
    Op.Ensures P (Op.bind x f) := by
  intro m b h
  obtain ⟨a, h1, _, h3⟩ := Op.bind_status_ok x f m b h
  rw [h3]
  exact hf a _ (hx m a h1)

theorem Op.ensures_bind_right {α β : Type} (P : BcmChassisManager → Prop) (x : Op α)
    (f : α → Op β) (hf : ∀ a, Op.Ensures P (f a)) : Op.Ensures P (Op.bind x f) := by
  intro m b h
  obtain ⟨a, _, h2, h3⟩ := Op.bind_status_ok x f m b h
  rw [h3]
  exact hf a _ b h2

theorem Op.ensures_modify (P : BcmChassisManager → Prop)
    (f : BcmChassisManager → BcmChassisManager) (h : ∀ m, P (f m)) :
    Op.Ensures P (Op.modify f) := fun m _ _ => h m

/-! ## The maps that the linkscan handler reads -/

theorem PortMapsClosed_congr (m m' : BcmChassisManager)
    (h : (m'.unit_logical_port_to_port_id_, m'.unit_to_node_id_,
        m'.port_id_to_slot_port_channel_, m'.slot_port_channel_to_bcm_port_) =
      (m.unit_logical_port_to_port_id_, m.unit_to_node_id_,
        m.port_id_to_slot_port_channel_, m.slot_port_channel_to_bcm_port_))
    (hm : m.PortMapsClosed) : m'.PortMapsClosed := by
  simp only [Prod.mk.injEq] at h
  obtain ⟨h1, h2, h3, h4⟩ := h
  unfold BcmChassisManager.PortMapsClosed
  rw [h1, h2, h3, h4]
  exact hm

theorem syncClear_PortMapsClosed (m : BcmChassisManager) : (syncClear m).PortMapsClosed := by
  intro unit logical_port port_id h
  simp [syncClear, mapFind] at h

theorem mapFind_mapSet_isSome {κ V : Type} [KeyOrd κ] (h : KeyOrd.Lawful κ) (k k0 : κ) (v : V)
    (m : List (κ × V)) (hk : (mapFind k m).isSome = true) :
    (mapFind k (mapSet k0 v m)).isSome = true := by
  by_cases hkk : k = k0
  · subst hkk
    rw [mapFind_mapSet_self h]
    rfl
  · rw [mapFind_mapSet_ne h _ _ _ _ hkk]
    exact hk

theorem syncRecordPort_PortMapsClosed (s : SingletonPort) (p : BcmPort) (m : BcmChassisManager)
    (hm : m.PortMapsClosed) : (syncRecordPort s p m).PortMapsClosed := by
  intro unit logical_port port_id h
  simp only [syncRecordPort] at h ⊢
  have hself : (mapFind (s.slot, s.port, s.channel)
      (mapSet (s.slot, s.port, s.channel) p m.slot_port_channel_to_bcm_port_)).isSome = true := by
    rw [mapFind_mapSet_self lawful_triple]
    rfl
  by_cases hkey : (unit, logical_port) = (p.unit, p.logical_port)
  · rw [hkey, mapFind_mapSet_self lawful_pair] at h
    cases h
    simp only [Prod.mk.injEq] at hkey
    refine ⟨?_, (s.slot, s.port, s.channel), mapFind_mapSet_self lawful_nat _ _ _, hself⟩
    rw [hkey.1, mapFind_mapSet_self lawful_int]
    rfl
  · rw [mapFind_mapSet_ne lawful_pair _ _ _ _ hkey] at h
    obtain ⟨hu, t, ht, hb⟩ := hm unit logical_port port_id h
    refine ⟨mapFind_mapSet_isSome lawful_int _ _ _ _ hu, ?_⟩
    by_cases hid : port_id = s.id
    · exact ⟨(s.slot, s.port, s.channel), by rw [hid, mapFind_mapSet_self lawful_nat], hself⟩
    · exact ⟨t, by rw [mapFind_mapSet_ne lawful_nat _ _ _ _ hid, ht],
        mapFind_mapSet_isSome lawful_triple _ _ _ _ hb⟩

theorem syncRecordGroup_PortMapsClosed (s : SingletonPort) (flex_port : Bool) (p : BcmPort)
    (m : BcmChassisManager) (hm : m.PortMapsClosed) :
    (syncRecordGroup s flex_port p m).PortMapsClosed := by
  unfold syncRecordGroup
  split
  · exact hm
  · exact hm

theorem syncPort_PortMapsClosed (s : SingletonPort)
    (tmp : List ((Int × Int × Int) × PortState)) :
    Op.Preserves BcmChassisManager.PortMapsClosed (syncPort s tmp) := by
  unfold syncPort
  simp only [Op.bind_eq, Op.pure_eq]
  repeat' first
    | apply Op.preserves_bind
    | apply Op.preserves_get
    | apply Op.preserves_pure
    | apply Op.preserves_check
    | apply Op.preserves_lift
    | (apply Op.preserves_modify
       first
         | exact syncRecordPort_PortMapsClosed _ _
         | exact syncRecordGroup_PortMapsClosed _ _ _)
    | split
    | intro _

theorem syncPorts_PortMapsClosed (ports : List SingletonPort)
    (tmp : List ((Int × Int × Int) × PortState)) :
    Op.Preserves BcmChassisManager.PortMapsClosed (syncPorts ports tmp) := by
  induction ports generalizing tmp with
  | nil => exact Op.preserves_pure _ tmp
  | cons s rest ih =>
    exact Op.preserves_bind _ _ _ (syncPort_PortMapsClosed s tmp) (fun tmp' => ih tmp')

/-- `SyncInternalState` leaves consistent maps, whatever the maps were before. -/
theorem SyncInternalState_PortMapsClosed (config : ChassisConfig) (m : BcmChassisManager) :
    ((BcmChassisManager.SyncInternalState config) m).mgr.PortMapsClosed := by
  unfold BcmChassisManager.SyncInternalState
  simp only [Op.bind_eq, Op.pure_eq, Op.bind_modify]
  have h0 : (syncChips (syncNodes config.nodes (syncClear m))).PortMapsClosed := by
    apply PortMapsClosed_congr (syncClear m) _ _ (syncClear_PortMapsClosed m)
    rw [syncChips_keeps (fun m => (m.unit_logical_port_to_port_id_, m.unit_to_node_id_,
        m.port_id_to_slot_port_channel_, m.slot_port_channel_to_bcm_port_))
      (fun _ _ => rfl),
      syncNodes_keeps (fun m => (m.unit_logical_port_to_port_id_, m.unit_to_node_id_,
        m.port_id_to_slot_port_channel_, m.slot_port_channel_to_bcm_port_))
      (fun _ _ => rfl)]
  refine Op.preserves_bind _ _ _ (syncPorts_PortMapsClosed _ _) (fun tmp => ?_) _ h0
  apply Op.preserves_modify
  intro m hm
  exact hm

theorem ConfigurePortGroups_PortMapsClosed (env : Env) :
    Op.Preserves BcmChassisManager.PortMapsClosed (BcmChassisManager.ConfigurePortGroups env) :=
  Op.preserves_of_keeps _
    (fun m => (m.unit_logical_port_to_port_id_, m.unit_to_node_id_,
      m.port_id_to_slot_port_channel_, m.slot_port_channel_to_bcm_port_))
    (fun m m' h hm => PortMapsClosed_congr m m' h hm) _
    (ConfigurePortGroups_keeps
      (fun m => (m.unit_logical_port_to_port_id_, m.unit_to_node_id_,
        m.port_id_to_slot_port_channel_, m.slot_port_channel_to_bcm_port_))
      (fun _ _ => rfl) env)

theorem RegisterEventWriters_PortMapsClosed (env : Env) :
    Op.Preserves BcmChassisManager.PortMapsClosed
      (BcmChassisManager.RegisterEventWriters env) := by
  unfold BcmChassisManager.RegisterEventWriters startReaderThread
  simp only [Op.bind_eq, Op.pure_eq]
  repeat' first
    | apply Op.preserves_bind
    | apply Op.preserves_forEach
    | apply Op.preserves_get
    | apply Op.preserves_pure
    | apply Op.preserves_fail
    | apply Op.preserves_call
    | exact Op.preserves_modify _ _ (fun _ hm => hm)
    | split
    | intro _

/-- After a push that returned OK the maps that `LinkscanEventHandler` reads are consistent,
and the manager is initialized. -/
theorem PushChassisConfig_PortMapsClosed (env : Env) (config : ChassisConfig)
    (m : BcmChassisManager)
    (h : ((BcmChassisManager.PushChassisConfig env config).run m).status = Except.ok ()) :
    ((BcmChassisManager.PushChassisConfig env config).run m).mgr.PortMapsClosed ∧
    ((BcmChassisManager.PushChassisConfig env config).run m).mgr.initialized_ = true := by
  have hsync : Op.Ensures BcmChassisManager.PortMapsClosed
      (BcmChassisManager.SyncInternalState config) :=
    fun m _ _ => SyncInternalState_PortMapsClosed config m
  unfold BcmChassisManager.PushChassisConfig Op.run at h ⊢
  simp only [Op.bind_eq, Op.pure_eq, Op.bind_get] at h ⊢
  cases hi : m.initialized_
  · simp only [hi, Bool.not_false, if_true] at h ⊢
    constructor
    · revert h
      generalize m = m0
      intro h
      refine Op.ensures_bind_right _ _ _ (fun _ => ?_) m0 () h
      refine Op.ensures_bind_right _ _ _ (fun _ => ?_)
      refine Op.ensures_bind_right _ _ _ (fun _ => ?_)
      refine Op.ensures_bind_right _ _ _ (fun _ => ?_)
      refine Op.ensures_bind_left _ _ _ hsync (fun _ => ?_)
      refine Op.preserves_bind _ _ _ (ConfigurePortGroups_PortMapsClosed env) (fun _ => ?_)
      refine Op.preserves_bind _ _ _ (RegisterEventWriters_PortMapsClosed env) (fun _ => ?_)
      apply Op.preserves_modify
      intro m hm
      exact hm
    · revert h
      generalize m = m0
      intro h
      refine Op.ensures_bind_right (fun m => m.initialized_ = true) _ _ (fun _ => ?_) m0 () h
      refine Op.ensures_bind_right _ _ _ (fun _ => ?_)
      refine Op.ensures_bind_right _ _ _ (fun _ => ?_)
      refine Op.ensures_bind_right _ _ _ (fun _ => ?_)
      refine Op.ensures_bind_right _ _ _ (fun _ => ?_)
      refine Op.ensures_bind_right _ _ _ (fun _ => ?_)
      refine Op.ensures_bind_right _ _ _ (fun _ => ?_)
      exact Op.ensures_modify _ _ (fun _ => rfl)
  · simp only [hi, Bool.not_true, Bool.false_eq_true, if_false] at h ⊢
    constructor
    · exact Op.ensures_bind_left _ _ _ hsync
        (fun _ => ConfigurePortGroups_PortMapsClosed env) m () h
    · have := Op.keeps_bind (fun m => m.initialized_) _ _
        (SyncInternalState_keeps_initialized config)
        (fun _ => ConfigurePortGroups_keeps_initialized env) m
      exact this.trans hi

/-! ## Linkscan events -/

/-- What `LinkscanEventHandler` does when the flag `shutdown` is not set and all its lookups
succeed: it stores the new state at the tuple of the port, and writes one event when a gNMI
writer is registered; a writer whose `Write` fails is dropped. -/
theorem LinkscanEventHandler_apply (env : Env) (m : BcmChassisManager) (unit logical_port : Int)
    (new_state : PortState) (node_id port_id : Nat) (slot_port_channel_tuple : Int × Int × Int)
    (hnode : mapFind unit m.unit_to_node_id_ = some node_id)
    (hport : mapFind (unit, logical_port) m.unit_logical_port_to_port_id_ = some port_id)
    (htuple : mapFind port_id m.port_id_to_slot_port_channel_ = some slot_port_channel_tuple)
    (hbcm : (mapFind slot_port_channel_tuple m.slot_port_channel_to_bcm_port_).isSome = true) :
    (BcmChassisManager.LinkscanEventHandler env false unit logical_port new_state).run m =
      { status := Except.ok ()
        mgr :=
          { m with
            slot_port_channel_to_port_state_ :=
              mapSet slot_port_channel_tuple new_state m.slot_port_channel_to_port_state_
            gnmi_event_writer_ :=
              m.gnmi_event_writer_ && env.GnmiWrite node_id port_id new_state }
        calls :=
          if m.gnmi_event_writer_ then [Call.GnmiWrite node_id port_id new_state] else [] } := by
  obtain ⟨b, hb⟩ := Option.isSome_iff_exists.1 hbcm
  unfold BcmChassisManager.LinkscanEventHandler BcmChassisManager.SendPortOperStateGnmiEvent
    Op.run
  simp only [Op.bind_eq, Op.pure_eq, Bool.false_eq_true, if_false, Op.bind_get, hnode, hport,
    htuple, hb, Op.bind_modify]
  cases hw : m.gnmi_event_writer_
  · simp [Op.pure]
  · cases hwr : env.GnmiWrite node_id port_id new_state
    · simp [Op.bind, Op.call, Op.modify, Op.pure, hwr]
    · simp [Op.bind, Op.call, Op.modify, Op.pure, hwr]

/-- C24 (counterexample): on the manager after the successful first push of Scenario A, with
a gNMI writer registered, the pair (0, 1) maps to the configured port id 1; yet with the flag
`shutdown` set, `LinkscanEventHandler` for (0, 1) and `PORT_STATE_UP` writes no event and
`GetPortState` of port 1 still returns `PORT_STATE_UNKNOWN`. -/
theorem C24_counterexample :
    ((BcmChassisManager.PushChassisConfig scenarioAEnv scenarioAConfig).run
      (freshManager scenarioAEnv)).status = Except.ok () ∧
    mapFind ((0 : Int), (1 : Int)) scenarioAManager.unit_logical_port_to_port_id_ = some 1 ∧
    ((BcmChassisManager.LinkscanEventHandler scenarioAEnv true 0 1 PortState.PORT_STATE_UP).run
      ((BcmChassisManager.RegisterEventNotifyWriter true).run scenarioAManager).mgr).calls =
      [] ∧
    BcmChassisManager.GetPortState
      ((BcmChassisManager.LinkscanEventHandler scenarioAEnv true 0 1
        PortState.PORT_STATE_UP).run
          ((BcmChassisManager.RegisterEventNotifyWriter true).run scenarioAManager).mgr).mgr 1 =
      Except.ok PortState.PORT_STATE_UNKNOWN :=
  ⟨by rfl, by decide, by decide, by rfl⟩

/-- C24 (amended): after a push that returned OK (a successful first push in particular),
and with `writer` telling whether a gNMI writer is registered, `LinkscanEventHandler(unit, logical_port, new_state)` with the flag
`shutdown` not set, for a pair that maps to a port id: the unit has a node id and the port
id a (slot, port, channel) tuple; the handler sets the port state of that tuple to
`new_state` and leaves every other entry as it was, so that `GetPortState(port_id)` then
returns `new_state`; and it writes exactly one event with (node id, port id, new_state) when
a writer is registered, and makes no call otherwise. -/
theorem C24_linkscan_event (env : Env) (config : ChassisConfig) (m0 : BcmChassisManager)
    (writer : Bool) (unit logical_port : Int) (new_state : PortState) (port_id : Nat)
    (hpush : ((BcmChassisManager.PushChassisConfig env config).run m0).status = Except.ok ())
    (hport : mapFind (unit, logical_port)
      ((BcmChassisManager.PushChassisConfig env config).run
        m0).mgr.unit_logical_port_to_port_id_ = some port_id) :
    ∃ node_id slot_port_channel_tuple,
      mapFind unit
        ((BcmChassisManager.PushChassisConfig env config).run m0).mgr.unit_to_node_id_ =
          some node_id ∧
      mapFind port_id
        ((BcmChassisManager.PushChassisConfig env config).run
          m0).mgr.port_id_to_slot_port_channel_ = some slot_port_channel_tuple ∧
      ((BcmChassisManager.LinkscanEventHandler env false unit logical_port new_state).run
        ((BcmChassisManager.RegisterEventNotifyWriter writer).run
          ((BcmChassisManager.PushChassisConfig env config).run
            m0).mgr).mgr).mgr.slot_port_channel_to_port_state_ =
        mapSet slot_port_channel_tuple new_state
          ((BcmChassisManager.PushChassisConfig env config).run
            m0).mgr.slot_port_channel_to_port_state_ ∧
      (∀ t, t ≠ slot_port_channel_tuple →
        mapFind t
          ((BcmChassisManager.LinkscanEventHandler env false unit logical_port new_state).run
            ((BcmChassisManager.RegisterEventNotifyWriter writer).run
              ((BcmChassisManager.PushChassisConfig env config).run
                m0).mgr).mgr).mgr.slot_port_channel_to_port_state_ =
        mapFind t
          ((BcmChassisManager.PushChassisConfig env config).run
            m0).mgr.slot_port_channel_to_port_state_) ∧
      BcmChassisManager.GetPortState
        ((BcmChassisManager.LinkscanEventHandler env false unit logical_port new_state).run
          ((BcmChassisManager.RegisterEventNotifyWriter writer).run
            ((BcmChassisManager.PushChassisConfig env config).run m0).mgr).mgr).mgr port_id =
        Except.ok new_state ∧
      ((BcmChassisManager.LinkscanEventHandler env false unit logical_port new_state).run
        ((BcmChassisManager.RegisterEventNotifyWriter writer).run
          ((BcmChassisManager.PushChassisConfig env config).run m0).mgr).mgr).calls =
        (if writer then [Call.GnmiWrite node_id port_id new_state] else []) := by
  obtain ⟨hclosed, hinit⟩ := PushChassisConfig_PortMapsClosed env config m0 hpush
  obtain ⟨hu, t, ht, hb⟩ := hclosed unit logical_port port_id hport
  obtain ⟨node_id, hnode⟩ := Option.isSome_iff_exists.1 hu
  refine ⟨node_id, t, hnode, ht, ?_⟩
  have happly := LinkscanEventHandler_apply env
    ((BcmChassisManager.RegisterEventNotifyWriter writer).run
      ((BcmChassisManager.PushChassisConfig env config).run m0).mgr).mgr
    unit logical_port new_state node_id port_id t hnode hport ht hb
  rw [happly]
  refine ⟨rfl, ?_, ?_, rfl⟩
  · intro t' hne
    exact mapFind_mapSet_ne lawful_triple _ _ _ _ hne
  · unfold BcmChassisManager.GetPortState
    have hi : ((BcmChassisManager.RegisterEventNotifyWriter writer).run
      ((BcmChassisManager.PushChassisConfig env config).run m0).mgr).mgr.initialized_ =
        true := hinit
    have ht' : mapFind port_id ((BcmChassisManager.RegisterEventNotifyWriter writer).run
      ((BcmChassisManager.PushChassisConfig env config).run
        m0).mgr).mgr.port_id_to_slot_port_channel_ = some t := ht
    simp only [hi, ht', Bool.not_true, Bool.false_eq_true, if_false,
      mapFind_mapSet_self lawful_triple]
    rfl

/-- Witness for C24: the first push of Scenario A on a new manager, a registered writer, and
the event `PORT_STATE_UP` for the pair (0, 1) of port 1. -/
theorem C24_linkscan_event_witness :
    ((freshManager scenarioAEnv).initialized_ = false ∧
      ((BcmChassisManager.PushChassisConfig scenarioAEnv scenarioAConfig).run
        (freshManager scenarioAEnv)).status = Except.ok () ∧
      mapFind ((0 : Int), (1 : Int))
        ((BcmChassisManager.PushChassisConfig scenarioAEnv scenarioAConfig).run
          (freshManager scenarioAEnv)).mgr.unit_logical_port_to_port_id_ = some 1) ∧
    ∃ node_id slot_port_channel_tuple,
      mapFind (0 : Int)
        ((BcmChassisManager.PushChassisConfig scenarioAEnv scenarioAConfig).run
          (freshManager scenarioAEnv)).mgr.unit_to_node_id_ = some node_id ∧
      mapFind 1
        ((BcmChassisManager.PushChassisConfig scenarioAEnv scenarioAConfig).run
          (freshManager scenarioAEnv)).mgr.port_id_to_slot_port_channel_ =
            some slot_port_channel_tuple ∧
      BcmChassisManager.GetPortState
        ((BcmChassisManager.LinkscanEventHandler scenarioAEnv false 0 1
          PortState.PORT_STATE_UP).run
            ((BcmChassisManager.RegisterEventNotifyWriter true).run
              ((BcmChassisManager.PushChassisConfig scenarioAEnv scenarioAConfig).run
                (freshManager scenarioAEnv)).mgr).mgr).mgr 1 =
        Except.ok PortState.PORT_STATE_UP ∧
      ((BcmChassisManager.LinkscanEventHandler scenarioAEnv false 0 1
        PortState.PORT_STATE_UP).run
          ((BcmChassisManager.RegisterEventNotifyWriter true).run
            ((BcmChassisManager.PushChassisConfig scenarioAEnv scenarioAConfig).run
              (freshManager scenarioAEnv)).mgr).mgr).calls =
        (if true then [Call.GnmiWrite node_id 1 PortState.PORT_STATE_UP] else []) := by
  refine ⟨⟨by rfl, by rfl, by decide⟩, ?_⟩
  obtain ⟨node_id, t, h1, h2, _, _, h5, h6⟩ :=
    C24_linkscan_event scenarioAEnv scenarioAConfig (freshManager scenarioAEnv) true 0 1
      PortState.PORT_STATE_UP 1 (by rfl) (by decide)
  exact ⟨node_id, t, h1, h2, h5, h6⟩

/-! ## The text of the SDK config file -/

/-- The loop over the ports writes, for every port, its `portmap` line and right after it its
`dport_map_port` line, with the speed that the checks on the port give. -/
theorem bcmConfigPortsLines_ok (target_bcm_chips : List BcmChip) (bcm_ports : List BcmPort) :
    ∀ lines, bcmConfigPortsLines target_bcm_chips bcm_ports = Except.ok lines →
      ∀ bcm_port ∈ bcm_ports, ∃ speed_bps pre post,
        bcmConfigPortSpeed target_bcm_chips bcm_port = Except.ok speed_bps ∧
        lines = pre ++ [portmapLine bcm_port speed_bps, dportMapLine bcm_port] ++ post := by
  induction bcm_ports with
  | nil => intro lines _ p hp; cases hp
  | cons q rest ih =>
    intro lines h p hp
    unfold bcmConfigPortsLines at h
    simp only [bind_ok_iff, pure_ok_iff] at h
    obtain ⟨ql, hq, more, hmore, rfl⟩ := h
    rcases List.mem_cons.1 hp with rfl | hin
    · unfold bcmConfigPortLines at hq
      simp only [bind_ok_iff, pure_ok_iff] at hq
      obtain ⟨speed, hspeed, rfl⟩ := hq
      refine ⟨speed, [],
        (laneLines "xgxs_tx_lane_map_xe" p p.tx_lane_map ++
          laneLines "xgxs_rx_lane_map_xe" p p.rx_lane_map ++
          laneLines "phy_xaui_tx_polarity_flip_xe" p p.tx_polarity_flip ++
          laneLines "phy_xaui_rx_polarity_flip_xe" p p.rx_polarity_flip ++
          p.sdk_properties ++ [""]) ++ more, hspeed, ?_⟩
      simp only [List.nil_append, List.append_assoc, List.cons_append]
    · obtain ⟨speed, pre, post, hspeed, rfl⟩ := ih more hmore p hin
      exact ⟨speed, ql ++ pre, post, hspeed, by simp only [List.append_assoc]⟩

/-- The speed that is written for a port: the speed of the port when it is not flex, and
for a flex port the speed of its channel in the table of the type of its chip. -/
theorem bcmConfigPortSpeed_ok (target_bcm_chips : List BcmChip) (bcm_port : BcmPort)
    (speed_bps : Nat)
    (h : bcmConfigPortSpeed target_bcm_chips bcm_port = Except.ok speed_bps) :
    (bcm_port.flex_port = false → speed_bps = bcm_port.speed_bps) ∧
    (bcm_port.flex_port = true →
      (flexChipType target_bcm_chips bcm_port.unit = BcmChipType.TOMAHAWK ∨
        flexChipType target_bcm_chips bcm_port.unit = BcmChipType.TRIDENT2) ∧
      1 ≤ bcm_port.channel ∧ bcm_port.channel ≤ 4 ∧
      speed_bps = flex_chip_to_channel_to_speed
        (flexChipType target_bcm_chips bcm_port.unit) bcm_port.channel) := by
  unfold bcmConfigPortSpeed at h
  cases hf : bcm_port.flex_port
  · refine ⟨fun _ => ?_, fun hc => by cases hc⟩
    simp only [hf, Bool.false_eq_true, if_false, Bool.not_false] at h
    split at h
    · exact (Except.ok.inj h).symm
    · split at h
      · simp only [bind_ok_iff, pure_ok_iff, CHECK_ok_iff] at h
        obtain ⟨_, _, h⟩ := h
        exact h.symm
      · cases h
  · refine ⟨fun hc => (by cases hc), fun _ => ?_⟩
    simp only [hf, if_true, Bool.not_true] at h
    split at h
    · simp only [bind_ok_iff, pure_ok_iff, CHECK_ok_iff] at h
      obtain ⟨_, h1, _, h2, h3⟩ := h
      simp only [Bool.or_eq_true, beq_iff_eq, Bool.and_eq_true, decide_eq_true_eq] at h1 h2
      exact ⟨h1, h2.1, h2.2, h3.symm⟩
    · split at h
      · simp only [bind_ok_iff, pure_ok_iff, CHECK_ok_iff] at h
        obtain ⟨_, h1, _⟩ := h
        cases h1
      · cases h

theorem foldl_append_string (l : List String) (init : String) :
    l.foldl (fun r s => r ++ s) init = init ++ l.foldl (fun r s => r ++ s) "" := by
  induction l generalizing init with
  | nil => simp
  | cons a rest ih =>
    simp only [List.foldl_cons]
    rw [ih (init ++ a), ih ("" ++ a)]
    simp [String.append_assoc]

theorem bufferStr_nil : bufferStr [] = "" := rfl

theorem bufferStr_cons (line : String) (lines : List String) :
    bufferStr (line :: lines) = line ++ "\n" ++ bufferStr lines := by
  unfold bufferStr String.join
  simp only [List.map_cons, List.foldl_cons]
  rw [foldl_append_string]
  simp

theorem bufferStr_append (a b : List String) :
    bufferStr (a ++ b) = bufferStr a ++ bufferStr b := by
  induction a with
  | nil => simp [bufferStr_nil]
  | cons x rest ih =>
    rw [List.cons_append, bufferStr_cons, bufferStr_cons, ih]
    simp [String.append_assoc]

/-- The text of some lines is empty or ends with a newline. -/
theorem bufferStr_ends (a : List String) : bufferStr a = "" ∨ ∃ s, bufferStr a = s ++ "\n" := by
  rcases List.eq_nil_or_concat a with rfl | ⟨init, last, rfl⟩
  · exact Or.inl rfl
  · right
    refine ⟨bufferStr init ++ last, ?_⟩
    rw [List.concat_eq_append, bufferStr_append, bufferStr_cons, bufferStr_nil]
    simp [String.append_assoc]

/-- C30: when `WriteBcmConfigFile` builds the text of the SDK config file, it writes one text
to the file, which is the lines, each ended by a newline.  For every port of the applied map
the lines hold the line `portmap_<logical_port>.<unit>=<physical_port>:<G>`, with `:i` at its
end exactly when the port is flex and its serdes lane is not 0, and right after it the line
`dport_map_port_<logical_port>.<unit>=<diag_port>`; and the text that is written holds, at
the start of a line, the first of the two lines, a newline, the second line and a newline.
For a port that is not flex `G` is `speed_bps / 10^9`; for a flex port the chip of its unit is
a TOMAHAWK or a TRIDENT2, its channel is 1, 2, 3 or 4, and `G` is 100, 25, 50, 25 on the
TOMAHAWK and 40, 10, 20, 10 on the TRIDENT2, whatever the `speed_bps` of the port. -/
theorem C30_portmap_lines (env : Env) (m : BcmChassisManager)
    (base_bcm_chassis_map target_bcm_chassis_map : BcmChassisMap) (lines : List String)
    (h : bcmConfigLines m.mode_ base_bcm_chassis_map target_bcm_chassis_map = Except.ok lines) :
    ∃ text : String,
      ((BcmChassisManager.WriteBcmConfigFile env base_bcm_chassis_map
        target_bcm_chassis_map).run m).calls = [Call.WriteStringToFile text] ∧
      text = bufferStr lines ∧
      ∀ bcm_port ∈ target_bcm_chassis_map.bcm_ports,
        ∃ (G : Nat) (pre post : List String) (before after : String),
          lines = pre ++
            ["portmap_" ++ toString bcm_port.logical_port ++ "." ++ toString bcm_port.unit ++
                "=" ++ toString bcm_port.physical_port ++ ":" ++ toString G ++
                (if bcm_port.flex_port = true ∧ bcm_port.serdes_lane ≠ 0 then ":i" else ""),
              "dport_map_port_" ++ toString bcm_port.logical_port ++ "." ++
                toString bcm_port.unit ++ "=" ++ toString bcm_port.diag_port] ++ post ∧
          text = before ++
            ("portmap_" ++ toString bcm_port.logical_port ++ "." ++ toString bcm_port.unit ++
                "=" ++ toString bcm_port.physical_port ++ ":" ++ toString G ++
                (if bcm_port.flex_port = true ∧ bcm_port.serdes_lane ≠ 0 then ":i" else "") ++
              "\n" ++
              ("dport_map_port_" ++ toString bcm_port.logical_port ++ "." ++
                toString bcm_port.unit ++ "=" ++ toString bcm_port.diag_port) ++ "\n") ++
            after ∧
          (before = "" ∨ ∃ s, before = s ++ "\n") ∧
          (bcm_port.flex_port = false → G = bcm_port.speed_bps / 10 ^ 9) ∧
          (bcm_port.flex_port = true →
            (flexChipType target_bcm_chassis_map.bcm_chips bcm_port.unit =
                BcmChipType.TOMAHAWK ∧
              ((bcm_port.channel = 1 ∧ G = 100) ∨ (bcm_port.channel = 2 ∧ G = 25) ∨
                (bcm_port.channel = 3 ∧ G = 50) ∨ (bcm_port.channel = 4 ∧ G = 25))) ∨
            (flexChipType target_bcm_chassis_map.bcm_chips bcm_port.unit =
                BcmChipType.TRIDENT2 ∧
              ((bcm_port.channel = 1 ∧ G = 40) ∨ (bcm_port.channel = 2 ∧ G = 10) ∨
                (bcm_port.channel = 3 ∧ G = 20) ∨ (bcm_port.channel = 4 ∧ G = 10)))) := by
  refine ⟨bufferStr lines, ?_, rfl, ?_⟩
  · unfold BcmChassisManager.WriteBcmConfigFile Op.run
    simp only [Op.bind_eq, Op.pure_eq, Op.bind_get, h]
    rfl
  · intro p hp
    unfold bcmConfigLines at h
    simp only [bind_ok_iff, pure_ok_iff] at h
    obtain ⟨port_lines, hpl, rfl⟩ := h
    obtain ⟨speed, pre, post, hspeed, rfl⟩ :=
      bcmConfigPortsLines_ok _ _ port_lines hpl p hp
    obtain ⟨hnf, hfl⟩ := bcmConfigPortSpeed_ok _ _ _ hspeed
    have e1 : portmapLine p speed =
        "portmap_" ++ toString p.logical_port ++ "." ++ toString p.unit ++ "=" ++
          toString p.physical_port ++ ":" ++ toString (speed / kBitsPerGigabit) ++
          (if p.flex_port = true ∧ p.serdes_lane ≠ 0 then ":i" else "") := by
      unfold portmapLine decimal
      congr 1
      by_cases hfp : p.flex_port = true <;> by_cases hsl : p.serdes_lane = 0 <;>
        simp [hfp, hsl]
    have e2 : dportMapLine p =
        "dport_map_port_" ++ toString p.logical_port ++ "." ++ toString p.unit ++ "=" ++
          toString p.diag_port := rfl
    refine ⟨speed / kBitsPerGigabit,
      bcmConfigChassisLines m.mode_ target_bcm_chassis_map ++
        bcmConfigChipLines target_bcm_chassis_map.bcm_chips ++
        bcmConfigPbmpLines base_bcm_chassis_map target_bcm_chassis_map ++ pre, post,
      bufferStr (bcmConfigChassisLines m.mode_ target_bcm_chassis_map ++
        bcmConfigChipLines target_bcm_chassis_map.bcm_chips ++
        bcmConfigPbmpLines base_bcm_chassis_map target_bcm_chassis_map ++ pre),
      bufferStr post, ?_, ?_, bufferStr_ends _, ?_, ?_⟩
    · rw [← e1, ← e2]
      simp only [List.append_assoc]
    · rw [← e1, ← e2]
      have : bcmConfigChassisLines m.mode_ target_bcm_chassis_map ++
          bcmConfigChipLines target_bcm_chassis_map.bcm_chips ++
          bcmConfigPbmpLines base_bcm_chassis_map target_bcm_chassis_map ++
          (pre ++ [portmapLine p speed, dportMapLine p] ++ post) =
          (bcmConfigChassisLines m.mode_ target_bcm_chassis_map ++
            bcmConfigChipLines target_bcm_chassis_map.bcm_chips ++
            bcmConfigPbmpLines base_bcm_chassis_map target_bcm_chassis_map ++ pre) ++
          ([portmapLine p speed, dportMapLine p] ++ post) := by
        simp only [List.append_assoc]
      have e3 : bufferStr ([portmapLine p speed, dportMapLine p] ++ post) =
          (portmapLine p speed ++ "\n" ++ dportMapLine p ++ "\n") ++ bufferStr post := by
        show bufferStr (portmapLine p speed :: dportMapLine p :: post) = _
        rw [bufferStr_cons, bufferStr_cons]
        simp only [String.append_assoc]
      rw [this, bufferStr_append, e3]
      simp only [String.append_assoc]
    · intro hf
      rw [hnf hf]
      rfl
    · intro hf
      obtain ⟨hchip, h1, h4, hs⟩ := hfl hf
      have hch : p.channel = 1 ∨ p.channel = 2 ∨ p.channel = 3 ∨ p.channel = 4 := by omega
      rcases hchip with hc | hc
      · left
        refine ⟨hc, ?_⟩
        rw [hs, hc]
        rcases hch with h | h | h | h <;> rw [h] <;> decide
      · right
        refine ⟨hc, ?_⟩
        rw [hs, hc]
        rcases hch with h | h | h | h <;> rw [h] <;> decide

/-- Witness for C30: the text for Scenario A in standalone mode. -/
theorem C30_portmap_lines_witness :
    bcmConfigLines (freshManager scenarioAEnv).mode_ scenarioABaseOut scenarioATarget =
      Except.ok ["pbmp_xport_xe.0=0x2", "", "portmap_1.0=0:40", "dport_map_port_1.0=0", ""] ∧
    ((BcmChassisManager.WriteBcmConfigFile scenarioAEnv scenarioABaseOut scenarioATarget).run
      (freshManager scenarioAEnv)).calls =
      [Call.WriteStringToFile
        "pbmp_xport_xe.0=0x2\n\nportmap_1.0=0:40\ndport_map_port_1.0=0\n\n"] ∧
    ∃ text : String,
      ((BcmChassisManager.WriteBcmConfigFile scenarioAEnv scenarioABaseOut
        scenarioATarget).run (freshManager scenarioAEnv)).calls =
          [Call.WriteStringToFile text] ∧
      text =
        bufferStr ["pbmp_xport_xe.0=0x2", "", "portmap_1.0=0:40", "dport_map_port_1.0=0", ""] :=
  ⟨by rfl, by rfl,
    (C30_portmap_lines scenarioAEnv (freshManager scenarioAEnv) scenarioABaseOut scenarioATarget
      ["pbmp_xport_xe.0=0x2", "", "portmap_1.0=0:40", "dport_map_port_1.0=0", ""]
      (by rfl)).imp (fun _ h => ⟨h.1, h.2.1⟩)⟩

/-- C29 (failing input): a base map whose one chip has unit 1, with an XE port on that unit,
and the Scenario A config.  The resolver accepts them, and the applied map has the XE port
with logical port 1 on unit 1; the first push returns OK; but the text of the SDK config file
has no line `pbmp_xport_xe.1=0x2`: the vectors of masks have one entry, for unit 0, the mask
of unit 1 is written outside of them, and the loop that writes the lines stops before
unit 1. -/
theorem C29_unit_beyond_chip_count :
    GenerateBcmChassisMapFromConfig unitOneEnv.k unitOneEnv.file scenarioAConfig =
      Except.ok (unitOneBaseOut, unitOneTarget) ∧
    bcmConfigLines OperationMode.OPERATION_MODE_STANDALONE unitOneBaseOut unitOneTarget =
      Except.ok ["", "portmap_1.1=0:40", "dport_map_port_1.1=0", ""] ∧
    ((BcmChassisManager.PushChassisConfig unitOneEnv scenarioAConfig).run
      (freshManager unitOneEnv)).status = Except.ok () ∧
    Call.WriteStringToFile "\nportmap_1.1=0:40\ndport_map_port_1.1=0\n\n" ∈
      ((BcmChassisManager.PushChassisConfig unitOneEnv scenarioAConfig).run
        (freshManager unitOneEnv)).calls :=
  ⟨by rfl, by rfl, by rfl, by decide⟩

/-! ## Hexadecimal numerals -/

theorem hexDigits_acc (fuel : Nat) : ∀ (n : Nat) (acc : List Char),
    hexDigits fuel n acc = hexDigits fuel n [] ++ acc := by
  induction fuel with
  | zero => intro n acc; rfl
  | succ fuel ih =>
    intro n acc
    unfold hexDigits
    split
    · rfl
    · rw [ih (n / 16) (hexDigit (n % 16) :: acc), ih (n / 16) [hexDigit (n % 16)]]
      simp

theorem hexDigits_fuel (fuel : Nat) : ∀ (fuel' n : Nat) (acc : List Char),
    n < fuel → n < fuel' → hexDigits fuel n acc = hexDigits fuel' n acc := by
  induction fuel with
  | zero => intro fuel' n acc h; omega
  | succ fuel ih =>
    intro fuel' n acc h h'
    cases fuel' with
    | zero => omega
    | succ fuel' =>
      unfold hexDigits
      split
      · rfl
      · exact ih fuel' (n / 16) _ (by omega) (by omega)

/-- The digits of a number below 16. -/
theorem hexDigits_digit (d : Nat) (hd : d < 16) : hexDigits (d + 1) d [] = [hexDigit d] := by
  unfold hexDigits
  simp [hd]

/-- The digits of `a * 16 + d` are the digits of `a` followed by the digit `d`. -/
theorem hexDigits_step (a d : Nat) (ha : 1 ≤ a) (hd : d < 16) :
    hexDigits (a * 16 + d + 1) (a * 16 + d) [] = hexDigits (a + 1) a [] ++ [hexDigit d] := by
  have h16 : ¬ (a * 16 + d < 16) := by omega
  have hdiv : (a * 16 + d) / 16 = a := by omega
  have hmod : (a * 16 + d) % 16 = d := by omega
  rw [hexDigits]
  simp only [h16, if_false, hdiv, hmod]
  rw [hexDigits_acc, hexDigits_fuel (a * 16 + d) (a + 1) a [] (by omega) (by omega)]

theorem hexDigits_length_pos (n : Nat) : 1 ≤ (hexDigits (n + 1) n []).length := by
  by_cases h : n < 16
  · rw [hexDigits_digit n h]; simp
  · have := hexDigits_step (n / 16) (n % 16) (by omega) (by omega)
    have e : n / 16 * 16 + n % 16 = n := by omega
    rw [e] at this
    rw [this]
    simp

theorem hexDigits_length_le (k : Nat) : ∀ n, n < 16 ^ (k + 1) →
    (hexDigits (n + 1) n []).length ≤ k + 1 := by
  induction k with
  | zero =>
    intro n hn
    rw [hexDigits_digit n (by simpa using hn)]
    simp
  | succ k ih =>
    intro n hn
    by_cases h : n < 16
    · rw [hexDigits_digit n h]; simp
    · have := hexDigits_step (n / 16) (n % 16) (by omega) (by omega)
      have e : n / 16 * 16 + n % 16 = n := by omega
      rw [e] at this
      rw [this]
      have hk : n / 16 < 16 ^ (k + 1) := by
        rw [pow_succ] at hn
        omega
      have := ih (n / 16) hk
      simp only [List.length_append, List.length_singleton]
      omega

/-- The digits of `a * 16 ^ k + b`, for `b < 16 ^ k`, are the digits of `a` followed by the
digits of `b` with zeros in front up to `k` digits. -/
theorem hexDigits_concat (k : Nat) : ∀ (a b : Nat), 1 ≤ a → b < 16 ^ (k + 1) →
    hexDigits (a * 16 ^ (k + 1) + b + 1) (a * 16 ^ (k + 1) + b) [] =
      hexDigits (a + 1) a [] ++
        List.replicate (k + 1 - (hexDigits (b + 1) b []).length) '0' ++
        hexDigits (b + 1) b [] := by
  induction k with
  | zero =>
    intro a b ha hb
    have hb' : b < 16 := by simpa using hb
    rw [hexDigits_digit b hb']
    simp only [zero_add, pow_one, List.length_singleton, Nat.sub_self, List.replicate_zero,
      List.append_nil]
    exact hexDigits_step a b ha hb'
  | succ k ih =>
    intro a b ha hb
    have e : a * 16 ^ (k + 1 + 1) + b = (a * 16 ^ (k + 1) + b / 16) * 16 + b % 16 := by
      rw [pow_succ]
      have := Nat.div_add_mod b 16
      nlinarith
    have hpos : 1 ≤ a * 16 ^ (k + 1) + b / 16 := by
      have h1 : 1 ≤ 16 ^ (k + 1) := Nat.one_le_two_pow.trans (Nat.pow_le_pow_left (by norm_num) _)
      have h2 : 1 ≤ a * 16 ^ (k + 1) := Nat.mul_pos ha h1
      omega
    have hb16 : b / 16 < 16 ^ (k + 1) := by
      rw [pow_succ] at hb
      omega
    rw [e, hexDigits_step _ _ hpos (by omega), ih a (b / 16) ha hb16]
    by_cases hsmall : b < 16
    · have hz : b / 16 = 0 := by omega
      have hm : b % 16 = b := by omega
      rw [hz, hm, hexDigits_digit b hsmall, hexDigits_digit 0 (by norm_num)]
      simp only [List.length_singleton, Nat.add_sub_cancel, List.append_assoc]
      congr 1
      rw [List.replicate_succ' (k) '0']
      simp [hexDigit]
    · have hstep := hexDigits_step (b / 16) (b % 16) (by omega) (by omega)
      have eb : b / 16 * 16 + b % 16 = b := by omega
      rw [eb] at hstep
      rw [hstep]
      simp only [List.length_append, List.length_singleton, List.append_assoc]
      congr 2
      have hl := hexDigits_length_pos (b / 16)
      congr 1
      omega

/-- The numeral of `a * 2 ^ 64 + b`, for `b < 2 ^ 64`, is the numeral of `a` followed by the
numeral of `b` padded to 16 digits. -/
theorem hexUpper_concat (T a b : Nat) (hT : T = 2 ^ 64) (ha : 1 ≤ a) (hb : b < T) :
    hexUpper a ++ pad16 (hexUpper b) = hexUpper (a * T + b) := by
  have e : (16 : Nat) ^ (15 + 1) = T := by rw [hT]; norm_num
  have h := hexDigits_concat 15 a b ha (by rw [e]; exact hb)
  rw [e] at h
  unfold hexUpper pad16
  rw [h]
  apply String.ext
  simp only [String.data_append, String.length_mk, List.append_assoc]

/-- The string `mask.str()` is the numeral of the number with the three words as its
64-bit digits. -/
theorem xePbmpMask_eq (T mask0 mask1 mask2 : Nat) (hT : T = 2 ^ 64) (h0 : mask0 < T)
    (h1 : mask1 < T) :
    xePbmpMask mask0 mask1 mask2 = hexUpper (mask2 * (T * T) + mask1 * T + mask0) := by
  unfold xePbmpMask
  by_cases h2 : mask2 = 0
  · subst h2
    by_cases h1z : mask1 = 0
    · subst h1z
      simp
    · have : (mask1 != 0) = true := by simpa using h1z
      simp only [bne_self_eq_false, Bool.false_eq_true, if_false, this, if_true, zero_mul,
        zero_add]
      exact hexUpper_concat T mask1 mask0 hT (by omega) h0
  · have : (mask2 != 0) = true := by simpa using h2
    simp only [this, if_true]
    rw [hexUpper_concat T mask2 mask1 hT (by omega) h1,
      hexUpper_concat T (mask2 * T + mask1) mask0 hT (Nat.succ_le_of_lt (by positivity)) h0]
    congr 1
    ring

/-! ## The XE port masks -/

theorem testBit_one_shiftLeft_mod (s j : Nat) :
    ((1 <<< s) % 2 ^ 64).testBit j = true ↔ s = j ∧ j < 64 := by
  rw [Nat.testBit_mod_two_pow, Nat.one_shiftLeft, Nat.testBit_two_pow]
  simp only [Bool.and_eq_true, decide_eq_true_eq]
  tauto

theorem orBit_length (v : List Nat) (unit shift : Int) :
    (orBit v unit shift).length = v.length := by
  unfold orBit
  split
  · exact List.length_modify _ _ _
  · rfl

theorem orBit_getD (v : List Nat) (unit shift : Int) (i : Nat) (hi : i < v.length) (j : Nat) :
    ((orBit v unit shift).getD i 0).testBit j = true ↔
      (v.getD i 0).testBit j = true ∨ (unit = (i : Int) ∧ shift.toNat = j ∧ j < 64) := by
  unfold orBit
  by_cases hu : 0 ≤ unit
  · simp only [hu, if_true, List.getD_eq_getElem?_getD, List.getElem?_modify,
      List.getElem?_eq_getElem hi, Option.map_eq_map, Option.map_some', Option.getD_some]
    by_cases he : unit.toNat = i
    · have hui : unit = (i : Int) := by omega
      simp only [he, if_true, Nat.testBit_or, Bool.or_eq_true, testBit_one_shiftLeft_mod]
      simp only [hui, true_and]
    · have hui : unit ≠ (i : Int) := by omega
      simp only [he, if_false, hui, false_and, or_false]
  · have hui : unit ≠ (i : Int) := by omega
    simp only [hu, if_false, hui, false_and, or_false]

/-- One iteration of the loop that fills the masks: the lengths stay, and the bits of the
words of unit `i` are those before, and the bit of the port when it is an XE or CE port on
unit `i`. -/
theorem xePbmpStep_spec (masks : XePbmpMasks) (p : BcmPort) (n i : Nat) (hi : i < n)
    (h0 : masks.xe_pbmp_mask0.length = n) (h1 : masks.xe_pbmp_mask1.length = n)
    (h2 : masks.xe_pbmp_mask2.length = n) :
    ((xePbmpStep masks p).xe_pbmp_mask0.length = n ∧
      (xePbmpStep masks p).xe_pbmp_mask1.length = n ∧
      (xePbmpStep masks p).xe_pbmp_mask2.length = n) ∧
    (∀ j, (((xePbmpStep masks p).xe_pbmp_mask0).getD i 0).testBit j = true ↔
      ((masks.xe_pbmp_mask0).getD i 0).testBit j = true ∨
        ((p.type == BcmPortType.XE || p.type == BcmPortType.CE) = true ∧ p.unit = (i : Int) ∧
          p.logical_port < 64 ∧ p.logical_port.toNat = j)) ∧
    (∀ j, (((xePbmpStep masks p).xe_pbmp_mask1).getD i 0).testBit j = true ↔
      ((masks.xe_pbmp_mask1).getD i 0).testBit j = true ∨
        ((p.type == BcmPortType.XE || p.type == BcmPortType.CE) = true ∧ p.unit = (i : Int) ∧
          64 ≤ p.logical_port ∧ p.logical_port < 128 ∧ (p.logical_port - 64).toNat = j)) ∧
    (∀ j, (((xePbmpStep masks p).xe_pbmp_mask2).getD i 0).testBit j = true ↔
      ((masks.xe_pbmp_mask2).getD i 0).testBit j = true ∨
        ((p.type == BcmPortType.XE || p.type == BcmPortType.CE) = true ∧ p.unit = (i : Int) ∧
          128 ≤ p.logical_port ∧ (p.logical_port - 128).toNat = j ∧ j < 64)) := by
  unfold xePbmpStep
  by_cases hx : (p.type == BcmPortType.XE || p.type == BcmPortType.CE) = true
  · simp only [hx, if_true, true_and]
    by_cases ha : p.logical_port < 64
    · simp only [ha, if_true]
      refine ⟨⟨by rw [orBit_length]; exact h0, h1, h2⟩, ?_, ?_, ?_⟩
      · intro j
        rw [orBit_getD _ _ _ _ (h0 ▸ hi)]
        constructor
        · rintro (h | ⟨hu, hs, _⟩)
          · exact Or.inl h
          · exact Or.inr ⟨hu, trivial, hs⟩
        · rintro (h | ⟨hu, _, hs⟩)
          · exact Or.inl h
          · exact Or.inr ⟨hu, hs, by omega⟩
      · intro j
        constructor
        · exact Or.inl
        · rintro (h | ⟨_, hb, _⟩)
          · exact h
          · omega
      · intro j
        constructor
        · exact Or.inl
        · rintro (h | ⟨_, hb, _⟩)
          · exact h
          · omega
    · by_cases hb : p.logical_port < 128
      · simp only [ha, if_false, hb, if_true]
        refine ⟨⟨h0, by rw [orBit_length]; exact h1, h2⟩, ?_, ?_, ?_⟩
        · intro j
          simp only [false_and, and_false, or_false]
        · intro j
          rw [orBit_getD _ _ _ _ (h1 ▸ hi)]
          constructor
          · rintro (h | ⟨hu, hs, _⟩)
            · exact Or.inl h
            · exact Or.inr ⟨hu, by omega, trivial, hs⟩
          · rintro (h | ⟨hu, _, _, hs⟩)
            · exact Or.inl h
            · exact Or.inr ⟨hu, hs, by omega⟩
        · intro j
          constructor
          · exact Or.inl
          · rintro (h | ⟨_, hc, _⟩)
            · exact h
            · omega
      · simp only [ha, if_false, hb]
        refine ⟨⟨h0, h1, by rw [orBit_length]; exact h2⟩, ?_, ?_, ?_⟩
        · intro j
          simp only [false_and, and_false, or_false]
        · intro j
          simp only [false_and, and_false, or_false]
        · intro j
          rw [orBit_getD _ _ _ _ (h2 ▸ hi)]
          constructor
          · rintro (h | ⟨hu, hs, hj⟩)
            · exact Or.inl h
            · exact Or.inr ⟨hu, by omega, hs, hj⟩
          · rintro (h | ⟨hu, _, hs, hj⟩)
            · exact Or.inl h
            · exact Or.inr ⟨hu, hs, hj⟩
  · simp only [hx, Bool.false_eq_true, if_false, false_and, or_false, implies_true, and_true]
    exact ⟨h0, h1, h2⟩

/-- The loop that fills the masks. -/
theorem xePbmpFold_spec (ports : List BcmPort) (n i : Nat) (hi : i < n) :
    ∀ (masks : XePbmpMasks), masks.xe_pbmp_mask0.length = n →
      masks.xe_pbmp_mask1.length = n → masks.xe_pbmp_mask2.length = n →
    (∀ j, (((ports.foldl xePbmpStep masks).xe_pbmp_mask0).getD i 0).testBit j = true ↔
      ((masks.xe_pbmp_mask0).getD i 0).testBit j = true ∨
        ∃ p ∈ ports, (p.type == BcmPortType.XE || p.type == BcmPortType.CE) = true ∧
          p.unit = (i : Int) ∧ p.logical_port < 64 ∧ p.logical_port.toNat = j) ∧
    (∀ j, (((ports.foldl xePbmpStep masks).xe_pbmp_mask1).getD i 0).testBit j = true ↔
      ((masks.xe_pbmp_mask1).getD i 0).testBit j = true ∨
        ∃ p ∈ ports, (p.type == BcmPortType.XE || p.type == BcmPortType.CE) = true ∧
          p.unit = (i : Int) ∧ 64 ≤ p.logical_port ∧ p.logical_port < 128 ∧
          (p.logical_port - 64).toNat = j) ∧
    (∀ j, (((ports.foldl xePbmpStep masks).xe_pbmp_mask2).getD i 0).testBit j = true ↔
      ((masks.xe_pbmp_mask2).getD i 0).testBit j = true ∨
        ∃ p ∈ ports, (p.type == BcmPortType.XE || p.type == BcmPortType.CE) = true ∧
          p.unit = (i : Int) ∧ 128 ≤ p.logical_port ∧ (p.logical_port - 128).toNat = j ∧
          j < 64) := by
  induction ports with
  | nil =>
    intro masks _ _ _
    simp
  | cons q rest ih =>
    intro masks h0 h1 h2
    obtain ⟨⟨l0, l1, l2⟩, s0, s1, s2⟩ := xePbmpStep_spec masks q n i hi h0 h1 h2
    obtain ⟨r0, r1, r2⟩ := ih (xePbmpStep masks q) l0 l1 l2
    simp only [List.foldl_cons, List.mem_cons, exists_eq_or_imp]
    refine ⟨fun j => ?_, fun j => ?_, fun j => ?_⟩
    · rw [r0 j, s0 j, or_assoc]
    · rw [r1 j, s1 j, or_assoc]
    · rw [r2 j, s2 j, or_assoc]

/-- Units below the number of chips of the base map: the loop over the units writes for
unit `i` the line `pbmp_xport_xe.<i>=0x<hex>` once (followed by the `pbmp_oversubscribe` line
when the chip is oversubscribed) when the applied map has an XE or CE port on unit `i`, and
nothing when it has none; `<hex>` is the uppercase hexadecimal numeral, without leading
zeros, of the number `N` whose bit `j` is set exactly when an XE or CE port of the applied
map on unit `i` has logical port `j`.  The logical ports of these ports are taken to be in
`0 .. 191`. -/
theorem xePbmpLines_unit_in_range (base_bcm_chassis_map target_bcm_chassis_map : BcmChassisMap)
    (i : Nat) (hi : i < base_bcm_chassis_map.bcm_chips.length)
    (hrange : ∀ p ∈ target_bcm_chassis_map.bcm_ports,
      (p.type == BcmPortType.XE || p.type == BcmPortType.CE) = true → p.unit = (i : Int) →
        0 ≤ p.logical_port ∧ p.logical_port < 192) :
    ∃ N : Nat,
      (∀ j : Nat, N.testBit j = true ↔
        ∃ p ∈ target_bcm_chassis_map.bcm_ports,
          (p.type == BcmPortType.XE || p.type == BcmPortType.CE) = true ∧
            p.unit = (i : Int) ∧ p.logical_port = (j : Int)) ∧
      ((∃ p ∈ target_bcm_chassis_map.bcm_ports,
          (p.type == BcmPortType.XE || p.type == BcmPortType.CE) = true ∧
            p.unit = (i : Int)) →
        xePbmpLines
          (xePbmpMasks base_bcm_chassis_map.bcm_chips.length target_bcm_chassis_map.bcm_ports)
          (isChipOversubscribed base_bcm_chassis_map.bcm_chips.length
            target_bcm_chassis_map.bcm_chips) i =
          ["pbmp_xport_xe." ++ toString i ++ "=0x" ++ hexUpper N] ++
            (if (isChipOversubscribed base_bcm_chassis_map.bcm_chips.length
                target_bcm_chassis_map.bcm_chips).getD i false then
              ["pbmp_oversubscribe." ++ toString i ++ "=0x" ++ hexUpper N]
            else [])) ∧
      ((¬ ∃ p ∈ target_bcm_chassis_map.bcm_ports,
          (p.type == BcmPortType.XE || p.type == BcmPortType.CE) = true ∧
            p.unit = (i : Int)) →
        xePbmpLines
          (xePbmpMasks base_bcm_chassis_map.bcm_chips.length target_bcm_chassis_map.bcm_ports)
          (isChipOversubscribed base_bcm_chassis_map.bcm_chips.length
            target_bcm_chassis_map.bcm_chips) i = []) := by
  obtain ⟨b0, b1, b2⟩ := xePbmpFold_spec target_bcm_chassis_map.bcm_ports
    base_bcm_chassis_map.bcm_chips.length i hi
    { xe_pbmp_mask0 := List.replicate base_bcm_chassis_map.bcm_chips.length 0
      xe_pbmp_mask1 := List.replicate base_bcm_chassis_map.bcm_chips.length 0
      xe_pbmp_mask2 := List.replicate base_bcm_chassis_map.bcm_chips.length 0 }
    (List.length_replicate _ _) (List.length_replicate _ _) (List.length_replicate _ _)
  have hz : ∀ j, ((List.replicate base_bcm_chassis_map.bcm_chips.length 0).getD i 0).testBit j =
      false := by
    intro j
    simp [List.getD_eq_getElem?_getD, List.getElem?_replicate, hi]
  simp only [hz, Bool.false_eq_true, false_or] at b0 b1 b2
  change ∀ j, (((xePbmpMasks base_bcm_chassis_map.bcm_chips.length
    target_bcm_chassis_map.bcm_ports).xe_pbmp_mask0).getD i 0).testBit j = true ↔ _ at b0
  change ∀ j, (((xePbmpMasks base_bcm_chassis_map.bcm_chips.length
    target_bcm_chassis_map.bcm_ports).xe_pbmp_mask1).getD i 0).testBit j = true ↔ _ at b1
  change ∀ j, (((xePbmpMasks base_bcm_chassis_map.bcm_chips.length
    target_bcm_chassis_map.bcm_ports).xe_pbmp_mask2).getD i 0).testBit j = true ↔ _ at b2
  unfold xePbmpLines
  simp only []
  generalize ((xePbmpMasks base_bcm_chassis_map.bcm_chips.length
    target_bcm_chassis_map.bcm_ports).xe_pbmp_mask0).getD i 0 = m0 at b0 ⊢
  generalize ((xePbmpMasks base_bcm_chassis_map.bcm_chips.length
    target_bcm_chassis_map.bcm_ports).xe_pbmp_mask1).getD i 0 = m1 at b1 ⊢
  generalize ((xePbmpMasks base_bcm_chassis_map.bcm_chips.length
    target_bcm_chassis_map.bcm_ports).xe_pbmp_mask2).getD i 0 = m2 at b2 ⊢
  have hm0 : m0 < 2 ^ 64 := by
    apply Nat.lt_pow_two_of_testBit
    intro j hj
    by_contra h
    obtain ⟨p, _, _, _, hlt, htn⟩ := (b0 j).1 (by simpa using h)
    omega
  have hm1 : m1 < 2 ^ 64 := by
    apply Nat.lt_pow_two_of_testBit
    intro j hj
    by_contra h
    obtain ⟨p, _, _, _, _, hlt, htn⟩ := (b1 j).1 (by simpa using h)
    omega
  have hm2 : m2 < 2 ^ 64 := by
    apply Nat.lt_pow_two_of_testBit
    intro j hj
    by_contra h
    obtain ⟨p, _, _, _, _, _, hlt⟩ := (b2 j).1 (by simpa using h)
    omega
  have hbits : ∀ j : Nat, (2 ^ 64 * (2 ^ 64 * m2 + m1) + m0).testBit j = true ↔
      ∃ p ∈ target_bcm_chassis_map.bcm_ports,
        (p.type == BcmPortType.XE || p.type == BcmPortType.CE) = true ∧
          p.unit = (i : Int) ∧ p.logical_port = (j : Int) := by
    intro j
    rw [Nat.testBit_mul_pow_two_add _ hm0, Nat.testBit_mul_pow_two_add _ hm1]
    by_cases h64 : j < 64
    · simp only [h64, if_true]
      rw [b0 j]
      constructor
      · rintro ⟨p, hp, hx, hu, _, htn⟩
        exact ⟨p, hp, hx, hu, by have := (hrange p hp hx hu).1; omega⟩
      · rintro ⟨p, hp, hx, hu, hl⟩
        exact ⟨p, hp, hx, hu, by omega, by omega⟩
    · by_cases h128 : j - 64 < 64
      · simp only [h64, if_false, h128, if_true]
        rw [b1 (j - 64)]
        constructor
        · rintro ⟨p, hp, hx, hu, hge, _, htn⟩
          exact ⟨p, hp, hx, hu, by omega⟩
        · rintro ⟨p, hp, hx, hu, hl⟩
          exact ⟨p, hp, hx, hu, by omega, by omega, by omega⟩
      · simp only [h64, if_false, h128]
        rw [b2 (j - 64 - 64)]
        constructor
        · rintro ⟨p, hp, hx, hu, hge, htn, _⟩
          exact ⟨p, hp, hx, hu, by omega⟩
        · rintro ⟨p, hp, hx, hu, hl⟩
          have := (hrange p hp hx hu).2
          exact ⟨p, hp, hx, hu, by omega, by omega, by omega⟩
  have hzero : (2 ^ 64 * (2 ^ 64 * m2 + m1) + m0 = 0) ↔
      ¬ ∃ p ∈ target_bcm_chassis_map.bcm_ports,
        (p.type == BcmPortType.XE || p.type == BcmPortType.CE) = true ∧ p.unit = (i : Int) := by
    constructor
    · rintro hN ⟨p, hp, hx, hu⟩
      have hr := hrange p hp hx hu
      have := (hbits p.logical_port.toNat).2 ⟨p, hp, hx, hu, by omega⟩
      rw [hN, Nat.zero_testBit] at this
      cases this
    · intro hnone
      apply Nat.eq_of_testBit_eq
      intro j
      rw [Nat.zero_testBit]
      cases hb : (2 ^ 64 * (2 ^ 64 * m2 + m1) + m0).testBit j
      · rfl
      · obtain ⟨p, hp, hx, hu, _⟩ := (hbits j).1 hb
        exact absurd ⟨p, hp, hx, hu⟩ hnone
  have hcond : (m1 != 0 || m0 != 0 || m2 != 0) = true ↔
      ¬ (2 ^ 64 * (2 ^ 64 * m2 + m1) + m0 = 0) := by
    simp only [Bool.or_eq_true, bne_iff_ne, ne_eq]
    omega
  have hstr : xePbmpMask m0 m1 m2 = hexUpper (2 ^ 64 * (2 ^ 64 * m2 + m1) + m0) := by
    rw [xePbmpMask_eq (2 ^ 64) m0 m1 m2 rfl hm0 hm1]
    congr 1
    ring
  refine ⟨2 ^ 64 * (2 ^ 64 * m2 + m1) + m0, hbits, ?_, ?_⟩
  · intro hex
    have hc : (m1 != 0 || m0 != 0 || m2 != 0) = true := hcond.2 (fun h => hzero.1 h hex)
    simp only [hc, if_true, hstr]
  · intro hnone
    have hc : ¬ (m1 != 0 || m0 != 0 || m2 != 0) = true := fun h => hcond.1 h (hzero.2 hnone)
    simp only [hc, Bool.false_eq_true, if_false]

/-! ## The chips of the applied map -/

/-- C37 (failing input): a base map with one chip, unit 0, and a config with two nodes whose
ports are both on unit 0.  The resolver returns OK, and the applied map holds the chip of
unit 0 twice: the units (and the modules) of its chips are not pairwise distinct.  The first
push then attaches unit 0 twice. -/
theorem C37_two_nodes_on_one_unit :
    (∃ base target,
      GenerateBcmChassisMapFromConfig sharedUnitEnv.k sharedUnitEnv.file sharedUnitConfig =
        Except.ok (base, target) ∧
      target.bcm_chips =
        [{ type := BcmChipType.TRIDENT2, slot := 5, unit := 0, module := 0 },
         { type := BcmChipType.TRIDENT2, slot := 5, unit := 0, module := 0 }] ∧
      ¬ (target.bcm_chips.map (fun c => c.unit)).Nodup ∧
      ¬ (target.bcm_chips.map (fun c => c.module)).Nodup) ∧
    ((BcmChassisManager.PushChassisConfig sharedUnitEnv sharedUnitConfig).run
      (freshManager sharedUnitEnv)).status = Except.ok () ∧
    ((BcmChassisManager.PushChassisConfig sharedUnitEnv sharedUnitConfig).run
      (freshManager sharedUnitEnv)).calls.filter Call.isAttachCall =
      [Call.FindUnit 0 0 0 BcmChipType.TRIDENT2, Call.InitializeUnit 0 false,
       Call.SetModuleId 0 0,
       Call.FindUnit 0 0 0 BcmChipType.TRIDENT2, Call.InitializeUnit 0 false,
       Call.SetModuleId 0 0] :=
  ⟨⟨_, _, by rfl, by rfl, by decide, by decide⟩, by rfl, by decide⟩

/-- C31 (counterexample): with two chips, units 0 and 1, and a config whose node 1 is on
unit 1 and whose node 2 is on unit 0, the resolver returns OK with the chip of unit 1 before
the chip of unit 0, and the first push passes unit 1 to `FindUnit` before unit 0. -/
theorem C31_counterexample :
    (∃ base target,
      GenerateBcmChassisMapFromConfig twoChipEnv.k twoChipEnv.file crossedNodesConfig =
        Except.ok (base, target) ∧
      target.bcm_chips.map (fun c => c.unit) = [1, 0]) ∧
    ((BcmChassisManager.PushChassisConfig twoChipEnv crossedNodesConfig).run
      (freshManager twoChipEnv)).status = Except.ok () ∧
    ((BcmChassisManager.PushChassisConfig twoChipEnv crossedNodesConfig).run
      (freshManager twoChipEnv)).calls.filter Call.isAttachCall =
      [Call.FindUnit 1 0 0 BcmChipType.TRIDENT2, Call.InitializeUnit 1 false,
       Call.SetModuleId 1 1,
       Call.FindUnit 0 0 0 BcmChipType.TRIDENT2, Call.InitializeUnit 0 false,
       Call.SetModuleId 0 0] :=
  ⟨⟨_, _, by rfl, by rfl⟩, by rfl, by decide⟩

/-- C39 (failing input): the base map whose one chip has unit 1 is accepted by
`ReadBaseBcmChassisMapFromFile`, and the resolver returns OK for it and the Scenario A
config; the vectors of `WriteBcmConfigFile` have one entry, as the base map has one chip,
and the XE port of the applied map has unit 1, which is not below 1.  In the model the
statement that sets the bit of the port outside of the vector changes nothing. -/
theorem C39_unit_index_out_of_range :
    ReadBaseBcmChassisMapFromFile unitOneEnv.file "" = Except.ok unitOneBase ∧
    GenerateBcmChassisMapFromConfig unitOneEnv.k unitOneEnv.file scenarioAConfig =
      Except.ok (unitOneBaseOut, unitOneTarget) ∧
    unitOneBaseOut.bcm_chips.length = 1 ∧
    (∃ p ∈ unitOneTarget.bcm_ports, p.type = BcmPortType.XE ∧ p.unit = 1 ∧
      ¬ p.unit < (unitOneBaseOut.bcm_chips.length : Int)) ∧
    xePbmpMasks unitOneBaseOut.bcm_chips.length unitOneTarget.bcm_ports =
      { xe_pbmp_mask0 := [0], xe_pbmp_mask1 := [0], xe_pbmp_mask2 := [0] } :=
  ⟨by rfl, by rfl, by rfl, ⟨_, List.mem_cons_self _ _, by decide, by decide, by decide⟩,
    by decide⟩

/-- C36 (failing input): a new manager in simulation mode and the Scenario A config, whose
base map, and so whose applied map, has no `bcm_chassis` message.  The lines of the SDK config
file hold none of the three lines `tdma_intr_enable=0`, `tslam_dma_enable=0`,
`table_dma_enable=0`, and the text that `WriteBcmConfigFile` writes to the file, which is also
the text that the first push writes, holds none of them anywhere. -/
theorem C36_sim_mode_without_chassis :
    simManager.mode_ = OperationMode.OPERATION_MODE_SIM ∧
    GenerateBcmChassisMapFromConfig scenarioAEnv.k scenarioAEnv.file scenarioAConfig =
      Except.ok (scenarioABaseOut, scenarioATarget) ∧
    scenarioATarget.bcm_chassis = none ∧
    bcmConfigLines simManager.mode_ scenarioABaseOut scenarioATarget =
      Except.ok ["pbmp_xport_xe.0=0x2", "", "portmap_1.0=0:40", "dport_map_port_1.0=0", ""] ∧
    ((BcmChassisManager.WriteBcmConfigFile scenarioAEnv scenarioABaseOut scenarioATarget).run
      simManager).status = Except.ok () ∧
    ((BcmChassisManager.WriteBcmConfigFile scenarioAEnv scenarioABaseOut scenarioATarget).run
      simManager).calls =
      [Call.WriteStringToFile
        "pbmp_xport_xe.0=0x2\n\nportmap_1.0=0:40\ndport_map_port_1.0=0\n\n"] ∧
    ((BcmChassisManager.PushChassisConfig scenarioAEnv scenarioAConfig).run
      simManager).status = Except.ok () ∧
    ((BcmChassisManager.PushChassisConfig scenarioAEnv scenarioAConfig).run
      simManager).calls.head? =
      some (Call.WriteStringToFile
        "pbmp_xport_xe.0=0x2\n\nportmap_1.0=0:40\ndport_map_port_1.0=0\n\n") ∧
    ∀ line ∈ ["tdma_intr_enable=0", "tslam_dma_enable=0", "table_dma_enable=0"],
      line ∉ ["pbmp_xport_xe.0=0x2", "", "portmap_1.0=0:40", "dport_map_port_1.0=0", ""] ∧
      ∀ before after : String,
        "pbmp_xport_xe.0=0x2\n\nportmap_1.0=0:40\ndport_map_port_1.0=0\n\n" ≠
          before ++ line ++ after := by
  refine ⟨rfl, by rfl, rfl, by rfl, by rfl, by rfl, by rfl, by rfl, ?_⟩
  intro line hline
  have hl : 'l' ∈ line.data := by
    simp only [List.mem_cons, List.mem_singleton, List.not_mem_nil, or_false] at hline
    rcases hline with rfl | rfl | rfl <;> decide
  constructor
  · simp only [List.mem_cons, List.mem_singleton, List.not_mem_nil, or_false] at hline
    rcases hline with rfl | rfl | rfl <;> decide
  · intro before after heq
    have hd := congrArg String.data heq
    have hin : 'l' ∈ (before ++ line ++ after).data := by
      simp only [String.data_append, List.mem_append]
      exact Or.inl (Or.inr hl)
    rw [← hd] at hin
    revert hin
    decide

/-! ## The checks of the base map loader -/

/-- What one iteration of the loop over the chips checks, and the sets after it. -/
theorem verifyBaseChip_spec (a : Bool) (st st' : BaseSets) (c : BcmChip)
    (h : verifyBaseChip a st c = Except.ok st') :
    (0 ≤ c.unit ∧ 0 ≤ c.module ∧ 0 ≤ c.pci_bus ∧ 0 ≤ c.pci_slot ∧
      (a = true → c.slot = 0) ∧ (a = false → 0 < c.slot)) ∧
    setCount c.unit st.units = false ∧ setCount c.module st.modules = false ∧
    st'.units = setInsert c.unit st.units ∧ st'.modules = setInsert c.module st.modules := by
  unfold verifyBaseChip at h
  simp only [bind_ok_iff, CHECK_ok_iff, pure_ok_iff] at h
  obtain ⟨_, _, slots, hslot, _, hu, _, hm, _, hb, _, hs, rfl⟩ := h
  simp only [Bool.and_eq_true, decide_eq_true_eq, Bool.not_eq_true'] at hu hm hb hs
  refine ⟨⟨hu.1, hm.1, hb, hs, ?_, ?_⟩, hu.2, hm.2, rfl, rfl⟩
  · intro ha
    subst ha
    simp only [if_true, bind_ok_iff, CHECK_ok_iff, pure_ok_iff] at hslot
    obtain ⟨_, h1, _⟩ := hslot
    simpa using h1
  · intro ha
    subst ha
    simp only [Bool.false_eq_true, if_false, bind_ok_iff, CHECK_ok_iff, pure_ok_iff] at hslot
    obtain ⟨_, h1, _⟩ := hslot
    simpa using h1

/-- What the loop over the chips checks, and the sets after it. -/
theorem verifyBaseChips_spec (a : Bool) (chips : List BcmChip) :
    ∀ (st st' : BaseSets), verifyBaseChips a st chips = Except.ok st' →
    (∀ c ∈ chips, 0 ≤ c.unit ∧ 0 ≤ c.module ∧ 0 ≤ c.pci_bus ∧ 0 ≤ c.pci_slot ∧
      (a = true → c.slot = 0) ∧ (a = false → 0 < c.slot)) ∧
    (chips.map (fun c => c.unit)).Nodup ∧ (chips.map (fun c => c.module)).Nodup ∧
    (∀ c ∈ chips, setCount c.unit st.units = false ∧ setCount c.module st.modules = false) ∧
    (∀ u, setCount u st'.units = true ↔
      setCount u st.units = true ∨ ∃ c ∈ chips, c.unit = u) ∧
    (∀ u, setCount u st'.modules = true ↔
      setCount u st.modules = true ∨ ∃ c ∈ chips, c.module = u) := by
  induction chips with
  | nil =>
    intro st st' h
    simp only [verifyBaseChips, pure_ok_iff] at h
    subst h
    simp
  | cons c rest ih =>
    intro st st' h
    simp only [verifyBaseChips, bind_ok_iff] at h
    obtain ⟨st1, h1, h2⟩ := h
    obtain ⟨hf, hu, hm, eu, em⟩ := verifyBaseChip_spec a st st1 c h1
    obtain ⟨rf, rnu, rnm, rfresh, ru, rm⟩ := ih st1 st' h2
    have hq : ∀ q ∈ rest, (q.unit ≠ c.unit ∧ setCount q.unit st.units = false) ∧
        (q.module ≠ c.module ∧ setCount q.module st.modules = false) := by
      intro q hq
      obtain ⟨f1, f2⟩ := rfresh q hq
      rw [eu] at f1
      rw [em] at f2
      have t1 := (setCount_setInsert lawful_int q.unit c.unit st.units).not
      have t2 := (setCount_setInsert lawful_int q.module c.module st.modules).not
      rw [f1] at t1
      rw [f2] at t2
      simp only [Bool.false_eq_true, not_false_eq_true, not_or, Bool.not_eq_true,
        true_iff] at t1 t2
      exact ⟨t1, t2⟩
    refine ⟨?_, ?_, ?_, ?_, ?_, ?_⟩
    · intro q hq'
      rcases List.mem_cons.1 hq' with rfl | hq'
      · exact hf
      · exact rf q hq'
    · rw [List.map_cons, List.nodup_cons]
      refine ⟨?_, rnu⟩
      intro hmem
      obtain ⟨q, hq', he⟩ := List.mem_map.1 hmem
      exact (hq q hq').1.1 he
    · rw [List.map_cons, List.nodup_cons]
      refine ⟨?_, rnm⟩
      intro hmem
      obtain ⟨q, hq', he⟩ := List.mem_map.1 hmem
      exact (hq q hq').2.1 he
    · intro q hq'
      rcases List.mem_cons.1 hq' with rfl | hq'
      · exact ⟨hu, hm⟩
      · exact ⟨(hq q hq').1.2, (hq q hq').2.2⟩
    · intro u
      rw [ru u, eu, setCount_setInsert lawful_int]
      simp only [List.mem_cons, exists_eq_or_imp]
      constructor
      · rintro ((h | h) | h)
        · exact Or.inr (Or.inl h.symm)
        · exact Or.inl h
        · exact Or.inr (Or.inr h)
      · rintro (h | h | h)
        · exact Or.inl (Or.inr h)
        · exact Or.inl (Or.inl h.symm)
        · exact Or.inr h
    · intro u
      rw [rm u, em, setCount_setInsert lawful_int]
      simp only [List.mem_cons, exists_eq_or_imp]
      constructor
      · rintro ((h | h) | h)
        · exact Or.inr (Or.inl h.symm)
        · exact Or.inl h
        · exact Or.inr (Or.inr h)
      · rintro (h | h | h)
        · exact Or.inl (Or.inr h)
        · exact Or.inl (Or.inl h.symm)
        · exact Or.inr h

/-- What one iteration of the loop over the ports checks. -/
theorem verifyBasePort_spec (a l : Bool) (st : BaseSets) (p : BcmPort)
    (h : verifyBasePort a l st p = Except.ok ()) :
    0 < p.port ∧ (0 ≤ p.channel ∧ p.channel ≤ 4) ∧
    (0 < p.speed_bps ∧ p.speed_bps % kBitsPerGigabit = 0) ∧
    (0 ≤ p.serdes_lane ∧ p.serdes_lane ≤ 3) ∧
    (p.type ≠ BcmPortType.MGMT → 1 ≤ p.num_serdes_lanes ∧ p.num_serdes_lanes ≤ 4) ∧
    (0 ≤ p.tx_lane_map ∧ 0 ≤ p.rx_lane_map ∧ 0 ≤ p.tx_polarity_flip ∧
      0 ≤ p.rx_polarity_flip) ∧
    (0 ≤ p.unit ∧ setCount p.unit st.units = true) ∧
    (0 ≤ p.module ∧ setCount p.module st.modules = true) ∧
    (l = true → p.logical_port = 0) ∧ (l = false → 0 < p.logical_port) := by
  unfold verifyBasePort at h
  simp only [bind_ok_iff, CHECK_ok_iff] at h
  obtain ⟨_, _, _, _, _, hport, _, hch, _, hu, _, hsp, _, _, _, _, _, hmod, _, _, _, hsl, _,
    hns, _, htx, _, hrx, _, htp, _, hrp, hlp⟩ := h
  simp only [Bool.and_eq_true, decide_eq_true_eq, beq_iff_eq] at hport hch hu hsp hmod hsl
  simp only [decide_eq_true_eq] at htx hrx htp hrp
  refine ⟨hport, hch, hsp, hsl, ?_, ⟨htx, hrx, htp, hrp⟩, hu, hmod, ?_, ?_⟩
  · intro hne
    have : (p.type != BcmPortType.MGMT) = true := by simpa using hne
    simp only [this, if_true, CHECK_ok_iff, Bool.and_eq_true, decide_eq_true_eq] at hns
    exact hns
  · intro hl
    subst hl
    simp only [if_true, CHECK_ok_iff, beq_iff_eq] at hlp
    exact hlp
  · intro hl
    subst hl
    simp only [Bool.false_eq_true, if_false, CHECK_ok_iff, decide_eq_true_eq] at hlp
    exact hlp

/-- C32: when `ReadBaseBcmChassisMapFromFile` returns OK, the chassis map it selected has
chips with pairwise distinct non-negative units, pairwise distinct non-negative modules,
non-negative `pci_bus` and `pci_slot`, and slot 0 with `auto_add_slot` and a positive slot
without; and every port has a positive `port`, a channel in 0..4, a positive speed that is a
multiple of 10^9, a serdes lane in 0..3, 1 to 4 serdes lanes unless it is a MGMT port,
non-negative lane maps and polarity flips, the unit of some chip and the module of some
chip, and logical port 0 with `auto_add_logical_ports` and a positive one without. -/
theorem C32_base_map_checks (file : Except ErrorCode (List BcmChassisMap)) (id : String)
    (base : BcmChassisMap) (h : ReadBaseBcmChassisMapFromFile file id = Except.ok base) :
    ((base.bcm_chips.map (fun c => c.unit)).Nodup ∧
      (base.bcm_chips.map (fun c => c.module)).Nodup ∧
      ∀ c ∈ base.bcm_chips, 0 ≤ c.unit ∧ 0 ≤ c.module ∧ 0 ≤ c.pci_bus ∧ 0 ≤ c.pci_slot ∧
        (base.auto_add_slot = true → c.slot = 0) ∧
        (base.auto_add_slot = false → 0 < c.slot)) ∧
    ∀ p ∈ base.bcm_ports,
      0 < p.port ∧ (0 ≤ p.channel ∧ p.channel ≤ 4) ∧
      (0 < p.speed_bps ∧ p.speed_bps % 10 ^ 9 = 0) ∧
      (0 ≤ p.serdes_lane ∧ p.serdes_lane ≤ 3) ∧
      (p.type ≠ BcmPortType.MGMT → 1 ≤ p.num_serdes_lanes ∧ p.num_serdes_lanes ≤ 4) ∧
      (0 ≤ p.tx_lane_map ∧ 0 ≤ p.rx_lane_map ∧ 0 ≤ p.tx_polarity_flip ∧
        0 ≤ p.rx_polarity_flip) ∧
      (∃ c ∈ base.bcm_chips, c.unit = p.unit) ∧
      (∃ c ∈ base.bcm_chips, c.module = p.module) ∧
      (base.auto_add_logical_ports = true → p.logical_port = 0) ∧
      (base.auto_add_logical_ports = false → 0 < p.logical_port) := by
  obtain ⟨maps, st, _, _, hchips, hports⟩ := ReadBaseBcmChassisMapFromFile_ok _ _ _ h
  obtain ⟨hf, hnu, hnm, _, hu, hm⟩ := verifyBaseChips_spec _ _ _ _ hchips
  refine ⟨⟨hnu, hnm, hf⟩, ?_⟩
  intro p hp
  obtain ⟨h1, h2, h3, h4, h5, h6, h7, h8, h9, h10⟩ :=
    verifyBasePort_spec _ _ _ _ (verifyBasePorts_ok _ _ _ _ hports p hp)
  refine ⟨h1, h2, h3, h4, h5, h6, ?_, ?_, h9, h10⟩
  · have := (hu p.unit).1 h7.2
    simpa [setCount] using this
  · have := (hm p.module).1 h8.2
    simpa [setCount] using this

/-- Witness for C32: the base map file of Scenario A. -/
theorem C32_base_map_checks_witness :
    ReadBaseBcmChassisMapFromFile scenarioAEnv.file "" = Except.ok scenarioABase ∧
    (scenarioABase.bcm_chips.map (fun c => c.unit)).Nodup :=
  ⟨by rfl, (C32_base_map_checks scenarioAEnv.file "" scenarioABase (by rfl)).1.1⟩

/-! ## The TRIDENT_PLUS platform -/

/-- The chips that `addBcmChips` adds are chips of the base map with a supported type, and
there is one for every entry of `node_id_to_unit` with a non-negative unit. -/
theorem addBcmChips_mem (sup : List BcmChipType) (bc : List BcmChip) (m : List (Nat × Int))
    (res : List BcmChip) (h : addBcmChips sup bc [] m = Except.ok res) :
    (∀ c ∈ res, sup.contains c.type = true) ∧
    ∀ e ∈ m, 0 ≤ e.2 → ∃ c ∈ res, c.unit = e.2 ∧
      bc.find? (fun bcm_chip => e.2 == bcm_chip.unit) = some c := by
  obtain ⟨new, hres, hall⟩ := addBcmChips_ok _ _ _ _ _ h
  rw [List.nil_append] at hres
  subst hres
  constructor
  · intro c hc
    obtain ⟨e, _, _, hs⟩ := forall₂_mem_right hall c hc
    exact hs
  · intro e he hpos
    have hmem : e ∈ m.filter (fun e => decide (0 ≤ e.2)) :=
      List.mem_filter.2 ⟨he, by simpa using hpos⟩
    obtain ⟨c, hc, hf, _⟩ := forall₂_mem_left hall e hmem
    refine ⟨c, hc, ?_, hf⟩
    have := List.find?_some hf
    simp only [beq_iff_eq] at this
    exact this.symm

/-- C38: for a config whose platform is `PLT_GENERIC_TRIDENT_PLUS` and that has at least one
singleton port, the resolver returns an error, whatever the base map file: the chip of a
port must be a TRIDENT_PLUS; with a port that is not flex the number of ports of that chip
is at least 1 and the cap of a TRIDENT_PLUS is 0, and with a flex port the flex expansion
has no minimum speed for a TRIDENT_PLUS.  The error code is `ERR_INTERNAL`, or the code of
the error of reading the file. -/
theorem C38_trident_plus_rejected (k : Constants)
    (file : Except ErrorCode (List BcmChassisMap)) (config : ChassisConfig)
    (hplat : config.chassis = some { platform := Platform.PLT_GENERIC_TRIDENT_PLUS })
    (hports : config.singleton_ports ≠ []) :
    ∃ e, GenerateBcmChassisMapFromConfig k file config = Except.error e ∧
      (e = ErrorCode.ERR_INTERNAL ∨ file = Except.error e) := by
  have hno : ∀ r, GenerateBcmChassisMapFromConfig k file config ≠ Except.ok r := by
    rintro ⟨base, target⟩ h
    obtain ⟨base0, h0, hpop, hgen⟩ := GenerateBcmChassisMapFromConfig_ok k file config _ _ h
    have hbp := base_port_unit_nonneg file config base0 base h0 hpop
    obtain ⟨chassis, supported, nodeMap, st, chips, ports, ports', hch, _, hsup, _, hloop,
      hchips, _, _, hflex, hmax, _, _, _⟩ := generateTarget_ok k base config target hgen
    rw [hplat] at hch
    cases hch
    simp only [supportedChipTypes, pure_ok_iff] at hsup
    subst hsup
    obtain ⟨s, hs⟩ := List.exists_mem_of_ne_nil _ hports
    obtain ⟨b, hb, hnode⟩ :=
      singletonPortLoop_node_unit k base.bcm_ports hbp config.singleton_ports _ st hloop s hs
    obtain ⟨hbm, _, hbs, hbport, hbc, _⟩ := find_match_some _ _ _ hb
    obtain ⟨hty, hent⟩ := addBcmChips_mem _ _ _ _ hchips
    obtain ⟨c, hc, hcu, hfind⟩ := hent (s.node, b.unit) (mapFind_mem lawful_nat _ _ _ hnode)
      (hbp b hbm)
    have hctype : ∀ c ∈ chips, c.type = BcmChipType.TRIDENT_PLUS := by
      intro c hc
      have := hty c hc
      simpa using this
    cases hbf : b.flex_port
    · -- the port is not flex: it is in the target, on a chip whose cap is 0
      have hin : b ∈ st.bcm_ports := by
        rw [singletonPortLoop_ports k base.bcm_ports config.singleton_ports _ st hloop]
        simp only [List.nil_append, List.mem_filterMap]
        exact ⟨s, hs, by simp [hb, hbf]⟩
      obtain ⟨groups, hgr, _⟩ := addFlexPorts_ok _ _ _ _ _ hflex
      have hinp : b ∈ ports := by
        rw [hgr]
        exact List.mem_append_left _ hin
      obtain ⟨c', hc', hcu', hmf⟩ := unitToChipType_spec chips c hc
      have hle := checkMaxNumPorts_ok k _ _ hmax _ (mapFind_mem lawful_int _ _ _ hmf)
      rw [hctype c' hc'] at hle
      simp only [chip_type_to_max_num_ports, Nat.le_zero, List.length_eq_zero] at hle
      have hmem := ((unitToSlotPortChannels_spec ports).2 c.unit
        (b.slot, b.port, b.channel)).2 ⟨b, hinp, hcu.symm, rfl⟩
      rw [hle] at hmem
      cases hmem
    · -- the port is flex: the expansion of its pair fails
      have hpair := singletonPortLoop_flex_mem k base.bcm_ports config.singleton_ports _ st
        hloop s hs b hb hbf
      obtain ⟨groups, _, hgall⟩ := addFlexPorts_ok _ _ _ _ _ hflex
      obtain ⟨g, _, unit, v, hunits, hv, _⟩ := forall₂_mem_left hgall _ hpair
      have hbu : b.unit = unit := flexUnits_singleton _ _ _ hunits b hbm hbs.symm hbport.symm
      have hfc : flexChipType base.bcm_chips unit = BcmChipType.TRIDENT_PLUS := by
        unfold flexChipType
        have e : (fun (bcm_chip : BcmChip) => bcm_chip.unit == unit) =
            (fun bcm_chip => b.unit == bcm_chip.unit) := by
          funext x
          rw [hbu]
          rw [Bool.eq_iff_iff]
          simp only [beq_iff_eq]
          exact eq_comm
        rw [e, hfind]
        exact hctype c hc
      rw [hfc] at hv
      cases hv
  obtain ⟨e, he⟩ := error_of_not_ok _ hno
  exact ⟨e, he, GenerateBcmChassisMapFromConfig_error k file config e he⟩

/-- Witness for C38: one non-flex 40G port on a TRIDENT_PLUS chip; every check before the one
of the number of ports per chip passes, and that one fails. -/
theorem C38_trident_plus_rejected_witness :
    tridentPlusConfig.chassis = some { platform := Platform.PLT_GENERIC_TRIDENT_PLUS } ∧
    tridentPlusConfig.singleton_ports ≠ [] ∧
    ∃ e, GenerateBcmChassisMapFromConfig scenarioAEnv.k (Except.ok [tridentPlusBase])
        tridentPlusConfig = Except.error e ∧
      (e = ErrorCode.ERR_INTERNAL ∨
        (Except.ok [tridentPlusBase] : Except ErrorCode (List BcmChassisMap)) =
          Except.error e) :=
  ⟨rfl, by decide,
    C38_trident_plus_rejected scenarioAEnv.k (Except.ok [tridentPlusBase]) tridentPlusConfig
      rfl (by decide)⟩

/-! ## The lines that disable DMA -/

theorem head_append (p s : String) (c : Char) (h : p.data.head? = some c) :
    (p ++ s).data.head? = some c := by
  rw [String.data_append]
  cases hp : p.data with
  | nil => rw [hp] at h; cases h
  | cons a rest => rw [hp] at h; simpa using h

/-- A line that `WriteBcmConfigFile` makes up itself, as opposed to an SDK property that it
copies: it is empty or starts with `p`, `d` or `x`, so it is none of the three lines. -/
theorem made_up_line_ne (line : String)
    (h : line = "" ∨ line.data.head? = some 'p' ∨ line.data.head? = some 'd' ∨
      line.data.head? = some 'x')
    (h3 : line ∈ ["tdma_intr_enable=0", "tslam_dma_enable=0", "table_dma_enable=0"]) :
    False := by
  simp only [List.mem_cons, List.mem_singleton, List.not_mem_nil, or_false] at h3
  rcases h3 with rfl | rfl | rfl <;> revert h <;> decide

theorem laneLines_made_up (name : String) (c : Char) (hn : name.data.head? = some c)
    (bcm_port : BcmPort) (value : Int) :
    ∀ line ∈ laneLines name bcm_port value, line.data.head? = some c := by
  intro line hl
  unfold laneLines at hl
  split at hl
  · simp only [List.mem_singleton] at hl
    subst hl
    iterate 5 apply head_append
    exact hn
  · cases hl

theorem bcmConfigPortLines_lines (chips : List BcmChip) (bcm_port : BcmPort)
    (lines : List String) (h : bcmConfigPortLines chips bcm_port = Except.ok lines) :
    ∀ line ∈ lines, line ∈ bcm_port.sdk_properties ∨
      (line = "" ∨ line.data.head? = some 'p' ∨ line.data.head? = some 'd' ∨
        line.data.head? = some 'x') := by
  unfold bcmConfigPortLines at h
  simp only [bind_ok_iff, pure_ok_iff] at h
  obtain ⟨speed, _, rfl⟩ := h
  intro line hl
  simp only [List.mem_append, List.mem_cons, List.mem_singleton, List.not_mem_nil,
    or_false] at hl
  rcases hl with ((((((hl | hl) | hl) | hl) | hl) | hl) | hl) | hl
  · right; right; left
    subst hl
    unfold portmapLine
    iterate 8 apply head_append
    rfl
  · right; right; right; left
    subst hl
    unfold dportMapLine
    iterate 5 apply head_append
    rfl
  · right; right; right; right
    exact laneLines_made_up _ _ (by rfl) _ _ line hl
  · right; right; right; right
    exact laneLines_made_up _ _ (by rfl) _ _ line hl
  · right; right; left
    exact laneLines_made_up _ _ (by rfl) _ _ line hl
  · right; right; left
    exact laneLines_made_up _ _ (by rfl) _ _ line hl
  · left; exact hl
  · right; left; exact hl

theorem bcmConfigPortsLines_lines (chips : List BcmChip) (bcm_ports : List BcmPort) :
    ∀ lines, bcmConfigPortsLines chips bcm_ports = Except.ok lines →
    ∀ line ∈ lines, (∃ p ∈ bcm_ports, line ∈ p.sdk_properties) ∨
      (line = "" ∨ line.data.head? = some 'p' ∨ line.data.head? = some 'd' ∨
        line.data.head? = some 'x') := by
  induction bcm_ports with
  | nil =>
    intro lines h line hl
    simp only [bcmConfigPortsLines, pure_ok_iff] at h
    subst h
    cases hl
  | cons q rest ih =>
    intro lines h line hl
    unfold bcmConfigPortsLines at h
    simp only [bind_ok_iff, pure_ok_iff] at h
    obtain ⟨ql, hq, more, hmore, rfl⟩ := h
    rcases List.mem_append.1 hl with hl | hl
    · rcases bcmConfigPortLines_lines chips q ql hq line hl with h1 | h1
      · exact Or.inl ⟨q, List.mem_cons_self _ _, h1⟩
      · exact Or.inr h1
    · rcases ih more hmore line hl with ⟨p, hp, h1⟩ | h1
      · exact Or.inl ⟨p, List.mem_cons_of_mem _ hp, h1⟩
      · exact Or.inr h1

theorem xePbmpLines_made_up (masks : XePbmpMasks) (oversub : List Bool) (i : Nat) :
    ∀ line ∈ xePbmpLines masks oversub i, line.data.head? = some 'p' := by
  intro line hl
  unfold xePbmpLines at hl
  simp only [] at hl
  split at hl
  · rcases List.mem_append.1 hl with hl | hl
    · simp only [List.mem_singleton] at hl
      subst hl
      iterate 3 apply head_append
      rfl
    · split at hl
      · simp only [List.mem_singleton] at hl
        subst hl
        iterate 3 apply head_append
        rfl
      · cases hl
  · cases hl

/-- Where the three lines that disable DMA are: (1) in simulation mode, for an applied map
that has a `bcm_chassis` message, the three lines `tdma_intr_enable=0`, `tslam_dma_enable=0`,
`table_dma_enable=0` follow the chassis-level SDK properties; (2) in every other mode, and
for an applied map without a `bcm_chassis` message, each of the three lines that is among the
lines of the file is an SDK property of the chassis, of a chip or of a port. -/
theorem bcmConfigLines_dma_lines (mode_ : OperationMode)
    (base_bcm_chassis_map target_bcm_chassis_map : BcmChassisMap) (lines : List String)
    (h : bcmConfigLines mode_ base_bcm_chassis_map target_bcm_chassis_map = Except.ok lines) :
    (mode_ = OperationMode.OPERATION_MODE_SIM →
      ∀ bcm_chassis, target_bcm_chassis_map.bcm_chassis = some bcm_chassis →
        ∃ post, lines = bcm_chassis.sdk_properties ++
          ["tdma_intr_enable=0", "tslam_dma_enable=0", "table_dma_enable=0"] ++ post) ∧
    (mode_ ≠ OperationMode.OPERATION_MODE_SIM ∨ target_bcm_chassis_map.bcm_chassis = none →
      ∀ line ∈ lines,
        line ∈ ["tdma_intr_enable=0", "tslam_dma_enable=0", "table_dma_enable=0"] →
        (∃ bcm_chassis, target_bcm_chassis_map.bcm_chassis = some bcm_chassis ∧
          line ∈ bcm_chassis.sdk_properties) ∨
        (∃ bcm_chip ∈ target_bcm_chassis_map.bcm_chips, line ∈ bcm_chip.sdk_properties) ∨
        (∃ bcm_port ∈ target_bcm_chassis_map.bcm_ports, line ∈ bcm_port.sdk_properties)) := by
  unfold bcmConfigLines at h
  simp only [bind_ok_iff, pure_ok_iff] at h
  obtain ⟨port_lines, hpl, rfl⟩ := h
  constructor
  · intro hsim c hc
    subst hsim
    refine ⟨[""] ++ bcmConfigChipLines target_bcm_chassis_map.bcm_chips ++
      bcmConfigPbmpLines base_bcm_chassis_map target_bcm_chassis_map ++ port_lines, ?_⟩
    simp [bcmConfigChassisLines, hc]
  · intro hmode line hl h3
    simp only [List.mem_append] at hl
    rcases hl with ((hl | hl) | hl) | hl
    · -- chassis-level lines
      unfold bcmConfigChassisLines at hl
      cases hc : target_bcm_chassis_map.bcm_chassis with
      | none => rw [hc] at hl; cases hl
      | some c =>
        rw [hc] at hl
        have hns : mode_ ≠ OperationMode.OPERATION_MODE_SIM := by
          rcases hmode with hm | hm
          · exact hm
          · rw [hc] at hm; cases hm
        have hb : (mode_ == OperationMode.OPERATION_MODE_SIM) = false := by
          simpa using hns
        simp only [hb, Bool.false_eq_true, if_false, List.append_nil, List.mem_append,
          List.mem_singleton] at hl
        rcases hl with hl | hl
        · exact Or.inl ⟨c, rfl, hl⟩
        · exact (made_up_line_ne line (Or.inl hl) h3).elim
    · -- chip-level lines
      unfold bcmConfigChipLines at hl
      obtain ⟨chip, hchip, hin⟩ := List.mem_flatMap.1 hl
      split at hin
      · rcases List.mem_append.1 hin with hin | hin
        · exact Or.inr (Or.inl ⟨chip, hchip, hin⟩)
        · simp only [List.mem_singleton] at hin
          exact (made_up_line_ne line (Or.inl hin) h3).elim
      · cases hin
    · -- the port bitmaps
      unfold bcmConfigPbmpLines at hl
      rcases List.mem_append.1 hl with hl | hl
      · obtain ⟨i, _, hin⟩ := List.mem_flatMap.1 hl
        exact (made_up_line_ne line (Or.inr (Or.inl (xePbmpLines_made_up _ _ _ line hin)))
          h3).elim
      · simp only [List.mem_singleton] at hl
        exact (made_up_line_ne line (Or.inl hl) h3).elim
    · -- the lines of the ports
      rcases bcmConfigPortsLines_lines _ _ port_lines hpl line hl with ⟨p, hp, hin⟩ | hmade
      · exact Or.inr (Or.inr ⟨p, hp, hin⟩)
      · exact (made_up_line_ne line hmade h3).elim

/-- The lines for `chassisTarget` in simulation mode. -/
theorem bcmConfigLines_dma_lines_example :
    bcmConfigLines OperationMode.OPERATION_MODE_SIM scenarioABaseOut chassisTarget =
      Except.ok ["os=unix", "tdma_intr_enable=0", "tslam_dma_enable=0", "table_dma_enable=0",
        "", "pbmp_xport_xe.0=0x2", "", "portmap_1.0=0:40", "dport_map_port_1.0=0", ""] ∧
    ∃ post, ["os=unix", "tdma_intr_enable=0", "tslam_dma_enable=0", "table_dma_enable=0",
        "", "pbmp_xport_xe.0=0x2", "", "portmap_1.0=0:40", "dport_map_port_1.0=0", ""] =
      ["os=unix"] ++ ["tdma_intr_enable=0", "tslam_dma_enable=0", "table_dma_enable=0"] ++
        post :=
  ⟨by rfl,
    (bcmConfigLines_dma_lines OperationMode.OPERATION_MODE_SIM scenarioABaseOut chassisTarget _
      (by rfl)).1 rfl { sdk_properties := ["os=unix"] } rfl⟩

/-! ## The order in which the chips are attached -/

theorem mem_mapSet {κ V : Type} [KeyOrd κ] (hl : KeyOrd.Lawful κ) (k : κ) (v : V)
    (m : List (κ × V)) (e : κ × V) (h : e ∈ mapSet k v m) : e = (k, v) ∨ e ∈ m := by
  induction m with
  | nil =>
    simp only [mapSet, List.mem_singleton] at h
    exact Or.inl h
  | cons e' m ih =>
    obtain ⟨k', v'⟩ := e'
    simp only [mapSet] at h
    split at h
    · rcases List.mem_cons.1 h with h | h
      · exact Or.inl h
      · exact Or.inr h
    · split at h
      · rcases List.mem_cons.1 h with h | h
        · exact Or.inr (h ▸ List.mem_cons_self _ _)
        · rcases ih h with h | h
          · exact Or.inl h
          · exact Or.inr (List.mem_cons_of_mem _ h)
      · rename_i h1 h2
        rcases List.mem_cons.1 h with h | h
        · left
          have hk : k = k' := hl.tri k k' (by simpa using h1) (by simpa using h2)
          rw [h, hk]
        · exact Or.inr (List.mem_cons_of_mem _ h)

/-- The map `node_id_to_unit` after the loop over the nodes: its keys are in ascending order
and every node has the unit -1. -/
theorem validateNodes_spec (nodes : List Node) :
    ∀ (init nodeMap : List (Nat × Int)), validateNodes init nodes = Except.ok nodeMap →
      SetSorted (init.map Prod.fst) → (∀ e ∈ init, e.2 = -1) →
      SetSorted (nodeMap.map Prod.fst) ∧ ∀ e ∈ nodeMap, e.2 = -1 := by
  induction nodes with
  | nil =>
    intro init nodeMap h hs hv
    simp only [validateNodes, pure_ok_iff] at h
    subst h
    exact ⟨hs, hv⟩
  | cons node rest ih =>
    intro init nodeMap h hs hv
    simp only [validateNodes, bind_ok_iff, CHECK_ok_iff] at h
    obtain ⟨_, _, _, _, _, _, h⟩ := h
    refine ih _ _ h ?_ ?_
    · rw [mapSet_keys]
      exact setInsert_sorted lawful_nat _ _ hs
    · intro e he
      rcases mem_mapSet lawful_nat _ _ _ _ he with he | he
      · rw [he]
      · exact hv e he

/-- The map `node_id_to_unit` after the loop over the singleton ports: its keys are in
ascending order, and the unit of a node is -1 or the unit of the first base port that matches
a singleton port of the node. -/
theorem singletonPortLoop_node_map (k : Constants) (bp : List BcmPort)
    (ports : List SingletonPort) (st st' : PortLoopState)
    (h : singletonPortLoop k bp st ports = Except.ok st')
    (hs : SetSorted (st.node_id_to_unit.map Prod.fst))
    (hv : ∀ e ∈ st.node_id_to_unit, e.2 = -1) :
    SetSorted (st'.node_id_to_unit.map Prod.fst) ∧
    ∀ e ∈ st'.node_id_to_unit, e.2 = -1 ∨
      ∃ s ∈ ports, s.node = e.1 ∧
        ∃ b, bp.find? (IsSingletonPortMatchesBcmPort s) = some b ∧ b.unit = e.2 := by
  have key := singletonPortLoop_induction k bp
    (fun done st => SetSorted (st.node_id_to_unit.map Prod.fst) ∧
      ∀ e ∈ st.node_id_to_unit, e.2 = -1 ∨
        ∃ s ∈ done, s.node = e.1 ∧
          ∃ b, bp.find? (IsSingletonPortMatchesBcmPort s) = some b ∧ b.unit = e.2)
    (by
      intro done st s st' hP hstep
      obtain ⟨hsorted, hall⟩ := hP
      obtain ⟨b, hb⟩ := singletonPortStep_ok k bp st s st' hstep
      have hold : ∀ e ∈ st.node_id_to_unit, e.2 = -1 ∨
          ∃ s' ∈ done ++ [s], s'.node = e.1 ∧
            ∃ b, bp.find? (IsSingletonPortMatchesBcmPort s') = some b ∧ b.unit = e.2 := by
        intro e he
        rcases hall e he with h1 | ⟨s', hs', h1⟩
        · exact Or.inl h1
        · exact Or.inr ⟨s', List.mem_append_left _ hs', h1⟩
      rcases hb.node with ⟨_, hset⟩ | ⟨_, _, hsame⟩
      · rw [hset]
        refine ⟨?_, ?_⟩
        · rw [mapSet_keys]
          exact setInsert_sorted lawful_nat _ _ hsorted
        · intro e he
          rcases mem_mapSet lawful_nat _ _ _ _ he with he | he
          · right
            refine ⟨s, List.mem_append_right _ (List.mem_singleton_self _), ?_, b, hb.found, ?_⟩
            · rw [he]
            · rw [he]
          · exact hold e he
      · rw [hsame]
        exact ⟨hsorted, hold⟩)
  have := key ports [] st st' ⟨hs, fun e he => Or.inl (hv e he)⟩ h
  simpa using this

theorem forall₂_chip_units (bc : List BcmChip) (sup : List BcmChipType)
    (es : List (Nat × Int)) (new : List BcmChip)
    (h : List.Forall₂ (fun (e : Nat × Int) c =>
        bc.find? (fun bcm_chip => e.2 == bcm_chip.unit) = some c ∧ sup.contains c.type = true)
        es new) :
    new.map (fun c => c.unit) = es.map Prod.snd := by
  induction h with
  | nil => rfl
  | cons hh _ ih =>
    simp only [List.map_cons, ih]
    have := List.find?_some hh.1
    simp only [beq_iff_eq] at this
    rw [this]

/-- The chips of the target map are those of the nodes that have a singleton port, in the order
of the node ids. -/
theorem generateTarget_chip_order (k : Constants)
    (file : Except ErrorCode (List BcmChassisMap)) (config : ChassisConfig)
    (base target : BcmChassisMap)
    (h : GenerateBcmChassisMapFromConfig k file config = Except.ok (base, target)) :
    ∃ nodeUnits : List (Nat × Int),
      SetSorted (nodeUnits.map Prod.fst) ∧
      target.bcm_chips.map (fun c => c.unit) = nodeUnits.map Prod.snd ∧
      (∀ e ∈ nodeUnits, ∃ s ∈ config.singleton_ports, s.node = e.1 ∧
        ∃ b, base.bcm_ports.find? (IsSingletonPortMatchesBcmPort s) = some b ∧ b.unit = e.2) ∧
      (∀ s ∈ config.singleton_ports, ∃ e ∈ nodeUnits, e.1 = s.node) := by
  obtain ⟨base0, h0, hpop, hgen⟩ := GenerateBcmChassisMapFromConfig_ok k file config _ _ h
  have hbp := base_port_unit_nonneg file config base0 base h0 hpop
  obtain ⟨chassis, supported, nodeMap, st, chips, ports, ports', _, _, _, hnodes, hloop,
    hchips, _, _, _, _, _, _, ht⟩ := generateTarget_ok k base config target hgen
  obtain ⟨hs0, hv0⟩ := validateNodes_spec _ _ _ hnodes (by simp [SetSorted])
    (by intro e he; cases he)
  obtain ⟨hs, hv⟩ := singletonPortLoop_node_map k base.bcm_ports config.singleton_ports _ st
    hloop hs0 hv0
  obtain ⟨new, hnew, hall⟩ := addBcmChips_ok _ _ _ _ _ hchips
  refine ⟨st.node_id_to_unit.filter (fun e => decide (0 ≤ e.2)), ?_, ?_, ?_, ?_⟩
  · unfold SetSorted at hs ⊢
    exact hs.sublist ((List.filter_sublist _).map _)
  · rw [ht]
    simp only [hnew, List.nil_append]
    exact forall₂_chip_units _ _ _ _ hall
  · intro e he
    simp only [List.mem_filter, decide_eq_true_eq] at he
    rcases hv e he.1 with h1 | h1
    · omega
    · exact h1
  · intro s hsm
    obtain ⟨b, hb, hnode⟩ :=
      singletonPortLoop_node_unit k base.bcm_ports hbp config.singleton_ports _ st hloop s hsm
    refine ⟨(s.node, b.unit), ?_, rfl⟩
    simp only [List.mem_filter, decide_eq_true_eq]
    exact ⟨mapFind_mem lawful_nat _ _ _ hnode, hbp b (find_match_some _ _ _ hb).1⟩

theorem Op.bind_calls_ok {α β : Type} (x : Op α) (f : α → Op β) (m : BcmChassisManager) (b : β)
    (h : (Op.bind x f m).status = Except.ok b) :
    ∃ a, (x m).status = Except.ok a ∧ (f a (x m).mgr).status = Except.ok b ∧
      (Op.bind x f m).calls = (x m).calls ++ (f a (x m).mgr).calls := by
  cases hs : (x m).status with
  | error e =>
    rw [Op.bind_of_error x f m e hs] at h
    cases h
  | ok a =>
    rw [Op.bind_of_ok x f m a hs] at h ⊢
    exact ⟨a, rfl, h, rfl⟩

/-- The calls of the loop over the chips, when it returns OK: the three calls of every chip,
in the order of the list. -/
theorem forEach_attachUnit_calls (env : Env) (chips : List BcmChip) (m : BcmChassisManager)
    (h : (Op.forEach (attachUnit env) chips m).status = Except.ok ()) :
    (Op.forEach (attachUnit env) chips m).calls =
      attachCalls chips := by
  unfold attachCalls
  induction chips generalizing m with
  | nil => rfl
  | cons c rest ih =>
    simp only [Op.forEach] at h ⊢
    obtain ⟨_, h1, h2, hc⟩ := Op.bind_calls_ok _ _ _ _ h
    rw [hc, ih _ h2, List.flatMap_cons]
    congr 1
    unfold attachUnit at h1 ⊢
    simp only [Op.bind_eq] at h1 ⊢
    obtain ⟨_, _, h3, hc1⟩ := Op.bind_calls_ok _ _ _ _ h1
    obtain ⟨_, _, _, hc2⟩ := Op.bind_calls_ok _ _ _ _ h3
    rw [hc1, hc2]
    rfl

theorem filter_attach_of_callsIn {α : Type} (x : Op α)
    (h : Op.CallsIn (fun c => c.isAttachCall = false) x) (m : BcmChassisManager) :
    (x m).calls.filter Call.isAttachCall = [] := by
  rw [List.filter_eq_nil_iff]
  intro c hc
  simp [h m c hc]

theorem filter_attach_triples (chips : List BcmChip) :
    (attachCalls chips).filter Call.isAttachCall =
      attachCalls chips := by
  rw [List.filter_eq_self]
  intro c hc
  unfold attachCalls at hc
  obtain ⟨chip, _, hin⟩ := List.mem_flatMap.1 hc
  simp only [List.mem_cons, List.mem_singleton, List.not_mem_nil, or_false] at hin
  rcases hin with rfl | rfl | rfl <;> rfl

/-- The calls of `InitializeBcmChips`, when it returns OK: the three calls of every chip of
the target map, in the order of its list of chips and with no other call in between; none of
the calls before and after them is a call that attaches a chip. -/
theorem InitializeBcmChips_attach_calls (env : Env) (base target : BcmChassisMap)
    (m : BcmChassisManager)
    (h : ((BcmChassisManager.InitializeBcmChips env base target).run m).status =
      Except.ok ()) :
    ∃ pre post,
      ((BcmChassisManager.InitializeBcmChips env base target).run m).calls =
        pre ++ attachCalls target.bcm_chips ++ post ∧
      pre.filter Call.isAttachCall = [] ∧ post.filter Call.isAttachCall = [] := by
  have step : ∀ (T a l : List Call), a.filter Call.isAttachCall = [] →
      (∃ pre post, l = pre ++ T ++ post ∧ pre.filter Call.isAttachCall = [] ∧
        post.filter Call.isAttachCall = []) →
      ∃ pre post, a ++ l = pre ++ T ++ post ∧ pre.filter Call.isAttachCall = [] ∧
        post.filter Call.isAttachCall = [] := by
    intro T a l ha hl
    obtain ⟨pre, post, rfl, h1, h2⟩ := hl
    refine ⟨a ++ pre, post, by simp only [List.append_assoc], ?_, h2⟩
    rw [List.filter_append, ha, h1]
    rfl
  have h1 := filter_attach_of_callsIn Op.get (Op.callsIn_get _)
  have h2 : ∀ (b : Bool) m', ((if b = true then Op.fail ErrorCode.ERR_INTERNAL
      else Op.pure ()) m').calls.filter Call.isAttachCall = [] := by
    intro b m'
    cases b <;> rfl
  have h3 := filter_attach_of_callsIn (Op.lift (checkPrunedBcmChassisMap base target))
    (Op.callsIn_lift _ _)
  have h4 : ∀ m', ((BcmChassisManager.WriteBcmConfigFile env base target) m').calls.filter
      Call.isAttachCall = [] := by
    refine filter_attach_of_callsIn _ ?_
    unfold BcmChassisManager.WriteBcmConfigFile
    simp only [Op.bind_eq]
    refine Op.callsIn_bind _ _ _ (Op.callsIn_get _) (fun _ => ?_)
    refine Op.callsIn_bind _ _ _ (Op.callsIn_lift _ _) (fun _ => ?_)
    exact Op.callsIn_call _ _ _ rfl
  have h5 := filter_attach_of_callsIn
    (Op.call Call.RecursivelyCreateDir (env.status Call.RecursivelyCreateDir))
    (Op.callsIn_call _ _ _ rfl)
  have h6 := filter_attach_of_callsIn
    (Op.call Call.InitializeSdk (env.status Call.InitializeSdk))
    (Op.callsIn_call _ _ _ rfl)
  have h7 : ∀ m', ((Op.forEach
      (fun (bcm_port : BcmPort) =>
        Op.call (Call.InitializePort bcm_port.unit bcm_port.logical_port)
          (env.status (Call.InitializePort bcm_port.unit bcm_port.logical_port)))
      target.bcm_ports) m').calls.filter Call.isAttachCall = [] := by
    refine filter_attach_of_callsIn _ ?_
    refine Op.callsIn_forEach _ _ (fun bcm_port => ?_) _
    exact Op.callsIn_call _ _ _ rfl
  have h8 := filter_attach_of_callsIn
    (Op.call Call.StartDiagShellServer (env.status Call.StartDiagShellServer))
    (Op.callsIn_call _ _ _ rfl)
  unfold Op.run at h ⊢
  unfold BcmChassisManager.InitializeBcmChips at h ⊢
  simp only [Op.bind_eq] at h ⊢
  obtain ⟨_, _, h, hc⟩ := Op.bind_calls_ok _ _ _ _ h
  rw [hc]; clear hc
  refine step _ _ _ (h1 _) ?_
  obtain ⟨_, _, h, hc⟩ := Op.bind_calls_ok _ _ _ _ h
  rw [hc]; clear hc
  refine step _ _ _ (h2 _ _) ?_
  obtain ⟨_, _, h, hc⟩ := Op.bind_calls_ok _ _ _ _ h
  rw [hc]; clear hc
  refine step _ _ _ (h3 _) ?_
  obtain ⟨_, _, h, hc⟩ := Op.bind_calls_ok _ _ _ _ h
  rw [hc]; clear hc
  refine step _ _ _ (h4 _) ?_
  obtain ⟨_, _, h, hc⟩ := Op.bind_calls_ok _ _ _ _ h
  rw [hc]; clear hc
  refine step _ _ _ (h5 _) ?_
  obtain ⟨_, _, h, hc⟩ := Op.bind_calls_ok _ _ _ _ h
  rw [hc]; clear hc
  refine step _ _ _ (h6 _) ?_
  obtain ⟨_, hattach, h, hc⟩ := Op.bind_calls_ok _ _ _ _ h
  rw [hc]; clear hc
  obtain ⟨_, _, h, hc⟩ := Op.bind_calls_ok _ _ _ _ h
  rw [hc]; clear hc
  rw [forEach_attachUnit_calls env _ _ hattach]
  refine ⟨[], _, rfl, rfl, ?_⟩
  rw [List.filter_append, h7, h8]
  rfl

/-- C31 (amended): during the first push, when the resolver gives the maps `(base, target)`
and `InitializeBcmChips` returns OK on them, the chips are attached in the order of the list
of chips of the applied map: the calls are `FindUnit`, `InitializeUnit` with
`warm_boot = false` and `SetModuleId` for the first chip, then the same for the next one, with
no other call in between and no such call before or after.  That order is the ascending order
of the ids of the nodes that have a singleton port, each node giving the unit of the base port
that its singleton ports match; it is not the ascending order of the units. -/
theorem C31_attach_order (env : Env) (config : ChassisConfig) (base target : BcmChassisMap)
    (m : BcmChassisManager)
    (hgen : GenerateBcmChassisMapFromConfig env.k env.file config = Except.ok (base, target))
    (hinit : ((BcmChassisManager.InitializeBcmChips env base target).run m).status =
      Except.ok ()) :
    (∃ pre post,
      ((BcmChassisManager.InitializeBcmChips env base target).run m).calls =
        pre ++ attachCalls target.bcm_chips ++ post ∧
      pre.filter Call.isAttachCall = [] ∧ post.filter Call.isAttachCall = []) ∧
    ∃ nodeUnits : List (Nat × Int),
      SetSorted (nodeUnits.map Prod.fst) ∧
      target.bcm_chips.map (fun c => c.unit) = nodeUnits.map Prod.snd ∧
      (∀ e ∈ nodeUnits, ∃ s ∈ config.singleton_ports, s.node = e.1 ∧
        ∃ b, base.bcm_ports.find? (IsSingletonPortMatchesBcmPort s) = some b ∧ b.unit = e.2) ∧
      (∀ s ∈ config.singleton_ports, ∃ e ∈ nodeUnits, e.1 = s.node) :=
  ⟨InitializeBcmChips_attach_calls env base target m hinit,
    generateTarget_chip_order env.k env.file config base target hgen⟩

/-- Witness for C31: the first push of the config with two nodes whose units are in the
opposite order. -/
theorem C31_attach_order_witness :
    GenerateBcmChassisMapFromConfig twoChipEnv.k twoChipEnv.file crossedNodesConfig =
      Except.ok (crossedBaseOut, crossedTarget) ∧
    ((BcmChassisManager.InitializeBcmChips twoChipEnv crossedBaseOut crossedTarget).run
      (freshManager twoChipEnv)).status = Except.ok () ∧
    attachCalls crossedTarget.bcm_chips =
      [Call.FindUnit 1 0 0 BcmChipType.TRIDENT2, Call.InitializeUnit 1 false,
        Call.SetModuleId 1 1, Call.FindUnit 0 0 0 BcmChipType.TRIDENT2,
        Call.InitializeUnit 0 false, Call.SetModuleId 0 0] ∧
    ((∃ pre post,
      ((BcmChassisManager.InitializeBcmChips twoChipEnv crossedBaseOut crossedTarget).run
          (freshManager twoChipEnv)).calls =
        pre ++ attachCalls crossedTarget.bcm_chips ++ post ∧
      pre.filter Call.isAttachCall = [] ∧ post.filter Call.isAttachCall = []) ∧
    ∃ nodeUnits : List (Nat × Int),
      SetSorted (nodeUnits.map Prod.fst) ∧
      crossedTarget.bcm_chips.map (fun c => c.unit) = nodeUnits.map Prod.snd ∧
      (∀ e ∈ nodeUnits, ∃ s ∈ crossedNodesConfig.singleton_ports, s.node = e.1 ∧
        ∃ b, crossedBaseOut.bcm_ports.find? (IsSingletonPortMatchesBcmPort s) = some b ∧
          b.unit = e.2) ∧
      (∀ s ∈ crossedNodesConfig.singleton_ports, ∃ e ∈ nodeUnits, e.1 = s.node)) :=
  ⟨by rfl, by rfl, by rfl,
    C31_attach_order twoChipEnv crossedNodesConfig crossedBaseOut crossedTarget
      (freshManager twoChipEnv) (by rfl) (by rfl)⟩

/-! ## The speed of a flex port group -/

theorem Op.bind_assoc {α β γ : Type} (x : Op α) (f : α → Op β) (g : β → Op γ) :
    Op.bind (Op.bind x f) g = Op.bind x (fun a => Op.bind (f a) g) := by
  funext m
  unfold Op.bind
  rcases hx : x m with ⟨s, m1, c1⟩
  cases s with
  | error e => rfl
  | ok a =>
    simp only
    rcases hf : f a m1 with ⟨s2, m2, c2⟩
    cases s2 with
    | error e => rfl
    | ok b =>
      simp only
      rcases hg : g b m2 with ⟨s3, m3, c3⟩
      simp only [List.append_assoc]

theorem Op.pure_bind {α β : Type} (a : α) (f : α → Op β) : Op.bind (Op.pure a) f = f a := by
  funext m
  exact Op.bind_pure a f m

/-- A loop over a list that is put together from two lists is the loop over the first one
followed by the loop over the second one. -/
theorem Op.forEach_append {α β : Type} (f : α → Op Unit) (l1 l2 : List α) (k : Unit → Op β) :
    Op.bind (Op.forEach f l1) (fun _ => Op.bind (Op.forEach f l2) k) =
      Op.bind (Op.forEach f (l1 ++ l2)) k := by
  induction l1 with
  | nil =>
    simp only [Op.forEach, List.nil_append]
    rw [Op.pure_bind]
  | cons a rest ih =>
    rw [List.cons_append]
    simp only [Op.forEach]
    rw [Op.bind_assoc, Op.bind_assoc]
    simp only [ih]

theorem Op.forEach_singleton {α β : Type} (f : α → Op Unit) (a : α) (k : Unit → Op β) :
    Op.bind (f a) k = Op.bind (Op.forEach f [a]) k := by
  simp only [Op.forEach]
  rw [Op.bind_assoc]
  simp only [Op.pure_bind]

theorem Op.forEach_map {α β : Type} (f : β → Op Unit) (g : α → β) (l : List α) :
    Op.forEach (fun a => f (g a)) l = Op.forEach f (l.map g) := by
  induction l with
  | nil => rfl
  | cons a rest ih => simp only [Op.forEach, List.map_cons, ih]

/-- A sequence of calls that all return OK: all are made, in order. -/
theorem forEach_call_ok (env : Env) (l : List Call) (m : BcmChassisManager)
    (h : ∀ c ∈ l, env.status c = Except.ok ()) :
    Op.forEach (fun c => Op.call c (env.status c)) l m = ⟨Except.ok (), m, l⟩ := by
  induction l with
  | nil => rfl
  | cons c rest ih =>
    simp only [Op.forEach]
    rw [Op.bind_of_ok _ _ m () (by simp [Op.call, h c (List.mem_cons_self _ _)])]
    rw [show (Op.call c (env.status c) m).mgr = m from rfl,
      ih (fun c' hc' => h c' (List.mem_cons_of_mem _ hc'))]
    rfl

/-- A sequence of calls of which one returns an error and the ones before it return OK: the
calls up to that one are made, and its error is the result. -/
theorem forEach_call_error (env : Env) (pre post : List Call) (c : Call) (e : ErrorCode)
    (m : BcmChassisManager) (h : ∀ c' ∈ pre, env.status c' = Except.ok ())
    (hc : env.status c = Except.error e) :
    Op.forEach (fun c => Op.call c (env.status c)) (pre ++ c :: post) m =
      ⟨Except.error e, m, pre ++ [c]⟩ := by
  induction pre with
  | nil =>
    simp only [Op.forEach, List.nil_append]
    rw [Op.bind_of_error _ _ m e (by simp [Op.call, hc])]
    rfl
  | cons c0 rest ih =>
    rw [List.cons_append]
    simp only [Op.forEach]
    rw [Op.bind_of_ok _ _ m () (by simp [Op.call, h c0 (List.mem_cons_self _ _)])]
    rw [show (Op.call c0 (env.status c0) m).mgr = m from rfl,
      ih (fun c' hc' => h c' (List.mem_cons_of_mem _ hc'))]
    rfl

theorem foldl_setInsert_sorted {α β : Type} [KeyOrd α] (h : KeyOrd.Lawful α) (f : β → α)
    (l : List β) (init : List α) (hs : SetSorted init) :
    SetSorted (l.foldl (fun acc a => setInsert (f a) acc) init) := by
  induction l generalizing init with
  | nil => exact hs
  | cons a rest ih => exact ih _ (setInsert_sorted h _ _ hs)

theorem mem_foldl_setInsert {α β : Type} [KeyOrd α] (h : KeyOrd.Lawful α) (f : β → α)
    (l : List β) (init : List α) (x : α) :
    x ∈ l.foldl (fun acc a => setInsert (f a) acc) init ↔ x ∈ init ∨ ∃ a ∈ l, f a = x := by
  induction l generalizing init with
  | nil => simp
  | cons a rest ih =>
    rw [List.foldl_cons, ih, mem_setInsert h]
    constructor
    · rintro ((rfl | hc) | ⟨a', ha', he⟩)
      · exact Or.inr ⟨a, by simp, rfl⟩
      · exact Or.inl hc
      · exact Or.inr ⟨a', by simp [ha'], he⟩
    · rintro (hc | ⟨a', ha', he⟩)
      · exact Or.inl (Or.inr hc)
      · rcases List.mem_cons.1 ha' with rfl | ha'
        · exact Or.inl (Or.inl he.symm)
        · exact Or.inr ⟨a', ha', he⟩

/-- The loop of `SetSpeedForFlexPortGroup` over the ports of the applied map, when it goes
through: every port at the pair is flex, and the two sets are filled with the units and the
logical ports of the ports at the pair. -/
theorem flexGroupApplied_ok (pair : Int × Int) (ports : List BcmPort) :
    ∀ (sets sets' : FlexGroupSets), flexGroupApplied pair sets ports = Except.ok sets' →
      (∀ p ∈ ports, p.slot = pair.1 → p.port = pair.2 → p.flex_port = true) ∧
      sets'.units_set =
        (ports.filter (fun p => p.slot == pair.1 && p.port == pair.2)).foldl
          (fun s p => setInsert p.unit s) sets.units_set ∧
      sets'.min_speed_logical_ports_set =
        (ports.filter (fun p => p.slot == pair.1 && p.port == pair.2)).foldl
          (fun s p => setInsert p.logical_port s) sets.min_speed_logical_ports_set := by
  induction ports with
  | nil =>
    intro sets sets' h
    simp only [flexGroupApplied, pure_ok_iff] at h
    subst h
    exact ⟨fun p hp => (by cases hp), rfl, rfl⟩
  | cons q rest ih =>
    intro sets sets' h
    unfold flexGroupApplied at h
    by_cases hq : (q.slot == pair.1 && q.port == pair.2) = true
    · simp only [hq, if_true, bind_ok_iff, CHECK_ok_iff] at h
      obtain ⟨_, hflex, h⟩ := h
      obtain ⟨h1, h2, h3⟩ := ih _ _ h
      refine ⟨?_, ?_, ?_⟩
      · intro p hp hs hpo
        rcases List.mem_cons.1 hp with rfl | hp
        · exact hflex
        · exact h1 p hp hs hpo
      · rw [h2, List.filter_cons, if_pos hq, List.foldl_cons]
      · rw [h3, List.filter_cons, if_pos hq, List.foldl_cons]
    · simp only [hq, Bool.false_eq_true, if_false] at h
      obtain ⟨h1, h2, h3⟩ := ih _ _ h
      refine ⟨?_, ?_, ?_⟩
      · intro p hp hs hpo
        rcases List.mem_cons.1 hp with rfl | hp
        · exfalso
          apply hq
          simp [hs, hpo]
        · exact h1 p hp hs hpo
      · rw [h2, List.filter_cons, if_neg hq]
      · rw [h3, List.filter_cons, if_neg hq]

/-- `SetSpeedForFlexPortGroup` on a flex port group whose consistency checks pass: the port
options of the control port are read, and when their speed is not the configured speed the
calls of `speedChangeCalls` are made one after the other. -/
theorem SetSpeedForFlexPortGroup_run (env : Env) (m : BcmChassisManager)
    (slot_port_pair : Int × Int) (bcm_ports : List BcmPort) (sets : FlexGroupSets)
    (hgroup : mapFind slot_port_pair m.slot_port_to_flex_bcm_ports_ = some bcm_ports)
    (happlied : flexGroupApplied slot_port_pair {}
      (deref m.applied_bcm_chassis_map_).bcm_ports = Except.ok sets)
    (hunits : (bcm_ports.foldl (fun s p => setInsert p.unit s) sets.units_set).length = 1)
    (hlanes : (bcm_ports.foldl (fun s p => setInsert p.num_serdes_lanes s)
      ([] : List Int)).length = 1)
    (hspeeds : (bcm_ports.foldl (fun s p => setInsert p.speed_bps s)
      ([] : List Nat)).length = 1)
    (hcontrol : setBegin 0 (bcm_ports.foldl (fun s p => setInsert p.logical_port s)
      ([] : List Int)) = setBegin 0 sets.min_speed_logical_ports_set) :
    BcmChassisManager.SetSpeedForFlexPortGroup env slot_port_pair m =
      Op.bind
        (Op.call
          (Call.GetPortOptions
            (setBegin 0 (bcm_ports.foldl (fun s p => setInsert p.unit s) sets.units_set))
            (setBegin 0 sets.min_speed_logical_ports_set))
          (env.GetPortOptions
            (setBegin 0 (bcm_ports.foldl (fun s p => setInsert p.unit s) sets.units_set))
            (setBegin 0 sets.min_speed_logical_ports_set)))
        (fun options =>
          if options.speed_bps ==
              setBegin 0 (bcm_ports.foldl (fun s p => setInsert p.speed_bps s) []) then
            Op.pure false
          else
            Op.bind
              (Op.forEach (fun c => Op.call c (env.status c))
                (speedChangeCalls
                  (setBegin 0 (bcm_ports.foldl (fun s p => setInsert p.unit s) sets.units_set))
                  (setBegin 0 sets.min_speed_logical_ports_set)
                  (setBegin 0 (bcm_ports.foldl (fun s p => setInsert p.num_serdes_lanes s) []))
                  (setBegin 0 (bcm_ports.foldl (fun s p => setInsert p.speed_bps s) []))
                  sets.min_speed_logical_ports_set
                  (bcm_ports.foldl (fun s p => setInsert p.logical_port s) [])))
              (fun _ => Op.pure true)) m := by
  unfold BcmChassisManager.SetSpeedForFlexPortGroup
  simp only [Op.bind_eq, Op.pure_eq, Op.bind_get]
  rw [hgroup]
  simp only [Op.bind_lift, happlied, Op.bind_check, hunits, hlanes, hspeeds, hcontrol,
    beq_self_eq_true, if_true]
  congr 1
  funext options
  split
  · rfl
  · simp only [speedChangeCalls, List.append_assoc, ← Op.forEach_append,
      ← Op.forEach_singleton, ← Op.forEach_map]

theorem setBegin_le (l : List Int) (hs : SetSorted l) (x : Int) (hx : x ∈ l) :
    setBegin 0 l ≤ x ∧ setBegin 0 l ∈ l := by
  cases l with
  | nil => cases hx
  | cons a rest =>
    refine ⟨?_, List.mem_cons_self _ _⟩
    unfold SetSorted at hs
    rcases List.mem_cons.1 hx with rfl | hx
    · exact le_refl _
    · have := (List.pairwise_cons.1 hs).1 x hx
      simp only [KeyOrd.lt, decide_eq_true_eq] at this
      exact le_of_lt this

/-- C35: `SetSpeedForFlexPortGroup` on a flex port group whose consistency checks pass: the
sets of units, of numbers of serdes lanes and of speeds of the group have one element each,
`unit`, `config_num_serdes_lanes` and `config_speed_bps`, and the control logical port, the
first of the logical ports of the ports of the applied map at the pair, is also the first of
the logical ports of the group.  Then (1) `unit`, the number of lanes and the speed are those
of every port of the group, the control logical port is the smallest logical port of the
ports of the applied map at the pair, and the two sets of logical ports are those of the
ports of the applied map at the pair and of the ports of the group; (2) when the speed that
`GetPortOptions` reports for the control port is the configured speed, the result is `false`
and no other call is made; (3) otherwise the calls of `speedChangeCalls` follow, in order:
when all return OK, all are made and the result is `true`; when one of them fails, it is the
last call and its error is the result; (4) an error of `GetPortOptions` is the result, with no
other call; (5) none of the options set has `enabled = TRUE`.  The manager is left as it
is. -/
theorem C35_set_speed_for_flex_port_group (env : Env) (m : BcmChassisManager)
    (slot_port_pair : Int × Int) (bcm_ports : List BcmPort) (sets : FlexGroupSets)
    (unit control_logical_port config_num_serdes_lanes : Int) (config_speed_bps : Nat)
    (config_speed_logical_ports_set : List Int)
    (hgroup : mapFind slot_port_pair m.slot_port_to_flex_bcm_ports_ = some bcm_ports)
    (happlied : flexGroupApplied slot_port_pair {}
      (deref m.applied_bcm_chassis_map_).bcm_ports = Except.ok sets)
    (hunits : bcm_ports.foldl (fun s p => setInsert p.unit s) sets.units_set = [unit])
    (hlanes : bcm_ports.foldl (fun s p => setInsert p.num_serdes_lanes s) ([] : List Int) =
      [config_num_serdes_lanes])
    (hspeeds : bcm_ports.foldl (fun s p => setInsert p.speed_bps s) ([] : List Nat) =
      [config_speed_bps])
    (hconfig : bcm_ports.foldl (fun s p => setInsert p.logical_port s) ([] : List Int) =
      config_speed_logical_ports_set)
    (hmin : setBegin 0 sets.min_speed_logical_ports_set = control_logical_port)
    (hcontrol : setBegin 0 config_speed_logical_ports_set = control_logical_port) :
    ((∀ p ∈ bcm_ports, p.unit = unit ∧ p.num_serdes_lanes = config_num_serdes_lanes ∧
        p.speed_bps = config_speed_bps) ∧
      (∀ p ∈ (deref m.applied_bcm_chassis_map_).bcm_ports,
        p.slot = slot_port_pair.1 → p.port = slot_port_pair.2 →
          p.unit = unit ∧ control_logical_port ≤ p.logical_port ∧
          control_logical_port ∈ sets.min_speed_logical_ports_set) ∧
      (∀ logical_port, logical_port ∈ sets.min_speed_logical_ports_set ↔
        ∃ p ∈ (deref m.applied_bcm_chassis_map_).bcm_ports,
          (p.slot = slot_port_pair.1 ∧ p.port = slot_port_pair.2) ∧
            p.logical_port = logical_port) ∧
      (∀ logical_port, logical_port ∈ config_speed_logical_ports_set ↔
        ∃ p ∈ bcm_ports, p.logical_port = logical_port)) ∧
    (∀ options, env.GetPortOptions unit control_logical_port = Except.ok options →
      options.speed_bps = config_speed_bps →
      (BcmChassisManager.SetSpeedForFlexPortGroup env slot_port_pair).run m =
        ⟨Except.ok false, m, [Call.GetPortOptions unit control_logical_port]⟩) ∧
    (∀ options, env.GetPortOptions unit control_logical_port = Except.ok options →
      options.speed_bps ≠ config_speed_bps →
      ((∀ c ∈ speedChangeCalls unit control_logical_port config_num_serdes_lanes
            config_speed_bps sets.min_speed_logical_ports_set config_speed_logical_ports_set,
          env.status c = Except.ok ()) →
        (BcmChassisManager.SetSpeedForFlexPortGroup env slot_port_pair).run m =
          ⟨Except.ok true, m,
            Call.GetPortOptions unit control_logical_port ::
              speedChangeCalls unit control_logical_port config_num_serdes_lanes
                config_speed_bps sets.min_speed_logical_ports_set
                config_speed_logical_ports_set⟩) ∧
      (∀ pre c post e,
        speedChangeCalls unit control_logical_port config_num_serdes_lanes
            config_speed_bps sets.min_speed_logical_ports_set config_speed_logical_ports_set =
          pre ++ c :: post →
        (∀ c' ∈ pre, env.status c' = Except.ok ()) → env.status c = Except.error e →
        (BcmChassisManager.SetSpeedForFlexPortGroup env slot_port_pair).run m =
          ⟨Except.error e, m,
            Call.GetPortOptions unit control_logical_port :: (pre ++ [c])⟩)) ∧
    (∀ e, env.GetPortOptions unit control_logical_port = Except.error e →
      (BcmChassisManager.SetSpeedForFlexPortGroup env slot_port_pair).run m =
        ⟨Except.error e, m, [Call.GetPortOptions unit control_logical_port]⟩) ∧
    (∀ c ∈ speedChangeCalls unit control_logical_port config_num_serdes_lanes
          config_speed_bps sets.min_speed_logical_ports_set config_speed_logical_ports_set,
      ∃ logical_port options, c = Call.SetPortOptions unit logical_port options ∧
        options.enabled ≠ TriState.TRI_STATE_TRUE) := by
  have hrun := SetSpeedForFlexPortGroup_run env m slot_port_pair bcm_ports sets hgroup happlied
    (by rw [hunits]; rfl) (by rw [hlanes]; rfl) (by rw [hspeeds]; rfl)
    (by rw [hconfig, hcontrol, hmin])
  rw [hunits, hlanes, hspeeds, hconfig, hmin] at hrun
  simp only [setBegin, List.headD_cons] at hrun
  obtain ⟨hflexp, husets, hminset⟩ := flexGroupApplied_ok _ _ _ _ happlied
  have hminsorted : SetSorted sets.min_speed_logical_ports_set := by
    rw [hminset]
    exact foldl_setInsert_sorted lawful_int _ _ _ (by simp [SetSorted])
  have hminmem : ∀ logical_port, logical_port ∈ sets.min_speed_logical_ports_set ↔
      ∃ p ∈ (deref m.applied_bcm_chassis_map_).bcm_ports,
        (p.slot = slot_port_pair.1 ∧ p.port = slot_port_pair.2) ∧
          p.logical_port = logical_port := by
    intro lp
    rw [hminset, mem_foldl_setInsert lawful_int]
    simp [List.mem_filter, and_assoc]
  refine ⟨⟨?_, ?_, hminmem, ?_⟩, ?_, ?_, ?_, ?_⟩
  · intro p hp
    refine ⟨?_, ?_, ?_⟩
    · have : p.unit ∈ bcm_ports.foldl (fun s p => setInsert p.unit s) sets.units_set :=
        (mem_foldl_setInsert lawful_int _ _ _ _).2 (Or.inr ⟨p, hp, rfl⟩)
      rw [hunits] at this
      simpa using this
    · have : p.num_serdes_lanes ∈
          bcm_ports.foldl (fun s p => setInsert p.num_serdes_lanes s) ([] : List Int) :=
        (mem_foldl_setInsert lawful_int _ _ _ _).2 (Or.inr ⟨p, hp, rfl⟩)
      rw [hlanes] at this
      simpa using this
    · have : p.speed_bps ∈
          bcm_ports.foldl (fun s p => setInsert p.speed_bps s) ([] : List Nat) :=
        (mem_foldl_setInsert lawful_nat _ _ _ _).2 (Or.inr ⟨p, hp, rfl⟩)
      rw [hspeeds] at this
      simpa using this
  · intro p hp hslot hport
    have hlp : p.logical_port ∈ sets.min_speed_logical_ports_set :=
      (hminmem _).2 ⟨p, hp, ⟨hslot, hport⟩, rfl⟩
    obtain ⟨hle, hmem⟩ := setBegin_le _ hminsorted _ hlp
    rw [hmin] at hle hmem
    refine ⟨?_, hle, hmem⟩
    have h1 : p.unit ∈ sets.units_set := by
      rw [husets, mem_foldl_setInsert lawful_int]
      right
      refine ⟨p, ?_, rfl⟩
      simp [List.mem_filter, hp, hslot, hport]
    have : p.unit ∈ bcm_ports.foldl (fun s p => setInsert p.unit s) sets.units_set :=
      (mem_foldl_setInsert lawful_int _ _ _ _).2 (Or.inl h1)
    rw [hunits] at this
    simpa using this
  · intro lp
    rw [← hconfig, mem_foldl_setInsert lawful_int]
    simp
  · intro options hget hsame
    unfold Op.run
    rw [hrun, Op.bind_of_ok _ _ m options (by simp [Op.call, hget])]
    simp [hsame, Op.pure, Op.call]
  · intro options hget hne
    have hb : (options.speed_bps == config_speed_bps) = false := by simpa using hne
    constructor
    · intro hall
      unfold Op.run
      rw [hrun, Op.bind_of_ok _ _ m options (by simp [Op.call, hget])]
      simp only [hb, Bool.false_eq_true, if_false]
      rw [Op.bind_of_ok _ _ _ () (by rw [forEach_call_ok env _ _ hall])]
      rw [forEach_call_ok env _ _ hall]
      simp [Op.pure, Op.call]
    · intro pre c post e hsplit hpre hc
      unfold Op.run
      rw [hrun, Op.bind_of_ok _ _ m options (by simp [Op.call, hget])]
      simp only [hb, Bool.false_eq_true, if_false]
      rw [hsplit]
      rw [Op.bind_of_error _ _ _ e (by rw [forEach_call_error env _ _ _ e _ hpre hc])]
      rw [forEach_call_error env _ _ _ e _ hpre hc]
      simp [Op.call]
  · intro e hget
    unfold Op.run
    rw [hrun, Op.bind_of_error _ _ m e (by simp [Op.call, hget])]
    simp [Op.call]
  · intro c hc
    unfold speedChangeCalls at hc
    simp only [List.mem_append, List.mem_map, List.mem_singleton] at hc
    rcases hc with (⟨lp, _, rfl⟩ | rfl) | ⟨lp, _, rfl⟩
    · exact ⟨lp, _, rfl, by simp⟩
    · exact ⟨_, _, rfl, by simp⟩
    · exact ⟨lp, _, rfl, by simp⟩

/-- Witness for C35: the flex port group `(1, 2)` of Scenario C, whose four 25G ports are on
unit 0 with the logical ports 1 to 4; the speed that is read is 0, so the speed is set. -/
theorem C35_set_speed_for_flex_port_group_witness :
    mapFind (1, 2) scenarioCManager.slot_port_to_flex_bcm_ports_ =
      some scenarioCTarget.bcm_ports ∧
    flexGroupApplied (1, 2) {} (deref scenarioCManager.applied_bcm_chassis_map_).bcm_ports =
      Except.ok { units_set := [0], min_speed_logical_ports_set := [1, 2, 3, 4] } ∧
    (BcmChassisManager.SetSpeedForFlexPortGroup scenarioCEnv (1, 2)).run scenarioCManager =
      ⟨Except.ok true, scenarioCManager,
        Call.GetPortOptions 0 1 ::
          speedChangeCalls 0 1 1 kTwentyFiveGigBps [1, 2, 3, 4] [1, 2, 3, 4]⟩ :=
  ⟨by rfl, by rfl,
    ((C35_set_speed_for_flex_port_group scenarioCEnv scenarioCManager (1, 2)
      scenarioCTarget.bcm_ports { units_set := [0], min_speed_logical_ports_set := [1, 2, 3, 4] }
      0 1 1 kTwentyFiveGigBps [1, 2, 3, 4] (by rfl) (by rfl) (by rfl) (by rfl) (by rfl)
      (by rfl) (by rfl) (by rfl)).2.2.1 {} (by rfl) (by decide)).1
      (fun _ _ => rfl)⟩

/-! ## Flex port groups whose speed changed -/

/-- `SetSpeedForFlexPortGroup` reads the flex port groups and the applied map only: on two
managers that agree on them it returns the same status and makes the same calls. -/
theorem SetSpeedForFlexPortGroup_congr (env : Env) (slot_port_pair : Int × Int)
    (m m' : BcmChassisManager)
    (h1 : m.slot_port_to_flex_bcm_ports_ = m'.slot_port_to_flex_bcm_ports_)
    (h2 : m.applied_bcm_chassis_map_ = m'.applied_bcm_chassis_map_) :
    (BcmChassisManager.SetSpeedForFlexPortGroup env slot_port_pair m).status =
      (BcmChassisManager.SetSpeedForFlexPortGroup env slot_port_pair m').status ∧
    (BcmChassisManager.SetSpeedForFlexPortGroup env slot_port_pair m).calls =
      (BcmChassisManager.SetSpeedForFlexPortGroup env slot_port_pair m').calls ∧
    (BcmChassisManager.SetSpeedForFlexPortGroup env slot_port_pair m).mgr = m := by
  unfold BcmChassisManager.SetSpeedForFlexPortGroup
  simp only [Op.bind_eq, Op.pure_eq, Op.bind_get]
  rw [h1, h2]
  refine (?_ : Op.Const _) m m'
  repeat' first
    | apply Op.const_bind
    | apply Op.const_forEach
    | apply Op.const_pure
    | apply Op.const_fail
    | apply Op.const_call
    | apply Op.const_check
    | apply Op.const_lift
    | split
    | intro _

theorem demoteReadyGroup_sorted (pair : Int × Int) (m : BcmChassisManager)
    (hs : SetSorted (m.slot_port_to_transceiver_state_.map Prod.fst)) :
    SetSorted ((demoteReadyGroup pair m).slot_port_to_transceiver_state_.map Prod.fst) := by
  unfold demoteReadyGroup
  split
  · simp only [mapSet_keys]
    exact setInsert_sorted lawful_pair _ _ hs
  · split
    · simp only [mapSet_keys]
      exact setInsert_sorted lawful_pair _ _ hs
    · exact hs

theorem demoteReadyGroup_self (pair : Int × Int) (m : BcmChassisManager)
    (h : mapFind pair m.slot_port_to_transceiver_state_ = some HwState.HW_STATE_READY ∨
      mapFind pair m.slot_port_to_transceiver_state_ = some HwState.HW_STATE_PRESENT) :
    mapFind pair (demoteReadyGroup pair m).slot_port_to_transceiver_state_ =
      some HwState.HW_STATE_PRESENT := by
  unfold demoteReadyGroup
  rcases h with h | h
  · rw [h]
    simp [mapFind_mapSet_self lawful_pair]
  · rw [h]
    simp [h]

theorem demoteReadyGroup_other (pair k : Int × Int) (m : BcmChassisManager) (hne : k ≠ pair) :
    mapFind k (demoteReadyGroup pair m).slot_port_to_transceiver_state_ =
      mapFind k m.slot_port_to_transceiver_state_ := by
  unfold demoteReadyGroup
  split
  · exact mapFind_mapSet_ne lawful_pair _ _ _ _ hne
  · split
    · exact mapFind_mapSet_ne lawful_pair _ _ _ _ hne
    · rfl

/-- The flex pass of `ConfigurePortGroups`, run on a manager `m'` that has the flex port
groups and the applied map of `m`: a group that is READY or PRESENT and whose speed was
changed is PRESENT after the pass, and a pair without such a change has the state that it
had. -/
theorem configureFlexGroups_run (env : Env) (m : BcmChassisManager)
    (l : List ((Int × Int) × List BcmPort)) :
    ∀ (status : Except ErrorCode Unit) (m' : BcmChassisManager),
      m'.slot_port_to_flex_bcm_ports_ = m.slot_port_to_flex_bcm_ports_ →
      m'.applied_bcm_chassis_map_ = m.applied_bcm_chassis_map_ →
      (SetSorted (m'.slot_port_to_transceiver_state_.map Prod.fst) →
        SetSorted ((configureFlexGroups env l status
          m').mgr.slot_port_to_transceiver_state_.map Prod.fst)) ∧
      (∀ k, (mapFind k m'.slot_port_to_transceiver_state_ = some HwState.HW_STATE_READY ∨
          mapFind k m'.slot_port_to_transceiver_state_ = some HwState.HW_STATE_PRESENT) →
        (∃ e ∈ l, e.1 = k ∧
          (BcmChassisManager.SetSpeedForFlexPortGroup env k m).status = Except.ok true) →
        mapFind k (configureFlexGroups env l status m').mgr.slot_port_to_transceiver_state_ =
          some HwState.HW_STATE_PRESENT) ∧
      (∀ k, ¬ (∃ e ∈ l, e.1 = k ∧
          (BcmChassisManager.SetSpeedForFlexPortGroup env k m).status = Except.ok true) →
        mapFind k (configureFlexGroups env l status m').mgr.slot_port_to_transceiver_state_ =
          mapFind k m'.slot_port_to_transceiver_state_) := by
  induction l with
  | nil =>
    intro status m' _ _
    refine ⟨fun h => h, ?_, fun _ _ => rfl⟩
    rintro k _ ⟨e, he, _⟩
    cases he
  | cons e rest ih =>
    intro status m' h1 h2
    obtain ⟨k0, ports0⟩ := e
    obtain ⟨hcs, _, hcm⟩ := SetSpeedForFlexPortGroup_congr env k0 m' m h1 h2
    unfold configureFlexGroups
    rw [Op.bind_try, hcm, hcs]
    simp only
    cases hr : (BcmChassisManager.SetSpeedForFlexPortGroup env k0 m).status with
    | error err =>
      simp only
      obtain ⟨i2, i3, i4⟩ := ih (APPEND_STATUS_IF_ERROR env status (Except.error err)) m'
        h1 h2
      refine ⟨i2, ?_, ?_⟩
      · rintro k hk ⟨e, he, hek, hok⟩
        rcases List.mem_cons.1 he with rfl | he
        · simp only at hek
          subst hek
          rw [hr] at hok
          cases hok
        · exact i3 k hk ⟨e, he, hek, hok⟩
      · intro k hk
        exact i4 k (fun ⟨e, he, hh⟩ => hk ⟨e, List.mem_cons_of_mem _ he, hh⟩)
    | ok speed_changed =>
      cases speed_changed
      · simp only [Bool.false_eq_true, if_false]
        rw [Op.bind_pure]
        obtain ⟨i2, i3, i4⟩ := ih status m' h1 h2
        refine ⟨i2, ?_, ?_⟩
        · rintro k hk ⟨e, he, hek, hok⟩
          rcases List.mem_cons.1 he with rfl | he
          · simp only at hek
            subst hek
            rw [hr] at hok
            cases hok
          · exact i3 k hk ⟨e, he, hek, hok⟩
        · intro k hk
          exact i4 k (fun ⟨e, he, hh⟩ => hk ⟨e, List.mem_cons_of_mem _ he, hh⟩)
      · simp only [if_true]
        rw [Op.bind_modify]
        have e1 : (demoteReadyGroup k0 m').slot_port_to_flex_bcm_ports_ =
            m.slot_port_to_flex_bcm_ports_ := by
          rw [demoteReadyGroup_keeps (fun m => m.slot_port_to_flex_bcm_ports_)
            (fun _ _ => rfl)]
          exact h1
        have e2 : (demoteReadyGroup k0 m').applied_bcm_chassis_map_ =
            m.applied_bcm_chassis_map_ := by
          rw [demoteReadyGroup_keeps (fun m => m.applied_bcm_chassis_map_) (fun _ _ => rfl)]
          exact h2
        obtain ⟨i2, i3, i4⟩ := ih status (demoteReadyGroup k0 m') e1 e2
        refine ⟨?_, ?_, ?_⟩
        · intro hs
          exact i2 (demoteReadyGroup_sorted k0 m' hs)
        · rintro k hk ⟨e, he, hek, hok⟩
          by_cases hkk : k = k0
          · subst hkk
            have hp := demoteReadyGroup_self k m' hk
            by_cases hex : ∃ e ∈ rest, e.1 = k ∧
                (BcmChassisManager.SetSpeedForFlexPortGroup env k m).status = Except.ok true
            · exact i3 k (Or.inr hp) hex
            · rw [i4 k hex, hp]
          · rcases List.mem_cons.1 he with rfl | he
            · exact absurd hek.symm hkk
            · refine i3 k ?_ ⟨e, he, hek, hok⟩
              rw [demoteReadyGroup_other k0 k m' hkk]
              exact hk
        · intro k hk
          have hkk : k ≠ k0 := by
            rintro rfl
            exact hk ⟨(k, ports0), List.mem_cons_self _ _, rfl, hr⟩
          rw [i4 k (fun ⟨e, he, hh⟩ => hk ⟨e, List.mem_cons_of_mem _ he, hh⟩)]
          exact demoteReadyGroup_other k0 k m' hkk

/-- C34: `ConfigurePortGroups` on a manager whose transceiver states have increasing keys (the
map is a `std::map`), for a flex port group that is READY.  (1) When
`SetSpeedForFlexPortGroup` returns `true` for the group, the group is PRESENT after the flex
pass; the port-options pass then calls `SetPortOptionsForPortGroup` for it with
enabled=TRUE, blocked=FALSE, and when that returns OK the group is READY at the end.
(2) When `SetSpeedForFlexPortGroup` returns `false` or an error, the group is READY after the
flex pass and at the end, and the calls of the port-options pass are those of
`SetPortOptionsForPortGroup` for other pairs. -/
theorem C34_flex_group_demoted (env : Env) (m : BcmChassisManager) (pair : Int × Int)
    (bcm_ports : List BcmPort)
    (hs : SetSorted (m.slot_port_to_transceiver_state_.map Prod.fst))
    (hgroup : mapFind pair m.slot_port_to_flex_bcm_ports_ = some bcm_ports)
    (hready : mapFind pair m.slot_port_to_transceiver_state_ = some HwState.HW_STATE_READY) :
    (((BcmChassisManager.SetSpeedForFlexPortGroup env pair).run m).status = Except.ok true →
      mapFind pair ((configureFlexGroups env m.slot_port_to_flex_bcm_ports_
        (Except.ok ())).run m).mgr.slot_port_to_transceiver_state_ =
          some HwState.HW_STATE_PRESENT ∧
      (∃ pre post, ((BcmChassisManager.ConfigurePortGroups env).run m).calls =
        ((configureFlexGroups env m.slot_port_to_flex_bcm_ports_ (Except.ok ())).run m).calls ++
          (pre ++
            ((BcmChassisManager.SetPortOptionsForPortGroup env pair
              { enabled := TriState.TRI_STATE_TRUE, blocked := TriState.TRI_STATE_FALSE }).run
                m).calls ++ post)) ∧
      (((BcmChassisManager.SetPortOptionsForPortGroup env pair
          { enabled := TriState.TRI_STATE_TRUE, blocked := TriState.TRI_STATE_FALSE }).run
            m).status = Except.ok () →
        mapFind pair
          ((BcmChassisManager.ConfigurePortGroups env).run m).mgr.slot_port_to_transceiver_state_ =
            some HwState.HW_STATE_READY)) ∧
    (((BcmChassisManager.SetSpeedForFlexPortGroup env pair).run m).status ≠ Except.ok true →
      mapFind pair ((configureFlexGroups env m.slot_port_to_flex_bcm_ports_
        (Except.ok ())).run m).mgr.slot_port_to_transceiver_state_ =
          some HwState.HW_STATE_READY ∧
      mapFind pair
        ((BcmChassisManager.ConfigurePortGroups env).run m).mgr.slot_port_to_transceiver_state_ =
          some HwState.HW_STATE_READY ∧
      ∃ entries : List ((Int × Int) × HwState),
        ((BcmChassisManager.ConfigurePortGroups env).run m).calls =
          ((configureFlexGroups env m.slot_port_to_flex_bcm_ports_
            (Except.ok ())).run m).calls ++
            entries.flatMap (fun e =>
              ((BcmChassisManager.SetPortOptionsForPortGroup env e.1
                (portGroupOptions e.2)).run m).calls) ∧
        ∀ e ∈ entries, e.1 ≠ pair) := by
  simp only [Op.run]
  obtain ⟨st0, hst0⟩ :=
    configureFlexGroups_status env m.slot_port_to_flex_bcm_ports_ (Except.ok ()) m
  have kflex := configureFlexGroups_keeps (fun m => m.slot_port_to_flex_bcm_ports_)
    (fun _ _ => rfl) env m.slot_port_to_flex_bcm_ports_ (Except.ok ()) m
  have knon := configureFlexGroups_keeps (fun m => m.slot_port_to_non_flex_bcm_ports_)
    (fun _ _ => rfl) env m.slot_port_to_flex_bcm_ports_ (Except.ok ()) m
  have kmode := configureFlexGroups_keeps (fun m => m.mode_)
    (fun _ _ => rfl) env m.slot_port_to_flex_bcm_ports_ (Except.ok ()) m
  simp only at kflex knon kmode
  obtain ⟨j2, j3, j4⟩ :=
    configureFlexGroups_run env m m.slot_port_to_flex_bcm_ports_ (Except.ok ()) m rfl rfl
  have hsF := j2 hs
  obtain ⟨pc, ⟨st, hst, _⟩, _, pready, pother⟩ := configurePortOptions_run env m
    (configureFlexGroups env m.slot_port_to_flex_bcm_ports_ (Except.ok ())
      m).mgr.slot_port_to_transceiver_state_ st0
    (configureFlexGroups env m.slot_port_to_flex_bcm_ports_ (Except.ok ()) m).mgr
    kflex knon kmode
  obtain ⟨_, r2, r3⟩ := ConfigurePortGroups_run env m st0 st hst0 hst
  have hmem : (pair, bcm_ports) ∈ m.slot_port_to_flex_bcm_ports_ :=
    mapFind_mem lawful_pair _ _ _ hgroup
  constructor
  · intro hchg
    have hpres := j3 pair (Or.inl hready) ⟨(pair, bcm_ports), hmem, rfl, hchg⟩
    have hmemP := mapFind_mem lawful_pair _ _ _ hpres
    refine ⟨hpres, ?_, ?_⟩
    · have hin : (pair, HwState.HW_STATE_PRESENT) ∈
          (configureFlexGroups env m.slot_port_to_flex_bcm_ports_ (Except.ok ())
            m).mgr.slot_port_to_transceiver_state_.filter
              (fun e => e.2 != HwState.HW_STATE_READY) := by
        rw [List.mem_filter]
        exact ⟨hmemP, rfl⟩
      obtain ⟨s, t, hst⟩ := List.append_of_mem hin
      refine ⟨s.flatMap (fun e =>
          (BcmChassisManager.SetPortOptionsForPortGroup env e.1 (portGroupOptions e.2)
            m).calls),
        t.flatMap (fun e =>
          (BcmChassisManager.SetPortOptionsForPortGroup env e.1 (portGroupOptions e.2)
            m).calls), ?_⟩
      rw [r3, pc, hst, List.flatMap_append, List.flatMap_cons]
      simp only [List.append_assoc]
      rfl
    · intro hok
      rw [r2]
      exact pready pair hmemP hok
  · intro hno
    have hnex : ¬ ∃ e ∈ m.slot_port_to_flex_bcm_ports_, e.1 = pair ∧
        (BcmChassisManager.SetSpeedForFlexPortGroup env pair m).status = Except.ok true :=
      fun ⟨_, _, _, h⟩ => hno h
    have hstay := j4 pair hnex
    rw [hready] at hstay
    have hnotP : (pair, HwState.HW_STATE_PRESENT) ∉
        (configureFlexGroups env m.slot_port_to_flex_bcm_ports_ (Except.ok ())
          m).mgr.slot_port_to_transceiver_state_ := by
      intro hin
      have := mapFind_of_mem lawful_pair _ _ _ hsF hin
      rw [hstay] at this
      cases this
    refine ⟨hstay, ?_,
      (configureFlexGroups env m.slot_port_to_flex_bcm_ports_ (Except.ok ())
        m).mgr.slot_port_to_transceiver_state_.filter
          (fun e => e.2 != HwState.HW_STATE_READY), ?_, ?_⟩
    · rw [r2, pother pair (fun h => hnotP h.1)]
      exact hstay
    · rw [r3, pc]
    · intro e he
      rw [List.mem_filter] at he
      rintro rfl
      have := mapFind_of_mem lawful_pair e.1 e.2 _ hsF he.1
      rw [hstay] at this
      have h2 : e.2 = HwState.HW_STATE_READY := (Option.some.inj this).symm
      rw [h2] at he
      exact absurd he.2 (by decide)

/-- Witness for C34: the flex port group `(1, 2)` of Scenario C is READY, the speed that is
read is 0, so `SetSpeedForFlexPortGroup` returns `true`; the group is PRESENT after the flex
pass and READY at the end. -/
theorem C34_flex_group_demoted_witness :
    SetSorted (flexReadyManager.slot_port_to_transceiver_state_.map Prod.fst) ∧
    mapFind (1, 2) flexReadyManager.slot_port_to_flex_bcm_ports_ =
      some scenarioCTarget.bcm_ports ∧
    mapFind (1, 2) flexReadyManager.slot_port_to_transceiver_state_ =
      some HwState.HW_STATE_READY ∧
    ((BcmChassisManager.SetSpeedForFlexPortGroup scenarioCEnv (1, 2)).run
      flexReadyManager).status = Except.ok true ∧
    mapFind (1, 2) ((configureFlexGroups scenarioCEnv
      flexReadyManager.slot_port_to_flex_bcm_ports_
        (Except.ok ())).run flexReadyManager).mgr.slot_port_to_transceiver_state_ =
          some HwState.HW_STATE_PRESENT ∧
    mapFind (1, 2)
      ((BcmChassisManager.ConfigurePortGroups scenarioCEnv).run
        flexReadyManager).mgr.slot_port_to_transceiver_state_ =
          some HwState.HW_STATE_READY :=
  ⟨by unfold SetSorted; decide, by rfl, by rfl, by rfl,
    ((C34_flex_group_demoted scenarioCEnv flexReadyManager (1, 2) scenarioCTarget.bcm_ports
      (by unfold SetSorted; decide) (by rfl) (by rfl)).1 (by rfl)).1,
    ((C34_flex_group_demoted scenarioCEnv flexReadyManager (1, 2) scenarioCTarget.bcm_ports
      (by unfold SetSorted; decide) (by rfl) (by rfl)).1 (by rfl)).2.2 (by rfl)⟩

/-! ## The order of the singleton ports -/

/-- Two strictly increasing lists with the same members are equal. -/
theorem setSorted_ext {α : Type} [KeyOrd α] (h : KeyOrd.Lawful α) :
    ∀ (l₁ l₂ : List α), SetSorted l₁ → SetSorted l₂ → (∀ x, x ∈ l₁ ↔ x ∈ l₂) → l₁ = l₂ := by
  intro l₁
  induction l₁ with
  | nil =>
    intro l₂ _ _ hm
    cases l₂ with
    | nil => rfl
    | cons b t => exact absurd ((hm b).2 (List.mem_cons_self _ _)) (List.not_mem_nil _)
  | cons a t ih =>
    intro l₂ h1 h2 hm
    cases l₂ with
    | nil => exact absurd ((hm a).1 (List.mem_cons_self _ _)) (List.not_mem_nil _)
    | cons b t' =>
      unfold SetSorted at h1 h2
      rw [List.pairwise_cons] at h1 h2
      have hab : a = b := by
        rcases List.mem_cons.1 ((hm a).1 (List.mem_cons_self _ _)) with e | hin
        · exact e
        · rcases List.mem_cons.1 ((hm b).2 (List.mem_cons_self _ _)) with e | hin'
          · exact e.symm
          · have l1 := h2.1 a hin
            have l2 := h1.1 b hin'
            have := h.trans _ _ _ l1 l2
            rw [h.irrefl] at this
            cases this
      subst hab
      congr 1
      refine ih t' h1.2 h2.2 ?_
      intro x
      constructor
      · intro hx
        rcases List.mem_cons.1 ((hm x).1 (List.mem_cons_of_mem _ hx)) with e | hin
        · subst e
          have := h1.1 x hx
          rw [h.irrefl] at this
          cases this
        · exact hin
      · intro hx
        rcases List.mem_cons.1 ((hm x).2 (List.mem_cons_of_mem _ hx)) with e | hin
        · subst e
          have := h2.1 x hx
          rw [h.irrefl] at this
          cases this
        · exact hin

/-- The ports of the target map before the logical ports are set, in terms of the singleton
ports as a set. -/
theorem pre_ports_mem (k : Constants) (bc : List BcmChip) (bp : List BcmPort)
    (nodeMap : List (Nat × Int)) (singleton_ports : List SingletonPort) (st : PortLoopState)
    (ports : List BcmPort)
    (hloop : singletonPortLoop k bp { node_id_to_unit := nodeMap } singleton_ports =
      Except.ok st)
    (hflex : addFlexPorts bc bp st.bcm_ports st.flex_slot_port_pairs = Except.ok ports) :
    ∀ p, p ∈ ports ↔ IsTargetPortOf bc bp singleton_ports p := by
  obtain ⟨groups, hgr, hgall⟩ := addFlexPorts_ok _ _ _ _ _ hflex
  have hnon := singletonPortLoop_ports k bp singleton_ports _ st hloop
  have hfl := singletonPortLoop_flex k bp singleton_ports _ st hloop
  have hflm := singletonPortLoop_flex_mem k bp singleton_ports _ st hloop
  simp only [List.nil_append] at hnon
  intro p
  rw [hgr, List.mem_append, hnon]
  unfold IsTargetPortOf
  constructor
  · rintro (hp | hp)
    · left
      rw [List.mem_filterMap] at hp
      obtain ⟨s, hs, hsome⟩ := hp
      cases hf : bp.find? (IsSingletonPortMatchesBcmPort s) with
      | none => rw [hf] at hsome; cases hsome
      | some b =>
        rw [hf] at hsome
        simp only [Option.filter] at hsome
        split at hsome
        · rename_i hnf
          cases hsome
          exact ⟨s, hs, hf, by simpa using hnf⟩
        · cases hsome
    · right
      rw [List.mem_flatten] at hp
      obtain ⟨g, hg, hpg⟩ := hp
      obtain ⟨pair, hpair, unit, v, hunits, hv, hchan⟩ := forall₂_mem_right hgall g hg
      obtain ⟨c, hc, hfind⟩ := forall₂_mem_right hchan p hpg
      rcases hfl pair hpair with hnil | ⟨s, hs, hsp, b, hb, hbf⟩
      · cases hnil
      · subst hsp
        exact ⟨s, hs, b, unit, v, c, hb, hbf, hunits, hv, hc, hfind⟩
  · rintro (⟨s, hs, hf, hnf⟩ | ⟨s, hs, b, unit, v, c, hb, hbf, hunits, hv, hc, hfind⟩)
    · left
      rw [List.mem_filterMap]
      exact ⟨s, hs, by simp [hf, Option.filter, hnf]⟩
    · right
      have hpair := hflm s hs b hb hbf
      obtain ⟨g, hg, unit', v', hunits', hv', hchan⟩ := forall₂_mem_left hgall _ hpair
      rw [hunits] at hunits'
      cases hunits'
      rw [hv] at hv'
      cases hv'
      obtain ⟨p0, hp0, hfind0⟩ := forall₂_mem_left hchan c hc
      simp only at hfind0
      rw [hfind] at hfind0
      cases hfind0
      exact List.mem_flatten.2 ⟨g, hg, hp0⟩

theorem isTargetPortOf_congr (bc : List BcmChip) (bp : List BcmPort)
    (S S' : List SingletonPort) (hmem : ∀ s, s ∈ S' ↔ s ∈ S) (p : BcmPort) :
    IsTargetPortOf bc bp S' p ↔ IsTargetPortOf bc bp S p := by
  unfold IsTargetPortOf
  simp only [hmem]

/-- The sets of `(slot, port, channel)` tuples per unit of a target map, in terms of the
singleton ports as a set. -/
theorem generateTarget_tuples (k : Constants) (base : BcmChassisMap) (config : ChassisConfig)
    (target : BcmChassisMap) (h : generateTarget k base config = Except.ok target) :
    (∀ u, SetSorted (mapAt [] u (unitToSlotPortChannels target.bcm_ports))) ∧
    (∀ (u : Int) (t : Int × Int × Int),
      t ∈ mapAt [] u (unitToSlotPortChannels target.bcm_ports) ↔
        ∃ p, IsTargetPortOf base.bcm_chips base.bcm_ports config.singleton_ports p ∧
          p.unit = u ∧ (p.slot, p.port, p.channel) = t) ∧
    (∀ x : Int × Int × Int × Int,
      x ∈ target.bcm_ports.map (fun p => (p.unit, p.slot, p.port, p.channel)) ↔
        ∃ p, IsTargetPortOf base.bcm_chips base.bcm_ports config.singleton_ports p ∧
          (p.unit, p.slot, p.port, p.channel) = x) := by
  obtain ⟨chassis, sup, nm, st, chips, ports, ports', _, _, _, _, hloop, _, _, _, hflex, _,
    hauto, _, rfl⟩ := generateTarget_ok k base config target h
  have hkeys := auto_ports_same_keys base ports ports' hauto
  have hpre := pre_ports_mem k base.bcm_chips base.bcm_ports nm config.singleton_ports st ports
    hloop hflex
  simp only
  rw [unitToSlotPortChannels_of_keys ports ports' hkeys, hkeys]
  obtain ⟨hs, hm⟩ := unitToSlotPortChannels_spec ports
  refine ⟨hs, ?_, ?_⟩
  · intro u t
    rw [hm]
    constructor
    · rintro ⟨p, hp, h1, h2⟩
      exact ⟨p, (hpre p).1 hp, h1, h2⟩
    · rintro ⟨p, hp, h1, h2⟩
      exact ⟨p, (hpre p).2 hp, h1, h2⟩
  · intro x
    rw [List.mem_map]
    constructor
    · rintro ⟨p, hp, h1⟩
      exact ⟨p, (hpre p).1 hp, h1⟩
    · rintro ⟨p, hp, h1⟩
      exact ⟨p, (hpre p).2 hp, h1⟩

/-- C40: with `auto_add_logical_ports`, when the resolver returns OK for a config and for the
config with the singleton ports in another order, the two base maps are the same, the ports
of the two applied maps have the same units and `(slot, port, channel)` tuples, and two ports
of the two applied maps with the same unit and tuple have the same logical port. -/
theorem C40_logical_ports_permutation (k : Constants)
    (file : Except ErrorCode (List BcmChassisMap)) (config : ChassisConfig)
    (singleton_ports' : List SingletonPort) (base target base' target' : BcmChassisMap)
    (hperm : singleton_ports'.Perm config.singleton_ports)
    (h : GenerateBcmChassisMapFromConfig k file config = Except.ok (base, target))
    (h' : GenerateBcmChassisMapFromConfig k file
      { config with singleton_ports := singleton_ports' } = Except.ok (base', target'))
    (hauto : base.auto_add_logical_ports = true) :
    base' = base ∧
    (∀ p ∈ target.bcm_ports, ∃ p' ∈ target'.bcm_ports,
      p'.unit = p.unit ∧ p'.slot = p.slot ∧ p'.port = p.port ∧ p'.channel = p.channel) ∧
    (∀ p ∈ target.bcm_ports, ∀ p' ∈ target'.bcm_ports,
      p'.unit = p.unit → p'.slot = p.slot → p'.port = p.port → p'.channel = p.channel →
        p'.logical_port = p.logical_port) := by
  obtain ⟨base0, h0, hpop, hgen⟩ := GenerateBcmChassisMapFromConfig_ok k file config _ _ h
  obtain ⟨base0', h0', hpop', hgen'⟩ := GenerateBcmChassisMapFromConfig_ok k file _ _ _ h'
  simp only at h0' hpop' hgen'
  rw [h0] at h0'
  cases h0'
  have hmem : ∀ s, s ∈ singleton_ports' ↔ s ∈ config.singleton_ports := fun s => hperm.mem_iff
  have hbase : base' = base := by
    cases ha : base0.auto_add_slot
    · simp only [ha, Bool.false_eq_true, if_false, pure_ok_iff] at hpop hpop'
      rw [← hpop, ← hpop']
    · simp only [ha, if_true] at hpop hpop'
      obtain ⟨slot, hn, hp, hne, rfl⟩ := PopulateSlotFromPushedChassisConfig_ok _ _ _ hpop
      obtain ⟨slot', hn', hp', _, rfl⟩ := PopulateSlotFromPushedChassisConfig_ok _ _ _ hpop'
      simp only at hn' hp'
      have hslot : slot' = slot := by
        rcases hne with hne | hne
        · obtain ⟨n, hnm⟩ := List.exists_mem_of_ne_nil _ hne
          rw [← hn n hnm, ← hn' n hnm]
        · obtain ⟨s, hsm⟩ := List.exists_mem_of_ne_nil _ hne
          rw [← hp s hsm, ← hp' s ((hmem s).2 hsm)]
      rw [hslot]
  subst hbase
  obtain ⟨hs, hm, hx⟩ := generateTarget_tuples k base' config target hgen
  obtain ⟨hs', hm', hx'⟩ := generateTarget_tuples k base' _ target' hgen'
  simp only at hm' hx'
  have hsets : ∀ u, mapAt [] u (unitToSlotPortChannels target'.bcm_ports) =
      mapAt [] u (unitToSlotPortChannels target.bcm_ports) := by
    intro u
    refine setSorted_ext lawful_triple _ _ (hs' u) (hs u) ?_
    intro t
    rw [hm, hm']
    simp only [isTargetPortOf_congr base'.bcm_chips base'.bcm_ports config.singleton_ports
      singleton_ports' hmem]
  obtain ⟨_, _, _, _, _, ports, ports1, _, _, _, _, _, _, _, _, _, _, hauto1, _, ht⟩ :=
    generateTarget_ok k base' config target hgen
  obtain ⟨_, _, _, _, _, ports', ports1', _, _, _, _, _, _, _, _, _, _, hauto1', _, ht'⟩ :=
    generateTarget_ok k base' _ target' hgen'
  simp only [hauto, if_true] at hauto1 hauto1'
  have hidx := auto_logical_port_index ports ports1 hauto1
  have hidx' := auto_logical_port_index ports' ports1' hauto1'
  have e1 : target.bcm_ports = ports1 := by rw [ht]
  have e1' : target'.bcm_ports = ports1' := by rw [ht']
  rw [← e1] at hidx
  rw [← e1'] at hidx'
  refine ⟨rfl, ?_, ?_⟩
  · intro p hp
    have : (p.unit, p.slot, p.port, p.channel) ∈
        target'.bcm_ports.map (fun p => (p.unit, p.slot, p.port, p.channel)) := by
      rw [hx']
      simp only [isTargetPortOf_congr base'.bcm_chips base'.bcm_ports config.singleton_ports
        singleton_ports' hmem]
      rw [← hx]
      exact List.mem_map.2 ⟨p, hp, rfl⟩
    obtain ⟨p', hp', hk⟩ := List.mem_map.1 this
    simp only [Prod.mk.injEq] at hk
    exact ⟨p', hp', hk.1, hk.2.1, hk.2.2.1, hk.2.2.2⟩
  · intro p hp p' hp' hu hsl hpo hch
    obtain ⟨idx, hi, hl⟩ := hidx p hp
    obtain ⟨idx', hi', hl'⟩ := hidx' p' hp'
    rw [hu, hsl, hpo, hch, hsets, hi] at hi'
    cases hi'
    rw [hl, hl']

/-- Witness for C40: the config with two ports on one unit, and the same config with the two
ports swapped. -/
theorem C40_logical_ports_permutation_witness :
    twoPortConfig.singleton_ports.reverse.Perm twoPortConfig.singleton_ports ∧
    GenerateBcmChassisMapFromConfig sharedUnitEnv.k sharedUnitEnv.file twoPortConfig =
      Except.ok (twoPortBaseOut, twoPortTarget) ∧
    GenerateBcmChassisMapFromConfig sharedUnitEnv.k sharedUnitEnv.file
      { twoPortConfig with singleton_ports := twoPortConfig.singleton_ports.reverse } =
        Except.ok (twoPortBaseOut, twoPortTargetSwapped) ∧
    twoPortBaseOut.auto_add_logical_ports = true ∧
    (∀ p ∈ twoPortTarget.bcm_ports, ∀ p' ∈ twoPortTargetSwapped.bcm_ports,
      p'.unit = p.unit → p'.slot = p.slot → p'.port = p.port → p'.channel = p.channel →
        p'.logical_port = p.logical_port) :=
  ⟨List.reverse_perm _, by rfl, by rfl, rfl,
    (C40_logical_ports_permutation sharedUnitEnv.k sharedUnitEnv.file twoPortConfig
      twoPortConfig.singleton_ports.reverse twoPortBaseOut twoPortTarget twoPortBaseOut
      twoPortTargetSwapped (List.reverse_perm _) (by rfl) (by rfl) rfl).2.2⟩

/-! ## The global OK representation -/

/-- C33: for a `Status` `s` that points to a representation whose reference count is
`kGlobalRef`: `Ref` and `Unref` on that representation leave the memory as it is, and so do
the copy of `s`, which points to the same representation, and the destruction of `s`;
an assignment to `s` leaves the representation as it is; an assignment of `s` to another
`Status` `t` does to the memory what `Unref` of the old representation of `t` does, and
leaves the representation of `s` as it is when `UnrefSlow` changes only the object it is
called for.  When the representation is `global_reps[0]` and has the code 0, it is the one
that a default-constructed `Status` and `OkStatus()` point to, and their `ok()` is true. -/
theorem C33_global_ok_refcount (UnrefSlow : Nat → List Rep → List Rep) (memory : List Rep)
    (s : Status) (rep : Rep)
    (hrep : memory[s.rep_]? = some rep) (href : rep.ref = kGlobalRef) :
    Status.Ref s.rep_ memory = memory ∧
    Status.Unref UnrefSlow s.rep_ memory = memory ∧
    Status.copy s memory = (s, memory) ∧
    Status.destroy UnrefSlow s memory = memory ∧
    (∀ x, (Status.assign UnrefSlow s x memory).2[s.rep_]? = some rep) ∧
    (∀ t, Status.assign UnrefSlow t s memory =
      if s.rep_ != t.rep_ then (s, Status.Unref UnrefSlow t.rep_ memory) else (t, memory)) ∧
    (∀ t, (∀ r h r', r' ≠ r → (UnrefSlow r h)[r']? = h[r']?) →
      (Status.assign UnrefSlow t s memory).2[s.rep_]? = some rep) ∧
    (s.rep_ = 0 → rep.code = 0 →
      Status.new = s ∧ OkStatus = s ∧ Status.ok Status.new memory = true ∧
        Status.ok OkStatus memory = true) := by
  have hRef : Status.Ref s.rep_ memory = memory := by
    unfold Status.Ref
    rw [hrep]
    simp [href]
  have hUnref : ∀ mem : List Rep, mem[s.rep_]? = some rep →
      Status.Unref UnrefSlow s.rep_ mem = mem := by
    intro mem hm
    unfold Status.Unref
    rw [hm]
    simp [href]
  have hassign : ∀ t, Status.assign UnrefSlow t s memory =
      if s.rep_ != t.rep_ then (s, Status.Unref UnrefSlow t.rep_ memory) else (t, memory) := by
    intro t
    unfold Status.assign
    simp only [hRef]
  refine ⟨hRef, hUnref memory hrep, ?_, hUnref memory hrep, ?_, hassign, ?_, ?_⟩
  · unfold Status.copy
    rw [hRef]
  · intro x
    unfold Status.assign
    simp only
    split
    · rename_i hne
      have hne' : x.rep_ ≠ s.rep_ := by simpa using hne
      have hkeep : (Status.Ref x.rep_ memory)[s.rep_]? = some rep := by
        unfold Status.Ref
        split
        · split
          · rw [List.getElem?_set_ne hne']
            exact hrep
          · exact hrep
        · exact hrep
      simp only
      rw [hUnref _ hkeep]
      exact hkeep
    · exact hrep
  · intro t hslow
    rw [hassign t]
    by_cases hne : s.rep_ = t.rep_
    · simp only [hne, bne_self_eq_false, Bool.false_eq_true, if_false]
      rw [← hne]
      exact hrep
    · have hb : (s.rep_ != t.rep_) = true := by simpa using hne
      simp only [hb, if_true]
      unfold Status.Unref
      split
      · split
        · rw [hslow _ _ _ hne]
          exact hrep
        · exact hrep
      · exact hrep
  · intro h0 hcode
    have hs : Status.new = s := by
      cases s
      simp only [Status.new] at h0 ⊢
      rw [h0]
    refine ⟨hs, hs, ?_, ?_⟩
    · rw [hs]
      unfold Status.ok
      rw [hrep]
      simp [hcode]
    · unfold OkStatus
      rw [hs]
      unfold Status.ok
      rw [hrep]
      simp [hcode]

/-- Witness for C33: the default-constructed `Status` in the example memory, and its
assignment to a `Status` that points to the error representation. -/
theorem C33_global_ok_refcount_witness :
    exampleMemory[Status.new.rep_]? = some { ref := kGlobalRef, code := 0 } ∧
    Status.copy Status.new exampleMemory = (Status.new, exampleMemory) ∧
    Status.destroy exampleUnrefSlow Status.new exampleMemory = exampleMemory ∧
    Status.assign exampleUnrefSlow { rep_ := 1 } Status.new exampleMemory =
      (Status.new, [{ ref := kGlobalRef, code := 0 }, { ref := 1, code := 13 }]) ∧
    Status.ok OkStatus exampleMemory = true :=
  ⟨by rfl,
    (C33_global_ok_refcount exampleUnrefSlow exampleMemory Status.new
      { ref := kGlobalRef, code := 0 } (by rfl) (by rfl)).2.2.1,
    (C33_global_ok_refcount exampleUnrefSlow exampleMemory Status.new
      { ref := kGlobalRef, code := 0 } (by rfl) (by rfl)).2.2.2.1,
    by rfl,
    ((C33_global_ok_refcount exampleUnrefSlow exampleMemory Status.new
      { ref := kGlobalRef, code := 0 } (by rfl) (by rfl)).2.2.2.2.2.2.2 rfl rfl).2.2.2⟩

end Stratum
